import Mathlib

/-! # OpenMOC geometry core: a shallow embedding of `Geometry.cpp`

The development follows `src/Geometry.cpp`.  Objects that the C++ code handles
through pointers live in per-class object stores (lists indexed by address);
the registries `_materials`, `_surfaces`, `_cells`, `_universes`, `_lattices`
are key-sorted maps from an integer key to an address, as `std::map<int, T*>`.
Doubles are taken as elements of a linearly ordered field `F` (the reals in the
theorems about radii), extended by the two infinities where the code uses them.
-/

namespace OpenMOC

set_option linter.unusedSectionVars false

/-! ## Containers and outcomes -/

/-- Address of an object inside its object store. -/
abbrev Addr := Nat

/-- Key-sorted association list standing for `std::map<int, V>`. -/
abbrev IntMap (V : Type) := List (Int × V)

namespace IntMap

/-- Lookup, as `std::map::find`. -/
def find {V : Type} : IntMap V → Int → Option V
  | [], _ => none
  | (k, v) :: rest, key => if key = k then some v else find rest key

/-- Insertion as `std::map::insert`: an entry already stored under the key is kept. -/
def insert {V : Type} : IntMap V → Int → V → IntMap V
  | [], key, v => [(key, v)]
  | (k, w) :: rest, key, v =>
    if key < k then (key, v) :: (k, w) :: rest
    else if key = k then (k, w) :: rest
    else (k, w) :: insert rest key v

/-- Assignment to an existing entry, as `m[key] = v` guarded by `find(key) != end()`. -/
def assign {V : Type} : IntMap V → Int → V → IntMap V
  | [], _, _ => []
  | (k, w) :: rest, key, v =>
    if key = k then (k, v) :: rest else (k, w) :: assign rest key v

/-- The keys in iteration order. -/
def keys {V : Type} (m : IntMap V) : List Int := m.map Prod.fst

end IntMap

/-- A double extended by the two infinities. -/
inductive Ext (F : Type) where
  | negInf : Ext F
  | fin (x : F) : Ext F
  | posInf : Ext F
  deriving DecidableEq, Repr

namespace Ext

/-- Comparison `a <= b` on extended values. -/
def le {F : Type} [LinearOrder F] : Ext F → Ext F → Bool
  | negInf, _ => true
  | _, posInf => true
  | fin x, fin y => decide (x ≤ y)
  | _, _ => false

/-- Comparison `a < b` on extended values. -/
def lt {F : Type} [LinearOrder F] (a b : Ext F) : Bool := !(le b a)

end Ext

/-- The ways in which a call can fail: one constructor for each
`log_printf(ERROR, ...)` site of `Geometry.cpp`, plus escaping `std::out_of_range`
and the use of a null or wrongly typed pointer. -/
inductive Err where
  | duplicateMaterial (id : Int)
  | unableToAddMaterial (id : Int)
  | duplicateSurface (id : Int)
  | duplicateCell (id : Int)
  | cellMaterialMissing (material : Int)
  | cellSurfaceMissing (surface : Int)
  | ringsUnsupported
  | sectorsUnsupported (n : Int)
  | duplicateUniverse (id : Int)
  | duplicateLattice (id : Int)
  | duplicateLatticeUniverse (id : Int)
  | latticeUniverseMissing (id : Int)
  | fsrOutOfBounds (fsr : Int)
  | fsrCellNotFound (fsr : Int)
  | fsrLatticeCellNotFound (fsr : Int)
  | fsrMissing
  | sameStartEnd
  | outOfRange
  | nullPointer
  deriving DecidableEq, Repr

/-- Modelled from the spec: `log_printf(ERROR, ...)` is a fatal error that ends the
running operation.  An outcome is a normal return with a value and the state, a
fatal error together with the state at the moment it was raised, or the
exhaustion of the recursion budget of the embedding. -/
inductive Outcome (σ α : Type) where
  | ok (a : α) (s : σ) : Outcome σ α
  | fatal (e : Err) (s : σ) : Outcome σ α
  | outOfFuel : Outcome σ α
  deriving DecidableEq, Repr

namespace Outcome

/-- Sequencing: the continuation runs only after a normal return. -/
def bind {σ α β : Type} (r : Outcome σ α) (f : α → σ → Outcome σ β) : Outcome σ β :=
  match r with
  | ok a s => f a s
  | fatal e s => fatal e s
  | outOfFuel => outOfFuel

/-- True for a normal return. -/
def isOk {σ α : Type} : Outcome σ α → Bool
  | ok _ _ => true
  | _ => false

/-- True for a fatal error. -/
def isFatal {σ α : Type} : Outcome σ α → Bool
  | fatal _ _ => true
  | _ => false

/-- The state carried by the outcome, if any. -/
def state {σ α : Type} : Outcome σ α → Option σ
  | ok _ s => some s
  | fatal _ s => some s
  | outOfFuel => none

end Outcome

/-! ## Data model -/

/-- A material as far as the geometry looks at it.  `checkSigmaT` records whether
`Material::checkSigmaT()` returns normally. -/
structure Material where
  uid : Int
  id : Int
  checkSigmaT : Bool
  deriving DecidableEq, Repr

/-- Boundary condition tag of a surface. -/
inductive boundaryType where
  | REFLECTIVE
  | BOUNDARY_NONE
  deriving DecidableEq, Repr

/-- The surface variants with their coefficients. -/
inductive SurfaceShape (F : Type) where
  | plane (A B C : F) : SurfaceShape F
  | xplane (C : F) : SurfaceShape F
  | yplane (C : F) : SurfaceShape F
  | circle (x y radius : F) : SurfaceShape F
  deriving DecidableEq, Repr

/-- A surface object.  The four extents are the values its `getXMin()`, `getXMax()`,
`getYMin()`, `getYMax()` report. -/
structure Surface (F : Type) where
  uid : Int
  id : Int
  boundary : boundaryType
  shape : SurfaceShape F
  x_min : Ext F
  x_max : Ext F
  y_min : Ext F
  y_max : Ext F
  neighbor_pos : List Int
  neighbor_neg : List Int
  deriving DecidableEq, Repr

/-- Cell variants. -/
inductive cellType where
  | MATERIAL
  | FILL
  deriving DecidableEq, Repr

/-- The part of a cell that depends on its variant: `CellBasic` holds a material id
with ring and sector counts, `CellFill` the pair of a universe id and a universe
pointer (null until resolved). -/
inductive CellData where
  | basic (material num_rings num_sectors : Int)
  | fill (universe_fill : Int) (universe_fill_ptr : Option Addr)
  deriving DecidableEq, Repr

/-- A cell object: `surfaces` maps a signed surface id to the surface pointer
(null until resolved). -/
structure Cell where
  uid : Int
  id : Int
  universe_id : Int
  surfaces : IntMap (Option Addr)
  data : CellData
  deriving DecidableEq, Repr

/-- Variant tag of a cell, `Cell::getType()`. -/
def Cell.getType (c : Cell) : cellType :=
  match c.data with
  | .basic _ _ _ => .MATERIAL
  | .fill _ _ => .FILL

/-- Number of surfaces of a cell, `Cell::getNumSurfaces()`. -/
def Cell.getNumSurfaces (c : Cell) : Int := c.surfaces.length

/-- Universe variants. -/
inductive universeType where
  | SIMPLE
  | LATTICE
  deriving DecidableEq, Repr

/-- A universe object; a lattice is a universe of type `LATTICE` and uses the
lattice fields: tile `(x, y)` is `universes[y][x]`, its first FSR
`tile_region_map[y][x]`. -/
structure Universe (F : Type) where
  uid : Int
  id : Int
  type : universeType
  cells : IntMap Addr
  region_map : IntMap Int
  num_x : Int
  num_y : Int
  width_x : F
  width_y : F
  universes : List (List (Int × Option Addr))
  tile_region_map : List (List Int)
  deriving DecidableEq, Repr

/-- Process-wide static variables: the counter `static int id` of `addCell` and the
per-class counters from which uids are drawn. -/
structure Statics where
  id : Int
  material_n : Int
  surface_n : Int
  cell_n : Int
  universe_n : Int
  deriving DecidableEq, Repr

/-- The state of a `Geometry` object together with the objects it points to. -/
structure Geometry (F : Type) where
  materialObjs : List Material
  surfaceObjs : List (Surface F)
  cellObjs : List Cell
  universeObjs : List (Universe F)
  materials : IntMap Addr
  surfaces : IntMap Addr
  cells : IntMap Addr
  universes : IntMap Addr
  lattices : IntMap Addr
  num_FSRs : Int
  FSRs_to_cells : List Int
  FSRs_to_materials : List Int
  x_min : Ext F
  y_min : Ext F
  x_max : Ext F
  y_max : Ext F
  max_seg_length : Ext F
  min_seg_length : Ext F
  statics : Statics
  deriving DecidableEq, Repr

/-! ## Object construction -/

section Builder

variable {F : Type} [LinearOrderedField F]

/-- The C function `abs` on `int`. -/
def iabs (k : Int) : Int := if k < 0 then -k else k

/-- Loop over a list with early exit on a fatal error. -/
def forEach {σ ι : Type} (f : ι → σ → Outcome σ Unit) : List ι → σ → Outcome σ Unit
  | [], s => .ok () s
  | i :: rest, s => (f i s).bind fun _ s1 => forEach f rest s1

/-- Modelled from the spec: `Circle(id, boundary, x, y, radius)`; the extents are the
extremum coordinates of the circle.  The uid is set when the object is allocated. -/
def Circle (id : Int) (boundary : boundaryType) (x y radius : F) : Surface F :=
  { uid := 0, id := id, boundary := boundary, shape := .circle x y radius,
    x_min := .fin (x - radius), x_max := .fin (x + radius),
    y_min := .fin (y - radius), y_max := .fin (y + radius),
    neighbor_pos := [], neighbor_neg := [] }

/-- Modelled from the spec: `Plane(id, boundary, A, B, C)`, the line `A x + B y + C = 0`,
unbounded in both directions. -/
def Plane (id : Int) (boundary : boundaryType) (A B C : F) : Surface F :=
  { uid := 0, id := id, boundary := boundary, shape := .plane A B C,
    x_min := .negInf, x_max := .posInf, y_min := .negInf, y_max := .posInf,
    neighbor_pos := [], neighbor_neg := [] }

/-- Modelled from the spec: `CellBasic(id, universe, num_surfaces, surfaces, material,
num_rings, num_sectors)`; every listed signed surface id is entered with a null
surface pointer. -/
def CellBasic (id universe_id num_surfaces : Int) (list_surfaces : List Int)
    (material num_rings num_sectors : Int) : Cell :=
  { uid := 0, id := id, universe_id := universe_id,
    surfaces := (list_surfaces.take num_surfaces.toNat).foldl
      (fun m k => IntMap.insert m k none) [],
    data := .basic material num_rings num_sectors }

/-- Modelled from the spec: `CellFill(id, universe, num_surfaces, surfaces,
universe_fill)`; the pointer to the filling universe starts null. -/
def CellFill (id universe_id num_surfaces : Int) (list_surfaces : List Int)
    (universe_fill : Int) : Cell :=
  { uid := 0, id := id, universe_id := universe_id,
    surfaces := (list_surfaces.take num_surfaces.toNat).foldl
      (fun m k => IntMap.insert m k none) [],
    data := .fill universe_fill none }

/-- Modelled from the spec: `Universe(id)`, a simple universe without cells. -/
def Universe.simple (id : Int) : Universe F :=
  { uid := 0, id := id, type := .SIMPLE, cells := [], region_map := [],
    num_x := 0, num_y := 0, width_x := 0, width_y := 0,
    universes := [], tile_region_map := [] }

/-- Modelled from the spec: `Lattice(id, num_x, num_y, width_x, width_y, universes)`;
row `y` of `rows` lists the universe ids of the tiles `(0, y)`, `(1, y)`, ...,
each with a null universe pointer. -/
def Lattice (id num_x num_y : Int) (width_x width_y : F) (rows : List (List Int)) :
    Universe F :=
  { uid := 0, id := id, type := .LATTICE, cells := [], region_map := [],
    num_x := num_x, num_y := num_y, width_x := width_x, width_y := width_y,
    universes := rows.map fun row => row.map fun u => (u, none),
    tile_region_map := rows.map fun row => row.map fun _ => 0 }

/-- Allocation of a material object (`new`); the uid comes from the class counter. -/
def newMaterial (g : Geometry F) (m : Material) : Addr × Geometry F :=
  (g.materialObjs.length,
   { g with materialObjs := g.materialObjs ++ [{ m with uid := g.statics.material_n }],
            statics := { g.statics with material_n := g.statics.material_n + 1 } })

/-- Allocation of a surface object (`new`). -/
def newSurface (g : Geometry F) (s : Surface F) : Addr × Geometry F :=
  (g.surfaceObjs.length,
   { g with surfaceObjs := g.surfaceObjs ++ [{ s with uid := g.statics.surface_n }],
            statics := { g.statics with surface_n := g.statics.surface_n + 1 } })

/-- Allocation of a cell object (`new`). -/
def newCell (g : Geometry F) (c : Cell) : Addr × Geometry F :=
  (g.cellObjs.length,
   { g with cellObjs := g.cellObjs ++ [{ c with uid := g.statics.cell_n }],
            statics := { g.statics with cell_n := g.statics.cell_n + 1 } })

/-- Allocation of a universe or lattice object (`new`). -/
def newUniverse (g : Geometry F) (u : Universe F) : Addr × Geometry F :=
  (g.universeObjs.length,
   { g with universeObjs := g.universeObjs ++ [{ u with uid := g.statics.universe_n }],
            statics := { g.statics with universe_n := g.statics.universe_n + 1 } })

/-- Modelled from the spec: `Cell::setSurfacePointer(surface)`; the entries of the
cell under `+id` and `-id` of the surface, where present, point to the surface. -/
def Cell.setSurfacePointer (c : Cell) (id : Int) (sa : Addr) : Cell :=
  { c with surfaces := IntMap.assign (IntMap.assign c.surfaces id (some sa)) (-id) (some sa) }

/-- Modelled from the spec: `Cell::addSurface(surface_id, surface)` enters one more
signed surface id with its pointer. -/
def Cell.addSurface (c : Cell) (surface_id : Int) (sa : Addr) : Cell :=
  { c with surfaces := IntMap.insert c.surfaces surface_id (some sa) }

/-- The call `cell->addSurface(surface_id, surface)` on the cell object at `a`. -/
def cellAddSurface (a : Addr) (surface_id : Int) (sa : Addr) (g : Geometry F) :
    Outcome (Geometry F) Unit :=
  match g.cellObjs[a]? with
  | none => .fatal .nullPointer g
  | some c => .ok () { g with cellObjs := g.cellObjs.set a (c.addSurface surface_id sa) }

/-- The post-increment `id++` of the static counter of `addCell`. -/
def bumpId (g : Geometry F) : Geometry F :=
  { g with statics := { g.statics with id := g.statics.id + 1 } }

/-! ## Registering materials, surfaces and universes -/

/-- `Geometry::addMaterial` (lines 159-181). -/
def addMaterial (g : Geometry F) (a : Addr) : Outcome (Geometry F) Unit :=
  match g.materialObjs[a]? with
  | none => .fatal .nullPointer g
  | some material =>
    if (IntMap.find g.materials material.id).isSome then
      .fatal (.duplicateMaterial material.id) g
    else if material.checkSigmaT then
      .ok () { g with materials := IntMap.insert g.materials material.id a }
    else
      .fatal (.unableToAddMaterial material.id) g

/-- `Geometry::addSurface` (lines 228-264). -/
def addSurface (g : Geometry F) (a : Addr) : Outcome (Geometry F) Unit :=
  match g.surfaceObjs[a]? with
  | none => .fatal .nullPointer g
  | some surface =>
    if (IntMap.find g.surfaces surface.id).isSome then
      .fatal (.duplicateSurface surface.id) g
    else
      let g1 := { g with surfaces := IntMap.insert g.surfaces surface.id a }
      match surface.boundary with
      | .REFLECTIVE =>
        .ok () { g1 with
          x_min := if Ext.le surface.x_min g1.x_min then surface.x_min else g1.x_min,
          x_max := if Ext.le g1.x_max surface.x_max then surface.x_max else g1.x_max,
          y_min := if Ext.le surface.y_min g1.y_min then surface.y_min else g1.y_min,
          y_max := if Ext.le g1.y_max surface.y_max then surface.y_max else g1.y_max }
      | .BOUNDARY_NONE => .ok () g1

/-- The loop of `addUniverse` over the cell registry (lines 722-730): every fill cell
that names the universe id gets its universe pointer set. -/
def setUniverseFillPointers (id : Int) (ua : Addr) (cells : IntMap Addr)
    (objs : List Cell) : List Cell :=
  cells.foldl (fun objs entry =>
    match objs[entry.2]? with
    | some c =>
      match c.data with
      | .fill universe_fill _ =>
        if universe_fill = id then
          objs.set entry.2 { c with data := .fill universe_fill (some ua) }
        else objs
      | .basic _ _ _ => objs
    | none => objs) objs

/-- `Geometry::addUniverse` (lines 700-733). -/
def addUniverse (g : Geometry F) (a : Addr) : Outcome (Geometry F) Unit :=
  match g.universeObjs[a]? with
  | none => .fatal .nullPointer g
  | some u =>
    if (IntMap.find g.universes u.id).isSome then
      .fatal (.duplicateUniverse u.id) g
    else
      let g1 := { g with universes := IntMap.insert g.universes u.id a }
      .ok () { g1 with cellObjs := setUniverseFillPointers u.id a g1.cells g1.cellObjs }

/-- Modelled from the spec: `Lattice::setUniversePointer(universe)`; every tile that
names the id of the universe points to it. -/
def Universe.setUniversePointer (lat : Universe F) (id : Int) (ua : Addr) : Universe F :=
  { lat with universes := lat.universes.map fun row =>
      row.map fun t => if t.1 = id then (t.1, some ua) else t }

/-- Body of the double loop of `addLattice` (lines 772-787) for the tile in row `i`,
column `j`. -/
def addLatticeTile (a : Addr) (i j : Nat) (g : Geometry F) : Outcome (Geometry F) Unit :=
  match g.universeObjs[a]? with
  | none => .fatal .nullPointer g
  | some lattice =>
    match lattice.universes[i]? with
    | none => .fatal .outOfRange g
    | some row =>
      match row[j]? with
      | none => .fatal .outOfRange g
      | some t =>
        match IntMap.find g.universes t.1 with
        | none => .fatal (.latticeUniverseMissing t.1) g
        | some ua =>
          match g.universeObjs[ua]? with
          | none => .fatal .nullPointer g
          | some u =>
            .ok () { g with universeObjs :=
              g.universeObjs.set a (lattice.setUniversePointer u.id ua) }

/-- `Geometry::addLattice` (lines 758-802). -/
def addLattice (g : Geometry F) (a : Addr) : Outcome (Geometry F) Unit :=
  match g.universeObjs[a]? with
  | none => .fatal .nullPointer g
  | some lattice =>
    if (IntMap.find g.lattices lattice.id).isSome then
      .fatal (.duplicateLattice lattice.id) g
    else if (IntMap.find g.universes lattice.id).isSome then
      .fatal (.duplicateLatticeUniverse lattice.id) g
    else
      (forEach (fun i g1 =>
          forEach (fun j g2 => addLatticeTile a i j g2)
            (List.range lattice.num_x.toNat) g1)
        (List.range lattice.num_y.toNat) g).bind fun _ g1 =>
      addUniverse { g1 with lattices := IntMap.insert g1.lattices lattice.id a } a

/-! ## Registering cells, with ring and sector refinement -/

/-- Body of the loop of `addCell` over the surfaces of the cell (lines 310-323): the
surface `|key|` must be registered, and the cell's pointer(s) to it are set. -/
def addCellSurface (a : Addr) (entry : Int × Option Addr) (g : Geometry F) :
    Outcome (Geometry F) Unit :=
  let surface_id := iabs entry.1
  match IntMap.find g.surfaces surface_id with
  | none => .fatal (.cellSurfaceMissing entry.1) g
  | some sa =>
    match g.surfaceObjs[sa]?, g.cellObjs[a]? with
    | some s, some c =>
      .ok () { g with cellObjs := g.cellObjs.set a (c.setSurfacePointer s.id sa) }
    | _, _ => .fatal .nullPointer g

/-- Lines 335-347 of `addCell`: the universe of the cell is created when its id is
not registered yet. -/
def addCellUniverse (universe_id : Int) (g : Geometry F) : Outcome (Geometry F) Unit :=
  if (IntMap.find g.universes universe_id).isNone then
    let (ua, g1) := newUniverse g (Universe.simple universe_id)
    addUniverse g1 ua
  else .ok () g

/-- Line 350 of `addCell`, `_universes.at(cell->getUniverse())->addCell(cell)`, with
`Universe::addCell` modelled from the spec: the cell is entered under its id. -/
def universeAddCell (universe_id id : Int) (a : Addr) (g : Geometry F) :
    Outcome (Geometry F) Unit :=
  match IntMap.find g.universes universe_id with
  | none => .fatal .outOfRange g
  | some ua =>
    match g.universeObjs[ua]? with
    | none => .fatal .nullPointer g
    | some u =>
      .ok () { g with universeObjs :=
        g.universeObjs.set ua { u with cells := IntMap.insert u.cells id a } }

/-- Radius of the circle registered under a surface id,
`dynamic_cast<Circle*>(_surfaces.at(surface_id))->getRadius()`. -/
def circleRadius (g : Geometry F) (surface_id : Int) : Outcome (Geometry F) F :=
  match IntMap.find g.surfaces surface_id with
  | none => .fatal .outOfRange g
  | some sa =>
    match g.surfaceObjs[sa]? with
    | none => .fatal .nullPointer g
    | some s =>
      match s.shape with
      | .circle _ _ radius => .ok radius g
      | _ => .fatal .nullPointer g

/-- The `while (i < t_num_rings)` loops of the ring refinement (lines 408-438 and
506-531), run for `n` iterations.  `dr2` is the loop-invariant term added to the
squared radius: `(r0*r0)/t_num_rings` for a disk and
`(r02*r02 - r01*r01)/t_num_rings` for an annulus.  `addCellRec` is the recursive
call of `addCell`.  Returns the final `old_id` and `s`. -/
def ringLoop (addCellRec : Geometry F → Addr → Outcome (Geometry F) Unit)
    (sqrt : F → F) (universe_id material num_sectors : Int) (dr2 : F) :
    Nat → Geometry F → F → Int → Addr → Outcome (Geometry F) (Int × Addr)
  | 0, g, _, old_id, s => .ok (old_id, s) g
  | n + 1, g, rold, old_id, _ =>
    let r := sqrt (rold * rold + dr2)
    let (s, g1) := newSurface g (Circle g.statics.id .BOUNDARY_NONE 0 0 r)
    (addSurface g1 s).bind fun _ g2 =>
    let new_id := g2.statics.id
    let (c, g3) := newCell g2
      (CellBasic g2.statics.id universe_id 2 [old_id, -1 * new_id] material 0 num_sectors)
    (addCellRec (bumpId g3) c).bind fun _ g4 =>
    ringLoop addCellRec sqrt universe_id material num_sectors dr2 n g4 r new_id s

/-- Ring refinement, case 1 (lines 371-444): the cell has one surface. -/
def addRingsDisk (addCellRec : Geometry F → Addr → Outcome (Geometry F) Unit)
    (sqrt : F → F) (a : Addr) (cells_surfaces : IntMap (Option Addr))
    (universe_id material num_sectors t_num_rings : Int) (g : Geometry F) :
    Outcome (Geometry F) Unit :=
  match cells_surfaces with
  | [] => .fatal .nullPointer g
  | entry :: _ =>
    let surface_id := iabs entry.1
    (circleRadius g surface_id).bind fun r0 g0 =>
    let r1 := r0 / sqrt (t_num_rings : F)
    let (s, g1) := newSurface g0 (Circle g0.statics.id .BOUNDARY_NONE 0 0 r1)
    let old_id := g1.statics.id
    (addSurface g1 s).bind fun _ g2 =>
    let (c, g3) := newCell g2
      (CellBasic old_id universe_id 1 [-1 * old_id] material 0 num_sectors)
    (addCellRec (bumpId g3) c).bind fun _ g4 =>
    (ringLoop addCellRec sqrt universe_id material num_sectors
        ((r0 * r0) / (t_num_rings : F)) (t_num_rings - 2).toNat g4 r1 old_id s).bind
      fun last g5 => cellAddSurface a last.1 last.2 g5

/-- Ring refinement, case 2 (lines 447-537): the cell has two surfaces. -/
def addRingsAnnulus (addCellRec : Geometry F → Addr → Outcome (Geometry F) Unit)
    (sqrt : F → F) (a : Addr) (cells_surfaces : IntMap (Option Addr))
    (universe_id material num_sectors t_num_rings : Int) (g : Geometry F) :
    Outcome (Geometry F) Unit :=
  match cells_surfaces with
  | entry :: entry2 :: _ =>
    let surface_id := iabs entry.1
    let surface_id2 := iabs entry2.1
    let inner_surface := if surface_id < surface_id2 then surface_id else surface_id2
    let outer_surface := if surface_id < surface_id2 then surface_id2 else surface_id
    (circleRadius g inner_surface).bind fun r01 ga =>
    (circleRadius ga outer_surface).bind fun r02 g0 =>
    let r1 := sqrt (r01 * r01 + ((r02 * r02 - r01 * r01) / (t_num_rings : F)))
    let (s, g1) := newSurface g0 (Circle g0.statics.id .BOUNDARY_NONE 0 0 r1)
    (addSurface g1 s).bind fun _ g2 =>
    let old_id := g2.statics.id
    let (c, g3) := newCell g2
      (CellBasic old_id universe_id 2 [-1 * old_id, inner_surface] material 0 num_sectors)
    (addCellRec (bumpId g3) c).bind fun _ g4 =>
    (ringLoop addCellRec sqrt universe_id material num_sectors
        ((r02 * r02 - r01 * r01) / (t_num_rings : F)) (t_num_rings - 2).toNat
        g4 r1 old_id s).bind
      fun last g5 => cellAddSurface a last.1 last.2 g5
  | _ => .fatal .nullPointer g

/-- One of the three new sector cells (lines 625-653): a cell with the surfaces of
the refined cell is created and registered, then receives one halfspace of each of
the two sector planes, and the static counter advances. -/
def addSectorCell (addCellRec : Geometry F → Addr → Outcome (Geometry F) Unit)
    (universe_id material num : Int) (list : List Int)
    (signed1 : Int) (s1 : Addr) (signed2 : Int) (s2 : Addr) (g : Geometry F) :
    Outcome (Geometry F) Unit :=
  let (c, g1) := newCell g (CellBasic g.statics.id universe_id num list material 0 0)
  (addCellRec g1 c).bind fun _ g2 =>
  (cellAddSurface c signed1 s1 g2).bind fun _ g3 =>
  (cellAddSurface c signed2 s2 g3).bind fun _ g4 =>
  .ok () (bumpId g4)

/-- Sector refinement for `num_sectors == 4` (lines 558-664). -/
def addSectors4 (addCellRec : Geometry F → Addr → Outcome (Geometry F) Unit)
    (a : Addr) (g : Geometry F) : Outcome (Geometry F) Unit :=
  match g.cellObjs[a]? with
  | none => .fatal .nullPointer g
  | some cell =>
    match cell.data with
    | .fill _ _ => .fatal .nullPointer g
    | .basic material _ _ =>
      let num := cell.getNumSurfaces
      let list := IntMap.keys cell.surfaces
      let surface1 := g.statics.id
      let (s1, g1) := newSurface g (Plane g.statics.id .BOUNDARY_NONE 1 1 0)
      (addSurface g1 s1).bind fun _ g2 =>
      let g3 := bumpId g2
      let surface2 := g3.statics.id
      let (s2, g4) := newSurface g3 (Plane g3.statics.id .BOUNDARY_NONE 1 (-1) 0)
      (addSurface g4 s2).bind fun _ g5 =>
      let g6 := bumpId g5
      (addSectorCell addCellRec cell.universe_id material num list
          surface1 s1 surface2 s2 g6).bind fun _ g7 =>
      (addSectorCell addCellRec cell.universe_id material num list
          (-1 * surface1) s1 (-1 * surface2) s2 g7).bind fun _ g8 =>
      (addSectorCell addCellRec cell.universe_id material num list
          (-1 * surface1) s1 surface2 s2 g8).bind fun _ g9 =>
      match g9.cellObjs[a]? with
      | none => .fatal .nullPointer g9
      | some cell9 =>
        match cell9.data with
        | .fill _ _ => .fatal .nullPointer g9
        | .basic material9 num_rings9 _ =>
          let updated : Cell := { cell9 with data := .basic material9 num_rings9 0 }
          let g10 := { g9 with cellObjs := g9.cellObjs.set a updated }
          (cellAddSurface a surface1 s1 g10).bind fun _ g11 =>
          cellAddSurface a (-1 * surface2) s2 g11

/-- The refinement part of `addCell` for a material cell (lines 359-673). -/
def refineCell (addCellRec : Geometry F → Addr → Outcome (Geometry F) Unit)
    (sqrt : F → F) (a : Addr) (cell : Cell) (cells_surfaces : IntMap (Option Addr))
    (material num_rings num_sectors : Int) (g : Geometry F) : Outcome (Geometry F) Unit :=
  let t_num_rings := num_rings + 1
  (if t_num_rings > 1 then
      if cell.getNumSurfaces = 1 then
        addRingsDisk addCellRec sqrt a cells_surfaces cell.universe_id material
          num_sectors t_num_rings g
      else if cell.getNumSurfaces = 2 then
        addRingsAnnulus addCellRec sqrt a cells_surfaces cell.universe_id material
          num_sectors t_num_rings g
      else .fatal .ringsUnsupported g
    else .ok () g).bind fun _ g1 =>
  let t_num_sectors := num_sectors
  if t_num_sectors > 0 then
    if t_num_sectors = 4 then addSectors4 addCellRec a g1
    else .fatal (.sectorsUnsupported t_num_sectors) g1
  else .ok () g1

/-- The test of lines 296-298 of `addCell`: the cell is a material cell and its
material id is not registered. -/
def cellMaterialMissing (g : Geometry F) (cell : Cell) : Option Int :=
  match cell.data with
  | .basic material _ _ =>
    if (IntMap.find g.materials material).isNone then some material else none
  | .fill _ _ => none

/-- `Geometry::addCell` (lines 288-676).  The first argument bounds the depth of the
recursive calls made for the cells that refinement creates. -/
def addCell (sqrt : F → F) : Nat → Geometry F → Addr → Outcome (Geometry F) Unit
  | 0, _, _ => .outOfFuel
  | fuel + 1, g, a =>
    match g.cellObjs[a]? with
    | none => .fatal .nullPointer g
    | some cell =>
      if (IntMap.find g.cells cell.id).isSome then
        .fatal (.duplicateCell cell.id) g
      else
        match cellMaterialMissing g cell with
        | some material => .fatal (.cellMaterialMissing material) g
        | none =>
          let cells_surfaces := cell.surfaces
          (forEach (addCellSurface a) cells_surfaces g).bind fun _ g1 =>
          let g2 := { g1 with cells := IntMap.insert g1.cells cell.id a }
          (addCellUniverse cell.universe_id g2).bind fun _ g3 =>
          (universeAddCell cell.universe_id cell.id a g3).bind fun _ g4 =>
          match cell.data with
          | .basic material num_rings num_sectors =>
            refineCell (addCell sqrt fuel) sqrt a cell cells_surfaces
              material num_rings num_sectors g4
          | .fill _ _ => .ok () g4

end Builder

/-! ## Flat source regions -/

section FSR

variable {F : Type} [LinearOrderedField F]

/-- Modelled from the spec: `Cell::getNumFSRs()`, the number of flat source regions
of a cell.  A material cell occupies exactly one; a fill cell occupies the count
of its inner universe, given by `computeRec`. -/
def cellNumFSRs (computeRec : Geometry F → Addr → Outcome (Geometry F) Int)
    (ca : Addr) (g : Geometry F) : Outcome (Geometry F) Int :=
  match g.cellObjs[ca]? with
  | none => .fatal .nullPointer g
  | some c =>
    match c.data with
    | .basic _ _ _ => .ok 1 g
    | .fill _ none => .fatal .nullPointer g
    | .fill _ (some ua) => computeRec g ua

/-- Modelled from the spec: the walk of `Universe::computeFSRMaps()` over the cells
of a simple universe, in id-ascending order.  Each cell records the running
counter as its block base, then the counter advances by the cell's count. -/
def computeFSRCells (computeRec : Geometry F → Addr → Outcome (Geometry F) Int)
    (ua : Addr) : List (Int × Addr) → Int → Geometry F → Outcome (Geometry F) Int
  | [], count, g => .ok count g
  | entry :: rest, count, g =>
    match g.universeObjs[ua]? with
    | none => .fatal .nullPointer g
    | some u =>
      let u1 : Universe F := { u with region_map := IntMap.insert u.region_map entry.1 count }
      let g1 := { g with universeObjs := g.universeObjs.set ua u1 }
      (cellNumFSRs computeRec entry.2 g1).bind fun n g2 =>
      computeFSRCells computeRec ua rest (count + n) g2

/-- Modelled from the spec: the walk of `Lattice::computeFSRMaps()` over the tiles,
given as the list of `(x, y)` index pairs in row-major order.  The lattice records
the running counter as the base offset of the tile, then the counter advances by
the FSR count of the tile's universe. -/
def computeFSRTiles (computeRec : Geometry F → Addr → Outcome (Geometry F) Int)
    (la : Addr) : List (Nat × Nat) → Int → Geometry F → Outcome (Geometry F) Int
  | [], count, g => .ok count g
  | xy :: rest, count, g =>
    match g.universeObjs[la]? with
    | none => .fatal .nullPointer g
    | some lat =>
      match lat.universes[xy.2]?, lat.tile_region_map[xy.2]? with
      | some row, some offsets =>
        match row[xy.1]? with
        | none => .fatal .outOfRange g
        | some (_, none) => .fatal .nullPointer g
        | some (_, some ua) =>
          let lat1 : Universe F :=
            { lat with tile_region_map := lat.tile_region_map.set xy.2 (offsets.set xy.1 count) }
          let g1 := { g with universeObjs := g.universeObjs.set la lat1 }
          (computeRec g1 ua).bind fun n g2 =>
          computeFSRTiles computeRec la rest (count + n) g2
      | _, _ => .fatal .outOfRange g

/-- The tile index pairs `(x, y)` of a lattice in row-major order: `y` from 0 in the
outer loop, `x` from 0 in the inner loop. -/
def tileIndices (num_x num_y : Int) : List (Nat × Nat) :=
  (List.range num_y.toNat).flatMap fun y => (List.range num_x.toNat).map fun x => (x, y)

/-- Modelled from the spec: `Universe::computeFSRMaps()` and `Lattice::computeFSRMaps()`,
the FSR enumeration of section 4.6.  Returns the number of flat source regions of
the universe at `ua` and fills the offset maps on the way.  The first argument
bounds the nesting depth. -/
def computeFSRMaps : Nat → Geometry F → Addr → Outcome (Geometry F) Int
  | 0, _, _ => .outOfFuel
  | fuel + 1, g, ua =>
    match g.universeObjs[ua]? with
    | none => .fatal .nullPointer g
    | some u =>
      match u.type with
      | .SIMPLE => computeFSRCells (computeFSRMaps fuel) ua u.cells 0 g
      | .LATTICE =>
        computeFSRTiles (computeFSRMaps fuel) ua (tileIndices u.num_x u.num_y) 0 g

/-- Modelled from the spec: `Universe::getFSR(cell_id)`, the block base recorded for a
cell of the universe. -/
def Universe.getFSR (u : Universe F) (cell_id : Int) : Option Int :=
  IntMap.find u.region_map cell_id

/-- Modelled from the spec: `Lattice::getFSR(x, y)`, the base offset recorded for a
tile. -/
def Universe.getTileFSR (lat : Universe F) (x y : Nat) : Option Int :=
  match lat.tile_region_map[y]? with
  | none => none
  | some offsets => offsets[x]?

/-- Modelled from the spec: `Lattice::getUniverse(x, y)`, the universe pointer of a
tile; the outer option is the bounds check. -/
def Universe.getTileUniverse (lat : Universe F) (x y : Nat) : Option (Option Addr) :=
  match lat.universes[y]? with
  | none => none
  | some row => (row[x]?).map Prod.snd

/-- The variables `cell`, `cell_min`, `max_id`, `min_id` of the simple-universe
branch of `findCell(Universe*, int)`. -/
structure FindCellVars where
  cell : Option Addr
  cell_min : Option Addr
  max_id : Int
  min_id : Int
  deriving DecidableEq, Repr

/-- The constant `INT_MAX`. -/
def INT_MAX : Int := 2147483647

/-- The loop over the cells of a simple universe in `findCell(Universe*, int)`
(lines 1186-1196). -/
def findCellLoop (univ : Universe F) (fsr_id : Int) :
    List (Int × Addr) → FindCellVars → Option FindCellVars
  | [], v => some v
  | entry :: rest, v =>
    match univ.getFSR entry.1 with
    | none => none
    | some fsr_map_id =>
      let v1 : FindCellVars :=
        if fsr_map_id ≤ fsr_id ∧ fsr_map_id ≥ v.max_id then
          { v with max_id := fsr_map_id, cell := some entry.2 }
        else v
      let v2 : FindCellVars :=
        if fsr_map_id < v1.min_id then
          { v1 with min_id := fsr_map_id, cell_min := some entry.2 }
        else v1
      findCellLoop univ fsr_id rest v2

/-- The loop over the tiles of a lattice in `findCell(Universe*, int)`
(lines 1237-1245); the state is `max_id` and `next_univ`. -/
def findCellTiles (lat : Universe F) (fsr_id : Int) :
    List (Nat × Nat) → Int × Option Addr → Option (Int × Option Addr)
  | [], v => some v
  | xy :: rest, v =>
    match lat.getTileFSR xy.1 xy.2, lat.getTileUniverse xy.1 xy.2 with
    | some fsr_map_id, some next =>
      if fsr_map_id ≤ fsr_id ∧ fsr_map_id ≥ v.1 then
        findCellTiles lat fsr_id rest (fsr_map_id, next)
      else findCellTiles lat fsr_id rest v
    | _, _ => none

/-- The type of the cell a pointer refers to, `cell_min->getType()`, and for a fill
cell its universe pointer, `cellfill->getUniverseFill()`. -/
def cellAt (g : Geometry F) (p : Option Addr) : Option Cell :=
  match p with
  | none => none
  | some ca => g.cellObjs[ca]?

/-- `Geometry::findCell(Universe* univ, int fsr_id)` (lines 1165-1258).  The first
argument bounds the nesting depth; the result is the `Cell*` returned. -/
def findCell : Nat → Geometry F → Option Addr → Int → Outcome (Geometry F) (Option Addr)
  | 0, _, _, _ => .outOfFuel
  | fuel + 1, g, univ_ptr, fsr_id =>
    if fsr_id < -1 ∨ fsr_id > g.num_FSRs then .fatal (.fsrOutOfBounds fsr_id) g
    else
      match univ_ptr with
      | none => .fatal .nullPointer g
      | some ua =>
      match g.universeObjs[ua]? with
      | none => .fatal .nullPointer g
      | some univ =>
        match univ.type with
        | .SIMPLE =>
          match findCellLoop univ fsr_id univ.cells
              { cell := none, cell_min := none, max_id := 0, min_id := INT_MAX } with
          | none => .fatal .fsrMissing g
          | some v =>
            match cellAt g v.cell_min with
            | none => .fatal .nullPointer g
            | some cell_min =>
              if v.max_id > fsr_id then
                match cell_min.data with
                | .basic _ _ _ => .fatal (.fsrCellNotFound fsr_id) g
                | .fill _ fill_ptr => findCell fuel g fill_ptr fsr_id
              else
                let fsr_id1 := fsr_id - v.max_id
                match cell_min.data with
                | .basic _ _ _ =>
                  if fsr_id1 = 0 then .ok v.cell g
                  else .fatal (.fsrCellNotFound fsr_id1) g
                | .fill _ fill_ptr => findCell fuel g fill_ptr fsr_id1
        | .LATTICE =>
          match findCellTiles univ fsr_id (tileIndices univ.num_x univ.num_y) (0, none) with
          | none => .fatal .outOfRange g
          | some v =>
            if v.1 > fsr_id ∨ v.2 = none then .fatal (.fsrLatticeCellNotFound fsr_id) g
            else findCell fuel g v.2 (fsr_id - v.1)

/-- The state of a freshly created `Geometry` (lines 22-29), before the parser
delivers anything. -/
def Geometry.init (st : Statics) : Geometry F :=
  { materialObjs := [], surfaceObjs := [], cellObjs := [], universeObjs := [],
    materials := [], surfaces := [], cells := [], universes := [], lattices := [],
    num_FSRs := 0, FSRs_to_cells := [], FSRs_to_materials := [],
    x_min := .posInf, y_min := .posInf, x_max := .negInf, y_max := .negInf,
    max_seg_length := .fin 0, min_seg_length := .posInf, statics := st }

/-- Body of the loop that loads the FSR maps (lines 71-76). -/
def loadFSR (fuel : Nat) (r : Nat) (g : Geometry F) : Outcome (Geometry F) Unit :=
  (findCell fuel g (IntMap.find g.universes 0) r).bind fun curr g1 =>
  match cellAt g1 curr with
  | none => .fatal .nullPointer g1
  | some c =>
    match c.data with
    | .fill _ _ => .fatal .nullPointer g1
    | .basic material _ _ =>
      .ok () { g1 with FSRs_to_cells := g1.FSRs_to_cells ++ [c.id],
                       FSRs_to_materials := g1.FSRs_to_materials ++ [material] }

/-- Lines 60-63 of the constructor: FSR enumeration from universe 0. -/
def enumerateFSRs (fuel : Nat) (g : Geometry F) : Outcome (Geometry F) Unit :=
  match IntMap.find g.universes 0 with
  | none => .fatal .outOfRange g
  | some univ =>
    (computeFSRMaps fuel g univ).bind fun n g1 => .ok () { g1 with num_FSRs := n }

/-- Lines 65-76 of the constructor: the two FSR tables are loaded. -/
def loadFSRMaps (fuel : Nat) (g : Geometry F) : Outcome (Geometry F) Unit :=
  forEach (loadFSR fuel) (List.range g.num_FSRs.toNat) g

/-- The input the parser delivers: the four callback streams. -/
structure ParserInput (F : Type) where
  materials : List Material
  surfaces : List (Surface F)
  cells : List Cell
  lattices : List (Universe F)

/-- Lines 31-58 of the constructor: every entity the parser delivers is an object
the parser allocated; it is passed to the matching `add` function. -/
def registerAll (sqrt : F → F) (fuel : Nat) (st : Statics) (input : ParserInput F) :
    Outcome (Geometry F) Unit :=
  (forEach (fun m g => addMaterial (newMaterial g m).2 (newMaterial g m).1)
    input.materials (Geometry.init st)).bind fun _ g1 =>
  (forEach (fun s g => addSurface (newSurface g s).2 (newSurface g s).1)
    input.surfaces g1).bind fun _ g2 =>
  (forEach (fun c g => addCell sqrt fuel (newCell g c).2 (newCell g c).1)
    input.cells g2).bind fun _ g3 =>
  forEach (fun l g => addLattice (newUniverse g l).2 (newUniverse g l).1)
    input.lattices g3

/-- `Geometry::Geometry(Parser*)` (lines 20-77). -/
def Geometry.build (sqrt : F → F) (fuel : Nat) (st : Statics) (input : ParserInput F) :
    Outcome (Geometry F) Unit :=
  (registerAll sqrt fuel st input).bind fun _ g1 =>
  (enumerateFSRs fuel g1).bind fun _ g2 =>
  loadFSRMaps fuel g2

end FSR

/-! ## Positions in the hierarchy and ray tracing -/

section Tracing

variable {F : Type} [LinearOrderedField F]

/-- Level kind of a `LocalCoords` link. -/
inductive coordType where
  | UNIV
  | LAT
  deriving DecidableEq, Repr

/-- One link of a `LocalCoords` chain.  A chain is the list of its links from the
link at hand down to the lowest level; the empty list is the null pointer. -/
structure LocalCoords (F : Type) where
  type : coordType
  universe_id : Int
  cell : Int
  lattice : Int
  lattice_x : Int
  lattice_y : Int
  x : F
  y : F
  deriving DecidableEq, Repr

/-- Modelled from the spec: `LocalCoords(x, y)` followed by `setUniverse(universe)`. -/
def LocalCoords.new (x y : F) (universe_id : Int) : LocalCoords F :=
  { type := .UNIV, universe_id := universe_id, cell := 0, lattice := 0,
    lattice_x := 0, lattice_y := 0, x := x, y := y }

/-- Modelled from the spec: `LocalCoords::adjustCoords(dx, dy)` translates the
coordinates of every level. -/
def adjustCoords (coords : List (LocalCoords F)) (dx dy : F) : List (LocalCoords F) :=
  coords.map fun l => { l with x := l.x + dx, y := l.y + dy }

/-- Modelled from the spec: `LocalCoords::updateMostLocal(point)` moves the lowest
level to the point and translates the other levels by the same displacement. -/
def updateMostLocal (coords : List (LocalCoords F)) (p : F × F) : List (LocalCoords F) :=
  match coords.getLast? with
  | none => coords
  | some low => adjustCoords coords (p.1 - low.x) (p.2 - low.y)

/-- Modelled from the spec: `Lattice::getFSR(x, y)` for `int` tile indices. -/
def Universe.getFSRAt (lat : Universe F) (x y : Int) : Option Int :=
  if x < 0 ∨ y < 0 then none else lat.getTileFSR x.toNat y.toNat

/-- The `while` loop of `Geometry::findFSRId` (lines 1535-1545) with the running
sum `fsr_id`. -/
def findFSRIdLoop (g : Geometry F) : List (LocalCoords F) → Int → Except Err Int
  | [], fsr_id => .ok fsr_id
  | curr :: next, fsr_id =>
    match curr.type with
    | .LAT =>
      match IntMap.find g.lattices curr.lattice with
      | none => .error .outOfRange
      | some la =>
        match g.universeObjs[la]? with
        | none => .error .nullPointer
        | some lattice =>
          match lattice.getFSRAt curr.lattice_x curr.lattice_y with
          | none => .error .outOfRange
          | some offset => findFSRIdLoop g next (fsr_id + offset)
    | .UNIV =>
      match IntMap.find g.universes curr.universe_id with
      | none => .error .outOfRange
      | some ua =>
        match g.universeObjs[ua]? with
        | none => .error .nullPointer
        | some u =>
          match u.getFSR curr.cell with
          | none => .error .fsrMissing
          | some offset => findFSRIdLoop g next (fsr_id + offset)

/-- `Geometry::findFSRId(LocalCoords*)` (lines 1531-1548). -/
def findFSRId (g : Geometry F) (coords : List (LocalCoords F)) : Except Err Int :=
  findFSRIdLoop g coords 0

/-- The operations of `Universe`, `Lattice`, `Cell`, `Point` and of the C library
that the ray tracing code of `Geometry.cpp` calls and that live outside it.
- `findCell g ua coords`: `Universe::findCell(coords, _universes)` on the universe at
  `ua`; returns the cell found (or null) and the chain as it leaves it.
- `minSurfaceDist g ca p angle`: `Cell::minSurfaceDist(point, angle, &intersection)`.
- `findNextLatticeCell g la coords i angle`: `Lattice::findNextLatticeCell(curr, angle,
  _universes)` where `curr` is link `i` of the chain.
- `distance p q`: `Point::distance`. -/
structure Tracer (F : Type) where
  cos : F → F
  sin : F → F
  findCell : Geometry F → Addr → List (LocalCoords F) →
    Outcome (List (LocalCoords F)) (Option Addr)
  minSurfaceDist : Geometry F → Addr → F × F → F → Ext F × (F × F)
  findNextLatticeCell : Geometry F → Addr → List (LocalCoords F) → Nat → F →
    Outcome (List (LocalCoords F)) (Option Addr)
  distance : F × F → F × F → F

/-- The constant `TINY_MOVE`. -/
def TINY_MOVE : F := 1 / 100000000

/-- `Geometry::findCell(LocalCoords*)` (lines 1138-1142). -/
def findCellCoords (T : Tracer F) (g : Geometry F) (coords : List (LocalCoords F)) :
    Outcome (List (LocalCoords F)) (Option Addr) :=
  match coords with
  | [] => .fatal .nullPointer coords
  | top :: _ =>
    match IntMap.find g.universes top.universe_id with
    | none => .fatal .outOfRange coords
    | some ua => T.findCell g ua coords

/-- The lattice check loop of `findNextCell` (lines 1323-1338) on the two chains
listed from the lowest level upwards; returns the value of `dist` after the loop. -/
def latticeCheck : List (LocalCoords F) → List (LocalCoords F) → Ext F → Ext F
  | test_curr :: test_prev, coords_curr :: coords_prev, dist =>
    if test_curr.universe_id ≠ 0 ∧ coords_curr.universe_id ≠ 0 then
      if test_curr.type = .LAT then
        if coords_curr.type = .LAT ∧ test_curr.type = .LAT then
          if coords_curr.lattice_x ≠ test_curr.lattice_x ∨
              coords_curr.lattice_y ≠ test_curr.lattice_y then .posInf
          else dist
        else latticeCheck test_prev coords_prev dist
      else latticeCheck test_prev coords_prev dist
    else dist
  | _, _, dist => dist

/-- The retrace loop of `findNextCell` (lines 1362-1371 and 1405-1414) on the chain
listed from the lowest level upwards.  The outer `none` is the dereference of a
null `getPrev()`; `some none` leaves the chain as it is; `some (some l)` is the
chain pruned below its lowest lattice link above the start. -/
def retraceScan : List (LocalCoords F) → Option (Option (List (LocalCoords F)))
  | [] => some none
  | curr :: above =>
    if curr.universe_id ≠ 0 then
      match above with
      | [] => none
      | prev :: _ => if prev.type = .LAT then some (some above) else retraceScan above
    else some none

/-- The retrace loop applied to a chain. -/
def retrace (coords : List (LocalCoords F)) : Outcome (List (LocalCoords F)) Unit :=
  match retraceScan coords.reverse with
  | none => .fatal .nullPointer coords
  | some none => .ok () coords
  | some (some l) => .ok () l.reverse

/-- The loop `while (curr->getUniverse() != 0)` of `findNextCell` (lines 1381-1425),
with `curr` the lowest level of the chain at the head of every iteration. -/
def crossLattices (T : Tracer F) (g : Geometry F) (angle : F) :
    Nat → List (LocalCoords F) → Outcome (List (LocalCoords F)) (Option Addr)
  | 0, _ => .outOfFuel
  | fuel + 1, coords =>
    match coords.getLast? with
    | none => .fatal .nullPointer coords
    | some curr =>
      if curr.universe_id ≠ 0 then
        if curr.type = .LAT then
          match IntMap.find g.lattices curr.lattice with
          | none => .fatal .outOfRange coords
          | some la =>
            (T.findNextLatticeCell g la coords (coords.length - 1) angle).bind
              fun cell coords1 =>
            match cell with
            | none =>
              if coords.length - 1 = 0 then .fatal .nullPointer coords1
              else
                (retrace (coords1.take (coords.length - 1))).bind fun _ coords2 =>
                crossLattices T g angle fuel coords2
            | some c => .ok (some c) coords1
        else crossLattices T g angle fuel coords
      else .ok none coords

/-- `Geometry::findNextCell` (lines 1278-1431).  The first argument bounds the
number of iterations of the loop over the lattices. -/
def findNextCell (T : Tracer F) (fuel : Nat) (g : Geometry F)
    (coords : List (LocalCoords F)) (angle : F) :
    Outcome (List (LocalCoords F)) (Option Addr) :=
  (findCellCoords T g coords).bind fun cell coords0 =>
  match cell, coords0.getLast? with
  | none, _ => .ok none coords0
  | some _, none => .fatal .nullPointer coords0
  | some ca, some lowest_level =>
    let found := T.minSurfaceDist g ca (lowest_level.x, lowest_level.y) angle
    let dist := found.1
    let surf_intersection := found.2
    if dist ≠ .posInf then
      let delta_x := T.cos angle * TINY_MOVE
      let delta_y := T.sin angle * TINY_MOVE
      let test := coords0
      let moved := adjustCoords (updateMostLocal coords0 surf_intersection) delta_x delta_y
      (findCellCoords T g moved).bind fun cell1 coords1 =>
      let dist1 := latticeCheck test.reverse coords1.reverse dist
      let dist2 := if cell1 = none then .posInf else dist1
      if dist2 ≠ .posInf then .ok cell1 coords1
      else
        (retrace test).bind fun _ coords2 => crossLattices T g angle fuel coords2
    else
      (retrace coords0).bind fun _ coords2 => crossLattices T g angle fuel coords2

/-- A segment of a track: `_length`, `_material` (a material pointer) and
`_region_id`. -/
structure segment (F : Type) where
  length : F
  material : Addr
  region_id : Int
  deriving DecidableEq, Repr

/-- A track: start point, azimuthal angle and the list of segments. -/
structure Track (F : Type) where
  x0 : F
  y0 : F
  phi : F
  segments : List (segment F)
  deriving DecidableEq, Repr

/-- Lines 1489-1493 of `segmentize`: the running maximum and minimum segment
lengths. -/
def updateSegLengths (g : Geometry F) (segment_length : F) : Geometry F :=
  { g with
    max_seg_length :=
      if Ext.lt g.max_seg_length (.fin segment_length) then .fin segment_length
      else g.max_seg_length,
    min_seg_length :=
      if Ext.lt (.fin segment_length) g.min_seg_length then .fin segment_length
      else g.min_seg_length }

/-- The material pointer of a segment, `_materials.at(static_cast<CellBasic*>(prev)
->getMaterial())` (line 1487). -/
def segmentMaterial (g : Geometry F) (prev : Addr) : Except Err Addr :=
  match g.cellObjs[prev]? with
  | none => .error .nullPointer
  | some c =>
    match c.data with
    | .fill _ _ => .error .nullPointer
    | .basic material _ _ =>
      match IntMap.find g.materials material with
      | none => .error .outOfRange
      | some ma => .ok ma

/-- The coordinates of the first link of a chain, `coords.getPoint()`. -/
def getPoint (coords : List (LocalCoords F)) : Option (F × F) :=
  coords.head?.map fun l => (l.x, l.y)

/-- The body of the `while (curr != NULL)` loop of `segmentize` (lines 1475-1515)
after the call of `findNextCell`: given the cell `prev`, the start chain and the
end chain, it updates the statistics and appends the segment. -/
def addSegmentFor (T : Tracer F) (prev : Addr)
    (segment_start segment_end : List (LocalCoords F)) (st : Geometry F × Track F) :
    Outcome (Geometry F × Track F) Unit :=
  match getPoint segment_start, getPoint segment_end with
  | some p_start, some p_end =>
    let segment_length := T.distance p_end p_start
    match segmentMaterial st.1 prev with
    | .error e => .fatal e st
    | .ok ma =>
      let g1 := updateSegLengths st.1 segment_length
      match findFSRId g1 segment_start with
      | .error e => .fatal e (g1, st.2)
      | .ok region_id =>
        if p_start.1 = p_end.1 ∧ p_start.2 = p_end.2 then .fatal .sameStartEnd (g1, st.2)
        else
          .ok () (g1, { st.2 with segments := st.2.segments ++
            [{ length := segment_length, material := ma, region_id := region_id }] })
  | _, _ => .fatal .nullPointer st

/-- The `while (curr != NULL)` loop of `segmentize` (lines 1473-1516). -/
def segmentLoop (T : Tracer F) (phi : F) :
    Nat → Option Addr → List (LocalCoords F) → Geometry F × Track F →
    Outcome (Geometry F × Track F) Unit
  | 0, _, _, _ => .outOfFuel
  | fuel + 1, curr, segment_end, st =>
    match curr with
    | none => .ok () st
    | some prev =>
      let segment_start := segment_end
      match findNextCell T fuel st.1 segment_end phi with
      | .outOfFuel => .outOfFuel
      | .fatal e _ => .fatal e st
      | .ok curr1 segment_end1 =>
        (addSegmentFor T prev segment_start segment_end1 st).bind fun _ st1 =>
        segmentLoop T phi fuel curr1 segment_end1 st1

/-- `Geometry::segmentize` (lines 1441-1528). -/
def segmentize (T : Tracer F) (fuel : Nat) (g : Geometry F) (track : Track F) :
    Outcome (Geometry F × Track F) Unit :=
  let segment_end := [LocalCoords.new track.x0 track.y0 0]
  match findCellCoords T g segment_end with
  | .outOfFuel => .outOfFuel
  | .fatal e _ => .fatal e (g, track)
  | .ok curr segment_end1 => segmentLoop T track.phi fuel curr segment_end1 (g, track)

/-! ## Point location in simple universes, modelled from the spec -/

/-- The intersection epsilon, `10^-10`. -/
def TINY_EPS : F := 1 / 10000000000

/-- Modelled from the spec: `Surface::evaluate(point)`, the signed quadratic form of
section 3; `XPlane` and `YPlane` are the planes with `(A, B) = (1, 0)` and
`(0, 1)`. -/
def Surface.evaluate (s : Surface F) (p : F × F) : F :=
  match s.shape with
  | .plane A B C => A * p.1 + B * p.2 + C
  | .xplane C => p.1 + C
  | .yplane C => p.2 + C
  | .circle x0 y0 r =>
    p.1 * p.1 + p.2 * p.2 - 2 * x0 * p.1 - 2 * y0 * p.2 + (x0 * x0 + y0 * y0 - r * r)

/-- Modelled from the spec: `Cell::contains(point)` (section 4.2); every halfspace
constraint `sign(signed id) * evaluate(point) >= 0` holds.  The result is `none`
when a surface pointer of the cell is null. -/
def cellContains (g : Geometry F) (c : Cell) (p : F × F) : Option Bool :=
  c.surfaces.foldl (fun acc entry =>
    match acc, entry.2 with
    | some b, some sa =>
      match g.surfaceObjs[sa]? with
      | none => none
      | some s =>
        some (b && decide (0 ≤ (if entry.1 < 0 then -1 else 1) * s.evaluate p))
    | _, _ => none) (some true)

/-- Ray parameter of the intersection of the ray from `p` in direction `(c, s)` with
the line `A x + B y + C = 0` (section 4.1): the direct linear solve; a ray
parallel to the line has no intersection; a parameter below the epsilon is
discarded. -/
def planeParams (A B C : F) (p : F × F) (c s : F) : List F :=
  let denom := A * c + B * s
  if |denom| < TINY_EPS then []
  else
    let t := -(A * p.1 + B * p.2 + C) / denom
    if t < TINY_EPS then [] else [t]

/-- Ray parameters of the intersections with a circle (section 4.1), by the stable
formulation `q = -(b + sign(b) sqrt(delta))/2`, `t1 = q/a`, `t2 = c/q`; roots below
the epsilon are discarded and two roots closer than the epsilon are collapsed. -/
def circleParams (sqrt : F → F) (x0 y0 r : F) (p : F × F) (c s : F) : List F :=
  let a := c * c + s * s
  let b := 2 * ((p.1 - x0) * c + (p.2 - y0) * s)
  let k := (p.1 - x0) * (p.1 - x0) + (p.2 - y0) * (p.2 - y0) - r * r
  let delta := b * b - 4 * a * k
  if delta < 0 then []
  else
    let q := -(b + (if b < 0 then -1 else 1) * sqrt delta) / 2
    let t1 := q / a
    let t2 := k / q
    let lo := min t1 t2
    let hi := max t1 t2
    if hi - lo < TINY_EPS then (if lo < TINY_EPS then [] else [lo])
    else (if lo < TINY_EPS then [] else [lo]) ++ (if hi < TINY_EPS then [] else [hi])

/-- Modelled from the spec: the ray parameters at which `Surface::intersection` finds
the track on the surface. -/
def Surface.intersectionParams (sqrt : F → F) (s : Surface F) (p : F × F) (c sn : F) :
    List F :=
  match s.shape with
  | .plane A B C => planeParams A B C p c sn
  | .xplane C => planeParams 1 0 C p c sn
  | .yplane C => planeParams 0 1 C p c sn
  | .circle x0 y0 r => circleParams sqrt x0 y0 r p c sn

/-- The smallest element of a list of ray parameters, `+infinity` for none. -/
def minParam : List F → Ext F
  | [] => .posInf
  | t :: rest =>
    match minParam rest with
    | .fin u => .fin (min t u)
    | _ => .fin t

/-- Modelled from the spec: `Cell::minSurfaceDist(point, angle, &intersection)`
(section 4.2); the smallest positive ray parameter over all surfaces of the cell
with the point reached there, or `+infinity`. -/
def cellMinSurfaceDist (cos sin sqrt : F → F) (g : Geometry F) (ca : Addr) (p : F × F)
    (angle : F) : Ext F × (F × F) :=
  match g.cellObjs[ca]? with
  | none => (.posInf, p)
  | some c =>
    let params := c.surfaces.flatMap fun entry =>
      match entry.2 with
      | none => []
      | some sa =>
        match g.surfaceObjs[sa]? with
        | none => []
        | some s => s.intersectionParams sqrt p (cos angle) (sin angle)
    match minParam params with
    | .fin t => (.fin t, (p.1 + t * cos angle, p.2 + t * sin angle))
    | d => (d, p)

/-- The first cell, in the iteration order of the universe's cell map, that contains
the point; the outer `none` is a null pointer. -/
def firstContaining (g : Geometry F) (p : F × F) :
    List (Int × Addr) → Option (Option (Addr × Cell))
  | [] => some none
  | entry :: rest =>
    match g.cellObjs[entry.2]? with
    | none => none
    | some c =>
      match cellContains g c p with
      | none => none
      | some true => some (some (entry.2, c))
      | some false => firstContaining g p rest

/-- Puts a link on top of the chain an outcome carries. -/
def pushLink {α : Type} (top : LocalCoords F) :
    Outcome (List (LocalCoords F)) α → Outcome (List (LocalCoords F)) α
  | .ok a chain => .ok a (top :: chain)
  | .fatal e chain => .fatal e (top :: chain)
  | .outOfFuel => .outOfFuel

/-- Modelled from the spec: `Universe::findCell(coords, universes)` (section 4.3), called
on the link of the universe, the first of the chain passed in.  In a simple
universe the first cell containing the point of that link is recorded in the
link; a material cell ends the chain there, a fill cell extends the chain by a
`UNIV` link for the inner universe, with the same coordinates, and the search goes
on there.  Lattices are handled by `latticeFindCell`.  The first argument bounds
the nesting depth. -/
def universeFindCell
    (latticeFindCell : Geometry F → Addr → List (LocalCoords F) →
      Outcome (List (LocalCoords F)) (Option Addr)) :
    Nat → Geometry F → Addr → List (LocalCoords F) →
    Outcome (List (LocalCoords F)) (Option Addr)
  | 0, _, _, _ => .outOfFuel
  | fuel + 1, g, ua, coords =>
    match g.universeObjs[ua]?, coords with
    | some u, top :: _ =>
      match u.type with
      | .LATTICE => latticeFindCell g ua coords
      | .SIMPLE =>
        match firstContaining g (top.x, top.y) u.cells with
        | none => .fatal .nullPointer coords
        | some none => .ok none coords
        | some (some found) =>
          let top1 : LocalCoords F := { top with type := .UNIV, cell := found.2.id }
          match found.2.data with
          | .basic _ _ _ => .ok (some found.1) [top1]
          | .fill _ none => .fatal .nullPointer [top1]
          | .fill universe_fill (some ia) =>
            pushLink top1 (universeFindCell latticeFindCell fuel g ia
              [LocalCoords.new top.x top.y universe_fill])
    | _, _ => .fatal .nullPointer coords

/-- Modelled from the spec: `Point::distance`, the Euclidean distance. -/
def pointDistance (sqrt : F → F) (p q : F × F) : F :=
  sqrt ((p.1 - q.1) * (p.1 - q.1) + (p.2 - q.2) * (p.2 - q.2))

/-- The tracer assembled from the operations modelled from the spec, for given
implementations of `cos`, `sin`, `sqrt` and of the two lattice operations. -/
def specTracer (cos sin sqrt : F → F)
    (latticeFindCell : Geometry F → Addr → List (LocalCoords F) →
      Outcome (List (LocalCoords F)) (Option Addr))
    (findNextLatticeCell : Geometry F → Addr → List (LocalCoords F) → Nat → F →
      Outcome (List (LocalCoords F)) (Option Addr))
    (depth : Nat) : Tracer F :=
  { cos := cos, sin := sin,
    findCell := universeFindCell latticeFindCell depth,
    minSurfaceDist := cellMinSurfaceDist cos sin sqrt,
    findNextLatticeCell := findNextLatticeCell,
    distance := pointDistance sqrt }

end Tracing

/-! ## Auxiliary notions used in the statements -/

section Statements

variable {F : Type} [LinearOrderedField F]

/-- Two states have the same five registries and the same material, surface and
universe objects, hence the same cells in every universe. -/
def sameRegistries (g1 g : Geometry F) : Prop :=
  g1.materials = g.materials ∧ g1.surfaces = g.surfaces ∧ g1.cells = g.cells ∧
  g1.universes = g.universes ∧ g1.lattices = g.lattices ∧
  g1.universeObjs = g.universeObjs ∧ g1.surfaceObjs = g.surfaceObjs ∧
  g1.materialObjs = g.materialObjs

/-- The FSR offset one link of a chain contributes, in the words of the spec: the
lattice's offset for the tile of a `LAT` link, the universe's offset for the cell
of a `UNIV` link. -/
def linkOffset (g : Geometry F) (l : LocalCoords F) : Except Err Int :=
  match l.type with
  | .LAT =>
    match IntMap.find g.lattices l.lattice with
    | none => .error .outOfRange
    | some la =>
      match g.universeObjs[la]? with
      | none => .error .nullPointer
      | some lattice =>
        match lattice.getFSRAt l.lattice_x l.lattice_y with
        | none => .error .outOfRange
        | some offset => .ok offset
  | .UNIV =>
    match IntMap.find g.universes l.universe_id with
    | none => .error .outOfRange
    | some ua =>
      match g.universeObjs[ua]? with
      | none => .error .nullPointer
      | some u =>
        match u.getFSR l.cell with
        | none => .error .fsrMissing
        | some offset => .ok offset

/-- The offsets of all links of a chain, from the given link down to the bottom
link; the first failing lookup is the error. -/
def chainOffsets (g : Geometry F) : List (LocalCoords F) → Except Err (List Int)
  | [] => .ok []
  | l :: rest =>
    match linkOffset g l with
    | .error e => .error e
    | .ok offset =>
      match chainOffsets g rest with
      | .error e => .error e
      | .ok offsets => .ok (offset :: offsets)

/-- What the ring refinement of the cell at `a` relies on between its steps. -/
structure RingInv (g : Geometry F) (a : Addr) (universe_id material : Int) : Prop where
  univ : ∃ ua, IntMap.find g.universes universe_id = some ua ∧ ua < g.universeObjs.length
  mat : (IntMap.find g.materials material).isSome = true
  fresh_s : ∀ k, g.statics.id ≤ k → IntMap.find g.surfaces k = none
  fresh_c : ∀ k, g.statics.id ≤ k → IntMap.find g.cells k = none
  pos : 0 < g.statics.id
  cell : a < g.cellObjs.length

/-- The state after one ring of the refinement has been added to `g`: the circle of
radius `r` and the ring cell, both under the id `g.statics.id`. -/
def afterRing (g : Geometry F) (r : F) (objs : List Cell) (uobjs : List (Universe F)) :
    Geometry F :=
  { g with
    surfaceObjs := g.surfaceObjs ++
      [{ Circle g.statics.id .BOUNDARY_NONE 0 0 r with uid := g.statics.surface_n }],
    surfaces := IntMap.insert g.surfaces g.statics.id g.surfaceObjs.length,
    cellObjs := objs,
    cells := IntMap.insert g.cells g.statics.id g.cellObjs.length,
    universeObjs := uobjs,
    statics := { g.statics with surface_n := g.statics.surface_n + 1,
                                cell_n := g.statics.cell_n + 1,
                                id := g.statics.id + 1 } }

/-- The surface object registered under an id, `_surfaces.at(id)`. -/
def surfaceAt (g : Geometry F) (id : Int) : Option (Surface F) :=
  (IntMap.find g.surfaces id).bind fun sa => g.surfaceObjs[sa]?

/-- The radius after `j` passes of the ring loop that starts with `rold`: each pass
replaces `rold` by `sqrt(rold*rold + dr2)` (lines 410 and 508). -/
def loopRadius (sqrt : F → F) (dr2 : F) : Nat → F → F
  | 0, rold => rold
  | j + 1, rold => loopRadius sqrt dr2 j (sqrt (rold * rold + dr2))

/-- The state `g1` extends `g` by `n` rings: the static id counter advanced by `n`, the
entries of the cell and surface registries of `g` are still there, and for
`j < n` the id `g.statics.id + j` names a registered cell and a registered
circle about the origin with radius `radius j`. -/
def RingsAdded (g g1 : Geometry F) (n : Nat) (radius : Nat → F) : Prop :=
  g1.statics.id = g.statics.id + n ∧
  g1.cells.length = g.cells.length + n ∧
  g1.surfaces.length = g.surfaces.length + n ∧
  (∀ k v, IntMap.find g.cells k = some v → IntMap.find g1.cells k = some v) ∧
  (∀ k s, surfaceAt g k = some s → surfaceAt g1 k = some s) ∧
  (∀ j : Nat, j < n → (IntMap.find g1.cells (g.statics.id + j)).isSome = true ∧
    ∃ s, surfaceAt g1 (g.statics.id + j) = some s ∧ s.shape = .circle 0 0 (radius j))

/-- Difference of two doubles that may be infinite; `none` stands for the NaN that
`inf - inf` gives. -/
def Ext.sub : Ext F → Ext F → Option (Ext F)
  | .fin a, .fin b => some (.fin (a - b))
  | .posInf, .posInf => none
  | .negInf, .negInf => none
  | .posInf, _ => some .posInf
  | .negInf, _ => some .negInf
  | .fin _, .posInf => some .negInf
  | .fin _, .negInf => some .posInf

/-- `Geometry::getHeight` (lines 116-118). -/
def Geometry.getHeight (g : Geometry F) : Option (Ext F) := Ext.sub g.y_max g.y_min

/-- `Geometry::getWidth` (lines 125-127). -/
def Geometry.getWidth (g : Geometry F) : Option (Ext F) := Ext.sub g.x_max g.x_min

/-- The smaller of two extended values. -/
def Ext.min (a b : Ext F) : Ext F := if Ext.le a b then a else b

/-- The larger of two extended values. -/
def Ext.max (a b : Ext F) : Ext F := if Ext.le a b then b else a

/-- The four bounds `(x_min, y_min, x_max, y_max)` of a geometry. -/
def Geometry.bounds (g : Geometry F) : Ext F × Ext F × Ext F × Ext F :=
  (g.x_min, g.y_min, g.x_max, g.y_max)

/-- A bounding box `(x_min, y_min, x_max, y_max)` enlarged by the extents of a
surface: minima for the lower bounds, maxima for the upper bounds. -/
def extendBox (b : Ext F × Ext F × Ext F × Ext F) (s : Surface F) :
    Ext F × Ext F × Ext F × Ext F :=
  (Ext.min s.x_min b.1, Ext.min s.y_min b.2.1, Ext.max b.2.2.1 s.x_max,
   Ext.max b.2.2.2 s.y_max)

/-- The surface objects at the given addresses that have boundary type
`REFLECTIVE`, in the order of the addresses. -/
def reflectiveAmong (g : Geometry F) (addrs : List Addr) : List (Surface F) :=
  (addrs.filterMap fun a => g.surfaceObjs[a]?).filter fun s => s.boundary = .REFLECTIVE

/-- The tile entries of a lattice, row after row. -/
def Universe.tiles (lat : Universe F) : List (Int × Option Addr) := lat.universes.flatten

/-- The tile table of a lattice has `num_y` rows of `num_x` entries each, as the
constructor of `Lattice` leaves it. -/
def LatticeShape (lat : Universe F) : Prop :=
  lat.universes.length = lat.num_y.toNat ∧ ∀ row ∈ lat.universes, row.length = lat.num_x.toNat

/-- Every entry of the universe registry points to a universe object that carries
the id it is registered under. -/
def UniversesConsistent (g : Geometry F) : Prop :=
  ∀ k ua, IntMap.find g.universes k = some ua →
    ∃ u, g.universeObjs[ua]? = some u ∧ u.id = k

/-- The tile entry points to the universe registered under its id. -/
def TileResolved (reg : IntMap Addr) (t : Int × Option Addr) : Prop :=
  ∃ ua, t.2 = some ua ∧ IntMap.find reg t.1 = some ua

/-- The index pairs `(i, j)` in the order of the double loop of `addLattice`: row
index `i` in the outer loop, column index `j` in the inner loop. -/
def latticeLoopIndices (num_x num_y : Int) : List (Nat × Nat) :=
  (List.range num_y.toNat).flatMap fun i => (List.range num_x.toNat).map fun j => (i, j)

/-- The tile entry in row `p.1`, column `p.2`. -/
def tileAt (lat : Universe F) (p : Nat × Nat) : Option (Int × Option Addr) :=
  (lat.universes[p.1]?).bind fun row => row[p.2]?

/-- Two lattices name the same universe id at every tile position. -/
def IdsSame (lat1 lat : Universe F) : Prop :=
  ∀ p, (tileAt lat1 p).map Prod.fst = (tileAt lat p).map Prod.fst

/-- The error is none of the duplicate-id errors of `addSurface`, `addCell` and
`addUniverse`. -/
def NotDup (e : Err) : Prop :=
  (∀ k, e ≠ .duplicateSurface k) ∧ (∀ k, e ≠ .duplicateCell k) ∧
  (∀ k, e ≠ .duplicateUniverse k)

/-- No surface and no cell is registered under an id at or above the static id
counter of `addCell`. -/
def FreshIds (g : Geometry F) : Prop :=
  ∀ k, g.statics.id ≤ k → IntMap.find g.surfaces k = none ∧ IntMap.find g.cells k = none

/-- The surface objects allocated between the states `g` and `g1`, in allocation
order. -/
def newSurfaces (g g1 : Geometry F) : List (Surface F) :=
  g1.surfaceObjs.drop g.surfaceObjs.length

/-- The ids of the cell objects allocated between the states `g` and `g1`, in
allocation order. -/
def newCellIds (g g1 : Geometry F) : List Int :=
  (g1.cellObjs.drop g.cellObjs.length).map fun c => c.id

/-- The radii of the circles in a list of surfaces, in the order of the list. -/
def circleRadii (l : List (Surface F)) : List F :=
  l.filterMap fun s =>
    match s.shape with
    | .circle _ _ r => some r
    | _ => none

/-- The variant data of a cell without the pointer to the filling universe. -/
def CellData.erase : CellData → CellData
  | .basic material num_rings num_sectors => .basic material num_rings num_sectors
  | .fill universe_fill _ => .fill universe_fill none

/-- What a cell object says apart from resolved pointers and its uid: the id, the
universe id, the signed surface ids and the variant data. -/
def Cell.shape (c : Cell) : Int × Int × List Int × CellData :=
  (c.id, c.universe_id, IntMap.keys c.surfaces, c.data.erase)

/-- The id and the universe id of a cell object. -/
def Cell.tag (c : Cell) : Int × Int := (c.id, c.universe_id)

/-- What every run of `addCell` from `g` to `g1` keeps and adds, as far as ids go:
the static counter does not decrease, the materials stay, registered surfaces
and cells stay registered, the surface objects of `g` stay and the new ones have
boundary type `NONE` and strictly increasing ids taken from the counter, the
cell objects of `g` keep their ids and the new ones have strictly increasing
ids taken from the counter. -/
structure GrowsIds (g g1 : Geometry F) : Prop where
  id_le : g.statics.id ≤ g1.statics.id
  mats : g1.materials = g.materials
  surf_reg : ∀ k v, IntMap.find g.surfaces k = some v → IntMap.find g1.surfaces k = some v
  surf_objs : g1.surfaceObjs = g.surfaceObjs ++ newSurfaces g g1
  surf_new : ∀ s ∈ newSurfaces g g1,
    s.boundary = .BOUNDARY_NONE ∧ g.statics.id ≤ s.id ∧ s.id < g1.statics.id
  surf_inc : ((newSurfaces g g1).map fun s => s.id).Pairwise (· < ·)
  cell_reg : ∀ k v, IntMap.find g.cells k = some v → IntMap.find g1.cells k = some v
  cell_objs : (g1.cellObjs.map fun c => c.id) = (g.cellObjs.map fun c => c.id) ++ newCellIds g g1
  cell_new : ∀ k ∈ newCellIds g g1, g.statics.id ≤ k ∧ k < g1.statics.id
  cell_inc : (newCellIds g g1).Pairwise (· < ·)
  cell_univ : ∀ (b : Addr) (c : Cell), g.cellObjs[b]? = some c →
    ∃ c1, g1.cellObjs[b]? = some c1 ∧ c1.universe_id = c.universe_id

/-- Every universe object holds only cells that are registered. -/
def UniverseCellsRegistered (g : Geometry F) : Prop :=
  ∀ (ub : Addr) (U : Universe F) (cid : Int), g.universeObjs[ub]? = some U →
    IntMap.find g.cells cid = none →
    IntMap.find U.cells cid = none

/-- The universe registry and the universe objects are consistent. -/
def UnivOK (g : Geometry F) : Prop := UniversesConsistent g ∧ UniverseCellsRegistered g

/-- What every run of `addCell` for a cell of universe `u` keeps among the
universes: the registry entries of the other ids, the whole registry and the
number of universe objects when `u` is registered at the start, the universe
objects with another id, and for every universe object its id, its type and
its cells. -/
structure GrowsUniv (u : Int) (g g1 : Geometry F) : Prop where
  reg_other : ∀ k, k ≠ u → IntMap.find g1.universes k = IntMap.find g.universes k
  reg_same : ∀ ua, IntMap.find g.universes u = some ua →
    g1.universes = g.universes ∧ g1.universeObjs.length = g.universeObjs.length
  objs_other : ∀ (ub : Addr) (U : Universe F), g.universeObjs[ub]? = some U → U.id ≠ u →
    g1.universeObjs[ub]? = some U
  objs_grow : ∀ (ub : Addr) (U : Universe F), g.universeObjs[ub]? = some U →
    ∃ U1 : Universe F, g1.universeObjs[ub]? = some U1 ∧ U1.id = U.id ∧ U1.type = U.type ∧
      ∀ cid v, IntMap.find U.cells cid = some v → IntMap.find U1.cells cid = some v

/-- The cell at `a` is a member of the universe registered under its universe id. -/
def Member (g : Geometry F) (cell : Cell) (a : Addr) : Prop :=
  ∃ ua U, IntMap.find g.universes cell.universe_id = some ua ∧
    g.universeObjs[ua]? = some U ∧ U.id = cell.universe_id ∧
    IntMap.find U.cells cell.id = some a

/-- The recursion budget that `addCell` needs for a cell: one call for the cell,
one more level for the cells that sector refinement adds, and one more for the
cells that ring refinement adds. -/
def need (cell : Cell) : Nat :=
  match cell.data with
  | .basic _ num_rings num_sectors =>
    if num_rings + 1 > 1 then 3 else if num_sectors > 0 then 2 else 1
  | .fill _ _ => 1

/-- The cell is a fill cell or a material cell that ring refinement leaves alone. -/
def NoRings (cell : Cell) : Prop :=
  match cell.data with
  | .basic _ num_rings _ => ¬ (num_rings + 1 > 1)
  | .fill _ _ => True

/-- A run is safe: a normal return satisfies `Q`, a fatal error is none of the
duplicate-id errors, and the recursion budget is exhausted only when `T` fails. -/
def Safe {α : Type} (T : Prop) (x : Outcome (Geometry F) α)
    (Q : α → Geometry F → Prop) : Prop :=
  match x with
  | .ok v g1 => Q v g1
  | .fatal e _ => NotDup e
  | .outOfFuel => ¬ T

/-- What a normal return of `addCell` for the cell at `a` guarantees. -/
def AddCellPost (g : Geometry F) (a : Addr) (cell : Cell) (g1 : Geometry F) : Prop :=
  GrowsIds g g1 ∧ FreshIds g1 ∧ IntMap.find g1.cells cell.id = some a ∧
  (NoRings cell → circleRadii (newSurfaces g g1) = []) ∧
  (UnivOK g → UnivOK g1 ∧ GrowsUniv cell.universe_id g g1 ∧ Member g1 cell a ∧
    (IntMap.find g.universes cell.universe_id = none →
      IntMap.find g1.universes cell.universe_id = some g.universeObjs.length ∧
      ∃ U, g1.universeObjs[g.universeObjs.length]? = some U ∧ U.type = .SIMPLE))

/-- The contract of a function that stands for `addCell` with the budget `fuel`. -/
def RecSpec (fuel : Nat) (rec : Geometry F → Addr → Outcome (Geometry F) Unit) : Prop :=
  ∀ g a cell, FreshIds g → g.cellObjs[a]? = some cell →
    IntMap.find g.cells cell.id = none → cell.id < g.statics.id →
    Safe (need cell ≤ fuel) (rec g a) (fun _ g1 => AddCellPost g a cell g1)

/-- The state `g4` in which `addCell` starts the refinement of the cell at `a`, after
lines 288-350 have run from `g`: the cell is registered and a member of its
universe, and nothing else has changed among surfaces, materials and ids. -/
structure HeadPost (g : Geometry F) (a : Addr) (cell : Cell) (g4 : Geometry F) : Prop where
  statics_id : g4.statics.id = g.statics.id
  surfaces : g4.surfaces = g.surfaces
  surfaceObjs : g4.surfaceObjs = g.surfaceObjs
  materials : g4.materials = g.materials
  cells : g4.cells = IntMap.insert g.cells cell.id a
  cell_shapes : g4.cellObjs.map Cell.shape = g.cellObjs.map Cell.shape
  univ : UnivOK g → UnivOK g4 ∧ GrowsUniv cell.universe_id g g4 ∧ Member g4 cell a ∧
    (IntMap.find g.universes cell.universe_id = none →
      IntMap.find g4.universes cell.universe_id = some g.universeObjs.length ∧
      ∃ U : Universe F, g4.universeObjs[g.universeObjs.length]? = some U ∧ U.type = .SIMPLE)

/-- What a part of the refinement of a cell of universe `u` guarantees when it runs
from `g` to `g1`: the id bookkeeping of `GrowsIds`, fresh ids at the end, the
radii of the circles it generated, and the consistency of the universes. -/
def BlockPost (u : Int) (g g1 : Geometry F) (radii : List F) : Prop :=
  GrowsIds g g1 ∧ FreshIds g1 ∧ circleRadii (newSurfaces g g1) = radii ∧
  (UnivOK g → UnivOK g1 ∧ GrowsUniv u g g1)

/-- The state after the surface `s` has been allocated and registered in `g`. -/
def withSurface (g : Geometry F) (s : Surface F) : Geometry F :=
  { g with
    surfaceObjs := g.surfaceObjs ++ [{ s with uid := g.statics.surface_n }],
    surfaces := IntMap.insert g.surfaces s.id g.surfaceObjs.length,
    statics := { g.statics with surface_n := g.statics.surface_n + 1 } }

/-- The state `g1` after one sector cell has been added to `g`: the cell object is
appended with the shape `sh` and registered under the old value of the
counter, which advances by one; surfaces and materials stay. -/
structure SectorCellPost (g g1 : Geometry F) (sh : Int × Int × List Int × CellData) :
    Prop where
  statics_id : g1.statics.id = g.statics.id + 1
  surfaces : g1.surfaces = g.surfaces
  surfaceObjs : g1.surfaceObjs = g.surfaceObjs
  materials : g1.materials = g.materials
  cells : g1.cells = IntMap.insert g.cells g.statics.id g.cellObjs.length
  shapes : g1.cellObjs.map Cell.shape = g.cellObjs.map Cell.shape ++ [sh]

/-- The shape of a sector cell: the cell `CellBasic(id, universe, num, list, material,
0, 0)` with the two signed plane ids added. -/
def sectorShape (id u m num : Int) (list : List Int) (sg1 sg2 : Int) :
    Int × Int × List Int × CellData :=
  (id, u, IntMap.keys (IntMap.insert (IntMap.insert (CellBasic id u num list m 0 0).surfaces
    sg1 (none : Option Addr)) sg2 none), .basic m 0 0)

/-- The state `g1` after the sector refinement of the cell object `cell` at `a` has run
from `g`: two planes are allocated and registered under the first two values of
the counter, three sector cells under the next three, and the refined cell has
its sector count cleared and carries one halfspace of each plane. -/
structure Sectors4Post (g : Geometry F) (a : Addr) (cell : Cell) (g1 : Geometry F) :
    Prop where
  statics_id : g1.statics.id = g.statics.id + 5
  surfaceObjs : g1.surfaceObjs = g.surfaceObjs ++
    [({ Plane g.statics.id .BOUNDARY_NONE 1 1 0 with uid := g.statics.surface_n } : Surface F),
     { Plane (g.statics.id + 1) .BOUNDARY_NONE 1 (-1) 0 with uid := g.statics.surface_n + 1 }]
  surfaces : g1.surfaces = IntMap.insert (IntMap.insert g.surfaces g.statics.id
    g.surfaceObjs.length) (g.statics.id + 1) (g.surfaceObjs.length + 1)
  materials : g1.materials = g.materials
  cells : g1.cells = IntMap.insert (IntMap.insert (IntMap.insert g.cells
    (g.statics.id + 2) g.cellObjs.length) (g.statics.id + 3) (g.cellObjs.length + 1))
    (g.statics.id + 4) (g.cellObjs.length + 2)
  shapes : ∃ m R S, cell.data = .basic m R S ∧
    g1.cellObjs.map Cell.shape =
      (g.cellObjs.map Cell.shape).set a
        (cell.id, cell.universe_id,
          IntMap.keys (IntMap.insert (IntMap.insert cell.surfaces g.statics.id
            (none : Option Addr)) (-1 * (g.statics.id + 1)) none), .basic m R 0) ++
      [sectorShape (g.statics.id + 2) cell.universe_id m cell.getNumSurfaces
         (IntMap.keys cell.surfaces) g.statics.id (g.statics.id + 1),
       sectorShape (g.statics.id + 3) cell.universe_id m cell.getNumSurfaces
         (IntMap.keys cell.surfaces) (-1 * g.statics.id) (-1 * (g.statics.id + 1)),
       sectorShape (g.statics.id + 4) cell.universe_id m cell.getNumSurfaces
         (IntMap.keys cell.surfaces) (-1 * g.statics.id) (g.statics.id + 1)]

/-- The radii of `n` consecutive circles of a ring refinement whose first circle has
radius `r1`, where each pass of the loop adds `dr2` to the squared radius. -/
def ringRadii (sqrt : F → F) (dr2 r1 : F) (n : Nat) : List F :=
  (List.range n).map fun j => loopRadius sqrt dr2 j r1

/-- The radii of the circles that the ring refinement of a cell generates, in the
order of generation, as the code computes them from the state `g` in which the
refinement starts: none without rings; for one surface of radius `r0` the first
is `r0/sqrt(t)` and each pass adds `r0*r0/t` to the squared radius; for two
surfaces with the radii `r01` (smaller id) and `r02` the first is
`sqrt(r01*r01 + (r02*r02 - r01*r01)/t)` and each pass adds
`(r02*r02 - r01*r01)/t`; here `t = num_rings + 1`. -/
def RadiiSpec (sqrt : F → F) (g : Geometry F) (cell : Cell) (surfs : IntMap (Option Addr))
    (R : Int) (radii : List F) : Prop :=
  (¬ (R + 1 > 1) → radii = []) ∧
  (R + 1 > 1 → cell.getNumSurfaces = 1 → ∃ k0 p rest r0, surfs = (k0, p) :: rest ∧
    circleRadius g (iabs k0) = .ok r0 g ∧
    radii = ringRadii sqrt ((r0 * r0) / ((R + 1 : Int) : F)) (r0 / sqrt ((R + 1 : Int) : F))
      ((R + 1 - 2).toNat + 1)) ∧
  (R + 1 > 1 → cell.getNumSurfaces ≠ 1 → ∃ e1 e2 rest r01 r02, surfs = e1 :: e2 :: rest ∧
    circleRadius g (if iabs e1.1 < iabs e2.1 then iabs e1.1 else iabs e2.1) = .ok r01 g ∧
    circleRadius g (if iabs e1.1 < iabs e2.1 then iabs e2.1 else iabs e1.1) = .ok r02 g ∧
    radii = ringRadii sqrt ((r02 * r02 - r01 * r01) / ((R + 1 : Int) : F))
      (sqrt (r01 * r01 + ((r02 * r02 - r01 * r01) / ((R + 1 : Int) : F))))
      ((R + 1 - 2).toNat + 1))

/-- The state `g` and the address `c` are such as ring refinement hands to `addCell`
for the rings of a cell of universe `u` with material `m` and `S` sectors: the
object at `c` is a material cell of universe `u` with material `m`, no rings and
`S` sectors, its id is not registered and lies below the counter, and the state
satisfies the invariants `FreshIds` and `UnivOK`. -/
def IsRingCell (u m S : Int) (g : Geometry F) (c : Addr) : Prop :=
  FreshIds g ∧ UnivOK g ∧ ∃ cell, g.cellObjs[c]? = some cell ∧ cell.universe_id = u ∧
    cell.data = .basic m 0 S ∧ IntMap.find g.cells cell.id = none ∧ cell.id < g.statics.id

/-- The signed surface ids `keys1` are those of `keys0` plus the two halfspaces `h1`
and `h2`. -/
def HalfspacesAdded (keys0 keys1 : List Int) (h1 h2 : Int) : Prop :=
  ∀ k, k ∈ keys1 ↔ k ∈ keys0 ∨ k = h1 ∨ k = h2

/-- The result `g1` of the sector refinement of the material cell `cell` at `a`, which
`addCell` was called for in the state `g`: two planes `x + y = 0` and
`x - y = 0` with boundary type `NONE` are allocated and registered under the
ids `g.statics.id` and `g.statics.id + 1`; three cell objects are allocated
and registered under the next three ids; the registry of cells has gained
exactly the cell itself and these three; all four are material cells of the
same universe with the material `m`, and each carries the signed surface ids
of `cell` plus one halfspace of each plane, in the four sign combinations
`(+,-)`, `(+,+)`, `(-,-)`, `(-,+)`. -/
structure SectorsAdded (g : Geometry F) (a : Addr) (cell : Cell) (m R : Int)
    (g1 : Geometry F) : Prop where
  planes : ∃ p1 p2 : Surface F, g1.surfaceObjs = g.surfaceObjs ++ [p1, p2] ∧
    p1.id = g.statics.id ∧ p1.boundary = .BOUNDARY_NONE ∧ p1.shape = .plane 1 1 0 ∧
    p2.id = g.statics.id + 1 ∧ p2.boundary = .BOUNDARY_NONE ∧ p2.shape = .plane 1 (-1) 0 ∧
    surfaceAt g1 g.statics.id = some p1 ∧ surfaceAt g1 (g.statics.id + 1) = some p2
  registry : ∀ k, (IntMap.find g1.cells k).isSome = true ↔
    (IntMap.find g.cells k).isSome = true ∨ k = cell.id ∨ k = g.statics.id + 2 ∨
      k = g.statics.id + 3 ∨ k = g.statics.id + 4
  objects : g1.cellObjs.length = g.cellObjs.length + 3
  cells : ∃ c0 c1 c2 c3 : Cell,
    (g1.cellObjs[a]? = some c0 ∧ IntMap.find g1.cells cell.id = some a ∧
      c0.id = cell.id ∧ c0.universe_id = cell.universe_id ∧ c0.data = .basic m R 0 ∧
      HalfspacesAdded (IntMap.keys cell.surfaces) (IntMap.keys c0.surfaces)
        g.statics.id (-(g.statics.id + 1))) ∧
    (g1.cellObjs[g.cellObjs.length]? = some c1 ∧
      IntMap.find g1.cells (g.statics.id + 2) = some g.cellObjs.length ∧
      c1.id = g.statics.id + 2 ∧ c1.universe_id = cell.universe_id ∧
      c1.data = .basic m 0 0 ∧
      HalfspacesAdded (IntMap.keys cell.surfaces) (IntMap.keys c1.surfaces)
        g.statics.id (g.statics.id + 1)) ∧
    (g1.cellObjs[g.cellObjs.length + 1]? = some c2 ∧
      IntMap.find g1.cells (g.statics.id + 3) = some (g.cellObjs.length + 1) ∧
      c2.id = g.statics.id + 3 ∧ c2.universe_id = cell.universe_id ∧
      c2.data = .basic m 0 0 ∧
      HalfspacesAdded (IntMap.keys cell.surfaces) (IntMap.keys c2.surfaces)
        (-g.statics.id) (-(g.statics.id + 1))) ∧
    (g1.cellObjs[g.cellObjs.length + 2]? = some c3 ∧
      IntMap.find g1.cells (g.statics.id + 4) = some (g.cellObjs.length + 2) ∧
      c3.id = g.statics.id + 4 ∧ c3.universe_id = cell.universe_id ∧
      c3.data = .basic m 0 0 ∧
      HalfspacesAdded (IntMap.keys cell.surfaces) (IntMap.keys c3.surfaces)
        (-g.statics.id) (g.statics.id + 1))

/-- The geometry after the lengths of the segments `segs` have been entered into the
segment-length statistics, one after the other. -/
def recordLengths (g : Geometry F) (segs : List (segment F)) : Geometry F :=
  segs.foldl (fun acc s => updateSegLengths acc s.length) g

/-- Modelled from the spec: the part of `Cell::adjustKeys` that makes the surface
container of a cell hold the surfaces' uids.  Every entry is entered into a new
map under the uid of its surface, with the sign of the halfspace. -/
def adjustSurfaceKeys (g : Geometry F) :
    IntMap (Option Addr) → IntMap (Option Addr) → Option (IntMap (Option Addr))
  | [], adjusted => some adjusted
  | (_, none) :: _, _ => none
  | (k, some sa) :: rest, adjusted =>
    match g.surfaceObjs[sa]? with
    | none => none
    | some s =>
      adjustSurfaceKeys g rest
        (IntMap.insert adjusted ((if k < 0 then -1 else 1) * s.uid) (some sa))

/-- Modelled from the spec: `CellBasic::adjustKeys(universe, material)` and
`CellFill::adjustKeys(universe, universe_fill)`.  The cell takes the uid of its
universe and the uid of its material or of its filling universe in the place
of the ids, and its surface container is rekeyed. -/
def Cell.adjustKeys (g : Geometry F) (c : Cell) (universe_uid second : Int) : Option Cell :=
  match adjustSurfaceKeys g c.surfaces [] with
  | none => none
  | some surfaces =>
    some { c with
      universe_id := universe_uid, surfaces := surfaces,
      data := match c.data with
        | .basic _ num_rings num_sectors => .basic second num_rings num_sectors
        | .fill _ ptr => .fill second ptr }

/-- Modelled from the spec: one row of the tile table in `Lattice::adjustKeys()`; the
universe id of every tile is replaced by the uid of the universe it points to. -/
def adjustTileRow (g : Geometry F) :
    List (Int × Option Addr) → Option (List (Int × Option Addr))
  | [] => some []
  | (_, none) :: _ => none
  | (_, some ua) :: rest =>
    match g.universeObjs[ua]?, adjustTileRow g rest with
    | some u, some row => some ((u.uid, some ua) :: row)
    | _, _ => none

/-- Modelled from the spec: the tile table in `Lattice::adjustKeys()`. -/
def adjustTileRows (g : Geometry F) :
    List (List (Int × Option Addr)) → Option (List (List (Int × Option Addr)))
  | [] => some []
  | row :: rest =>
    match adjustTileRow g row, adjustTileRows g rest with
    | some row1, some rest1 => some (row1 :: rest1)
    | _, _ => none

/-- The body of the loop over the cells of `adjustKeys` (lines 911-931). -/
def adjustCellKeys (a : Addr) (g : Geometry F) : Outcome (Geometry F) Unit :=
  match g.cellObjs[a]? with
  | none => .fatal .nullPointer g
  | some cell =>
    match IntMap.find g.universes cell.universe_id with
    | none => .fatal .outOfRange g
    | some ua =>
      match g.universeObjs[ua]? with
      | none => .fatal .nullPointer g
      | some u =>
        let universe_uid := u.uid
        match cell.data with
        | .basic material _ _ =>
          match IntMap.find g.materials material with
          | none => .fatal .outOfRange g
          | some ma =>
            match g.materialObjs[ma]? with
            | none => .fatal .nullPointer g
            | some m =>
              match cell.adjustKeys g universe_uid m.uid with
              | none => .fatal .nullPointer g
              | some cell1 => .ok () { g with cellObjs := g.cellObjs.set a cell1 }
        | .fill universe_fill _ =>
          match IntMap.find g.universes universe_fill with
          | none => .fatal .outOfRange g
          | some fa =>
            match g.universeObjs[fa]? with
            | none => .fatal .nullPointer g
            | some uf =>
              match cell.adjustKeys g universe_uid uf.uid with
              | none => .fatal .nullPointer g
              | some cell1 => .ok () { g with cellObjs := g.cellObjs.set a cell1 }

/-- The body of the loop over the lattices of `adjustKeys` (lines 935-938). -/
def adjustLatticeKeys (a : Addr) (g : Geometry F) : Outcome (Geometry F) Unit :=
  match g.universeObjs[a]? with
  | none => .fatal .nullPointer g
  | some lat =>
    match adjustTileRows g lat.universes with
    | none => .fatal .nullPointer g
    | some rows =>
      .ok () { g with universeObjs := g.universeObjs.set a { lat with universes := rows } }

/-- One of the five loops of `adjustKeys` that fill a new map (lines 947-1035): every
entity of the registry is inserted under its uid; `uidAt` reads the uid of the
object at an address and is `none` for a pointer to no object. -/
def adjustedMap (uidAt : Addr → Option Int) : IntMap Addr → IntMap Addr → Option (IntMap Addr)
  | [], adjusted => some adjusted
  | (_, a) :: rest, adjusted =>
    match uidAt a with
    | none => none
    | some uid => adjustedMap uidAt rest (IntMap.insert adjusted uid a)

/-- The uid of the material object at an address of the object store. -/
def materialUid (objs : List Material) (a : Addr) : Option Int := (objs[a]?).map fun m => m.uid

/-- The uid of the surface object at an address of the object store. -/
def surfaceUid (objs : List (Surface F)) (a : Addr) : Option Int :=
  (objs[a]?).map fun s => s.uid

/-- The uid of the cell object at an address of the object store. -/
def cellUid (objs : List Cell) (a : Addr) : Option Int := (objs[a]?).map fun c => c.uid

/-- The uid of the universe or lattice object at an address of the object store. -/
def universeUid (objs : List (Universe F)) (a : Addr) : Option Int :=
  (objs[a]?).map fun u => u.uid

/-- `Geometry::adjustKeys` (lines 882-1038). -/
def adjustKeys (g : Geometry F) : Outcome (Geometry F) Unit :=
  (forEach (fun entry g => adjustCellKeys entry.2 g) g.cells g).bind fun _ g1 =>
  (forEach (fun entry g => adjustLatticeKeys entry.2 g) g1.lattices g1).bind fun _ g2 =>
  match adjustedMap (materialUid g2.materialObjs) g2.materials [] with
  | none => .fatal .nullPointer g2
  | some adjusted_materials =>
    let g3 := { g2 with materials := adjusted_materials }
    match adjustedMap (surfaceUid g3.surfaceObjs) g3.surfaces [] with
    | none => .fatal .nullPointer g3
    | some adjusted_surfaces =>
      let g4 := { g3 with surfaces := adjusted_surfaces }
      match adjustedMap (cellUid g4.cellObjs) g4.cells [] with
      | none => .fatal .nullPointer g4
      | some adjusted_cells =>
        let g5 := { g4 with cells := adjusted_cells }
        match adjustedMap (universeUid g5.universeObjs) g5.universes [] with
        | none => .fatal .nullPointer g5
        | some adjusted_universes =>
          let g6 := { g5 with universes := adjusted_universes }
          match adjustedMap (universeUid g6.universeObjs) g6.lattices [] with
          | none => .fatal .nullPointer g6
          | some adjusted_lattices => .ok () { g6 with lattices := adjusted_lattices }

/-- The references of the cell object at `a` resolve: its universe id and its
material id or the id of its filling universe are registered with an object, and
every surface pointer of the cell points to a surface object. -/
def CellResolved (g : Geometry F) (a : Addr) : Prop :=
  ∃ cell, g.cellObjs[a]? = some cell ∧
    (∃ ua u, IntMap.find g.universes cell.universe_id = some ua ∧
      g.universeObjs[ua]? = some u) ∧
    (∀ material num_rings num_sectors, cell.data = .basic material num_rings num_sectors →
      ∃ ma m, IntMap.find g.materials material = some ma ∧ g.materialObjs[ma]? = some m) ∧
    (∀ universe_fill ptr, cell.data = .fill universe_fill ptr →
      ∃ fa uf, IntMap.find g.universes universe_fill = some fa ∧
        g.universeObjs[fa]? = some uf) ∧
    ∀ e ∈ cell.surfaces, ∃ sa, e.2 = some sa ∧ sa < g.surfaceObjs.length

/-- The tiles of the lattice object at `a` all point to a universe object. -/
def LatticeResolved (g : Geometry F) (a : Addr) : Prop :=
  ∃ lat, g.universeObjs[a]? = some lat ∧
    ∀ row ∈ lat.universes, ∀ t ∈ row, ∃ ua, t.2 = some ua ∧ ua < g.universeObjs.length

/-- The state in which `adjustKeys` is called has no dangling reference: every
registry entry points to an object, no cell object and no lattice object is
registered twice, and the references of the registered cells and lattices resolve. -/
structure KeysResolved (g : Geometry F) : Prop where
  cells_once : (g.cells.map Prod.snd).Nodup
  lattices_once : (g.lattices.map Prod.snd).Nodup
  cells : ∀ e ∈ g.cells, CellResolved g e.2
  lattices : ∀ e ∈ g.lattices, LatticeResolved g e.2
  materials : ∀ e ∈ g.materials, e.2 < g.materialObjs.length
  surfaces : ∀ e ∈ g.surfaces, e.2 < g.surfaceObjs.length
  universes : ∀ e ∈ g.universes, e.2 < g.universeObjs.length

/-- The registry `new` is the registry `old` rekeyed by uid: every entry of `new` is
an entity of `old` under its own uid; and when the entities of `old` have pairwise
distinct uids, every one of them is in `new` and the sizes agree. -/
def Rekeyed (uidAt : Addr → Option Int) (old new : IntMap Addr) : Prop :=
  (∀ e ∈ new, uidAt e.2 = some e.1 ∧ ∃ k0, (k0, e.2) ∈ old) ∧
  (old.Pairwise (fun e1 e2 => uidAt e1.2 ≠ uidAt e2.2) →
    (∀ e ∈ old, ∃ u, uidAt e.2 = some u ∧ (u, e.2) ∈ new) ∧ new.length = old.length)

/-- The tile indices at the LAT levels of a chain, from the top down, each with the
id of its lattice. -/
def latticeIndices (coords : List (LocalCoords F)) : List (Int × Int × Int) :=
  (coords.filter fun l => l.type = .LAT).map fun l => (l.lattice, l.lattice_x, l.lattice_y)

/-- The two counting arrays `count_positive` and `count_negative` of
`buildNeighborsLists`, each of the length it was declared with. -/
structure NeighborCounts where
  positive : List Int
  negative : List Int
  deriving DecidableEq, Repr

/-- The statement `count[surface]++` on one of the counting arrays; `none` is an
access outside the array. -/
def bumpCount (counts : List Int) (surface : Int) : Option (List Int) :=
  if surface < 0 then none
  else
    match counts[surface.toNat]? with
    | none => none
    | some c => some (counts.set surface.toNat (c + 1))

/-- The read `count[surface]` of one of the counting arrays; `none` is an access
outside the array. -/
def readCount (counts : List Int) (surface : Int) : Option Int :=
  if surface < 0 then none else counts[surface.toNat]?

/-- The body of the first loop over the surfaces of a cell (lines 1072-1080): the
count of the halfspace is raised. -/
def countSurface (entry : Int × Option Addr) (st : Geometry F × NeighborCounts) :
    Outcome (Geometry F × NeighborCounts) Unit :=
  let surface_id := entry.1
  let sense := decide (surface_id > 0)
  let surface_id := iabs surface_id
  if sense then
    match bumpCount st.2.positive surface_id with
    | none => .fatal .outOfRange st
    | some counts => .ok () (st.1, { st.2 with positive := counts })
  else
    match bumpCount st.2.negative surface_id with
    | none => .fatal .outOfRange st
    | some counts => .ok () (st.1, { st.2 with negative := counts })

/-- Modelled from the spec: `Surface::setNeighborPosSize(size)` and
`Surface::setNeighborNegSize(size)`; the list is sized to hold exactly `size`
cells. -/
def sizedList (size : Int) : List Int := List.replicate size.toNat 0

/-- The body of the loop that allocates the neighbour lists (lines 1084-1090). -/
def allocateNeighbors (entry : Int × Addr) (st : Geometry F × NeighborCounts) :
    Outcome (Geometry F × NeighborCounts) Unit :=
  let surface := entry.1
  match readCount st.2.positive surface, readCount st.2.negative surface with
  | some cp, some cn =>
    if cp > 0 ∨ cn > 0 then
      match st.1.surfaceObjs[entry.2]? with
      | none => .fatal .nullPointer st
      | some s =>
        let s1 : Surface F := if cp > 0 then { s with neighbor_pos := sizedList cp } else s
        let s2 : Surface F := if cn > 0 then { s1 with neighbor_neg := sizedList cn } else s1
        .ok () ({ st.1 with surfaceObjs := st.1.surfaceObjs.set entry.2 s2 }, st.2)
    else .ok () st
  | _, _ => .fatal .outOfRange st

/-- Modelled from the spec: `Surface::setNeighborPos(index, cell)` and
`Surface::setNeighborNeg(index, cell)` store the cell at the position `index` of
the list; `none` is a position outside the list. -/
def storeNeighbor (l : List Int) (index : Int) (cell : Int) : Option (List Int) :=
  if index < 0 ∨ (l.length : Int) ≤ index then none else some (l.set index.toNat cell)

/-- The body of the second loop over the surfaces of a cell (lines 1103-1118): the
count of the halfspace is raised and the cell, here its address, is stored at
the position the count gives. -/
def enterNeighbor (cell : Addr) (entry : Int × Option Addr)
    (st : Geometry F × NeighborCounts) : Outcome (Geometry F × NeighborCounts) Unit :=
  let surface := entry.1
  let sense := decide (surface > 0)
  let surface := iabs surface
  if sense then
    match bumpCount st.2.positive surface with
    | none => .fatal .outOfRange st
    | some counts =>
      let st1 : Geometry F × NeighborCounts := (st.1, { st.2 with positive := counts })
      match entry.2, readCount counts surface with
      | some sa, some index =>
        match st.1.surfaceObjs[sa]? with
        | none => .fatal .nullPointer st1
        | some s =>
          match storeNeighbor s.neighbor_pos index cell with
          | none => .fatal .outOfRange st1
          | some l =>
            .ok () ({ st.1 with surfaceObjs :=
              st.1.surfaceObjs.set sa { s with neighbor_pos := l } }, st1.2)
      | _, _ => .fatal .nullPointer st1
  else
    match bumpCount st.2.negative surface with
    | none => .fatal .outOfRange st
    | some counts =>
      let st1 : Geometry F × NeighborCounts := (st.1, { st.2 with negative := counts })
      match entry.2, readCount counts surface with
      | some sa, some index =>
        match st.1.surfaceObjs[sa]? with
        | none => .fatal .nullPointer st1
        | some s =>
          match storeNeighbor s.neighbor_neg index cell with
          | none => .fatal .outOfRange st1
          | some l =>
            .ok () ({ st.1 with surfaceObjs :=
              st.1.surfaceObjs.set sa { s with neighbor_neg := l } }, st1.2)
      | _, _ => .fatal .nullPointer st1

/-- A loop over all cells of the registry and, for each, over its surfaces (lines
1068-1081 and 1099-1119). -/
def forCellSurfaces
    (body : Addr → Int × Option Addr → Geometry F × NeighborCounts →
      Outcome (Geometry F × NeighborCounts) Unit)
    (entry : Int × Addr) (st : Geometry F × NeighborCounts) :
    Outcome (Geometry F × NeighborCounts) Unit :=
  match st.1.cellObjs[entry.2]? with
  | none => .fatal .nullPointer st
  | some cell => forEach (body entry.2) cell.surfaces st

/-- `Geometry::buildNeighborsLists` (lines 1046-1122).  The state carries the
geometry and the two counting arrays. -/
def buildNeighborsLists (g : Geometry F) : Outcome (Geometry F × NeighborCounts) Unit :=
  let zeros := List.replicate g.surfaces.length (0 : Int)
  (forEach (forCellSurfaces fun _ => countSurface) g.cells
    (g, { positive := zeros, negative := zeros })).bind fun _ st1 =>
  (forEach allocateNeighbors st1.1.surfaces st1).bind fun _ st2 =>
  forEach (forCellSurfaces enterNeighbor) st2.1.cells
    (st2.1, { positive := zeros, negative := zeros })

/-- The neighbour lists of the surface objects, in the order of the object store. -/
def neighborLists (g : Geometry F) : List (List Int × List Int) :=
  g.surfaceObjs.map fun s => (s.neighbor_pos, s.neighbor_neg)

/-- `Geometry::getMaxSegmentLength` (lines 142-144). -/
def Geometry.getMaxSegmentLength (g : Geometry F) : Ext F := g.max_seg_length

/-- `Geometry::getMinSegmentLength` (lines 150-152). -/
def Geometry.getMinSegmentLength (g : Geometry F) : Ext F := g.min_seg_length

/-- A sequence of calls `segmentize(track)` on one geometry, one for each track of the
list in its order: every call runs on the geometry the call before it has left.
The result holds the geometry after the last call and the tracks as the calls
have left them; the sequence ends with the first call that does not return. -/
def segmentizeAll (T : Tracer F) (fuel : Nat) :
    List (Track F) → Geometry F → Outcome (Geometry F × List (Track F)) Unit
  | [], g => .ok () (g, [])
  | track :: rest, g =>
    match segmentize T fuel g track with
    | .outOfFuel => .outOfFuel
    | .fatal e st => .fatal e (st.1, [st.2])
    | .ok _ st =>
      match segmentizeAll T fuel rest st.1 with
      | .outOfFuel => .outOfFuel
      | .fatal e st1 => .fatal e (st1.1, st.2 :: st1.2)
      | .ok _ st1 => .ok () (st1.1, st.2 :: st1.2)

/-- The segments that a sequence of calls has created: for every track the segments
it holds after the calls beyond those it held before. -/
def createdSegments : List (Track F) → List (Track F) → List (segment F)
  | t :: before, t1 :: after =>
    t1.segments.drop t.segments.length ++ createdSegments before after
  | _, _ => []

/-- The rotation of a point by `pi/2` about the origin, counterclockwise. -/
def rotate (p : F × F) : F × F := (-p.2, p.1)

/-- Modelled from the spec: the point set of a cell, `Cell::contains(point)` (section
4.2) with every surface of the cell looked up in the registry of surfaces under
the absolute value of its signed id, as lines 310-323 of `addCell` resolve it:
every halfspace constraint `sign(signed id) * evaluate(point) >= 0` holds. -/
def cellRegion (g : Geometry F) (c : Cell) (p : F × F) : Bool :=
  (IntMap.keys c.surfaces).all fun k =>
    match surfaceAt g (iabs k) with
    | none => false
    | some s => decide (0 ≤ (if k < 0 then -1 else 1) * s.evaluate p)

/-- The surface pointers of a cell agree with the registry of surfaces: every entry
points to the surface object registered under the absolute value of its key. -/
def pointersResolved (g : Geometry F) (c : Cell) : Bool :=
  c.surfaces.all fun e =>
    match e.2 with
    | none => false
    | some sa =>
      decide (IntMap.find g.surfaces (iabs e.1) = some sa) && (g.surfaceObjs[sa]?).isSome

/-- The shape of the `j`-th cell that the ring refinement of a disk cell of universe
`u` with material `m` generates when the static counter stands at `id0`: the cell
has the id `id0 + j`, no rings and no sectors; the innermost one (`j = 0`)
carries the inside of its own circle, every further one the inside of its own
circle and the outside of the circle generated before. -/
def ringShape (u m id0 : Int) (j : Nat) : Int × Int × List Int × CellData :=
  (id0 + j, u, if j = 0 then [-id0] else [-(id0 + j), id0 + j - 1], .basic m 0 0)

/-- The shape of the cell that pass `j` of the ring loop generates when the loop starts
with the static counter at `id0`: the cell `id0 + j` carries the inside of its
own circle and the outside of the circle generated before. -/
def loopShape (u m id0 : Int) (j : Nat) : Int × Int × List Int × CellData :=
  (id0 + j, u, [-(id0 + j), id0 + j - 1], .basic m 0 0)

/-- The state `g1` extends `g` by `n` ring cells: the cell objects of `g` keep their
shapes and are followed by `n` new ones with the shapes `shape 0`, ...,
`shape (n - 1)`, the `j`-th of which is registered under the id
`g.statics.id + j`. -/
def RingCells (g g1 : Geometry F) (n : Nat) (shape : Nat → Int × Int × List Int × CellData) :
    Prop :=
  g1.cellObjs.map Cell.shape = g.cellObjs.map Cell.shape ++ (List.range n).map shape ∧
  ∀ j : Nat, j < n → IntMap.find g1.cells (g.statics.id + j) = some (g.cellObjs.length + j)

/-- The number of ids that one ring of a refinement with `S` sectors draws from the
static counter: one for the circle and the ring cell, and with four sectors five
more for the two planes and the three cells of the sector refinement of the ring
cell. -/
def ringStride (S : Int) : Nat := if S = 4 then 6 else 1

/-- The number of cell objects that one ring of a refinement with `S` sectors
allocates: the ring cell, and with four sectors its three sector cells. -/
def ringObjects (S : Int) : Nat := if S = 4 then 4 else 1

/-- In the state `g` the id `id` names a ring cell: the cell registry holds the
address `b` under `id`, the cell object at `b` carries this id, is a material cell
of universe `u` with the material `m`, no rings and `S` sectors, is a member of
the universe registered under its universe id, and has the signed surface ids
`keys` among its surfaces. -/
def RingCellIn (g : Geometry F) (u m S id : Int) (b : Addr) (keys : List Int) : Prop :=
  ∃ c, IntMap.find g.cells id = some b ∧ g.cellObjs[b]? = some c ∧ c.id = id ∧
    c.universe_id = u ∧ c.data = .basic m 0 S ∧ Member g c b ∧
    ∀ k ∈ keys, k ∈ IntMap.keys c.surfaces

/-- In the state `g` the id `id` names a sector cell: the cell registry holds the
address `b` under `id`, the cell object at `b` carries this id, is a material cell
of universe `u` with the material `m`, no rings and no sectors, and has the signed
surface ids `keys` among its surfaces. -/
def SectorCellIn (g : Geometry F) (u m id : Int) (b : Addr) (keys : List Int) : Prop :=
  ∃ c, IntMap.find g.cells id = some b ∧ g.cellObjs[b]? = some c ∧ c.id = id ∧
    c.universe_id = u ∧ c.data = .basic m 0 0 ∧
    ∀ k ∈ keys, k ∈ IntMap.keys c.surfaces

/-- In the state `g` the ring cell `id` at the address `b` has been sector-refined:
the planes `x + y = 0` and `x - y = 0` are registered under the next two ids, the
ring cell has its sector count cleared and carries the halfspaces `+` and `-` of
them next to the inside of its circle, and the next three ids name three sector
cells at the next three addresses, which carry the inside of the circle and the
halfspaces `(+,+)`, `(-,-)` and `(-,+)` of the planes. -/
structure RingSectorsIn (g : Geometry F) (u m id : Int) (b : Addr) : Prop where
  plane1 : ∃ p, surfaceAt g (id + 1) = some p ∧ p.shape = .plane 1 1 0
  plane2 : ∃ p, surfaceAt g (id + 2) = some p ∧ p.shape = .plane 1 (-1) 0
  ring : RingCellIn g u m 0 id b [-id, id + 1, -(id + 2)]
  sector1 : SectorCellIn g u m (id + 3) (b + 1) [-id, id + 1, id + 2]
  sector2 : SectorCellIn g u m (id + 4) (b + 2) [-id, -(id + 1), -(id + 2)]
  sector3 : SectorCellIn g u m (id + 5) (b + 3) [-id, -(id + 1), id + 2]

/-- In the state `g` the ring with the id `id` of a refinement for a cell of universe
`u` with the material `m` and `S` sectors is in place: a circle about the origin
is registered under `id`; for `S = 4` the ring cell `id` at the address `b` is
registered and sector-refined, otherwise it is registered with `S` sectors and
carries the inside of its circle. -/
def RingIn (g : Geometry F) (u m S id : Int) (b : Addr) : Prop :=
  (∃ s r, surfaceAt g id = some s ∧ s.shape = .circle 0 0 r) ∧
  (S ≠ 4 → RingCellIn g u m S id b [-id]) ∧
  (S = 4 → RingSectorsIn g u m id b)

/-- What the steps of the refinement of the cell at `a`, a cell of universe `u`, keep:
the id bookkeeping of `GrowsIds`, the universes as in `GrowsUniv`, and the place
and the shape of every cell object other than the one at `a`. -/
structure Carried (u : Int) (a : Addr) (g g1 : Geometry F) : Prop where
  ids : GrowsIds g g1
  univ : GrowsUniv u g g1
  keeps : ∀ (b : Addr) (c : Cell), g.cellObjs[b]? = some c → b ≠ a →
    ∃ c1, g1.cellObjs[b]? = some c1 ∧ c1.shape = c.shape

/-- What the steps of the refinement of a cell of universe `u` with the material `m`
rely on: unused ids from the counter on, consistent universes, the universe and
the material registered, and a positive counter. -/
structure StepInv (u m : Int) (g : Geometry F) : Prop where
  fresh : FreshIds g
  ok : UnivOK g
  univ : ∃ ua, IntMap.find g.universes u = some ua
  mat : (IntMap.find g.materials m).isSome = true
  pos : 0 < g.statics.id

/-- What the ring refinement of the cell object `c` at `a`, a cell of universe `u` with
the material `m` and `S` sectors, has reached in the state `g1` when it started
in `g` and made `n` rings: the invariants hold, the other cell objects are
kept, `n` times `ringObjects S` cell objects have been allocated, the `n` rings
are in place under the ids and at the addresses that the counter and the
allocation give them, and the cell object at `a` keeps its id, universe and
data and carries signed surface ids that it had or that name a registered
surface. -/
structure RingsPost (u m S : Int) (a : Addr) (n : Nat) (g g1 : Geometry F) (c : Cell) :
    Prop where
  inv : StepInv u m g1
  kept : Carried u a g g1
  objects : g1.cellObjs.length = g.cellObjs.length + n * ringObjects S
  rings : ∀ j : Nat, j < n →
    RingIn g1 u m S (g.statics.id + ((j * ringStride S : Nat) : Int))
      (g.cellObjs.length + j * ringObjects S)
  original : ∃ c1, g1.cellObjs[a]? = some c1 ∧ c1.universe_id = c.universe_id ∧
    (∀ m1 R1 S1, c.data = .basic m1 R1 S1 → c1.data = .basic m1 R1 S1) ∧
    ∀ k ∈ IntMap.keys c1.surfaces, k ∈ IntMap.keys c.surfaces ∨
      ∃ sa, IntMap.find g1.surfaces (iabs k) = some sa ∧ sa < g1.surfaceObjs.length

end Statements

/-! ## Concrete inputs -/

/-- The static variables at program start: `id = 10000`, all uid counters zero. -/
def startStatics : Statics :=
  { id := 10000, material_n := 0, surface_n := 0, cell_n := 0, universe_n := 0 }

/-- A state over the rationals in which material 1, surface 1 (the circle of
radius 1), cell 1 of universe 0 and lattice 2 are registered, and in which a
second, unregistered object with the same id sits at the next address of each
object store (the second universe object of id 0 at address 3). -/
def dupGeometry : Geometry ℚ :=
  { Geometry.init startStatics with
    materialObjs := [⟨0, 1, true⟩, ⟨1, 1, true⟩],
    surfaceObjs := [{ Circle 1 .BOUNDARY_NONE 0 0 1 with uid := 0 },
                    { Circle 1 .REFLECTIVE 0 0 2 with uid := 1 }],
    cellObjs := [{ CellBasic 1 0 1 [-1] 1 0 0 with surfaces := [(-1, some 0)] },
                 { CellBasic 1 0 0 [] 1 0 0 with uid := 1 }],
    universeObjs := [{ Universe.simple 0 with cells := [(1, 0)] },
                     { (Lattice 2 1 1 1 1 [[0]]).setUniversePointer 0 0 with uid := 1 },
                     { Lattice 2 1 1 1 1 [[0]] with uid := 2 },
                     { Universe.simple 0 with uid := 3 }],
    materials := [(1, 0)], surfaces := [(1, 0)], cells := [(1, 0)],
    universes := [(0, 0), (2, 1)], lattices := [(2, 1)],
    statics := { id := 10000, material_n := 2, surface_n := 2, cell_n := 2,
                 universe_n := 4 } }

/-- A state over the rationals with material 1 and surface 1 registered and two
unregistered cell objects: at address 0 a material cell naming material 9, at
address 1 a material cell of material 1 naming the surfaces 1 and 5. -/
def missingRefGeometry : Geometry ℚ :=
  { Geometry.init startStatics with
    materialObjs := [⟨0, 1, true⟩],
    surfaceObjs := [{ Circle 1 .BOUNDARY_NONE 0 0 1 with uid := 0 }],
    cellObjs := [CellBasic 7 0 0 [] 9 0 0,
                 { CellBasic 8 0 2 [-1, 5] 1 0 0 with uid := 1 }],
    materials := [(1, 0)], surfaces := [(1, 0)],
    statics := { id := 10000, material_n := 1, surface_n := 1, cell_n := 2,
                 universe_n := 0 } }

/-- The state an outcome carries; the empty geometry when the recursion budget ran
out. -/
def stateOf (r : Outcome (Geometry ℚ) Unit) : Geometry ℚ :=
  match r with
  | .ok _ g => g
  | .fatal _ g => g
  | .outOfFuel => Geometry.init startStatics

/-- Registration of the parser input followed by the FSR enumeration, the
constructor up to line 63. -/
def enumerated (sqrt : ℚ → ℚ) (input : ParserInput ℚ) : Outcome (Geometry ℚ) Unit :=
  (registerAll sqrt 3 startStatics input).bind fun _ g => enumerateFSRs 3 g

/-- Parser input with a root universe that mixes a material cell and a fill cell:
universe 0 holds the material cell 1 and the fill cell 2, which is filled with
universe 5; universe 5 holds the material cells 3 and 4.  The fill cell is
delivered first. -/
def mixedInput : ParserInput ℚ :=
  { materials := [⟨0, 1, true⟩], surfaces := [],
    cells := [CellFill 2 0 0 [] 5, CellBasic 1 0 0 [] 1 0 0, CellBasic 3 5 0 [] 1 0 0,
              CellBasic 4 5 0 [] 1 0 0],
    lattices := [] }

/-- The state of the geometry for `mixedInput` after registration and FSR
enumeration. -/
def mixedGeometry : Geometry ℚ := stateOf (enumerated (fun x => x) mixedInput)

/-- Parser input in which the fill cell 2 (of universe 7, filled with universe 5) is
delivered after the first cell of universe 5. -/
def lateFillInput : ParserInput ℚ :=
  { materials := [⟨0, 1, true⟩], surfaces := [],
    cells := [CellBasic 1 0 0 [] 1 0 0, CellBasic 3 5 0 [] 1 0 0, CellFill 2 7 0 [] 5],
    lattices := [] }

/-- The cells of `lateFillInput` with the fill cell delivered first. -/
def earlyFillInput : ParserInput ℚ :=
  { materials := [⟨0, 1, true⟩], surfaces := [],
    cells := [CellFill 2 7 0 [] 5, CellBasic 1 0 0 [] 1 0 0, CellBasic 3 5 0 [] 1 0 0],
    lattices := [] }

/-- Parser input in which the fill cell 2 of the root universe is delivered after
the first cell of universe 5, which fills it. -/
def lateFillRootInput : ParserInput ℚ :=
  { materials := [⟨0, 1, true⟩], surfaces := [],
    cells := [CellBasic 3 5 0 [] 1 0 0, CellFill 2 0 0 [] 5],
    lattices := [] }

/-- Parser input in which the fill cell 2 names universe 9, which no cell and no
lattice ever registers. -/
def unknownFillInput : ParserInput ℚ :=
  { materials := [⟨0, 1, true⟩], surfaces := [],
    cells := [CellBasic 1 0 0 [] 1 0 0, CellFill 2 7 0 [] 9],
    lattices := [] }

/-- The line `x = c` as the plane `x - c = 0`, with boundary type `NONE`. -/
def xLine {F : Type} [LinearOrderedField F] (id : Int) (c : F) : Surface F :=
  Plane id .BOUNDARY_NONE 1 0 (-c)

/-- The line `y = c` as the plane `y - c = 0`, with boundary type `NONE`. -/
def yLine {F : Type} [LinearOrderedField F] (id : Int) (c : F) : Surface F :=
  Plane id .BOUNDARY_NONE 0 1 (-c)

/-- Parser input for the round trip: the root universe holds the fill cell 1 on the
halfplane `x <= 0`, filled with universe 5, and the material cell 2 on the
halfplane `x >= 0`; universe 5 holds the material cells 3 (`y <= 0`) and 4
(`y >= 0`). -/
def roundTripInput : ParserInput ℚ :=
  { materials := [⟨0, 1, true⟩], surfaces := [xLine 1 0, yLine 2 0],
    cells := [CellFill 1 0 1 [-1] 5, CellBasic 2 0 1 [1] 1 0 0, CellBasic 3 5 1 [-2] 1 0 0,
              CellBasic 4 5 1 [2] 1 0 0],
    lattices := [] }

/-- The geometry the constructor builds from `roundTripInput`. -/
def roundTripGeometry : Geometry ℚ :=
  stateOf (Geometry.build (fun x => x) 3 startStatics roundTripInput)

/-- The cell of the unit disk as the parser delivers it: bounded by the circle 1,
material 1, `num_rings = 2`, no sectors. -/
def diskCell : Cell := CellBasic 1 0 1 [-1] 1 2 0

/-- The state in which `addCell` is called for the unit disk: the material 1 and the
circle 1 of radius 1 about the origin are registered, the cell object is
allocated, and no cell has been added yet. -/
def diskGeometry (F : Type) [LinearOrderedField F] : Geometry F :=
  { (Geometry.init startStatics : Geometry F) with
    materialObjs := [⟨0, 1, true⟩],
    surfaceObjs := [Circle 1 .BOUNDARY_NONE 0 0 1],
    cellObjs := [diskCell],
    materials := [(1, 0)], surfaces := [(1, 0)],
    statics := { id := 10000, material_n := 1, surface_n := 1, cell_n := 1,
                 universe_n := 0 } }

/-! ## Inputs and notions for the ray tracing claims -/

section TracingInputs

variable {F : Type} [LinearOrderedField F]

/-- The reflective line `x = c`, given as the plane `x - c = 0`; it reports the
extent `c` in `x` and no extent in `y`. -/
def xWall (id : Int) (c : F) : Surface F :=
  { uid := 0, id := id, boundary := .REFLECTIVE, shape := .plane 1 0 (-c),
    x_min := .fin c, x_max := .fin c, y_min := .posInf, y_max := .negInf,
    neighbor_pos := [], neighbor_neg := [] }

/-- The reflective line `y = c`, given as the plane `y - c = 0`. -/
def yWall (id : Int) (c : F) : Surface F :=
  { uid := 0, id := id, boundary := .REFLECTIVE, shape := .plane 0 1 (-c),
    x_min := .posInf, x_max := .negInf, y_min := .fin c, y_max := .fin c,
    neighbor_pos := [], neighbor_neg := [] }

/-- Parser input of scenario S1: one material cell bounded by the four reflective
lines `x = -1`, `x = 1`, `y = -1`, `y = 1`, alone in the root universe. -/
def squareInput (F : Type) [LinearOrderedField F] : ParserInput F :=
  { materials := [⟨0, 1, true⟩],
    surfaces := [xWall 1 (-1), xWall 2 1, yWall 3 (-1), yWall 4 1],
    cells := [CellBasic 1 0 4 [1, -2, 3, -4] 1 0 0],
    lattices := [] }

/-- The cell of `squareInput` once registered. -/
def squareCell : Cell :=
  { uid := 0, id := 1, universe_id := 0,
    surfaces := [(-4, some 3), (-2, some 1), (1, some 0), (3, some 2)],
    data := .basic 1 0 0 }

/-- The root universe of `squareInput` after the FSR enumeration. -/
def squareUniverse (F : Type) [LinearOrderedField F] : Universe F :=
  { Universe.simple 0 with cells := [(1, 0)], region_map := [(1, 0)] }

/-- The geometry the constructor builds from `squareInput`. -/
def squareGeometry (F : Type) [LinearOrderedField F] : Geometry F :=
  { materialObjs := [⟨0, 1, true⟩],
    surfaceObjs := [xWall 1 (-1), { xWall 2 1 with uid := 1 },
                    { yWall 3 (-1) with uid := 2 }, { yWall 4 1 with uid := 3 }],
    cellObjs := [squareCell],
    universeObjs := [squareUniverse F],
    materials := [(1, 0)], surfaces := [(1, 0), (2, 1), (3, 2), (4, 3)],
    cells := [(1, 0)], universes := [(0, 0)], lattices := [],
    num_FSRs := 1, FSRs_to_cells := [1], FSRs_to_materials := [1],
    x_min := .fin (-1), y_min := .fin (-1), x_max := .fin 1, y_max := .fin 1,
    max_seg_length := .fin 0, min_seg_length := .posInf,
    statics := { id := 10000, material_n := 1, surface_n := 4, cell_n := 1,
                 universe_n := 1 } }

/-- The state of the constructor on `squareInput` after the surfaces are in. -/
def squareSurfacesOnly (F : Type) [LinearOrderedField F] : Geometry F :=
  { squareGeometry F with
    cellObjs := [], universeObjs := [], cells := [], universes := [],
    num_FSRs := 0, FSRs_to_cells := [], FSRs_to_materials := [],
    statics := { id := 10000, material_n := 1, surface_n := 4, cell_n := 0,
                 universe_n := 0 } }

/-- Parser input of the square of S1 cut by the line `x = 0` into the material
cells 1 (left) and 2 (right), both in the root universe. -/
def splitInput (F : Type) [LinearOrderedField F] : ParserInput F :=
  { materials := [⟨0, 1, true⟩],
    surfaces := [xWall 1 (-1), xWall 2 1, yWall 3 (-1), yWall 4 1, xLine 5 0],
    cells := [CellBasic 1 0 4 [1, -5, 3, -4] 1 0 0, CellBasic 2 0 4 [5, -2, 3, -4] 1 0 0],
    lattices := [] }

/-- The left cell of `splitInput` once registered. -/
def leftCell : Cell :=
  { uid := 0, id := 1, universe_id := 0,
    surfaces := [(-5, some 4), (-4, some 3), (1, some 0), (3, some 2)],
    data := .basic 1 0 0 }

/-- The right cell of `splitInput` once registered. -/
def rightCell : Cell :=
  { uid := 1, id := 2, universe_id := 0,
    surfaces := [(-4, some 3), (-2, some 1), (3, some 2), (5, some 4)],
    data := .basic 1 0 0 }

/-- The root universe of `splitInput` after the FSR enumeration. -/
def splitUniverse (F : Type) [LinearOrderedField F] : Universe F :=
  { Universe.simple 0 with cells := [(1, 0), (2, 1)], region_map := [(1, 0), (2, 1)] }

/-- The geometry the constructor builds from `splitInput`. -/
def splitGeometry (F : Type) [LinearOrderedField F] : Geometry F :=
  { materialObjs := [⟨0, 1, true⟩],
    surfaceObjs := [xWall 1 (-1), { xWall 2 1 with uid := 1 },
                    { yWall 3 (-1) with uid := 2 }, { yWall 4 1 with uid := 3 },
                    { xLine 5 0 with uid := 4 }],
    cellObjs := [leftCell, rightCell],
    universeObjs := [splitUniverse F],
    materials := [(1, 0)], surfaces := [(1, 0), (2, 1), (3, 2), (4, 3), (5, 4)],
    cells := [(1, 0), (2, 1)], universes := [(0, 0)], lattices := [],
    num_FSRs := 2, FSRs_to_cells := [1, 2], FSRs_to_materials := [1, 1],
    x_min := .fin (-1), y_min := .fin (-1), x_max := .fin 1, y_max := .fin 1,
    max_seg_length := .fin 0, min_seg_length := .posInf,
    statics := { id := 10000, material_n := 1, surface_n := 5, cell_n := 2,
                 universe_n := 1 } }

/-- The state of the constructor on `splitInput` after the surfaces are in. -/
def splitSurfacesOnly (F : Type) [LinearOrderedField F] : Geometry F :=
  { splitGeometry F with
    cellObjs := [], universeObjs := [], cells := [], universes := [],
    num_FSRs := 0, FSRs_to_cells := [], FSRs_to_materials := [],
    statics := { id := 10000, material_n := 1, surface_n := 5, cell_n := 0,
                 universe_n := 0 } }

/-- What the ray tracing reads of the split square: the registries of universes
and materials, the root universe, the two cells and the five surfaces. -/
def SplitFacts (g : Geometry F) : Prop :=
  g.universes = [(0, 0)] ∧ g.materials = [(1, 0)] ∧
  g.universeObjs[0]? = some (splitUniverse F) ∧
  g.cellObjs[0]? = some leftCell ∧ g.cellObjs[1]? = some rightCell ∧
  g.surfaceObjs[0]? = some (xWall 1 (-1) : Surface F) ∧
  g.surfaceObjs[1]? = some ({ (xWall 2 1 : Surface F) with uid := 1 }) ∧
  g.surfaceObjs[2]? = some ({ (yWall 3 (-1) : Surface F) with uid := 2 }) ∧
  g.surfaceObjs[3]? = some ({ (yWall 4 1 : Surface F) with uid := 3 }) ∧
  g.surfaceObjs[4]? = some ({ (xLine 5 0 : Surface F) with uid := 4 })

/-- The link of the root universe at the point `(x, y)` with the cell id `cell`. -/
def rootLink (x y : F) (cell : Int) : LocalCoords F :=
  { LocalCoords.new x y 0 with cell := cell }

/-- One call of `findNextCell` made by the loop of `segmentize`: the geometry state
and recursion budget of the call, the cell found before the call, the
coordinates held before the call, the cell the call returned and the coordinates
held after it. -/
structure TraceStep (F : Type) where
  g : Geometry F
  fuel : Nat
  prev : Addr
  start : List (LocalCoords F)
  next : Option Addr
  stop : List (LocalCoords F)

/-- The steps are the successive `findNextCell` calls of the loop of `segmentize`
when it is entered with the cell `curr` and the coordinates `coords`: each call
starts where the one before stopped, with the cell the one before returned, and
the last call returns null. -/
def IsTrace (T : Tracer F) (phi : F) :
    Option Addr → List (LocalCoords F) → List (TraceStep F) → Prop
  | curr, _, [] => curr = none
  | curr, coords, s :: rest =>
    curr = some s.prev ∧ s.start = coords ∧
    findNextCell T s.fuel s.g coords phi = .ok s.next s.stop ∧
    IsTrace T phi s.next s.stop rest

/-- The segment that belongs to a call: its length is the distance between the
coordinates held before and after the call, its material is the material of the
cell found before the call, its region id is `findFSRId` of the start
coordinates. -/
def IsStepSegment (T : Tracer F) (s : TraceStep F) (seg : segment F) : Prop :=
  ∃ p_start p_end, getPoint s.start = some p_start ∧ getPoint s.stop = some p_end ∧
    seg.length = T.distance p_end p_start ∧
    segmentMaterial s.g s.prev = .ok seg.material ∧
    findFSRId s.g s.start = .ok seg.region_id

/-- Two states differ at most in the segment-length statistics. -/
def sameButLengths (g1 g : Geometry F) : Prop :=
  ∃ mx mn, g1 = { g with max_seg_length := mx, min_seg_length := mn }

end TracingInputs

/-- Parser input with a lattice: the root universe holds the fill cell 1, filled with
lattice 1; the lattice has one tile of width 2 holding universe 2; universe 2
holds the material cell 2, which has no surfaces. -/
def tileInput : ParserInput ℚ :=
  { materials := [⟨0, 1, true⟩], surfaces := [],
    cells := [CellFill 1 0 0 [] 1, CellBasic 2 2 0 [] 1 0 0],
    lattices := [Lattice 1 1 1 2 2 [[2]]] }

/-- The geometry the constructor builds from `tileInput`. -/
def tileGeometry : Geometry ℚ := stateOf (Geometry.build (fun x => x) 3 startStatics tileInput)

/-- The chain of a point `(x, y)` of the tile of `tileGeometry`: root universe with
the fill cell 1, lattice 1 with tile `(0, 0)`, universe 2 with the material
cell 2. -/
def tileChain (x y : ℚ) : List (LocalCoords ℚ) :=
  [{ LocalCoords.new x y 0 with cell := 1 },
   { LocalCoords.new x y 1 with type := .LAT, lattice := 1 },
   { LocalCoords.new x y 2 with cell := 2 }]

/-- A tracer for `tileGeometry` and rays in the direction of the x axis, written out
by hand: point location puts every point of the tile `[-1, 1) x [-1, 1)` into the
material cell 2 (address 1); that cell has no surface, so the distance to its
boundary is infinite; the lattice moves the coordinates of every level to the
right wall plus `TINY_MOVE` and reports that the ray left the lattice; on a
horizontal line the distance of two points is the absolute difference of their
x coordinates. -/
def tileTracer : Tracer ℚ :=
  { cos := fun _ => 1, sin := fun _ => 0,
    findCell := fun _ _ coords =>
      match coords with
      | [] => .fatal .nullPointer coords
      | top :: _ =>
        if -1 ≤ top.x ∧ top.x < 1 ∧ -1 ≤ top.y ∧ top.y < 1 then
          .ok (some 1) (tileChain top.x top.y)
        else .ok none [top],
    minSurfaceDist := fun _ _ p _ => (.posInf, p),
    findNextLatticeCell := fun _ _ coords i _ =>
      match coords[i]? with
      | none => .fatal .nullPointer coords
      | some curr => .ok none (adjustCoords coords (1 - curr.x + TINY_MOVE) 0),
    distance := fun p q => |p.1 - q.1| }

/-- A state with two allocated reflective surfaces, the lines `x = -1` and `y = -1`,
and nothing registered. -/
def twoWallsGeometry : Geometry ℚ :=
  { (Geometry.init startStatics : Geometry ℚ) with
    surfaceObjs := [xWall 1 (-1), { yWall 3 (-1) with uid := 1 }],
    statics := { startStatics with surface_n := 2 } }

/-- A state in which `addLattice` is called: the simple universe 2 is registered, and
the object of the lattice 1 with the single tile `[[2]]` is allocated at address
1. -/
def latticeReadyGeometry : Geometry ℚ :=
  { (Geometry.init startStatics : Geometry ℚ) with
    universeObjs := [Universe.simple 2, { Lattice 1 1 1 2 2 [[2]] with uid := 1 }],
    universes := [(2, 0)],
    statics := { startStatics with universe_n := 2 } }

/-- The state in which `addCell` is called for the unit disk with `S` sectors and no
rings: the material 1 and the circle 1 of radius 1 about the origin are
registered and the cell object is allocated. -/
def sectorsGeometry (F : Type) [LinearOrderedField F] (S : Int) : Geometry F :=
  { (Geometry.init startStatics : Geometry F) with
    materialObjs := [⟨0, 1, true⟩],
    surfaceObjs := [Circle 1 .BOUNDARY_NONE 0 0 1],
    cellObjs := [CellBasic 1 0 1 [-1] 1 0 S],
    materials := [(1, 0)], surfaces := [(1, 0)],
    statics := { id := 10000, material_n := 1, surface_n := 1, cell_n := 1,
                 universe_n := 0 } }

/-- The cell between the circles 1 and 2, with two rings and no sectors. -/
def annulusCell : Cell := CellBasic 1 0 2 [1, -2] 1 2 0

/-- The state in which `addCell` is called for the annulus between the circle 1 of
radius 1 and the circle 2 of radius 2 about the origin. -/
def annulusGeometry (F : Type) [LinearOrderedField F] : Geometry F :=
  { (Geometry.init startStatics : Geometry F) with
    materialObjs := [⟨0, 1, true⟩],
    surfaceObjs := [Circle 1 .BOUNDARY_NONE 0 0 1, Circle 2 .BOUNDARY_NONE 0 0 2],
    cellObjs := [annulusCell],
    materials := [(1, 0)], surfaces := [(1, 0), (2, 1)],
    statics := { id := 10000, material_n := 1, surface_n := 2, cell_n := 1,
                 universe_n := 0 } }

/-- The state in which `addCell` is called for a cell with one ring that is bounded
by the surface objects `objs`, registered under the ids 1, 2, ... in this
order; `keys` are the signed surface ids of the cell. -/
def ringGeometry (F : Type) [LinearOrderedField F] (objs : List (Surface F))
    (keys : List Int) : Geometry F :=
  { (Geometry.init startStatics : Geometry F) with
    materialObjs := [⟨0, 1, true⟩],
    surfaceObjs := objs,
    cellObjs := [CellBasic 1 0 keys.length keys 1 1 0],
    materials := [(1, 0)],
    surfaces := (List.range objs.length).map fun (i : Nat) => ((i : Int) + 1, i),
    statics := { id := 10000, material_n := 1, surface_n := objs.length, cell_n := 1,
                 universe_n := 0 } }

/-- The state after `addCell` has run for the unit disk of `diskGeometry` with two
rings, over the rationals with the identity in the place of the square root. -/
def diskAdded : Geometry ℚ := stateOf (addCell (fun x => x) 3 (diskGeometry ℚ) 0)

/-- Parser input for the unit disk with two rings: the material 1, the circle 1 of
radius 1 about the origin and the cell `diskCell` of the root universe. -/
def ringsInput : ParserInput ℚ :=
  { materials := [⟨0, 1, true⟩], surfaces := [Circle 1 .BOUNDARY_NONE 0 0 1],
    cells := [diskCell], lattices := [] }

/-- The geometry the first construction from `ringsInput` yields in a process. -/
def firstBuild (sqrt : ℚ → ℚ) : Geometry ℚ :=
  stateOf (Geometry.build sqrt 3 startStatics ringsInput)

/-- The static variables as the first construction from `ringsInput` leaves them: two
ids were drawn from the counter of `addCell`; one material, three surfaces,
three cells and one universe were created. -/
def staticsAfterFirst : Statics :=
  { id := 10002, material_n := 1, surface_n := 3, cell_n := 3, universe_n := 1 }

/-- The geometry a second construction from `ringsInput` yields in the same process:
the static variables start with the values the first construction left. -/
def secondBuild (sqrt : ℚ → ℚ) : Geometry ℚ :=
  stateOf (Geometry.build sqrt 3 staticsAfterFirst ringsInput)

/-- The state in which `addCell` is called for a disk of radius 1 about `(x0, y0)`
with one ring and no sectors. -/
def shiftedDiskGeometry (F : Type) [LinearOrderedField F] (x0 y0 : F) : Geometry F :=
  { (Geometry.init startStatics : Geometry F) with
    materialObjs := [⟨0, 1, true⟩],
    surfaceObjs := [Circle 1 .BOUNDARY_NONE x0 y0 1],
    cellObjs := [CellBasic 1 0 1 [-1] 1 1 0],
    materials := [(1, 0)], surfaces := [(1, 0)],
    statics := { id := 10000, material_n := 1, surface_n := 1, cell_n := 1,
                 universe_n := 0 } }

/-- The state in which `addCell` is called for the annulus between the circles of
radius 1 and 2 about `(x0, y0)` with one ring and no sectors. -/
def shiftedAnnulusGeometry (F : Type) [LinearOrderedField F] (x0 y0 : F) : Geometry F :=
  { (Geometry.init startStatics : Geometry F) with
    materialObjs := [⟨0, 1, true⟩],
    surfaceObjs := [Circle 1 .BOUNDARY_NONE x0 y0 1, Circle 2 .BOUNDARY_NONE x0 y0 2],
    cellObjs := [CellBasic 1 0 2 [1, -2] 1 1 0],
    materials := [(1, 0)], surfaces := [(1, 0), (2, 1)],
    statics := { id := 10000, material_n := 1, surface_n := 2, cell_n := 1,
                 universe_n := 0 } }

/-- The centres of the circles in a list of surfaces, in the order of the list. -/
def circleCentres {F : Type} (l : List (Surface F)) : List (F × F) :=
  l.filterMap fun s =>
    match s.shape with
    | .circle x y _ => some (x, y)
    | _ => none

/-- The tracer of the operations modelled from the spec for rays in the direction of
the x axis: the cosine is 1 and the sine is 0. -/
def xAxisTracer (sqrt : ℚ → ℚ)
    (latF : Geometry ℚ → Addr → List (LocalCoords ℚ) →
      Outcome (List (LocalCoords ℚ)) (Option Addr))
    (latN : Geometry ℚ → Addr → List (LocalCoords ℚ) → Nat → ℚ →
      Outcome (List (LocalCoords ℚ)) (Option Addr)) : Tracer ℚ :=
  specTracer (fun _ => 1) (fun _ => 0) sqrt latF latN 2

/-- A state keyed by ids in which `adjustKeys` is called: the materials 7 and 3 with
the uids 0 and 1, the line 2 of uid 0 and the circle 5 of uid 1, the root
universe with the material cell 20 (uid 0, material 3, inside the circle) and the
fill cell 10 (uid 1, outside the circle, filled with universe 4), universe 4 with
the material cell 30 (uid 2, material 7), and the lattice 9 with one tile holding
universe 4. -/
def keyedGeometry : Geometry ℚ :=
  { (Geometry.init startStatics : Geometry ℚ) with
    materialObjs := [⟨0, 7, true⟩, ⟨1, 3, true⟩],
    surfaceObjs := [xLine 2 0, { Circle 5 .BOUNDARY_NONE 0 0 1 with uid := 1 }],
    cellObjs := [{ CellBasic 20 0 1 [-5] 3 0 0 with surfaces := [(-5, some 1)] },
                 { CellFill 10 0 1 [5] 4 with uid := 1, surfaces := [(5, some 1)],
                                              data := .fill 4 (some 1) },
                 { CellBasic 30 4 0 [] 7 0 0 with uid := 2 }],
    universeObjs := [{ Universe.simple 0 with cells := [(10, 1), (20, 0)] },
                     { Universe.simple 4 with uid := 1, cells := [(30, 2)] },
                     { (Lattice 9 1 1 2 2 [[4]]).setUniversePointer 4 1 with uid := 2 }],
    materials := [(3, 1), (7, 0)], surfaces := [(2, 0), (5, 1)],
    cells := [(10, 1), (20, 0), (30, 2)],
    universes := [(0, 0), (4, 1), (9, 2)], lattices := [(9, 2)],
    statics := { id := 10000, material_n := 2, surface_n := 2, cell_n := 3,
                 universe_n := 3 } }

/-- Parser input with a lattice inside a lattice: the root universe holds the fill
cell 1, filled with lattice 10; lattice 10 has two tiles of width 2 side by side,
both holding universe 20; universe 20 holds the fill cell 2, filled with lattice
11; lattice 11 has one tile of width 2 holding universe 30; universe 30 holds the
material cell 3 on the halfplane `x <= 3/2` of its own frame, so that the line
`x = 3/2` runs outside the tile. -/
def nestedInput : ParserInput ℚ :=
  { materials := [⟨0, 1, true⟩], surfaces := [xLine 1 (3 / 2)],
    cells := [CellFill 1 0 0 [] 10, CellFill 2 20 0 [] 11, CellBasic 3 30 1 [-1] 1 0 0],
    lattices := [Lattice 11 1 1 2 2 [[30]], Lattice 10 2 1 2 2 [[20, 20]]] }

/-- The geometry the constructor builds from `nestedInput`. -/
def nestedGeometry : Geometry ℚ :=
  stateOf (Geometry.build (fun x => x) 6 startStatics nestedInput)

/-- The chain of a point of `nestedGeometry` with the root coordinates `(x, y)` that
lies in tile `(i, 0)` of lattice 10, whose centre is `(2 i - 1, 0)`: root universe
with the fill cell 1, lattice 10 with tile `(i, 0)`, universe 20 with the fill
cell 2, lattice 11 with tile `(0, 0)`, universe 30 with the material cell 3. -/
def nestedChain (x y : ℚ) (i : Int) : List (LocalCoords ℚ) :=
  [{ LocalCoords.new x y 0 with cell := 1 },
   { LocalCoords.new x y 10 with type := .LAT, lattice := 10, lattice_x := i },
   { LocalCoords.new (x - (2 * (i : ℚ) - 1)) y 20 with cell := 2 },
   { LocalCoords.new (x - (2 * (i : ℚ) - 1)) y 11 with type := .LAT, lattice := 11 },
   { LocalCoords.new (x - (2 * (i : ℚ) - 1)) y 30 with cell := 3 }]

/-- A tracer for `nestedGeometry` and rays in the direction of the x axis, written out
by hand: point location puts every point of the left tile `[-2, 0) x [-1, 1)` and
of the right tile `[0, 2) x [-1, 1)` of lattice 10 into the material cell 3
(address 2), with the chain of that tile; the only surface of cell 3 is the line
`x = 3/2` of the frame of universe 30, which a ray from a point left of it
meets at the distance `3/2 - x`; the lattice operation is the one of
`tileTracer`. -/
def nestedTracer : Tracer ℚ :=
  { cos := fun _ => 1, sin := fun _ => 0,
    findCell := fun _ _ coords =>
      match coords with
      | [] => .fatal .nullPointer coords
      | top :: _ =>
        if -2 ≤ top.x ∧ top.x < 0 ∧ -1 ≤ top.y ∧ top.y < 1 then
          .ok (some 2) (nestedChain top.x top.y 0)
        else if 0 ≤ top.x ∧ top.x < 2 ∧ -1 ≤ top.y ∧ top.y < 1 then
          .ok (some 2) (nestedChain top.x top.y 1)
        else .ok none [top],
    minSurfaceDist := fun _ _ p _ =>
      if p.1 < 3 / 2 then (.fin (3 / 2 - p.1), (3 / 2, p.2)) else (.posInf, p),
    findNextLatticeCell := fun _ _ coords i _ =>
      match coords[i]? with
      | none => .fatal .nullPointer coords
      | some curr => .ok none (adjustCoords coords (1 - curr.x + TINY_MOVE) 0),
    distance := fun p q => |p.1 - q.1| }

/-- A state keyed by dense uids in which `buildNeighborsLists` is called: the surfaces
0 and 1; the fill cell 0 without surfaces, the material cells 1 and 2 on the
positive side of surface 1 and the material cell 3 on its negative side, all in
the root universe; every registry maps the uid to the address of the same
number. -/
def neighborGeometry : Geometry ℚ :=
  { (Geometry.init startStatics : Geometry ℚ) with
    materialObjs := [⟨0, 0, true⟩],
    surfaceObjs := [{ xLine 0 0 with id := 2 },
                    { Circle 1 .BOUNDARY_NONE 0 0 1 with uid := 1, id := 5 }],
    cellObjs := [{ CellFill 0 0 0 [] 1 with id := 10, data := .fill 1 (some 1) },
                 { CellBasic 1 0 0 [] 0 0 0 with uid := 1, id := 20, surfaces := [(1, some 1)] },
                 { CellBasic 2 0 0 [] 0 0 0 with uid := 2, id := 30, surfaces := [(1, some 1)] },
                 { CellBasic 3 0 0 [] 0 0 0 with uid := 3, id := 40,
                                                 surfaces := [(-1, some 1)] }],
    universeObjs := [{ Universe.simple 0 with cells := [(10, 0), (20, 1), (30, 2), (40, 3)] },
                     { Universe.simple 1 with uid := 1, id := 4 }],
    materials := [(0, 0)], surfaces := [(0, 0), (1, 1)],
    cells := [(0, 0), (1, 1), (2, 2), (3, 3)],
    universes := [(0, 0), (1, 1)],
    statics := { id := 10000, material_n := 1, surface_n := 2, cell_n := 4,
                 universe_n := 2 } }

/-- Parser input in which a universe is created before the root universe: the
material cell 3 of universe 5 (the halfplane `x >= 0`) is delivered first, then
the material cell 1 of the root universe (the halfplane `x <= 0`). -/
def strayInput : ParserInput ℚ :=
  { materials := [⟨0, 1, true⟩], surfaces := [xLine 1 0],
    cells := [CellBasic 3 5 1 [1] 1 0 0, CellBasic 1 0 1 [-1] 1 0 0],
    lattices := [] }

/-- The geometry the constructor builds from `strayInput`. -/
def strayGeometry : Geometry ℚ :=
  stateOf (Geometry.build (fun x => x) 3 startStatics strayInput)

/-- The state of `strayGeometry` after `adjustKeys`. -/
def strayAdjusted : Geometry ℚ := stateOf (adjustKeys strayGeometry)

/-- The state in which `addCell` is called for the annulus between the circle 2 of
radius 1 and the circle 1 of radius 2 about the origin, with one ring: the
outer circle has the smaller id. -/
def swappedAnnulusGeometry (F : Type) [LinearOrderedField F] : Geometry F :=
  ringGeometry F [Circle 1 .BOUNDARY_NONE 0 0 2, Circle 2 .BOUNDARY_NONE 0 0 1] [-1, 2]

/-- The state in which `addCell` is called for the unit disk with one ring and four
sectors. -/
def ringSectorGeometry (F : Type) [LinearOrderedField F] : Geometry F :=
  { sectorsGeometry F 4 with cellObjs := [CellBasic 1 0 1 [-1] 1 1 4] }

/-- The tracks of the witness for the running statistics: three horizontal tracks
through the tile of `tileGeometry`, from the centre, from `(-1/2, 0)` and from
`(1/2, 0)`. -/
def statsTracks : List (Track ℚ) :=
  [⟨0, 0, 0, []⟩, ⟨-1 / 2, 0, 0, []⟩, ⟨1 / 2, 0, 0, []⟩]

/-- The tracks of `statsTracks` with the segments that `segmentize` gives them. -/
def statsTracksDone : List (Track ℚ) :=
  [⟨0, 0, 0, [⟨1 + 1 / 100000000, 0, 0⟩]⟩,
   ⟨-1 / 2, 0, 0, [⟨3 / 2 + 1 / 100000000, 0, 0⟩]⟩,
   ⟨1 / 2, 0, 0, [⟨1 / 2 + 1 / 100000000, 0, 0⟩]⟩]

/-- The state of `tileGeometry` after the three calls for `statsTracks`. -/
def statsGeometry : Geometry ℚ :=
  { tileGeometry with max_seg_length := .fin (3 / 2 + 1 / 100000000),
                      min_seg_length := .fin (1 / 2 + 1 / 100000000) }

/-- The state after `addCell` has run for the unit disk of `sectorsGeometry` with four
sectors. -/
def sectorsDone : Geometry ℚ := stateOf (addCell (fun x => x) 2 (sectorsGeometry ℚ 4) 0)

/-! ## Theorems -/

section Lemmas

variable {F : Type} [LinearOrderedField F]

@[simp] theorem Outcome.bind_ok {σ α β : Type} (a : α) (s : σ) (f : α → σ → Outcome σ β) :
    (Outcome.ok a s).bind f = f a s := rfl

@[simp] theorem Outcome.bind_fatal {σ α β : Type} (e : Err) (s : σ)
    (f : α → σ → Outcome σ β) : (Outcome.fatal e s : Outcome σ α).bind f = .fatal e s := rfl

@[simp] theorem Outcome.bind_outOfFuel {σ α β : Type} (f : α → σ → Outcome σ β) :
    (Outcome.outOfFuel : Outcome σ α).bind f = .outOfFuel := rfl

/-- Sequencing is associative. -/
theorem Outcome.bind_assoc {σ α β γ : Type} (x : Outcome σ α) (f : α → σ → Outcome σ β)
    (k : β → σ → Outcome σ γ) :
    (x.bind f).bind k = x.bind fun a s => (f a s).bind k := by
  cases x <;> rfl

theorem sameRegistries_refl (g : Geometry F) : sameRegistries g g := by
  simp [sameRegistries]

/-- One pass of the surface loop of `addCell` either raises a fatal error in the
state it started from, or it only touches the cell object. -/
theorem addCellSurface_cases (a : Addr) (entry : Int × Option Addr) (g : Geometry F) :
    (∃ e, addCellSurface a entry g = .fatal e g) ∨
    (∃ g1, addCellSurface a entry g = .ok () g1 ∧ sameRegistries g1 g ∧
      (IntMap.find g.surfaces (iabs entry.1)).isSome) := by
  cases hf : IntMap.find g.surfaces (iabs entry.1) with
  | none => left; exact ⟨.cellSurfaceMissing entry.1, by simp [addCellSurface, hf]⟩
  | some sa =>
    cases hs : g.surfaceObjs[sa]? with
    | none => left; exact ⟨.nullPointer, by simp [addCellSurface, hf, hs]⟩
    | some s =>
      cases hc : g.cellObjs[a]? with
      | none => left; exact ⟨.nullPointer, by simp [addCellSurface, hf, hs, hc]⟩
      | some c =>
        right
        exact ⟨{ g with cellObjs := g.cellObjs.set a (c.setSurfacePointer s.id sa) },
          by simp [addCellSurface, hf, hs, hc], by simp [sameRegistries], by simp⟩

/-- The surface loop of `addCell` ends in a fatal error when one of the surfaces is
not registered, and it leaves the registries as they were. -/
theorem forEach_addCellSurface_missing (a : Addr) (l : List (Int × Option Addr)) :
    ∀ g : Geometry F, (∃ entry ∈ l, IntMap.find g.surfaces (iabs entry.1) = none) →
      ∃ e g1, forEach (addCellSurface a) l g = .fatal e g1 ∧ sameRegistries g1 g := by
  induction l with
  | nil => intro g h; simp at h
  | cons entry rest ih =>
    intro g h
    rcases addCellSurface_cases a entry g with ⟨e, he⟩ | ⟨g1, hok, hsame, hfound⟩
    · exact ⟨e, g, by simp [forEach, he], sameRegistries_refl g⟩
    · have hrest : ∃ en ∈ rest, IntMap.find g1.surfaces (iabs en.1) = none := by
        obtain ⟨en, hmem, hnone⟩ := h
        rcases List.mem_cons.mp hmem with rfl | hmem
        · simp [hnone] at hfound
        · exact ⟨en, hmem, by rw [hsame.2.1]; exact hnone⟩
      obtain ⟨e, g2, hfat, hs2⟩ := ih g1 hrest
      refine ⟨e, g2, by simp [forEach, hok, hfat], ?_⟩
      unfold sameRegistries at *
      simp_all

/-- The loop of `findFSRId` adds the offsets of the links to the running sum. -/
theorem findFSRIdLoop_eq (g : Geometry F) (coords : List (LocalCoords F)) :
    ∀ fsr_id : Int, findFSRIdLoop g coords fsr_id =
      (chainOffsets g coords).map fun offsets => fsr_id + offsets.sum := by
  induction coords with
  | nil => intro fsr_id; simp [findFSRIdLoop, chainOffsets, Except.map]
  | cons l rest ih =>
    intro fsr_id
    have hstep : findFSRIdLoop g (l :: rest) fsr_id =
        match linkOffset g l with
        | .error e => .error e
        | .ok offset => findFSRIdLoop g rest (fsr_id + offset) := by
      rw [findFSRIdLoop]
      unfold linkOffset
      cases l.type <;> simp only
      · cases h1 : IntMap.find g.universes l.universe_id with
        | none => rfl
        | some ua =>
          simp only
          cases h2 : g.universeObjs[ua]? with
          | none => rfl
          | some u =>
            simp only
            cases h3 : u.getFSR l.cell <;> rfl
      · cases h1 : IntMap.find g.lattices l.lattice with
        | none => rfl
        | some la =>
          simp only
          cases h2 : g.universeObjs[la]? with
          | none => rfl
          | some lattice =>
            simp only
            cases h3 : lattice.getFSRAt l.lattice_x l.lattice_y <;> rfl
    rw [hstep]
    unfold chainOffsets
    cases hl : linkOffset g l with
    | error e => simp [Except.map]
    | ok offset =>
      simp only [ih]
      cases chainOffsets g rest with
      | error e => simp [Except.map]
      | ok offsets => simp [Except.map, add_assoc]

/-- Point location in a geometry that has the root universe, the two root cells and
the line `x = 0` of `roundTripInput`: the point `(1, 1)` lies in the material
cell 2. -/
theorem locate_in_round_trip (cos sin sqrt : ℚ → ℚ)
    (latF : Geometry ℚ → Addr → List (LocalCoords ℚ) →
      Outcome (List (LocalCoords ℚ)) (Option Addr))
    (latN : Geometry ℚ → Addr → List (LocalCoords ℚ) → Nat → ℚ →
      Outcome (List (LocalCoords ℚ)) (Option Addr))
    (g : Geometry ℚ) (h1 : g.universes = [(0, 0), (5, 1)])
    (h2 : g.universeObjs[0]? =
      some { Universe.simple 0 with cells := [(1, 0), (2, 1)], region_map := [(1, 0), (2, 2)] })
    (h3 : g.cellObjs[0]? =
      some { CellFill 1 0 1 [-1] 5 with surfaces := [(-1, some 0)], data := .fill 5 (some 1) })
    (h4 : g.cellObjs[1]? =
      some { CellBasic 2 0 1 [1] 1 0 0 with uid := 1, surfaces := [(1, some 0)] })
    (h5 : g.surfaceObjs[0]? = some (xLine 1 0)) :
    findCellCoords (specTracer cos sin sqrt latF latN 2) g [LocalCoords.new 1 1 0] =
      .ok (some 1) [{ LocalCoords.new 1 1 0 with cell := 2 }] := by
  norm_num [findCellCoords, specTracer, universeFindCell, LocalCoords.new, h1, IntMap.find,
    h2, Universe.simple, firstContaining, h3, h4, cellContains, h5, CellFill, CellBasic,
    xLine, Plane, Surface.evaluate]

end Lemmas

section TracingLemmas

variable {F : Type} [LinearOrderedField F]

@[simp] theorem specTracer_cos (cos sin sqrt : F → F)
    (latF : Geometry F → Addr → List (LocalCoords F) →
      Outcome (List (LocalCoords F)) (Option Addr))
    (latN : Geometry F → Addr → List (LocalCoords F) → Nat → F →
      Outcome (List (LocalCoords F)) (Option Addr)) (depth : Nat) :
    (specTracer cos sin sqrt latF latN depth).cos = cos := rfl

@[simp] theorem specTracer_sin (cos sin sqrt : F → F)
    (latF : Geometry F → Addr → List (LocalCoords F) →
      Outcome (List (LocalCoords F)) (Option Addr))
    (latN : Geometry F → Addr → List (LocalCoords F) → Nat → F →
      Outcome (List (LocalCoords F)) (Option Addr)) (depth : Nat) :
    (specTracer cos sin sqrt latF latN depth).sin = sin := rfl

@[simp] theorem specTracer_minSurfaceDist (cos sin sqrt : F → F)
    (latF : Geometry F → Addr → List (LocalCoords F) →
      Outcome (List (LocalCoords F)) (Option Addr))
    (latN : Geometry F → Addr → List (LocalCoords F) → Nat → F →
      Outcome (List (LocalCoords F)) (Option Addr)) (depth : Nat) :
    (specTracer cos sin sqrt latF latN depth).minSurfaceDist =
      cellMinSurfaceDist cos sin sqrt := rfl

/-- The constructor on `squareInput`, up to the surfaces. -/
theorem build_square_surfaces :
    (forEach (fun m g => addMaterial (newMaterial g m).2 (newMaterial g m).1)
      (squareInput F).materials (Geometry.init startStatics)).bind (fun _ g1 =>
    forEach (fun s g => addSurface (newSurface g s).2 (newSurface g s).1)
      (squareInput F).surfaces g1) = .ok () (squareSurfacesOnly F) := by
  norm_num [squareInput, forEach, newMaterial, addMaterial, Geometry.init, startStatics,
    IntMap.find, IntMap.insert, newSurface, addSurface, xWall, yWall, Ext.le, squareGeometry,
    squareSurfacesOnly]

/-- The constructor builds `squareGeometry` from `squareInput`. -/
theorem build_square (sqrt : F → F) :
    Geometry.build sqrt 3 startStatics (squareInput F) = .ok () (squareGeometry F) := by
  have h := build_square_surfaces (F := F)
  have hr : registerAll sqrt 3 startStatics (squareInput F) =
      ((forEach (fun m g => addMaterial (newMaterial g m).2 (newMaterial g m).1)
      (squareInput F).materials (Geometry.init startStatics)).bind (fun _ g1 =>
    forEach (fun s g => addSurface (newSurface g s).2 (newSurface g s).1)
      (squareInput F).surfaces g1)).bind fun _ g2 =>
      (forEach (fun c g => addCell sqrt 3 (newCell g c).2 (newCell g c).1)
        (squareInput F).cells g2).bind fun _ g3 =>
      forEach (fun l g => addLattice (newUniverse g l).2 (newUniverse g l).1)
        (squareInput F).lattices g3 := by
    rfl
  unfold Geometry.build
  rw [hr, h]
  rfl

/-- The constructor on `splitInput`, up to the surfaces. -/
theorem build_split_surfaces :
    (forEach (fun m g => addMaterial (newMaterial g m).2 (newMaterial g m).1)
      (splitInput F).materials (Geometry.init startStatics)).bind (fun _ g1 =>
    forEach (fun s g => addSurface (newSurface g s).2 (newSurface g s).1)
      (splitInput F).surfaces g1) = .ok () (splitSurfacesOnly F) := by
  norm_num [splitInput, forEach, newMaterial, addMaterial, Geometry.init, startStatics,
    IntMap.find, IntMap.insert, newSurface, addSurface, xWall, yWall, xLine, Plane, Ext.le,
    splitGeometry, splitSurfacesOnly]

/-- The constructor on `splitInput`: the cells are registered. -/
theorem build_split_cells (sqrt : F → F) :
    forEach (fun c g => addCell sqrt 3 (newCell g c).2 (newCell g c).1)
      (splitInput F).cells (splitSurfacesOnly F) =
    .ok () { splitGeometry F with
      num_FSRs := 0, FSRs_to_cells := [], FSRs_to_materials := [],
      universeObjs := [{ Universe.simple 0 with cells := [(1, 0), (2, 1)] }] } := by
  simp [forEach, addCell, newCell, cellMaterialMissing, addCellSurface, iabs, IntMap.find,
    IntMap.insert, IntMap.assign, Cell.setSurfacePointer, addCellUniverse, newUniverse,
    addUniverse, setUniverseFillPointers, Universe.simple, universeAddCell, refineCell,
    Cell.getNumSurfaces, splitInput, splitSurfacesOnly, splitGeometry, CellBasic, xWall,
    yWall, xLine, Plane, leftCell, rightCell, splitUniverse, Outcome.bind]

/-- The constructor builds `splitGeometry` from `splitInput`. -/
theorem build_split (sqrt : F → F) :
    Geometry.build sqrt 3 startStatics (splitInput F) = .ok () (splitGeometry F) := by
  have h := build_split_surfaces (F := F)
  have hr : registerAll sqrt 3 startStatics (splitInput F) =
      ((forEach (fun m g => addMaterial (newMaterial g m).2 (newMaterial g m).1)
      (splitInput F).materials (Geometry.init startStatics)).bind (fun _ g1 =>
    forEach (fun s g => addSurface (newSurface g s).2 (newSurface g s).1)
      (splitInput F).surfaces g1)).bind fun _ g2 =>
      (forEach (fun c g => addCell sqrt 3 (newCell g c).2 (newCell g c).1)
        (splitInput F).cells g2).bind fun _ g3 =>
      forEach (fun l g => addLattice (newUniverse g l).2 (newUniverse g l).1)
        (splitInput F).lattices g3 := by
    unfold registerAll
    exact (Outcome.bind_assoc _ _ _).symm
  unfold Geometry.build
  rw [hr, h]
  simp only [Outcome.bind_ok]
  rw [build_split_cells sqrt]
  rfl

/-- On a geometry with the root universe, the cell and the four walls of the square
of S1, the track from `(-1, 0)` in the direction with cosine 1 and sine 0 ends in
the fatal error for a segment with equal start and end point, and no segment is
added: the ray meets the wall `x = 1`, the nudged point lies in no cell, the
coordinates are put back to the start, and `findNextCell` returns null there. -/
theorem segmentize_square_generic (cos sin sqrt : F → F)
    (latF : Geometry F → Addr → List (LocalCoords F) →
      Outcome (List (LocalCoords F)) (Option Addr))
    (latN : Geometry F → Addr → List (LocalCoords F) → Nat → F →
      Outcome (List (LocalCoords F)) (Option Addr))
    (phi : F) (hc : cos phi = 1) (hs : sin phi = 0) (fuel depth : Nat)
    (g : Geometry F) (h1 : g.universes = [(0, 0)])
    (h2 : g.universeObjs[0]? = some (squareUniverse F))
    (h3 : g.cellObjs[0]? = some squareCell)
    (h4 : g.surfaceObjs[0]? = some (xWall 1 (-1) : Surface F))
    (h5 : g.surfaceObjs[1]? = some ({ (xWall 2 1 : Surface F) with uid := 1 }))
    (h6 : g.surfaceObjs[2]? = some ({ (yWall 3 (-1) : Surface F) with uid := 2 }))
    (h7 : g.surfaceObjs[3]? = some ({ (yWall 4 1 : Surface F) with uid := 3 }))
    (h8 : g.materials = [(1, 0)]) :
    ∃ g1, segmentize (specTracer cos sin sqrt latF latN (depth + 1)) (fuel + 2) g
        ⟨-1, 0, phi, []⟩ = .fatal .sameStartEnd (g1, ⟨-1, 0, phi, []⟩) := by
  refine ⟨updateSegLengths g (sqrt 0), ?_⟩
  norm_num [segmentize, findCellCoords, LocalCoords.new, h1, h2, h3, h4, h5, h6, h7, h8,
    IntMap.find, specTracer, universeFindCell, Universe.simple, squareCell, squareUniverse,
    firstContaining, cellContains, xWall, yWall, Surface.evaluate, segmentLoop, findNextCell,
    cellMinSurfaceDist, Surface.intersectionParams, planeParams, TINY_EPS, minParam, hc, hs,
    adjustCoords, updateMostLocal, TINY_MOVE, retrace, retraceScan, crossLattices,
    addSegmentFor, getPoint, segmentMaterial, findFSRId, findFSRIdLoop, Universe.getFSR,
    pointDistance, latticeCheck, updateSegLengths]

section Split

variable (cos sin sqrt : F → F)
  (latF : Geometry F → Addr → List (LocalCoords F) →
    Outcome (List (LocalCoords F)) (Option Addr))
  (latN : Geometry F → Addr → List (LocalCoords F) → Nat → F →
    Outcome (List (LocalCoords F)) (Option Addr))
  (phi : F) (depth : Nat) (g : Geometry F)

/-- Point location in the split square: the start point lies in the left cell. -/
theorem split_locate_start (c : Int) (h : SplitFacts g) :
    findCellCoords (specTracer cos sin sqrt latF latN (depth + 1)) g [rootLink (-1) 0 c] =
      .ok (some 0) [rootLink (-1) 0 1] := by
  obtain ⟨h1, h2, h3, h4, h5, h6, h7, h8, h9, h10⟩ := h
  norm_num [findCellCoords, rootLink, LocalCoords.new, h1, h2, h3, h4, h5, h6, h7, h8, h9, h10,
    IntMap.find, specTracer, universeFindCell, Universe.simple, leftCell, rightCell,
    splitUniverse, xLine, Plane, firstContaining, cellContains, xWall, yWall,
    Surface.evaluate]

/-- Point location in the split square: just right of the cut lies the right cell. -/
theorem split_locate_mid (c : Int) (h : SplitFacts g) :
    findCellCoords (specTracer cos sin sqrt latF latN (depth + 1)) g
        [rootLink (1 / 100000000) 0 c] =
      .ok (some 1) [rootLink (1 / 100000000) 0 2] := by
  obtain ⟨h1, h2, h3, h4, h5, h6, h7, h8, h9, h10⟩ := h
  norm_num [findCellCoords, rootLink, LocalCoords.new, h1, h2, h3, h4, h5, h6, h7, h8, h9, h10,
    IntMap.find, specTracer, universeFindCell, Universe.simple, leftCell, rightCell,
    splitUniverse, xLine, Plane, firstContaining, cellContains, xWall, yWall,
    Surface.evaluate]

/-- Point location in the split square: just right of the wall `x = 1` lies no cell. -/
theorem split_locate_out (c : Int) (h : SplitFacts g) :
    findCellCoords (specTracer cos sin sqrt latF latN (depth + 1)) g
        [rootLink (1 + 1 / 100000000) 0 c] =
      .ok none [rootLink (1 + 1 / 100000000) 0 c] := by
  obtain ⟨h1, h2, h3, h4, h5, h6, h7, h8, h9, h10⟩ := h
  norm_num [findCellCoords, rootLink, LocalCoords.new, h1, h2, h3, h4, h5, h6, h7, h8, h9, h10,
    IntMap.find, specTracer, universeFindCell, Universe.simple, leftCell, rightCell,
    splitUniverse, xLine, Plane, firstContaining, cellContains, xWall, yWall,
    Surface.evaluate]

/-- From the start point the boundary of the left cell is met on the cut, at
distance 1. -/
theorem split_dist_left (hc : cos phi = 1) (hs : sin phi = 0) (h : SplitFacts g) :
    cellMinSurfaceDist cos sin sqrt g 0 (-1, 0) phi = (.fin 1, (0, 0)) := by
  obtain ⟨h1, h2, h3, h4, h5, h6, h7, h8, h9, h10⟩ := h
  norm_num [cellMinSurfaceDist, h4, h5, h6, h7, h8, h9, h10, leftCell, rightCell, xLine,
    Plane, xWall, yWall, Surface.intersectionParams, planeParams, TINY_EPS, minParam, hc, hs]

/-- From the point right of the cut the boundary of the right cell is met on the
wall `x = 1`. -/
theorem split_dist_right (hc : cos phi = 1) (hs : sin phi = 0) (h : SplitFacts g) :
    cellMinSurfaceDist cos sin sqrt g 1 (1 / 100000000, 0) phi =
      (.fin (1 - 1 / 100000000), (1, 0)) := by
  obtain ⟨h1, h2, h3, h4, h5, h6, h7, h8, h9, h10⟩ := h
  norm_num [cellMinSurfaceDist, h4, h5, h6, h7, h8, h9, h10, leftCell, rightCell, xLine,
    Plane, xWall, yWall, Surface.intersectionParams, planeParams, TINY_EPS, minParam, hc, hs]

/-- The first `findNextCell` call in the split square crosses the cut and returns
the right cell. -/
theorem split_next_left (hc : cos phi = 1) (hs : sin phi = 0) (h : SplitFacts g) (c : Int)
    (fuel : Nat) :
    findNextCell (specTracer cos sin sqrt latF latN (depth + 1)) (fuel + 1) g
        [rootLink (-1) 0 c] phi =
      .ok (some 1) [rootLink (1 / 100000000) 0 2] := by
  have hmove : adjustCoords (updateMostLocal [rootLink (-1) 0 1] ((0 : F), (0 : F)))
      (cos phi * TINY_MOVE) (sin phi * TINY_MOVE) = [rootLink (1 / 100000000) 0 1] := by
    norm_num [adjustCoords, updateMostLocal, rootLink, LocalCoords.new, hc, hs, TINY_MOVE]
  have hlow : ([rootLink (-1) 0 1] : List (LocalCoords F)).getLast? =
      some (rootLink (-1) 0 1) := rfl
  have hx : (rootLink (-1 : F) 0 1).x = -1 := rfl
  have hy : (rootLink (-1 : F) 0 1).y = 0 := rfl
  simp only [findNextCell, split_locate_start cos sin sqrt latF latN depth g c h,
    Outcome.bind_ok, hlow, specTracer_minSurfaceDist, hx, hy,
    split_dist_left cos sin sqrt phi g hc hs h, specTracer_cos, specTracer_sin, hmove,
    split_locate_mid cos sin sqrt latF latN depth g 1 h]
  simp [latticeCheck, rootLink, LocalCoords.new]

/-- The second `findNextCell` call in the split square returns null with the
coordinates it was called with: the nudged point beyond the wall lies in no cell
and the coordinates are put back. -/
theorem split_next_right (hc : cos phi = 1) (hs : sin phi = 0) (h : SplitFacts g) (c : Int)
    (fuel : Nat) :
    findNextCell (specTracer cos sin sqrt latF latN (depth + 1)) (fuel + 1) g
        [rootLink (1 / 100000000) 0 c] phi =
      .ok none [rootLink (1 / 100000000) 0 2] := by
  have hmove : adjustCoords (updateMostLocal [rootLink (1 / 100000000) 0 2] ((1 : F), (0 : F)))
      (cos phi * TINY_MOVE) (sin phi * TINY_MOVE) = [rootLink (1 + 1 / 100000000) 0 2] := by
    norm_num [adjustCoords, updateMostLocal, rootLink, LocalCoords.new, hc, hs, TINY_MOVE]
  have hlow : ([rootLink (1 / 100000000) 0 2] : List (LocalCoords F)).getLast? =
      some (rootLink (1 / 100000000) 0 2) := rfl
  have hx : (rootLink (1 / 100000000 : F) 0 2).x = 1 / 100000000 := rfl
  have hy : (rootLink (1 / 100000000 : F) 0 2).y = 0 := rfl
  simp only [findNextCell, split_locate_mid cos sin sqrt latF latN depth g c h,
    Outcome.bind_ok, hlow, specTracer_minSurfaceDist, hx, hy,
    split_dist_right cos sin sqrt phi g hc hs h, specTracer_cos, specTracer_sin, hmove,
    split_locate_out cos sin sqrt latF latN depth g 2 h]
  simp [latticeCheck, rootLink, LocalCoords.new, retrace, retraceScan, crossLattices]

/-- The facts of the split square do not depend on the segment-length statistics. -/
theorem splitFacts_updateSegLengths (h : SplitFacts g) (len : F) :
    SplitFacts (updateSegLengths g len) := h

/-- On the split square the track from `(-1, 0)` in the direction with cosine 1 and
sine 0 gets one segment, from the start to just right of the cut, and then ends
in the fatal error for a segment with equal start and end point. -/
theorem segmentize_split_generic (hc : cos phi = 1) (hs : sin phi = 0) (h : SplitFacts g)
    (fuel : Nat) :
    ∃ g1, segmentize (specTracer cos sin sqrt latF latN (depth + 1)) (fuel + 3) g
        ⟨-1, 0, phi, []⟩ =
      .fatal .sameStartEnd
        (g1, ⟨-1, 0, phi, [⟨pointDistance sqrt (1 / 100000000, 0) (-1, 0), 0, 0⟩]⟩) := by
  have h' := splitFacts_updateSegLengths g h (pointDistance sqrt (1 / 100000000, 0) (-1, 0))
  obtain ⟨h1, h2, h3, h4, h5, h6⟩ := id h
  have hstart : ([LocalCoords.new (-1) 0 0] : List (LocalCoords F)) = [rootLink (-1) 0 0] :=
    rfl
  refine ⟨updateSegLengths
    (updateSegLengths g (pointDistance sqrt (1 / 100000000, 0) (-1, 0)))
    (pointDistance sqrt (1 / 100000000, 0) (1 / 100000000, 0)), ?_⟩
  simp only [segmentize, hstart, split_locate_start cos sin sqrt latF latN depth g 0 h,
    segmentLoop, split_next_left cos sin sqrt latF latN phi depth g hc hs h 1 (fuel + 1)]
  have hadd1 : addSegmentFor (specTracer cos sin sqrt latF latN (depth + 1)) 0
      [rootLink (-1) 0 1] [rootLink (1 / 100000000) 0 2] (g, ⟨-1, 0, phi, []⟩) =
      .ok () (updateSegLengths g (pointDistance sqrt (1 / 100000000, 0) (-1, 0)),
        ⟨-1, 0, phi, [⟨pointDistance sqrt (1 / 100000000, 0) (-1, 0), 0, 0⟩]⟩) := by
    norm_num [addSegmentFor, getPoint, rootLink, LocalCoords.new, segmentMaterial, h4,
      leftCell, h2, IntMap.find, findFSRId, findFSRIdLoop, updateSegLengths, h1, h3,
      splitUniverse, Universe.getFSR, specTracer]
  have hadd2 : addSegmentFor (specTracer cos sin sqrt latF latN (depth + 1)) 1
      [rootLink (1 / 100000000) 0 2] [rootLink (1 / 100000000) 0 2]
      (updateSegLengths g (pointDistance sqrt (1 / 100000000, 0) (-1, 0)),
        ⟨-1, 0, phi, [⟨pointDistance sqrt (1 / 100000000, 0) (-1, 0), 0, 0⟩]⟩) =
      .fatal .sameStartEnd
        (updateSegLengths
          (updateSegLengths g (pointDistance sqrt (1 / 100000000, 0) (-1, 0)))
          (pointDistance sqrt (1 / 100000000, 0) (1 / 100000000, 0)),
        ⟨-1, 0, phi, [⟨pointDistance sqrt (1 / 100000000, 0) (-1, 0), 0, 0⟩]⟩) := by
    norm_num [addSegmentFor, getPoint, rootLink, LocalCoords.new, segmentMaterial, h5,
      rightCell, h2, IntMap.find, findFSRId, findFSRIdLoop, updateSegLengths, h1, h3,
      splitUniverse, Universe.getFSR, specTracer]
  simp only [hadd1, Outcome.bind_ok,
    split_next_right cos sin sqrt latF latN phi depth _ hc hs h' 2 fuel, hadd2,
    Outcome.bind_fatal]

end Split

theorem sameButLengths_refl (g : Geometry F) : sameButLengths g g := ⟨_, _, rfl⟩

/-- The offsets that `findFSRId` reads do not depend on the segment-length
statistics. -/
theorem findFSRIdLoop_lengths (g : Geometry F) (mx mn : Ext F)
    (coords : List (LocalCoords F)) :
    ∀ n, findFSRIdLoop { g with max_seg_length := mx, min_seg_length := mn } coords n =
      findFSRIdLoop g coords n := by
  induction coords with
  | nil => intro n; rfl
  | cons l rest ih =>
    intro n
    rw [findFSRIdLoop, findFSRIdLoop]
    cases l.type <;> simp only [ih]

/-- A pass of the loop body of `segmentize` that returns normally has appended the
segment that belongs to the call. -/
theorem addSegmentFor_ok (T : Tracer F) (prev : Addr) (ss se : List (LocalCoords F))
    (st st1 : Geometry F × Track F) (h : addSegmentFor T prev ss se st = .ok () st1) :
    ∃ seg, st1 = (updateSegLengths st.1 seg.length,
        { st.2 with segments := st.2.segments ++ [seg] }) ∧
      IsStepSegment T ⟨st.1, 0, prev, ss, none, se⟩ seg := by
  unfold addSegmentFor at h
  cases hs : getPoint ss with
  | none => simp [hs] at h
  | some p_start =>
    cases he : getPoint se with
    | none => simp [hs, he] at h
    | some p_end =>
      simp only [hs, he] at h
      cases hm : segmentMaterial st.1 prev with
      | error e => simp [hm] at h
      | ok ma =>
        simp only [hm] at h
        cases hf : findFSRId (updateSegLengths st.1 (T.distance p_end p_start)) ss with
        | error e => simp [hf] at h
        | ok region_id =>
          simp only [hf] at h
          split at h
          · simp at h
          · simp only [Outcome.ok.injEq, true_and] at h
            refine ⟨⟨T.distance p_end p_start, ma, region_id⟩, h.symm, p_start, p_end, hs, he,
              rfl, hm, ?_⟩
            rw [← hf]
            unfold findFSRId updateSegLengths
            exact (findFSRIdLoop_lengths _ _ _ _ _).symm

theorem isTrace_none (T : Tracer F) (phi : F) (coords : List (LocalCoords F))
    (steps : List (TraceStep F)) (h : IsTrace T phi none coords steps) : steps = [] := by
  cases steps with
  | nil => rfl
  | cons s rest => simp [IsTrace] at h

/-- A run of the loop of `segmentize` that returns normally made the calls of a
trace and appended, in order, the segment of each call. -/
theorem segmentLoop_trace (T : Tracer F) (phi : F) :
    ∀ (fuel : Nat) (curr : Option Addr) (coords : List (LocalCoords F))
      (st st1 : Geometry F × Track F),
      segmentLoop T phi fuel curr coords st = .ok () st1 →
      ∃ steps segs, IsTrace T phi curr coords steps ∧
        st1.2.segments = st.2.segments ++ segs ∧
        List.Forall₂ (IsStepSegment T) steps segs ∧
        (∀ s ∈ steps, sameButLengths s.g st.1) ∧
        (curr ≠ none →
          segs.length = (steps.filter fun s => s.next.isSome).length + 1) := by
  intro fuel
  induction fuel with
  | zero => intro curr coords st st1 h; simp [segmentLoop] at h
  | succ fuel ih =>
    intro curr coords st st1 h
    cases curr with
    | none =>
      simp only [segmentLoop, Outcome.ok.injEq, true_and] at h
      subst h
      exact ⟨[], [], rfl, by simp, List.Forall₂.nil, by simp, by simp⟩
    | some prev =>
      simp only [segmentLoop] at h
      cases hn : findNextCell T fuel st.1 coords phi with
      | outOfFuel => simp [hn] at h
      | fatal e c => simp [hn] at h
      | ok curr1 se1 =>
        simp only [hn] at h
        cases ha : addSegmentFor T prev coords se1 st with
        | outOfFuel => simp [ha] at h
        | fatal e c => simp [ha] at h
        | ok u st2 =>
          simp only [ha, Outcome.bind_ok] at h
          obtain ⟨seg, hst2, p_start, p_end, hp1, hp2, hlen, hmat, hfsr⟩ :=
            addSegmentFor_ok T prev coords se1 st st2 ha
          obtain ⟨steps, segs, htrace, hsegs, hall, hg, hcount⟩ := ih curr1 se1 st2 st1 h
          refine ⟨⟨st.1, fuel, prev, coords, curr1, se1⟩ :: steps, seg :: segs,
            ⟨rfl, rfl, hn, htrace⟩, ?_, ?_, ?_, ?_⟩
          · rw [hsegs, hst2]; simp
          · exact List.Forall₂.cons ⟨p_start, p_end, hp1, hp2, hlen, hmat, hfsr⟩ hall
          · intro s hs
            rcases List.mem_cons.mp hs with rfl | hs
            · exact sameButLengths_refl _
            · obtain ⟨mx, mn, hgs⟩ := hg s hs
              rw [hst2] at hgs
              exact ⟨mx, mn, by rw [hgs]; rfl⟩
          · intro _
            cases curr1 with
            | none =>
              have hnil := isTrace_none T phi se1 steps htrace
              subst hnil
              cases hall
              simp
            | some c =>
              have := hcount (by simp)
              simp [this]

/-- With `tileTracer` the point `(5, 0)` lies in no cell, so `segmentize` leaves the
loop at once. -/
theorem tile_outside_generic (g : Geometry ℚ) (h1 : g.universes = [(0, 0), (1, 2), (2, 1)]) :
    findCellCoords tileTracer g [LocalCoords.new 5 0 0] = .ok none [LocalCoords.new 5 0 0] ∧
    segmentize tileTracer 1 g ⟨5, 0, 0, []⟩ = .ok () (g, ⟨5, 0, 0, []⟩) := by
  constructor <;>
    norm_num [segmentize, findCellCoords, LocalCoords.new, h1, IntMap.find, tileTracer,
      segmentLoop]

/-- The run of `segmentize` with `tileTracer` from the centre of the tile, on a
geometry with the registries and offsets of `tileGeometry`: one segment, from the
centre to the right wall. -/
theorem tile_run_generic (g : Geometry ℚ) (h1 : g.universes = [(0, 0), (1, 2), (2, 1)])
    (h2 : g.lattices = [(1, 2)]) (h3 : g.materials = [(1, 0)])
    (h4 : ∃ c, g.cellObjs[1]? = some c ∧ c.data = .basic 1 0 0)
    (h5 : ∃ u, g.universeObjs[0]? = some u ∧ u.region_map = [(1, 0)])
    (h6 : ∃ u, g.universeObjs[1]? = some u ∧ u.region_map = [(2, 0)])
    (h7 : ∃ u, g.universeObjs[2]? = some u ∧ u.tile_region_map = [[0]]) :
    segmentize tileTracer 3 g ⟨0, 0, 0, []⟩ =
      .ok () (updateSegLengths g (1 + 1 / 100000000),
        ⟨0, 0, 0, [⟨1 + 1 / 100000000, 0, 0⟩]⟩) := by
  obtain ⟨c, hc, hcd⟩ := h4
  obtain ⟨u0, hu0, hr0⟩ := h5
  obtain ⟨u1, hu1, hr1⟩ := h6
  obtain ⟨u2, hu2, hr2⟩ := h7
  have habs : |(100000001 : ℚ) / 100000000| = 100000001 / 100000000 :=
    abs_of_pos (by norm_num)
  norm_num [segmentize, findCellCoords, LocalCoords.new, h1, h2, h3, hc, hcd, habs, hu0, hr0,
    hu1, hr1, hu2, hr2, IntMap.find, tileTracer, tileChain, segmentLoop, findNextCell,
    adjustCoords, updateMostLocal, TINY_MOVE, retrace, retraceScan, crossLattices,
    addSegmentFor, getPoint, segmentMaterial, findFSRId, findFSRIdLoop, Universe.getFSR,
    Universe.getFSRAt, Universe.getTileFSR, latticeCheck, updateSegLengths]

/-- The run of `segmentize` on `tileGeometry` with `tileTracer`. -/
theorem tile_run :
    segmentize tileTracer 3 tileGeometry ⟨0, 0, 0, []⟩ =
      .ok () (updateSegLengths tileGeometry (1 + 1 / 100000000),
        ⟨0, 0, 0, [⟨1 + 1 / 100000000, 0, 0⟩]⟩) :=
  tile_run_generic tileGeometry rfl rfl rfl ⟨_, rfl, rfl⟩ ⟨_, rfl, rfl⟩ ⟨_, rfl, rfl⟩
    ⟨_, rfl, rfl⟩

/-- Over the reals the Euclidean distance from `(-1, 0)` to the point just right of
the cut is `1 + 10^-8`. -/
theorem distance_to_cut :
    pointDistance Real.sqrt ((1 : ℝ) / 100000000, 0) (-1, 0) = 1 + 1 / 100000000 := by
  unfold pointDistance
  have h : ((1 : ℝ) / 100000000 - -1) * (1 / 100000000 - -1) + (0 - 0) * (0 - 0) =
      (1 + 1 / 100000000) * (1 + 1 / 100000000) := by ring
  simp only [h]
  exact Real.sqrt_mul_self (by norm_num)

end TracingLemmas

section RingLemmas
variable {F : Type} [LinearOrderedField F]

theorem IntMap.find_insert_self {V : Type} (m : IntMap V) (k : Int) (v : V)
    (h : IntMap.find m k = none) : IntMap.find (IntMap.insert m k v) k = some v := by
  induction m with
  | nil => simp [IntMap.insert, IntMap.find]
  | cons e rest ih =>
    obtain ⟨k1, w⟩ := e
    simp only [IntMap.find] at h
    split at h
    · simp at h
    · rename_i hne
      simp only [IntMap.insert]
      split
      · simp [IntMap.find]
      · simp only [hne, if_false, IntMap.find]
        exact ih h

theorem IntMap.find_insert_ne {V : Type} (m : IntMap V) (k k1 : Int) (v : V)
    (h : k1 ≠ k) : IntMap.find (IntMap.insert m k v) k1 = IntMap.find m k1 := by
  induction m with
  | nil => simp [IntMap.insert, IntMap.find, h]
  | cons e rest ih =>
    obtain ⟨k2, w⟩ := e
    simp only [IntMap.insert]
    split
    · simp [IntMap.find, h]
    · split
      · rfl
      · simp only [IntMap.find, ih]

theorem IntMap.length_insert {V : Type} (m : IntMap V) (k : Int) (v : V)
    (h : IntMap.find m k = none) : (IntMap.insert m k v).length = m.length + 1 := by
  induction m with
  | nil => simp [IntMap.insert]
  | cons e rest ih =>
    obtain ⟨k1, w⟩ := e
    simp only [IntMap.find] at h
    split at h
    · simp at h
    · rename_i hne
      simp only [IntMap.insert]
      split
      · simp
      · simp only [hne, if_false, List.length_cons, ih h]

/-- The surface loop of `addCell` runs through when every entry of the cell names a
registered surface; it touches the cell objects only. -/
theorem forEach_addCellSurface_ok (a : Addr) (l : List (Int × Option Addr)) :
    ∀ (g : Geometry F), a < g.cellObjs.length →
      (∀ e ∈ l, ∃ sa, IntMap.find g.surfaces (iabs e.1) = some sa ∧
        sa < g.surfaceObjs.length) →
      ∃ objs, forEach (addCellSurface a) l g = .ok () { g with cellObjs := objs } ∧
        objs.length = g.cellObjs.length := by
  induction l with
  | nil => intro g _ _; exact ⟨g.cellObjs, rfl, rfl⟩
  | cons e rest ih =>
    intro g ha hs
    obtain ⟨sa, hsa, hlt⟩ := hs e (List.mem_cons_self _ _)
    have h1 : g.surfaceObjs[sa]? = some (g.surfaceObjs[sa]) := List.getElem?_eq_getElem hlt
    have h2 : g.cellObjs[a]? = some (g.cellObjs[a]) := List.getElem?_eq_getElem ha
    let objs1 := g.cellObjs.set a ((g.cellObjs[a]).setSurfacePointer (g.surfaceObjs[sa]).id sa)
    obtain ⟨objs, hobjs, hlen⟩ := ih { g with cellObjs := objs1 }
      (by simpa [objs1] using ha) (fun e1 he1 => hs e1 (List.mem_cons_of_mem _ he1))
    refine ⟨objs, ?_, by simpa [objs1] using hlen⟩
    simp only [forEach, addCellSurface, hsa, h1, h2, Outcome.bind_ok]
    exact hobjs

/-- The function `addCell` on a material cell without rings and sectors whose
surfaces, material and universe are registered. -/
theorem addCell_plain (sqrt : F → F) (fuel : Nat) (g : Geometry F) (a : Addr) (c : Cell)
    (material : Int) (ua : Addr)
    (hc : g.cellObjs[a]? = some c) (hd : c.data = .basic material 0 0)
    (hnew : IntMap.find g.cells c.id = none)
    (hmat : (IntMap.find g.materials material).isSome = true)
    (hs : ∀ e ∈ c.surfaces, ∃ sa, IntMap.find g.surfaces (iabs e.1) = some sa ∧
      sa < g.surfaceObjs.length)
    (hu : IntMap.find g.universes c.universe_id = some ua)
    (hua : ua < g.universeObjs.length) :
    ∃ objs uobjs, addCell sqrt (fuel + 1) g a =
        .ok () { g with cellObjs := objs, cells := IntMap.insert g.cells c.id a,
                        universeObjs := uobjs } ∧
      objs.length = g.cellObjs.length ∧ uobjs.length = g.universeObjs.length := by
  have ha : a < g.cellObjs.length := by
    by_contra hcon
    rw [List.getElem?_eq_none (Nat.le_of_not_lt hcon)] at hc
    exact Option.noConfusion hc
  obtain ⟨objs, hobjs, hlen⟩ := forEach_addCellSurface_ok a c.surfaces g ha hs
  have h1 : g.universeObjs[ua]? = some (g.universeObjs[ua]) := List.getElem?_eq_getElem hua
  refine ⟨objs, g.universeObjs.set ua
    { g.universeObjs[ua] with cells := IntMap.insert (g.universeObjs[ua]).cells c.id a },
    ?_, hlen, by simp⟩
  obtain ⟨ma, hma⟩ := Option.isSome_iff_exists.mp hmat
  simp [addCell, hc, hnew, cellMaterialMissing, hd, hma, hobjs, addCellUniverse, hu,
    universeAddCell, h1, refineCell]

theorem iabs_pos (k : Int) (h : 0 < k) : iabs k = k := by
  simp [iabs]; omega

theorem iabs_neg (k : Int) (h : 0 < k) : iabs (-1 * k) = k := by
  simp [iabs, h]

theorem IntMap.mem_insert {V : Type} (m : IntMap V) (k : Int) (v : V) (e : Int × V)
    (h : e ∈ IntMap.insert m k v) : e ∈ m ∨ e = (k, v) := by
  induction m with
  | nil => simpa [IntMap.insert] using h
  | cons e1 rest ih =>
    obtain ⟨k1, w⟩ := e1
    simp only [IntMap.insert] at h
    split at h
    · rcases List.mem_cons.mp h with h | h
      · exact Or.inr h
      · exact Or.inl h
    · split at h
      · exact Or.inl h
      · rcases List.mem_cons.mp h with h | h
        · exact Or.inl (h ▸ List.mem_cons_self _ _)
        · rcases ih h with h | h
          · exact Or.inl (List.mem_cons_of_mem _ h)
          · exact Or.inr h

theorem foldl_insert_mem (l : List Int) :
    ∀ (m : IntMap (Option Addr)) (e : Int × Option Addr),
      e ∈ l.foldl (fun m k => IntMap.insert m k none) m → e ∈ m ∨ e.1 ∈ l := by
  induction l with
  | nil => intro m e h; exact Or.inl h
  | cons k rest ih =>
    intro m e h
    rcases ih _ e h with h | h
    · rcases IntMap.mem_insert m k none e h with h | h
      · exact Or.inl h
      · exact Or.inr (by rw [h]; exact List.mem_cons_self _ _)
    · exact Or.inr (List.mem_cons_of_mem _ h)

/-- The entries of a new `CellBasic` carry the listed surface ids. -/
theorem CellBasic_surfaces_mem (id universe_id n : Int) (l : List Int)
    (material R S : Int) (e : Int × Option Addr)
    (h : e ∈ (CellBasic id universe_id n l material R S).surfaces) : e.1 ∈ l := by
  rcases foldl_insert_mem _ _ e h with h | h
  · exact absurd h (List.not_mem_nil _)
  · exact List.mem_of_mem_take h

theorem RingInv.afterRing (g : Geometry F) (a : Addr) (uid material : Int) (r : F)
    (objs : List Cell) (uobjs : List (Universe F)) (hinv : RingInv g a uid material)
    (h1 : objs.length = g.cellObjs.length + 1) (h2 : uobjs.length = g.universeObjs.length) :
    RingInv (afterRing g r objs uobjs) a uid material := by
  obtain ⟨⟨ua, hua, hualt⟩, hmat, hfs, hfc, hpos, hcell⟩ := hinv
  refine ⟨⟨ua, hua, by simpa [OpenMOC.afterRing, h2] using hualt⟩, hmat, ?_, ?_, ?_, ?_⟩
  · intro k hk
    have hk1 : g.statics.id + 1 ≤ k := hk
    show IntMap.find (IntMap.insert g.surfaces g.statics.id g.surfaceObjs.length) k = none
    rw [IntMap.find_insert_ne _ _ _ _ (by omega)]
    exact hfs k (by omega)
  · intro k hk
    have hk1 : g.statics.id + 1 ≤ k := hk
    show IntMap.find (IntMap.insert g.cells g.statics.id g.cellObjs.length) k = none
    rw [IntMap.find_insert_ne _ _ _ _ (by omega)]
    exact hfc k (by omega)
  · show 0 < g.statics.id + 1
    omega
  · show a < objs.length
    rw [h1]
    exact Nat.lt_succ_of_lt hcell

theorem surfaceAt_afterRing (g : Geometry F) (a : Addr) (uid material : Int) (r : F)
    (objs : List Cell) (uobjs : List (Universe F)) (hinv : RingInv g a uid material)
    (k : Int) (s : Surface F) (h : surfaceAt g k = some s) :
    surfaceAt (afterRing g r objs uobjs) k = some s := by
  unfold surfaceAt at h ⊢
  cases hf : IntMap.find g.surfaces k with
  | none => simp [hf] at h
  | some sa =>
    simp only [hf, Option.some_bind] at h
    have hne : k ≠ g.statics.id := by
      intro heq
      have := hinv.fresh_s k (by omega)
      rw [hf] at this
      exact Option.noConfusion this
    have hlt : sa < g.surfaceObjs.length := by
      by_contra hcon
      rw [List.getElem?_eq_none (Nat.le_of_not_lt hcon)] at h
      exact Option.noConfusion h
    show (IntMap.find (IntMap.insert g.surfaces g.statics.id g.surfaceObjs.length) k).bind
      (fun sa => (g.surfaceObjs ++ _)[sa]?) = some s
    rw [IntMap.find_insert_ne _ _ _ _ hne, hf, Option.some_bind,
      List.getElem?_append_left hlt, h]

theorem surfaceAt_afterRing_new (g : Geometry F) (a : Addr) (uid material : Int) (r : F)
    (objs : List Cell) (uobjs : List (Universe F)) (hinv : RingInv g a uid material) :
    ∃ s, surfaceAt (afterRing g r objs uobjs) g.statics.id = some s ∧
      s.shape = .circle 0 0 r := by
  refine ⟨{ Circle g.statics.id .BOUNDARY_NONE 0 0 r with uid := g.statics.surface_n }, ?_,
    rfl⟩
  show (IntMap.find (IntMap.insert g.surfaces g.statics.id g.surfaceObjs.length)
    g.statics.id).bind (fun sa => (g.surfaceObjs ++ _)[sa]?) = some _
  rw [IntMap.find_insert_self _ _ _ (hinv.fresh_s _ (le_refl _)), Option.some_bind]
  simp

theorem cells_afterRing (g : Geometry F) (a : Addr) (uid material : Int) (r : F)
    (objs : List Cell) (uobjs : List (Universe F)) (hinv : RingInv g a uid material)
    (k : Int) (v : Addr) (h : IntMap.find g.cells k = some v) :
    IntMap.find (afterRing g r objs uobjs).cells k = some v := by
  have hne : k ≠ g.statics.id := by
    intro heq
    have := hinv.fresh_c k (by omega)
    rw [h] at this
    exact Option.noConfusion this
  show IntMap.find (IntMap.insert g.cells g.statics.id g.cellObjs.length) k = some v
  rw [IntMap.find_insert_ne _ _ _ _ hne, h]

/-- One ring of the refinement: the circle is registered, then the ring cell. -/
theorem ring_step (sqrt : F → F) (fuel : Nat) (g : Geometry F) (a : Addr)
    (uid material : Int) (r : F) (spec : Cell) (hinv : RingInv g a uid material)
    (hid : spec.id = g.statics.id) (hu : spec.universe_id = uid)
    (hd : spec.data = .basic material 0 0)
    (hs : ∀ e ∈ spec.surfaces, iabs e.1 = g.statics.id ∨
      ∃ sa, IntMap.find g.surfaces (iabs e.1) = some sa ∧ sa < g.surfaceObjs.length) :
    ∃ g2 objs uobjs,
      addSurface (newSurface g (Circle g.statics.id .BOUNDARY_NONE 0 0 r)).2
          (newSurface g (Circle g.statics.id .BOUNDARY_NONE 0 0 r)).1 = .ok () g2 ∧
      g2.statics.id = g.statics.id ∧
      addCell sqrt (fuel + 1) (bumpId (newCell g2 spec).2) (newCell g2 spec).1 =
        .ok () (afterRing g r objs uobjs) ∧
      objs.length = g.cellObjs.length + 1 ∧ uobjs.length = g.universeObjs.length := by
  obtain ⟨⟨ua, hua, hualt⟩, hmat, hfs, hfc, hpos, hcell⟩ := hinv
  have hs1 := hfs g.statics.id (le_refl _)
  obtain ⟨g2, hg2⟩ : ∃ g2 : Geometry F, g2 = { g with
      surfaceObjs := g.surfaceObjs ++
        [{ Circle g.statics.id .BOUNDARY_NONE 0 0 r with uid := g.statics.surface_n }],
      surfaces := IntMap.insert g.surfaces g.statics.id g.surfaceObjs.length,
      statics := { g.statics with surface_n := g.statics.surface_n + 1 } } := ⟨_, rfl⟩
  have hadd : addSurface (newSurface g (Circle g.statics.id .BOUNDARY_NONE 0 0 r)).2
      (newSurface g (Circle g.statics.id .BOUNDARY_NONE 0 0 r)).1 = .ok () g2 := by
    rw [hg2]
    simp [addSurface, newSurface, Circle, hs1]
  have e1 : g2.cellObjs = g.cellObjs := by rw [hg2]
  have e2 : g2.cells = g.cells := by rw [hg2]
  have e3 : g2.materials = g.materials := by rw [hg2]
  have e4 : g2.surfaces = IntMap.insert g.surfaces g.statics.id g.surfaceObjs.length := by
    rw [hg2]
  have e5 : g2.surfaceObjs.length = g.surfaceObjs.length + 1 := by rw [hg2]; simp
  have e6 : g2.universes = g.universes := by rw [hg2]
  have e7 : g2.universeObjs = g.universeObjs := by rw [hg2]
  have e8 : g2.statics.id = g.statics.id := by rw [hg2]
  have hres : ∀ e ∈ spec.surfaces, ∃ sa, IntMap.find g2.surfaces (iabs e.1) = some sa ∧
      sa < g2.surfaceObjs.length := by
    intro e he
    rw [e4, e5]
    by_cases heq : iabs e.1 = g.statics.id
    · rw [heq]
      exact ⟨g.surfaceObjs.length, IntMap.find_insert_self _ _ _ hs1, Nat.lt_succ_self _⟩
    · rcases hs e he with h1 | ⟨sa, h1, h2⟩
      · exact absurd h1 heq
      · rw [IntMap.find_insert_ne _ _ _ _ heq]
        exact ⟨sa, h1, Nat.lt_succ_of_lt h2⟩
  obtain ⟨objs, uobjs, h, hl1, hl2⟩ := addCell_plain sqrt fuel
    (bumpId (newCell g2 spec).2) (newCell g2 spec).1 { spec with uid := g2.statics.cell_n }
    material ua (by simp [bumpId, newCell]) hd
    (by
      have := hfc g.statics.id (le_refl _)
      simpa [bumpId, newCell, hid, e2] using this)
    (by simpa [bumpId, newCell, e3] using hmat)
    (by simpa [bumpId, newCell] using hres)
    (by simpa [bumpId, newCell, hu, e6] using hua)
    (by simpa [bumpId, newCell, e7] using hualt)
  refine ⟨g2, objs, uobjs, hadd, e8, ?_, by simpa [bumpId, newCell, e1] using hl1,
    by simpa [bumpId, newCell, e7] using hl2⟩
  rw [h, hg2]
  simp [OpenMOC.afterRing, bumpId, newCell, hid]

theorem RingsAdded.zero (g : Geometry F) (radius : Nat → F) : RingsAdded g g 0 radius :=
  ⟨by simp, by simp, by simp, fun _ _ h => h, fun _ _ h => h,
    fun j hj => absurd hj (Nat.not_lt_zero j)⟩

/-- A ring followed by `n` rings makes `n + 1` rings. -/
theorem RingsAdded.cons (g g1 : Geometry F) (a : Addr) (uid material : Int) (r : F)
    (objs : List Cell) (uobjs : List (Universe F)) (n : Nat) (radius : Nat → F)
    (hinv : RingInv g a uid material)
    (h : RingsAdded (afterRing g r objs uobjs) g1 n (fun j => radius (j + 1)))
    (h0 : radius 0 = r) : RingsAdded g g1 (n + 1) radius := by
  obtain ⟨h1, h2, h3, h4, h5, h6⟩ := h
  have hid : (afterRing g r objs uobjs).statics.id = g.statics.id + 1 := rfl
  have hc : (afterRing g r objs uobjs).cells.length = g.cells.length + 1 :=
    IntMap.length_insert _ _ _ (hinv.fresh_c _ (le_refl _))
  have hs : (afterRing g r objs uobjs).surfaces.length = g.surfaces.length + 1 :=
    IntMap.length_insert _ _ _ (hinv.fresh_s _ (le_refl _))
  refine ⟨?_, ?_, ?_, ?_, ?_, ?_⟩
  · rw [h1, hid]; push_cast; ring
  · rw [h2, hc]; ring
  · rw [h3, hs]; ring
  · exact fun k v hk => h4 k v (cells_afterRing g a uid material r objs uobjs hinv k v hk)
  · exact fun k s hk => h5 k s (surfaceAt_afterRing g a uid material r objs uobjs hinv k s hk)
  · intro j hj
    cases j with
    | zero =>
      obtain ⟨s, hs1, hs2⟩ := surfaceAt_afterRing_new g a uid material r objs uobjs hinv
      have hnew : IntMap.find (afterRing g r objs uobjs).cells g.statics.id =
          some g.cellObjs.length :=
        IntMap.find_insert_self _ _ _ (hinv.fresh_c _ (le_refl _))
      refine ⟨?_, s, ?_, by rw [h0]; exact hs2⟩
      · simp [h4 _ _ hnew]
      · simpa using h5 _ _ hs1
    | succ j =>
      have := h6 j (Nat.lt_of_succ_lt_succ hj)
      rw [hid] at this
      have hcast : g.statics.id + ((j + 1 : Nat) : Int) = g.statics.id + 1 + (j : Int) := by
        push_cast; ring
      rw [hcast]
      exact this

theorem circleRadius_surfaceAt (g : Geometry F) (k : Int) (r : F) (g1 : Geometry F)
    (h : circleRadius g k = .ok r g1) :
    ∃ s x y, surfaceAt g k = some s ∧ s.shape = .circle x y r := by
  unfold circleRadius at h
  unfold surfaceAt
  cases hf : IntMap.find g.surfaces k with
  | none => simp [hf] at h
  | some sa =>
    simp only [hf] at h
    cases hs : g.surfaceObjs[sa]? with
    | none => simp [hs] at h
    | some s =>
      simp only [hs] at h
      cases hsh : s.shape with
      | circle x y radius =>
        simp only [hsh, Outcome.ok.injEq] at h
        exact ⟨s, x, y, by simp [hs], by rw [← h.1]; exact hsh⟩
      | plane A B C => simp [hsh] at h
      | xplane C => simp [hsh] at h
      | yplane C => simp [hsh] at h

theorem surfaceAt_circleRadius (g : Geometry F) (k : Int) (s : Surface F) (x y r : F)
    (h : surfaceAt g k = some s) (hsh : s.shape = .circle x y r) :
    circleRadius g k = .ok r g := by
  unfold surfaceAt at h
  unfold circleRadius
  cases hf : IntMap.find g.surfaces k with
  | none => simp [hf] at h
  | some sa =>
    simp only [hf, Option.some_bind] at h
    simp only [h, hsh]

theorem surfaceAt_lt (g : Geometry F) (k : Int) (s : Surface F)
    (h : surfaceAt g k = some s) :
    ∃ sa, IntMap.find g.surfaces k = some sa ∧ sa < g.surfaceObjs.length := by
  unfold surfaceAt at h
  cases hf : IntMap.find g.surfaces k with
  | none => simp [hf] at h
  | some sa =>
    simp only [hf, Option.some_bind] at h
    refine ⟨sa, rfl, ?_⟩
    by_contra hcon
    rw [List.getElem?_eq_none (Nat.le_of_not_lt hcon)] at h
    exact Option.noConfusion h

theorem diskGeometry_fresh (k : Int) (hk : (diskGeometry F).statics.id ≤ k) :
    IntMap.find (diskGeometry F).surfaces k = none ∧
      IntMap.find (diskGeometry F).cells k = none := by
  have hk1 : (10000 : Int) ≤ k := hk
  have hne : k ≠ 1 := by omega
  exact ⟨by simp [diskGeometry, IntMap.find, hne], rfl⟩

end RingLemmas

section BoxLemmas

variable {F : Type} [LinearOrderedField F]

theorem Ext.le_self (a : Ext F) : Ext.le a a = true := by
  cases a <;> simp [Ext.le]

theorem Ext.le_or_le (a b : Ext F) : Ext.le a b = true ∨ Ext.le b a = true := by
  cases a <;> cases b <;> simp [Ext.le]
  exact le_total _ _

theorem Ext.le_chain (a b c : Ext F) (h1 : Ext.le a b = true) (h2 : Ext.le b c = true) :
    Ext.le a c = true := by
  cases a <;> cases b <;> cases c <;> simp [Ext.le] at h1 h2 ⊢
  exact le_trans h1 h2

theorem Ext.le_both (a b : Ext F) (h1 : Ext.le a b = true) (h2 : Ext.le b a = true) :
    a = b := by
  cases a <;> cases b <;> simp [Ext.le] at h1 h2 ⊢
  exact le_antisymm h1 h2

theorem Ext.min_le_left (a b : Ext F) : Ext.le (Ext.min a b) a = true := by
  unfold Ext.min
  split
  · exact Ext.le_self a
  · rename_i h
    rcases Ext.le_or_le a b with h1 | h1
    · exact absurd h1 h
    · exact h1

theorem Ext.min_le_right (a b : Ext F) : Ext.le (Ext.min a b) b = true := by
  unfold Ext.min
  split
  · rename_i h; exact h
  · exact Ext.le_self b

theorem Ext.le_min (a b c : Ext F) (h1 : Ext.le c a = true) (h2 : Ext.le c b = true) :
    Ext.le c (Ext.min a b) = true := by
  unfold Ext.min
  split
  · exact h1
  · exact h2

theorem Ext.le_max_left (a b : Ext F) : Ext.le a (Ext.max a b) = true := by
  unfold Ext.max
  split
  · rename_i h; exact h
  · exact Ext.le_self a

theorem Ext.le_max_right (a b : Ext F) : Ext.le b (Ext.max a b) = true := by
  unfold Ext.max
  split
  · exact Ext.le_self b
  · rename_i h
    rcases Ext.le_or_le a b with h1 | h1
    · exact absurd h1 h
    · exact h1

theorem Ext.max_le (a b c : Ext F) (h1 : Ext.le a c = true) (h2 : Ext.le b c = true) :
    Ext.le (Ext.max a b) c = true := by
  unfold Ext.max
  split
  · exact h2
  · exact h1

theorem Ext.min_left_comm (a b c : Ext F) :
    Ext.min a (Ext.min b c) = Ext.min b (Ext.min a c) := by
  apply Ext.le_both
  · apply Ext.le_min
    · exact Ext.le_chain _ _ _ (Ext.min_le_right _ _) (Ext.min_le_left _ _)
    · apply Ext.le_min
      · exact Ext.min_le_left _ _
      · exact Ext.le_chain _ _ _ (Ext.min_le_right _ _) (Ext.min_le_right _ _)
  · apply Ext.le_min
    · exact Ext.le_chain _ _ _ (Ext.min_le_right _ _) (Ext.min_le_left _ _)
    · apply Ext.le_min
      · exact Ext.min_le_left _ _
      · exact Ext.le_chain _ _ _ (Ext.min_le_right _ _) (Ext.min_le_right _ _)

theorem Ext.max_right_comm (a b c : Ext F) :
    Ext.max (Ext.max a b) c = Ext.max (Ext.max a c) b := by
  apply Ext.le_both
  · apply Ext.max_le
    · apply Ext.max_le
      · exact Ext.le_chain _ _ _ (Ext.le_max_left _ _) (Ext.le_max_left _ _)
      · exact Ext.le_max_right _ _
    · exact Ext.le_chain _ _ _ (Ext.le_max_right _ _) (Ext.le_max_left _ _)
  · apply Ext.max_le
    · apply Ext.max_le
      · exact Ext.le_chain _ _ _ (Ext.le_max_left _ _) (Ext.le_max_left _ _)
      · exact Ext.le_max_right _ _
    · exact Ext.le_chain _ _ _ (Ext.le_max_right _ _) (Ext.le_max_left _ _)

theorem extendBox_comm (b : Ext F × Ext F × Ext F × Ext F) (s t : Surface F) :
    extendBox (extendBox b s) t = extendBox (extendBox b t) s := by
  simp only [extendBox, Ext.min_left_comm t.x_min s.x_min, Ext.min_left_comm t.y_min s.y_min,
    Ext.max_right_comm _ s.x_max t.x_max, Ext.max_right_comm _ s.y_max t.y_max]

/-- One successful `addSurface` call: the surface objects stay, and the bounds are
enlarged by the extents of a reflective surface and kept for any other. -/
theorem addSurface_bounds (g g1 : Geometry F) (a : Addr) (h : addSurface g a = .ok () g1) :
    g1.surfaceObjs = g.surfaceObjs ∧
    ∃ s, g.surfaceObjs[a]? = some s ∧
      g1.bounds = if s.boundary = .REFLECTIVE then extendBox g.bounds s else g.bounds := by
  unfold addSurface at h
  cases hs : g.surfaceObjs[a]? with
  | none => simp [hs] at h
  | some s =>
    simp only [hs] at h
    split at h
    · simp at h
    · cases hb : s.boundary with
      | REFLECTIVE =>
        simp only [hb, Outcome.ok.injEq, true_and] at h
        subst h
        exact ⟨rfl, s, rfl, by simp [Geometry.bounds, extendBox, Ext.min, Ext.max, hb]⟩
      | BOUNDARY_NONE =>
        simp only [hb, Outcome.ok.injEq, true_and] at h
        subst h
        exact ⟨rfl, s, rfl, by simp [Geometry.bounds, hb]⟩

/-- A run of successful `addSurface` calls folds the reflective surfaces into the
bounds. -/
theorem forEach_addSurface_bounds (addrs : List Addr) :
    ∀ (g g1 : Geometry F), forEach (fun a s => addSurface s a) addrs g = .ok () g1 →
      g1.bounds = (reflectiveAmong g addrs).foldl extendBox g.bounds := by
  induction addrs with
  | nil =>
    intro g g1 h
    simp only [forEach, Outcome.ok.injEq, true_and] at h
    subst h
    rfl
  | cons a rest ih =>
    intro g g1 h
    simp only [forEach] at h
    cases h1 : addSurface g a with
    | outOfFuel => simp [h1] at h
    | fatal e s => simp [h1] at h
    | ok u g2 =>
      simp only [h1, Outcome.bind_ok] at h
      obtain ⟨hobjs, s, hs, hb⟩ := addSurface_bounds g g2 a h1
      have hrest := ih g2 g1 h
      have hsame : reflectiveAmong g2 rest = reflectiveAmong g rest := by
        unfold reflectiveAmong
        rw [hobjs]
      rw [hrest, hsame, hb]
      unfold reflectiveAmong
      simp only [List.filterMap_cons, hs]
      by_cases hr : s.boundary = .REFLECTIVE
      · simp [hr, List.filter_cons]
      · simp [hr, List.filter_cons]

theorem foldl_extendBox_bounds (l : List (Surface F)) :
    ∀ (b : Ext F × Ext F × Ext F × Ext F),
      (Ext.le (l.foldl extendBox b).1 b.1 = true ∧
        Ext.le (l.foldl extendBox b).2.1 b.2.1 = true ∧
        Ext.le b.2.2.1 (l.foldl extendBox b).2.2.1 = true ∧
        Ext.le b.2.2.2 (l.foldl extendBox b).2.2.2 = true) ∧
      ∀ s ∈ l, Ext.le (l.foldl extendBox b).1 s.x_min = true ∧
        Ext.le (l.foldl extendBox b).2.1 s.y_min = true ∧
        Ext.le s.x_max (l.foldl extendBox b).2.2.1 = true ∧
        Ext.le s.y_max (l.foldl extendBox b).2.2.2 = true := by
  induction l with
  | nil => intro b; exact ⟨⟨Ext.le_self _, Ext.le_self _, Ext.le_self _, Ext.le_self _⟩, by simp⟩
  | cons t rest ih =>
    intro b
    obtain ⟨⟨h1, h2, h3, h4⟩, hall⟩ := ih (extendBox b t)
    rw [List.foldl_cons]
    refine ⟨⟨Ext.le_chain _ _ _ h1 (Ext.min_le_right _ _),
      Ext.le_chain _ _ _ h2 (Ext.min_le_right _ _),
      Ext.le_chain _ _ _ (Ext.le_max_left _ _) h3,
      Ext.le_chain _ _ _ (Ext.le_max_left _ _) h4⟩, ?_⟩
    intro s hs
    rcases List.mem_cons.mp hs with rfl | hs
    · exact ⟨Ext.le_chain _ _ _ h1 (Ext.min_le_left _ _),
        Ext.le_chain _ _ _ h2 (Ext.min_le_left _ _),
        Ext.le_chain _ _ _ (Ext.le_max_right _ _) h3,
        Ext.le_chain _ _ _ (Ext.le_max_right _ _) h4⟩
    · exact hall s hs

/-- Every bound of the folded box is the start value or an extent of one of the
surfaces. -/
theorem foldl_extendBox_attained (l : List (Surface F)) :
    ∀ (b : Ext F × Ext F × Ext F × Ext F),
      ((l.foldl extendBox b).1 = b.1 ∨ ∃ s ∈ l, (l.foldl extendBox b).1 = s.x_min) ∧
      ((l.foldl extendBox b).2.1 = b.2.1 ∨ ∃ s ∈ l, (l.foldl extendBox b).2.1 = s.y_min) ∧
      ((l.foldl extendBox b).2.2.1 = b.2.2.1 ∨
        ∃ s ∈ l, (l.foldl extendBox b).2.2.1 = s.x_max) ∧
      ((l.foldl extendBox b).2.2.2 = b.2.2.2 ∨
        ∃ s ∈ l, (l.foldl extendBox b).2.2.2 = s.y_max) := by
  induction l with
  | nil => intro b; simp
  | cons t rest ih =>
    intro b
    obtain ⟨h1, h2, h3, h4⟩ := ih (extendBox b t)
    rw [List.foldl_cons]
    refine ⟨?_, ?_, ?_, ?_⟩
    · rcases h1 with h | ⟨s, hs, h⟩
      · rw [h]
        by_cases hc : Ext.le t.x_min b.1 = true
        · exact Or.inr ⟨t, List.mem_cons_self _ _, by
            show Ext.min t.x_min b.1 = t.x_min
            unfold Ext.min
            rw [if_pos hc]⟩
        · exact Or.inl (by
            show Ext.min t.x_min b.1 = b.1
            unfold Ext.min
            rw [if_neg hc])
      · exact Or.inr ⟨s, List.mem_cons_of_mem _ hs, h⟩
    · rcases h2 with h | ⟨s, hs, h⟩
      · rw [h]
        by_cases hc : Ext.le t.y_min b.2.1 = true
        · exact Or.inr ⟨t, List.mem_cons_self _ _, by
            show Ext.min t.y_min b.2.1 = t.y_min
            unfold Ext.min
            rw [if_pos hc]⟩
        · exact Or.inl (by
            show Ext.min t.y_min b.2.1 = b.2.1
            unfold Ext.min
            rw [if_neg hc])
      · exact Or.inr ⟨s, List.mem_cons_of_mem _ hs, h⟩
    · rcases h3 with h | ⟨s, hs, h⟩
      · rw [h]
        by_cases hc : Ext.le b.2.2.1 t.x_max = true
        · exact Or.inr ⟨t, List.mem_cons_self _ _, by
            show Ext.max b.2.2.1 t.x_max = t.x_max
            unfold Ext.max
            rw [if_pos hc]⟩
        · exact Or.inl (by
            show Ext.max b.2.2.1 t.x_max = b.2.2.1
            unfold Ext.max
            rw [if_neg hc])
      · exact Or.inr ⟨s, List.mem_cons_of_mem _ hs, h⟩
    · rcases h4 with h | ⟨s, hs, h⟩
      · rw [h]
        by_cases hc : Ext.le b.2.2.2 t.y_max = true
        · exact Or.inr ⟨t, List.mem_cons_self _ _, by
            show Ext.max b.2.2.2 t.y_max = t.y_max
            unfold Ext.max
            rw [if_pos hc]⟩
        · exact Or.inl (by
            show Ext.max b.2.2.2 t.y_max = b.2.2.2
            unfold Ext.max
            rw [if_neg hc])
      · exact Or.inr ⟨s, List.mem_cons_of_mem _ hs, h⟩

theorem reflectiveAmong_perm (g : Geometry F) (l1 l2 : List Addr) (h : l1.Perm l2) :
    (reflectiveAmong g l1).Perm (reflectiveAmong g l2) :=
  (h.filterMap _).filter _

theorem foldl_extendBox_perm (l1 l2 : List (Surface F)) (h : l1.Perm l2)
    (b : Ext F × Ext F × Ext F × Ext F) : l1.foldl extendBox b = l2.foldl extendBox b :=
  h.foldl_eq' (fun s _ t _ z => extendBox_comm z s t) b

end BoxLemmas

section LatLemmas

variable {F : Type} [LinearOrderedField F]

theorem forEach_append {σ ι : Type} (f : ι → σ → Outcome σ Unit) (l1 l2 : List ι) :
    ∀ s, forEach f (l1 ++ l2) s = (forEach f l1 s).bind fun _ s1 => forEach f l2 s1 := by
  induction l1 with
  | nil => intro s; rfl
  | cons i rest ih =>
    intro s
    simp only [List.cons_append, forEach]
    cases f i s with
    | outOfFuel => rfl
    | fatal e s1 => rfl
    | ok u s1 => exact ih s1

theorem forEach_map {σ ι κ : Type} (f : κ → σ → Outcome σ Unit) (h : ι → κ) (l : List ι) :
    ∀ s, forEach f (l.map h) s = forEach (fun i => f (h i)) l s := by
  induction l with
  | nil => intro s; rfl
  | cons i rest ih =>
    intro s
    simp only [List.map_cons, forEach, ih]

/-- The double loop is the loop over the index pairs. -/
theorem forEach_nested {σ : Type} (f : Nat → Nat → σ → Outcome σ Unit) (js : List Nat)
    (is : List Nat) :
    ∀ s, forEach (fun i s1 => forEach (fun j s2 => f i j s2) js s1) is s =
      forEach (fun p s1 => f p.1 p.2 s1) (is.flatMap fun i => js.map fun j => (i, j)) s := by
  induction is with
  | nil => intro s; rfl
  | cons i rest ih =>
    intro s
    simp only [List.flatMap_cons, forEach_append, forEach, forEach_map, ih]

theorem tileAt_setUniversePointer (lat : Universe F) (x : Int) (ua : Addr) (p : Nat × Nat) :
    tileAt (lat.setUniversePointer x ua) p =
      (tileAt lat p).map fun t => if t.1 = x then (t.1, some ua) else t := by
  unfold tileAt Universe.setUniversePointer
  simp only [List.getElem?_map]
  cases lat.universes[p.1]? with
  | none => rfl
  | some row => simp [List.getElem?_map]

theorem IdsSame.setUniversePointer (lat1 lat : Universe F) (x : Int) (ua : Addr)
    (h : IdsSame lat1 lat) : IdsSame (lat1.setUniversePointer x ua) lat := by
  intro p
  rw [tileAt_setUniversePointer, ← h p]
  cases tileAt lat1 p with
  | none => rfl
  | some t =>
    simp only [Option.map_some']
    split <;> rfl

theorem mem_latticeLoopIndices (num_x num_y : Int) (p : Nat × Nat) :
    p ∈ latticeLoopIndices num_x num_y ↔ p.1 < num_y.toNat ∧ p.2 < num_x.toNat := by
  obtain ⟨i, j⟩ := p
  simp [latticeLoopIndices, List.mem_flatMap, List.mem_range]

/-- Under `LatticeShape` the positions of the double loop are the positions that
hold a tile. -/
theorem tileAt_isSome_iff (lat : Universe F) (h : LatticeShape lat) (p : Nat × Nat) :
    (∃ t, tileAt lat p = some t) ↔ p ∈ latticeLoopIndices lat.num_x lat.num_y := by
  rw [mem_latticeLoopIndices]
  unfold tileAt
  constructor
  · rintro ⟨t, ht⟩
    cases hr : lat.universes[p.1]? with
    | none => simp [hr] at ht
    | some row =>
      simp only [hr, Option.some_bind] at ht
      obtain ⟨hi, hrow⟩ := List.getElem?_eq_some_iff.mp hr
      obtain ⟨hj, _⟩ := List.getElem?_eq_some_iff.mp ht
      have hmem : row ∈ lat.universes := by rw [← hrow]; exact List.getElem_mem _
      exact ⟨by rw [← h.1]; exact hi, by rw [← h.2 row hmem]; exact hj⟩
  · rintro ⟨hi, hj⟩
    have hi1 : p.1 < lat.universes.length := by rw [h.1]; exact hi
    have hmem : lat.universes[p.1] ∈ lat.universes := List.getElem_mem _
    have hj1 : p.2 < (lat.universes[p.1]).length := by rw [h.2 _ hmem]; exact hj
    exact ⟨(lat.universes[p.1])[p.2], by
      rw [List.getElem?_eq_getElem hi1, Option.some_bind, List.getElem?_eq_getElem hj1]⟩

theorem mem_tiles_tileAt (lat : Universe F) (t : Int × Option Addr) (h : t ∈ lat.tiles) :
    ∃ p, tileAt lat p = some t := by
  unfold Universe.tiles at h
  obtain ⟨row, hrow, ht⟩ := List.mem_flatten.mp h
  obtain ⟨i, hi, hri⟩ := List.getElem_of_mem hrow
  obtain ⟨j, hj, htj⟩ := List.getElem_of_mem ht
  refine ⟨(i, j), ?_⟩
  unfold tileAt
  rw [List.getElem?_eq_getElem hi, Option.some_bind, hri, List.getElem?_eq_getElem hj, htj]

theorem tileAt_mem_tiles (lat : Universe F) (p : Nat × Nat) (t : Int × Option Addr)
    (h : tileAt lat p = some t) : t ∈ lat.tiles := by
  unfold tileAt at h
  cases hr : lat.universes[p.1]? with
  | none => simp [hr] at h
  | some row =>
    simp only [hr, Option.some_bind] at h
    unfold Universe.tiles
    exact List.mem_flatten.mpr ⟨row, List.mem_iff_getElem?.mpr ⟨_, hr⟩,
      List.mem_iff_getElem?.mpr ⟨_, h⟩⟩

/-- One pass of the double loop of `addLattice` on a tile whose universe is
registered. -/
theorem addLatticeTile_ok (g0 : Geometry F) (a : Addr) (lat lat1 : Universe F)
    (hobj : g0.universeObjs[a]? = some lat) (hcons : UniversesConsistent g0)
    (hfree : IntMap.find g0.universes lat.id = none) (p : Nat × Nat)
    (t : Int × Option Addr) (ht : tileAt lat1 p = some t) (ua : Addr)
    (hreg : IntMap.find g0.universes t.1 = some ua) :
    addLatticeTile a p.1 p.2 { g0 with universeObjs := g0.universeObjs.set a lat1 } =
      .ok () { g0 with universeObjs :=
        g0.universeObjs.set a (lat1.setUniversePointer t.1 ua) } := by
  obtain ⟨u, hu, hid⟩ := hcons t.1 ua hreg
  have hne : a ≠ ua := by
    intro heq
    rw [← heq, hobj] at hu
    cases hu
    rw [hid] at hfree
    rw [hfree] at hreg
    exact Option.noConfusion hreg
  have ha : a < g0.universeObjs.length := by
    by_contra hcon
    rw [List.getElem?_eq_none (Nat.le_of_not_lt hcon)] at hobj
    exact Option.noConfusion hobj
  unfold tileAt at ht
  cases hr : lat1.universes[p.1]? with
  | none => simp [hr] at ht
  | some row =>
    simp only [hr, Option.some_bind] at ht
    simp [addLatticeTile, ha, hr, ht, hreg, List.getElem?_set_ne hne, hu, hid]

/-- One pass of the double loop of `addLattice` on a tile whose universe is not
registered. -/
theorem addLatticeTile_missing (g0 : Geometry F) (a : Addr) (lat1 : Universe F)
    (ha : a < g0.universeObjs.length) (p : Nat × Nat)
    (t : Int × Option Addr) (ht : tileAt lat1 p = some t)
    (hreg : IntMap.find g0.universes t.1 = none) :
    addLatticeTile a p.1 p.2 { g0 with universeObjs := g0.universeObjs.set a lat1 } =
      .fatal (.latticeUniverseMissing t.1)
        { g0 with universeObjs := g0.universeObjs.set a lat1 } := by
  unfold tileAt at ht
  cases hr : lat1.universes[p.1]? with
  | none => simp [hr] at ht
  | some row =>
    simp only [hr, Option.some_bind] at ht
    simp [addLatticeTile, ha, hr, ht, hreg]

/-- The tile loop of `addLattice` when every tile names a registered universe: it
runs through and leaves every visited tile resolved. -/
theorem tiles_loop_ok (g0 : Geometry F) (a : Addr) (lat : Universe F)
    (hobj : g0.universeObjs[a]? = some lat) (hcons : UniversesConsistent g0)
    (hfree : IntMap.find g0.universes lat.id = none)
    (hall : ∀ t ∈ lat.tiles, (IntMap.find g0.universes t.1).isSome = true) :
    ∀ (ps done : List (Nat × Nat)) (lat1 : Universe F), IdsSame lat1 lat →
      (∀ p ∈ ps, ∃ t, tileAt lat p = some t) →
      (∀ p ∈ done, ∃ t, tileAt lat1 p = some t ∧ TileResolved g0.universes t) →
      ∃ lat2, forEach (fun p s => addLatticeTile a p.1 p.2 s) ps
            { g0 with universeObjs := g0.universeObjs.set a lat1 } =
          .ok () { g0 with universeObjs := g0.universeObjs.set a lat2 } ∧
        IdsSame lat2 lat ∧ lat2.id = lat1.id ∧
        (∀ p ∈ done ++ ps, ∃ t, tileAt lat2 p = some t ∧ TileResolved g0.universes t) := by
  intro ps
  induction ps with
  | nil =>
    intro done lat1 hids _ hdone
    exact ⟨lat1, rfl, hids, rfl, by simpa using hdone⟩
  | cons p rest ih =>
    intro done lat1 hids hps hdone
    obtain ⟨t0, ht0⟩ := hps p (List.mem_cons_self _ _)
    have hsome : (tileAt lat1 p).map Prod.fst = some t0.1 := by rw [hids p, ht0]; rfl
    cases ht : tileAt lat1 p with
    | none => rw [ht] at hsome; exact Option.noConfusion hsome
    | some t =>
      rw [ht] at hsome
      have hfst : t.1 = t0.1 := by simpa using hsome
      have hreg0 := hall t0 (tileAt_mem_tiles lat p t0 ht0)
      rw [← hfst] at hreg0
      obtain ⟨ua, hua⟩ := Option.isSome_iff_exists.mp hreg0
      have hstep := addLatticeTile_ok g0 a lat lat1 hobj hcons hfree p t ht ua hua
      obtain ⟨lat2, hrun, hids2, hid2, hres⟩ := ih (done ++ [p])
        (lat1.setUniversePointer t.1 ua) (IdsSame.setUniversePointer lat1 lat t.1 ua hids)
        (fun q hq => hps q (List.mem_cons_of_mem _ hq))
        (by
          intro q hq
          rw [tileAt_setUniversePointer]
          rcases List.mem_append.mp hq with hq | hq
          · obtain ⟨tq, htq, ub, hptr, hfind⟩ := hdone q hq
            rw [htq]
            by_cases hx : tq.1 = t.1
            · exact ⟨(tq.1, some ua), by simp [hx], ua, rfl, by
                show IntMap.find g0.universes tq.1 = some ua
                rw [hx]; exact hua⟩
            · exact ⟨tq, by simp [hx], ub, hptr, hfind⟩
          · rw [List.mem_singleton.mp hq, ht]
            exact ⟨(t.1, some ua), by simp, ua, rfl, hua⟩)
      refine ⟨lat2, ?_, hids2, by rw [hid2]; rfl, by simpa using hres⟩
      simp only [forEach, hstep, Outcome.bind_ok]
      exact hrun

/-- The tile loop of `addLattice` when some tile to be visited names a universe
that is not registered: it ends in the fatal error for such a tile, with the
registries as before. -/
theorem tiles_loop_missing (g0 : Geometry F) (a : Addr) (lat : Universe F)
    (hobj : g0.universeObjs[a]? = some lat) (hcons : UniversesConsistent g0)
    (hfree : IntMap.find g0.universes lat.id = none) :
    ∀ (ps : List (Nat × Nat)) (lat1 : Universe F), IdsSame lat1 lat →
      (∀ p ∈ ps, ∃ t, tileAt lat p = some t) →
      (∃ p ∈ ps, ∃ t, tileAt lat p = some t ∧ IntMap.find g0.universes t.1 = none) →
      ∃ uid lat2, forEach (fun p s => addLatticeTile a p.1 p.2 s) ps
            { g0 with universeObjs := g0.universeObjs.set a lat1 } =
          .fatal (.latticeUniverseMissing uid)
            { g0 with universeObjs := g0.universeObjs.set a lat2 } ∧
        IntMap.find g0.universes uid = none ∧ uid ∈ lat.tiles.map Prod.fst := by
  have ha : a < g0.universeObjs.length := by
    by_contra hcon
    rw [List.getElem?_eq_none (Nat.le_of_not_lt hcon)] at hobj
    exact Option.noConfusion hobj
  intro ps
  induction ps with
  | nil =>
    intro lat1 _ _ hbad
    obtain ⟨p, hp, _⟩ := hbad
    exact absurd hp (List.not_mem_nil _)
  | cons p rest ih =>
    intro lat1 hids hps hbad
    obtain ⟨t0, ht0⟩ := hps p (List.mem_cons_self _ _)
    have hsome : (tileAt lat1 p).map Prod.fst = some t0.1 := by rw [hids p, ht0]; rfl
    cases ht : tileAt lat1 p with
    | none => rw [ht] at hsome; exact Option.noConfusion hsome
    | some t =>
      rw [ht] at hsome
      have hfst : t.1 = t0.1 := by simpa using hsome
      cases hreg : IntMap.find g0.universes t.1 with
      | none =>
        refine ⟨t.1, lat1, ?_, hreg, ?_⟩
        · simp only [forEach, addLatticeTile_missing g0 a lat1 ha p t ht hreg,
            Outcome.bind_fatal]
        · rw [hfst]
          exact List.mem_map.mpr ⟨t0, tileAt_mem_tiles lat p t0 ht0, rfl⟩
      | some ua =>
        have hstep := addLatticeTile_ok g0 a lat lat1 hobj hcons hfree p t ht ua hreg
        have hbad1 : ∃ q ∈ rest, ∃ tq, tileAt lat q = some tq ∧
            IntMap.find g0.universes tq.1 = none := by
          obtain ⟨q, hq, tq, htq, hnone⟩ := hbad
          rcases List.mem_cons.mp hq with rfl | hq
          · rw [ht0] at htq
            cases htq
            rw [← hfst, hreg] at hnone
            exact Option.noConfusion hnone
          · exact ⟨q, hq, tq, htq, hnone⟩
        obtain ⟨uid, lat2, hrun, hnone, hmem⟩ := ih (lat1.setUniversePointer t.1 ua)
          (IdsSame.setUniversePointer lat1 lat t.1 ua hids)
          (fun q hq => hps q (List.mem_cons_of_mem _ hq)) hbad1
        refine ⟨uid, lat2, ?_, hnone, hmem⟩
        simp only [forEach, hstep, Outcome.bind_ok]
        exact hrun

theorem set_getElem?_self {α : Type} (l : List α) (a : Nat) (x : α) (h : l[a]? = some x) :
    l.set a x = l := by
  induction l generalizing a with
  | nil => rfl
  | cons y rest ih =>
    cases a with
    | zero =>
      simp only [List.getElem?_cons_zero, Option.some.injEq] at h
      rw [List.set_cons_zero, h]
    | succ n =>
      simp only [List.getElem?_cons_succ] at h
      rw [List.set_cons_succ, ih n h]

/-- The function `addLattice` written with the loop over the index pairs. -/
theorem addLattice_eq (g : Geometry F) (a : Addr) (lat : Universe F)
    (hobj : g.universeObjs[a]? = some lat)
    (h1 : IntMap.find g.lattices lat.id = none) (h2 : IntMap.find g.universes lat.id = none) :
    addLattice g a =
      (forEach (fun p s => addLatticeTile a p.1 p.2 s)
        (latticeLoopIndices lat.num_x lat.num_y)
        { g with universeObjs := g.universeObjs.set a lat }).bind fun _ g1 =>
      addUniverse { g1 with lattices := IntMap.insert g1.lattices lat.id a } a := by
  have hset : ({ g with universeObjs := g.universeObjs.set a lat } : Geometry F) = g := by
    rw [set_getElem?_self _ _ _ hobj]
  rw [hset]
  simp only [addLattice, hobj, h1, h2, Option.isSome_none, Bool.false_eq_true, if_false,
    latticeLoopIndices]
  rw [forEach_nested (fun i j s => addLatticeTile a i j s)]

end LatLemmas

section GrowLemmas

variable {F : Type} [LinearOrderedField F]

theorem Safe.bind {α β : Type} (T : Prop) (x : Outcome (Geometry F) α)
    (f : α → Geometry F → Outcome (Geometry F) β)
    (P : α → Geometry F → Prop) (Q : β → Geometry F → Prop)
    (hx : Safe T x P) (hf : ∀ v g1, P v g1 → Safe T (f v g1) Q) : Safe T (x.bind f) Q := by
  cases x with
  | ok v g1 => exact hf v g1 hx
  | fatal e s => exact hx
  | outOfFuel => exact hx

theorem Safe.mono {α : Type} (T : Prop) (x : Outcome (Geometry F) α)
    (P Q : α → Geometry F → Prop) (hx : Safe T x P) (h : ∀ v g1, P v g1 → Q v g1) :
    Safe T x Q := by
  cases x with
  | ok v g1 => exact h v g1 hx
  | fatal e s => exact hx
  | outOfFuel => exact hx

theorem Safe.weaken {α : Type} (T T1 : Prop) (x : Outcome (Geometry F) α)
    (Q : α → Geometry F → Prop) (hx : Safe T x Q) (h : T1 → T) : Safe T1 x Q := by
  cases x with
  | ok v g1 => exact hx
  | fatal e s => exact hx
  | outOfFuel => exact fun h1 => hx (h h1)

theorem newSurfaces_self (g : Geometry F) : newSurfaces g g = [] := by
  simp [newSurfaces]

theorem newCellIds_self (g : Geometry F) : newCellIds g g = [] := by
  simp [newCellIds]

theorem GrowsIds.ids_refl (g : Geometry F) : GrowsIds g g where
  id_le := le_refl _
  mats := rfl
  surf_reg := fun _ _ h => h
  surf_objs := by rw [newSurfaces_self, List.append_nil]
  surf_new := by rw [newSurfaces_self]; intro s hs; exact absurd hs (List.not_mem_nil _)
  surf_inc := by rw [newSurfaces_self]; exact List.Pairwise.nil
  cell_reg := fun _ _ h => h
  cell_objs := by rw [newCellIds_self, List.append_nil]
  cell_new := by rw [newCellIds_self]; intro s hs; exact absurd hs (List.not_mem_nil _)
  cell_inc := by rw [newCellIds_self]; exact List.Pairwise.nil
  cell_univ := fun _ c h => ⟨c, h, rfl⟩

theorem newSurfaces_trans (g g1 g2 : Geometry F) (h1 : GrowsIds g g1) (h2 : GrowsIds g1 g2) :
    newSurfaces g g2 = newSurfaces g g1 ++ newSurfaces g1 g2 := by
  have e1 := h1.surf_objs
  have e2 := h2.surf_objs
  have hle : g.surfaceObjs.length ≤ g1.surfaceObjs.length := by
    rw [e1, List.length_append]
    exact Nat.le_add_right _ _
  show List.drop g.surfaceObjs.length g2.surfaceObjs = _
  rw [e2, List.drop_append_of_le_length hle]
  rfl

theorem newCellIds_trans (g g1 g2 : Geometry F) (h1 : GrowsIds g g1) (h2 : GrowsIds g1 g2) :
    newCellIds g g2 = newCellIds g g1 ++ newCellIds g1 g2 := by
  have e1 := h1.cell_objs
  have e2 := h2.cell_objs
  have hd : ∀ (gx : Geometry F), newCellIds g gx =
      (gx.cellObjs.map fun c => c.id).drop g.cellObjs.length := by
    intro gx
    unfold newCellIds
    rw [List.map_drop]
  have hle : g.cellObjs.length ≤ (g1.cellObjs.map fun c => c.id).length := by
    rw [e1, List.length_append, List.length_map]
    exact Nat.le_add_right _ _
  rw [hd g2, e2, List.drop_append_of_le_length hle, ← hd g1]

theorem GrowsIds.ids_trans (g g1 g2 : Geometry F) (h1 : GrowsIds g g1) (h2 : GrowsIds g1 g2) :
    GrowsIds g g2 where
  id_le := le_trans h1.id_le h2.id_le
  mats := by rw [h2.mats, h1.mats]
  surf_reg := fun k v h => h2.surf_reg k v (h1.surf_reg k v h)
  surf_objs := by
    rw [newSurfaces_trans g g1 g2 h1 h2, ← List.append_assoc, ← h1.surf_objs, ← h2.surf_objs]
  surf_new := by
    rw [newSurfaces_trans g g1 g2 h1 h2]
    intro s hs
    rcases List.mem_append.mp hs with hs | hs
    · obtain ⟨a, b, c⟩ := h1.surf_new s hs
      exact ⟨a, b, lt_of_lt_of_le c h2.id_le⟩
    · obtain ⟨a, b, c⟩ := h2.surf_new s hs
      exact ⟨a, le_trans h1.id_le b, c⟩
  surf_inc := by
    rw [newSurfaces_trans g g1 g2 h1 h2, List.map_append, List.pairwise_append]
    refine ⟨h1.surf_inc, h2.surf_inc, ?_⟩
    intro x hx y hy
    obtain ⟨s, hs, rfl⟩ := List.mem_map.mp hx
    obtain ⟨t, ht, rfl⟩ := List.mem_map.mp hy
    exact lt_of_lt_of_le (h1.surf_new s hs).2.2 (h2.surf_new t ht).2.1
  cell_reg := fun k v h => h2.cell_reg k v (h1.cell_reg k v h)
  cell_objs := by
    rw [newCellIds_trans g g1 g2 h1 h2, ← List.append_assoc, ← h1.cell_objs, ← h2.cell_objs]
  cell_new := by
    rw [newCellIds_trans g g1 g2 h1 h2]
    intro k hk
    rcases List.mem_append.mp hk with hk | hk
    · obtain ⟨b, c⟩ := h1.cell_new k hk
      exact ⟨b, lt_of_lt_of_le c h2.id_le⟩
    · obtain ⟨b, c⟩ := h2.cell_new k hk
      exact ⟨le_trans h1.id_le b, c⟩
  cell_inc := by
    rw [newCellIds_trans g g1 g2 h1 h2, List.pairwise_append]
    refine ⟨h1.cell_inc, h2.cell_inc, ?_⟩
    intro x hx y hy
    exact lt_of_lt_of_le (h1.cell_new x hx).2 (h2.cell_new y hy).1
  cell_univ := by
    intro b c hc
    obtain ⟨c1, hc1, hu1⟩ := h1.cell_univ b c hc
    obtain ⟨c2, hc2, hu2⟩ := h2.cell_univ b c1 hc1
    exact ⟨c2, hc2, by rw [hu2, hu1]⟩

theorem GrowsUniv.univ_refl (u : Int) (g : Geometry F) : GrowsUniv u g g where
  reg_other := fun _ _ => rfl
  reg_same := fun _ _ => ⟨rfl, rfl⟩
  objs_other := fun _ _ h _ => h
  objs_grow := fun _ U h => ⟨U, h, rfl, rfl, fun _ _ h1 => h1⟩

theorem GrowsUniv.univ_trans (u : Int) (g g1 g2 : Geometry F) (h1 : GrowsUniv u g g1)
    (h2 : GrowsUniv u g1 g2) : GrowsUniv u g g2 where
  reg_other := fun k hk => by rw [h2.reg_other k hk, h1.reg_other k hk]
  reg_same := by
    intro ua hua
    obtain ⟨a1, b1⟩ := h1.reg_same ua hua
    obtain ⟨a2, b2⟩ := h2.reg_same ua (by rw [a1]; exact hua)
    exact ⟨by rw [a2, a1], by rw [b2, b1]⟩
  objs_other := fun ub U h hne => h2.objs_other ub U (h1.objs_other ub U h hne) hne
  objs_grow := by
    intro ub U h
    obtain ⟨U1, a1, b1, c1, d1⟩ := h1.objs_grow ub U h
    obtain ⟨U2, a2, b2, c2, d2⟩ := h2.objs_grow ub U1 a1
    exact ⟨U2, a2, by rw [b2, b1], by rw [c2, c1], fun cid v hv => d2 cid v (d1 cid v hv)⟩

theorem circleRadii_append (l1 l2 : List (Surface F)) :
    circleRadii (l1 ++ l2) = circleRadii l1 ++ circleRadii l2 := by
  simp [circleRadii, List.filterMap_append]

theorem NotDup.of_cellSurfaceMissing (k : Int) : NotDup (.cellSurfaceMissing k) :=
  ⟨fun _ h => Err.noConfusion h, fun _ h => Err.noConfusion h, fun _ h => Err.noConfusion h⟩

theorem NotDup.of_nullPointer : NotDup .nullPointer :=
  ⟨fun _ h => Err.noConfusion h, fun _ h => Err.noConfusion h, fun _ h => Err.noConfusion h⟩

theorem NotDup.of_outOfRange : NotDup .outOfRange :=
  ⟨fun _ h => Err.noConfusion h, fun _ h => Err.noConfusion h, fun _ h => Err.noConfusion h⟩

theorem NotDup.of_cellMaterialMissing (k : Int) : NotDup (.cellMaterialMissing k) :=
  ⟨fun _ h => Err.noConfusion h, fun _ h => Err.noConfusion h, fun _ h => Err.noConfusion h⟩

theorem NotDup.of_ringsUnsupported : NotDup .ringsUnsupported :=
  ⟨fun _ h => Err.noConfusion h, fun _ h => Err.noConfusion h, fun _ h => Err.noConfusion h⟩

theorem NotDup.of_sectorsUnsupported (k : Int) : NotDup (.sectorsUnsupported k) :=
  ⟨fun _ h => Err.noConfusion h, fun _ h => Err.noConfusion h, fun _ h => Err.noConfusion h⟩

theorem IntMap.find_insert_isSome {V : Type} (m : IntMap V) (k : Int) (v : V) :
    (IntMap.find (IntMap.insert m k v) k).isSome = true := by
  induction m with
  | nil => simp [IntMap.insert, IntMap.find]
  | cons e rest ih =>
    obtain ⟨k1, w⟩ := e
    simp only [IntMap.insert]
    split
    · simp [IntMap.find]
    · split
      · rename_i heq; simp [IntMap.find, heq]
      · rename_i hne; simp only [IntMap.find, hne, if_false]; exact ih

theorem IntMap.find_insert_none {V : Type} (m : IntMap V) (k c : Int) (v : V)
    (h : IntMap.find (IntMap.insert m k v) c = none) : c ≠ k ∧ IntMap.find m c = none := by
  have hne : c ≠ k := by
    intro heq
    have := IntMap.find_insert_isSome m k v
    rw [heq] at h
    rw [h] at this
    exact Bool.noConfusion this
  exact ⟨hne, by rw [← IntMap.find_insert_ne m k c v hne]; exact h⟩

theorem map_set_same {β : Type} (f : Cell → β) (l : List Cell) (a : Nat) (c c1 : Cell)
    (h : l[a]? = some c) (hf : f c1 = f c) : (l.set a c1).map f = l.map f := by
  rw [List.map_set]
  apply set_getElem?_self
  rw [List.getElem?_map, h, Option.map_some', hf]

theorem ids_of_tags (l1 l2 : List Cell) (h : l1.map Cell.tag = l2.map Cell.tag) :
    (l1.map fun c => c.id) = (l2.map fun c => c.id) := by
  have := congrArg (List.map Prod.fst) h
  simpa [List.map_map, Function.comp, Cell.tag] using this

theorem tags_of_shapes (l1 l2 : List Cell) (h : l1.map Cell.shape = l2.map Cell.shape) :
    l1.map Cell.tag = l2.map Cell.tag := by
  have := congrArg (List.map fun sh : Int × Int × List Int × CellData => (sh.1, sh.2.1)) h
  simpa [List.map_map, Function.comp, Cell.tag, Cell.shape] using this

/-- Cell objects whose tags start with the tags of `l` keep the universe ids of `l`. -/
theorem keep_of_tags (l l1 : List Cell) (rest : List (Int × Int))
    (h : l1.map Cell.tag = l.map Cell.tag ++ rest) (b : Addr) (c : Cell)
    (hc : l[b]? = some c) : ∃ c1, l1[b]? = some c1 ∧ c1.universe_id = c.universe_id := by
  have hlt : b < l.length := by
    by_contra hcon
    rw [List.getElem?_eq_none (Nat.le_of_not_lt hcon)] at hc
    exact Option.noConfusion hc
  have h1 : (l1.map Cell.tag)[b]? = some c.tag := by
    rw [h, List.getElem?_append_left (by simpa using hlt), List.getElem?_map, hc]
    rfl
  rw [List.getElem?_map] at h1
  cases hx : l1[b]? with
  | none => rw [hx] at h1; exact Option.noConfusion h1
  | some c1 =>
    rw [hx] at h1
    have h2 : c1.tag = c.tag := Option.some.inj h1
    exact ⟨c1, rfl, congrArg Prod.snd h2⟩

/-- The generic way to establish `GrowsIds`: the new surface objects and the ids of
the new cell objects are given as lists. -/
theorem GrowsIds.of_lists (g g1 : Geometry F) (news : List (Surface F))
    (newt : List (Int × Int))
    (h1 : g.statics.id ≤ g1.statics.id) (h2 : g1.materials = g.materials)
    (h3 : ∀ k v, IntMap.find g.surfaces k = some v → IntMap.find g1.surfaces k = some v)
    (h4 : g1.surfaceObjs = g.surfaceObjs ++ news)
    (h5 : ∀ s ∈ news, s.boundary = .BOUNDARY_NONE ∧ g.statics.id ≤ s.id ∧
      s.id < g1.statics.id)
    (h6 : (news.map fun s => s.id).Pairwise (· < ·))
    (h7 : ∀ k v, IntMap.find g.cells k = some v → IntMap.find g1.cells k = some v)
    (ht : g1.cellObjs.map Cell.tag = g.cellObjs.map Cell.tag ++ newt)
    (h9 : ∀ k ∈ newt.map Prod.fst, g.statics.id ≤ k ∧ k < g1.statics.id)
    (h10 : (newt.map Prod.fst).Pairwise (· < ·)) : GrowsIds g g1 := by
  have h8 : (g1.cellObjs.map fun c => c.id) =
      (g.cellObjs.map fun c => c.id) ++ newt.map Prod.fst := by
    have := congrArg (List.map Prod.fst) ht
    simpa [List.map_map, Function.comp, Cell.tag] using this
  have e1 : newSurfaces g g1 = news := by
    unfold newSurfaces
    rw [h4, List.drop_left]
  have e2 : newCellIds g g1 = newt.map Prod.fst := by
    unfold newCellIds
    rw [List.map_drop, h8]
    have : g.cellObjs.length = (g.cellObjs.map fun c => c.id).length := by simp
    rw [this, List.drop_left]
  exact ⟨h1, h2, h3, by rw [e1]; exact h4, by rw [e1]; exact h5, by rw [e1]; exact h6, h7,
    by rw [e2]; exact h8, by rw [e2]; exact h9, by rw [e2]; exact h10,
    keep_of_tags g.cellObjs g1.cellObjs newt ht⟩

/-- A step that allocates nothing and keeps the counter keeps `GrowsIds`. -/
theorem GrowsIds.ids_of_frame (g g1 : Geometry F)
    (h1 : g1.statics.id = g.statics.id) (h2 : g1.materials = g.materials)
    (h3 : g1.surfaces = g.surfaces) (h4 : g1.surfaceObjs = g.surfaceObjs)
    (h7 : ∀ k v, IntMap.find g.cells k = some v → IntMap.find g1.cells k = some v)
    (h8 : g1.cellObjs.map Cell.tag = g.cellObjs.map Cell.tag) :
    GrowsIds g g1 :=
  GrowsIds.of_lists g g1 [] [] (by rw [h1]) h2 (fun k v h => by rw [h3]; exact h)
    (by rw [h4, List.append_nil]) (fun s hs => absurd hs (List.not_mem_nil _))
    List.Pairwise.nil h7 (by rw [h8, List.append_nil])
    (fun s hs => absurd hs (List.not_mem_nil _)) List.Pairwise.nil

theorem newSurfaces_of_frame (g g1 : Geometry F) (h4 : g1.surfaceObjs = g.surfaceObjs) :
    newSurfaces g g1 = [] := by
  unfold newSurfaces
  rw [h4, List.drop_length]

/-- A step that keeps the universes keeps `GrowsUniv`. -/
theorem GrowsUniv.univ_of_frame (u : Int) (g g1 : Geometry F)
    (h1 : g1.universes = g.universes) (h2 : g1.universeObjs = g.universeObjs) :
    GrowsUniv u g g1 where
  reg_other := fun _ _ => by rw [h1]
  reg_same := fun _ _ => ⟨h1, by rw [h2]⟩
  objs_other := fun _ _ h _ => by rw [h2]; exact h
  objs_grow := fun _ U h => ⟨U, by rw [h2]; exact h, rfl, rfl, fun _ _ h1 => h1⟩

/-- A step that keeps the universes and does not remove a cell from the registry
keeps `UnivOK`. -/
theorem UnivOK.ok_of_frame (g g1 : Geometry F) (h : UnivOK g)
    (h1 : g1.universes = g.universes) (h2 : g1.universeObjs = g.universeObjs)
    (h3 : ∀ k, IntMap.find g1.cells k = none → IntMap.find g.cells k = none) : UnivOK g1 := by
  refine ⟨?_, ?_⟩
  · intro k ua hk
    rw [h1] at hk
    rw [h2]
    exact h.1 k ua hk
  · intro ub U cid hU hnone
    rw [h2] at hU
    exact h.2 ub U cid hU (h3 cid hnone)

theorem setUniverseFillPointers_shapes (id : Int) (ua : Addr) (cells : IntMap Addr) :
    ∀ objs : List Cell, (setUniverseFillPointers id ua cells objs).map Cell.shape =
      objs.map Cell.shape := by
  induction cells with
  | nil => intro objs; rfl
  | cons e rest ih =>
    intro objs
    unfold setUniverseFillPointers at ih ⊢
    rw [List.foldl_cons, ih]
    cases h : objs[e.2]? with
    | none => rfl
    | some c =>
      cases hd : c.data with
      | basic m r sct => simp [hd]
      | fill u q =>
        by_cases hu : u = id
        · simp only [hd, hu, if_true]
          exact map_set_same Cell.shape objs e.2 c _ h (by simp [Cell.shape, CellData.erase, hd, hu])
        · simp [hd, hu]

theorem IntMap.keys_assign {V : Type} (m : IntMap V) (k : Int) (v : V) :
    IntMap.keys (IntMap.assign m k v) = IntMap.keys m := by
  induction m with
  | nil => rfl
  | cons e rest ih =>
    obtain ⟨k1, w⟩ := e
    simp only [IntMap.assign]
    split
    · rfl
    · simp only [IntMap.keys, List.map_cons] at ih ⊢
      rw [ih]

theorem shape_setSurfacePointer (c : Cell) (id : Int) (sa : Addr) :
    (c.setSurfacePointer id sa).shape = c.shape := by
  simp [Cell.shape, Cell.setSurfacePointer, IntMap.keys_assign]

/-- The surface loop of `addCell`: it ends in a fatal error that is no duplicate-id
error, or it returns with the cell objects changed only in their surface
pointers. -/
theorem forEach_addCellSurface_spec (a : Addr) (l : List (Int × Option Addr)) :
    ∀ (g : Geometry F),
      (∃ e s, forEach (addCellSurface a) l g = .fatal e s ∧ NotDup e) ∨
      (∃ objs, forEach (addCellSurface a) l g = .ok () { g with cellObjs := objs } ∧
        objs.map Cell.shape = g.cellObjs.map Cell.shape) := by
  induction l with
  | nil => intro g; exact Or.inr ⟨g.cellObjs, rfl, rfl⟩
  | cons e rest ih =>
    intro g
    cases hf : IntMap.find g.surfaces (iabs e.1) with
    | none =>
      exact Or.inl ⟨.cellSurfaceMissing e.1, g, by simp [forEach, addCellSurface, hf],
        NotDup.of_cellSurfaceMissing _⟩
    | some sa =>
      cases hs : g.surfaceObjs[sa]? with
      | none =>
        exact Or.inl ⟨.nullPointer, g, by simp [forEach, addCellSurface, hf, hs],
          NotDup.of_nullPointer⟩
      | some s =>
        cases hc : g.cellObjs[a]? with
        | none =>
          exact Or.inl ⟨.nullPointer, g, by simp [forEach, addCellSurface, hf, hs, hc],
            NotDup.of_nullPointer⟩
        | some c =>
          have hstep : addCellSurface a e g =
              .ok () { g with cellObjs := g.cellObjs.set a (c.setSurfacePointer s.id sa) } := by
            simp [addCellSurface, hf, hs, hc]
          have hids := map_set_same Cell.shape g.cellObjs a c (c.setSurfacePointer s.id sa) hc
            (shape_setSurfacePointer c s.id sa)
          rcases ih { g with cellObjs := g.cellObjs.set a (c.setSurfacePointer s.id sa) } with
            ⟨e1, s1, h1, h2⟩ | ⟨objs, h1, h2⟩
          · exact Or.inl ⟨e1, s1, by simp only [forEach, hstep, Outcome.bind_ok]; exact h1, h2⟩
          · exact Or.inr ⟨objs, by simp only [forEach, hstep, Outcome.bind_ok]; exact h1,
              by rw [h2]; exact hids⟩

/-- The function `addCell` unfolded for a cell object whose id is not registered. -/
theorem addCell_unfold (sqrt : F → F) (fuel : Nat) (g : Geometry F) (a : Addr) (cell : Cell)
    (hc : g.cellObjs[a]? = some cell) (hnew : IntMap.find g.cells cell.id = none) :
    addCell sqrt (fuel + 1) g a =
      match cellMaterialMissing g cell with
      | some material => .fatal (.cellMaterialMissing material) g
      | none =>
        (forEach (addCellSurface a) cell.surfaces g).bind fun _ g1 =>
        (addCellUniverse cell.universe_id
          { g1 with cells := IntMap.insert g1.cells cell.id a }).bind fun _ g3 =>
        (universeAddCell cell.universe_id cell.id a g3).bind fun _ g4 =>
        match cell.data with
        | .basic material num_rings num_sectors =>
          refineCell (addCell sqrt fuel) sqrt a cell cell.surfaces
            material num_rings num_sectors g4
        | .fill _ _ => .ok () g4 := by
  rw [addCell]
  simp only [hc, hnew, Option.isSome_none, Bool.false_eq_true, if_false]

/-- Lines 335-350 of `addCell` when the universe of the cell is registered. -/
theorem universe_step_registered (g : Geometry F) (a : Addr) (cell : Cell) (ua : Addr)
    (hnew : IntMap.find g.cells cell.id = none)
    (objs : List Cell) (hobjs : objs.map Cell.shape = g.cellObjs.map Cell.shape)
    (hu : IntMap.find g.universes cell.universe_id = some ua) (U : Universe F)
    (hU : g.universeObjs[ua]? = some U) :
    HeadPost g a cell
      { g with cellObjs := objs, cells := IntMap.insert g.cells cell.id a,
               universeObjs := g.universeObjs.set ua
                 { U with cells := IntMap.insert U.cells cell.id a } } := by
  have hlt : ua < g.universeObjs.length := by
    by_contra hcon
    rw [List.getElem?_eq_none (Nat.le_of_not_lt hcon)] at hU
    exact Option.noConfusion hU
  refine ⟨rfl, rfl, rfl, rfl, rfl, hobjs, ?_⟩
  intro hok
  obtain ⟨U0, hU0, hid⟩ := hok.1 _ _ hu
  rw [hU] at hU0
  cases hU0
  refine ⟨⟨?_, ?_⟩, ⟨?_, ?_, ?_, ?_⟩, ?_, ?_⟩
  · intro k ub hk
    obtain ⟨U1, hU1, hid1⟩ := hok.1 k ub hk
    by_cases hub : ua = ub
    · subst hub
      rw [hU] at hU1
      cases hU1
      exact ⟨{ U with cells := IntMap.insert U.cells cell.id a }, by simp [hlt], hid1⟩
    · exact ⟨U1, by simp [List.getElem?_set_ne hub, hU1], hid1⟩
  · intro ub U1 cid hU1 hnone
    obtain ⟨hne, hnone0⟩ := IntMap.find_insert_none _ _ _ _ hnone
    by_cases hub : ua = ub
    · subst hub
      have : U1 = { U with cells := IntMap.insert U.cells cell.id a } := by
        simpa [hlt] using hU1.symm
      rw [this]
      show IntMap.find (IntMap.insert U.cells cell.id a) cid = none
      rw [IntMap.find_insert_ne _ _ _ _ hne]
      exact hok.2 ua U cid hU hnone0
    · have hU2 : g.universeObjs[ub]? = some U1 := by
        simpa [List.getElem?_set_ne hub] using hU1
      exact hok.2 ub U1 cid hU2 hnone0
  · intro k _; rfl
  · intro _ _; exact ⟨rfl, by simp⟩
  · intro ub U1 hU1 hne
    have hub : ua ≠ ub := by
      intro heq
      subst heq
      rw [hU] at hU1
      cases hU1
      exact hne hid
    show (g.universeObjs.set ua _)[ub]? = some U1
    rw [List.getElem?_set_ne hub]
    exact hU1
  · intro ub U1 hU1
    by_cases hub : ua = ub
    · subst hub
      rw [hU] at hU1
      cases hU1
      refine ⟨{ U with cells := IntMap.insert U.cells cell.id a }, by simp [hlt], rfl, rfl, ?_⟩
      intro cid v hv
      have hne : cid ≠ cell.id := by
        intro heq
        subst heq
        rw [hok.2 ua U _ hU hnew] at hv
        exact Option.noConfusion hv
      show IntMap.find (IntMap.insert U.cells cell.id a) cid = some v
      rw [IntMap.find_insert_ne _ _ _ _ hne]
      exact hv
    · exact ⟨U1, by simp [List.getElem?_set_ne hub, hU1], rfl, rfl, fun _ _ h => h⟩
  · exact ⟨ua, { U with cells := IntMap.insert U.cells cell.id a }, hu, by simp [hlt], hid,
      IntMap.find_insert_self _ _ _ (hok.2 ua U _ hU hnew)⟩
  · intro hnone
    rw [hu] at hnone
    exact Option.noConfusion hnone

theorem getElem?_append_set_lt {α : Type} (l : List α) (x y : α) (ub : Nat)
    (h : ub < l.length) : ((l ++ [x]).set l.length y)[ub]? = l[ub]? := by
  rw [List.getElem?_set_ne (Nat.ne_of_gt h), List.getElem?_append_left h]

theorem getElem?_append_set_self {α : Type} (l : List α) (x y : α) :
    ((l ++ [x]).set l.length y)[l.length]? = some y := by
  simp

theorem getElem?_append_set_cases {α : Type} (l : List α) (x y z : α) (ub : Nat)
    (h : ((l ++ [x]).set l.length y)[ub]? = some z) :
    (ub < l.length ∧ l[ub]? = some z) ∨ (ub = l.length ∧ z = y) := by
  rcases Nat.lt_trichotomy ub l.length with hlt | heq | hgt
  · rw [getElem?_append_set_lt l x y ub hlt] at h
    exact Or.inl ⟨hlt, h⟩
  · subst heq
    rw [getElem?_append_set_self] at h
    exact Or.inr ⟨rfl, (Option.some.inj h).symm⟩
  · rw [List.getElem?_eq_none (by simp; omega)] at h
    exact Option.noConfusion h

/-- Lines 335-350 of `addCell` when the universe of the cell is not registered: the
universe is created, registered, and receives the cell. -/
theorem universe_step_new (g : Geometry F) (a : Addr) (cell : Cell)
    (objs : List Cell) (hobjs : objs.map Cell.shape = g.cellObjs.map Cell.shape)
    (hu : IntMap.find g.universes cell.universe_id = none) (U0 U1 : Universe F)
    (h0 : U0.id = cell.universe_id) (h0t : U0.type = .SIMPLE) (h0c : U0.cells = [])
    (h1 : U1 = { U0 with cells := IntMap.insert U0.cells cell.id a }) (st : Statics)
    (hst : st.id = g.statics.id) :
    HeadPost g a cell
      { g with cellObjs := setUniverseFillPointers cell.universe_id g.universeObjs.length
                 (IntMap.insert g.cells cell.id a) objs,
               cells := IntMap.insert g.cells cell.id a,
               universeObjs := (g.universeObjs ++ [U0]).set g.universeObjs.length U1,
               universes := IntMap.insert g.universes cell.universe_id g.universeObjs.length,
               statics := st } := by
  refine ⟨hst, rfl, rfl, rfl, rfl, by
    show (setUniverseFillPointers _ _ _ objs).map Cell.shape = _
    rw [setUniverseFillPointers_shapes, hobjs], ?_⟩
  intro hok
  have hU1id : U1.id = cell.universe_id := by rw [h1]; exact h0
  have hU1cells : ∀ cid, cid ≠ cell.id → IntMap.find U1.cells cid = none := by
    intro cid hne
    rw [h1]
    show IntMap.find (IntMap.insert U0.cells cell.id a) cid = none
    rw [IntMap.find_insert_ne _ _ _ _ hne, h0c]
    rfl
  refine ⟨⟨?_, ?_⟩, ⟨?_, ?_, ?_, ?_⟩, ?_, ?_⟩
  · intro k ub hk
    by_cases hke : k = cell.universe_id
    · subst hke
      have hub : ub = g.universeObjs.length := by
        have := IntMap.find_insert_self g.universes cell.universe_id g.universeObjs.length hu
        have hk1 : IntMap.find (IntMap.insert g.universes cell.universe_id
            g.universeObjs.length) cell.universe_id = some ub := hk
        rw [this] at hk1
        exact (Option.some.inj hk1).symm
      subst hub
      exact ⟨U1, getElem?_append_set_self _ _ _, hU1id⟩
    · have hk1 : IntMap.find g.universes k = some ub := by
        have hk2 : IntMap.find (IntMap.insert g.universes cell.universe_id
            g.universeObjs.length) k = some ub := hk
        rw [IntMap.find_insert_ne _ _ _ _ hke] at hk2
        exact hk2
      obtain ⟨U, hU, hid⟩ := hok.1 k ub hk1
      have hlt : ub < g.universeObjs.length := by
        by_contra hcon
        rw [List.getElem?_eq_none (Nat.le_of_not_lt hcon)] at hU
        exact Option.noConfusion hU
      exact ⟨U, by
        show ((g.universeObjs ++ [U0]).set g.universeObjs.length U1)[ub]? = some U
        rw [getElem?_append_set_lt _ _ _ _ hlt]; exact hU, hid⟩
  · intro ub U cid hU hnone
    obtain ⟨hne, hnone0⟩ := IntMap.find_insert_none _ _ _ _ hnone
    rcases getElem?_append_set_cases _ _ _ _ _ hU with ⟨_, hU2⟩ | ⟨_, hU2⟩
    · exact hok.2 ub U cid hU2 hnone0
    · rw [hU2]
      exact hU1cells cid hne
  · intro k hk
    exact IntMap.find_insert_ne _ _ _ _ hk
  · intro ua hua
    rw [hu] at hua
    exact Option.noConfusion hua
  · intro ub U hU _
    have hlt : ub < g.universeObjs.length := by
      by_contra hcon
      rw [List.getElem?_eq_none (Nat.le_of_not_lt hcon)] at hU
      exact Option.noConfusion hU
    show ((g.universeObjs ++ [U0]).set g.universeObjs.length U1)[ub]? = some U
    rw [getElem?_append_set_lt _ _ _ _ hlt]
    exact hU
  · intro ub U hU
    have hlt : ub < g.universeObjs.length := by
      by_contra hcon
      rw [List.getElem?_eq_none (Nat.le_of_not_lt hcon)] at hU
      exact Option.noConfusion hU
    exact ⟨U, by
      show ((g.universeObjs ++ [U0]).set g.universeObjs.length U1)[ub]? = some U
      rw [getElem?_append_set_lt _ _ _ _ hlt]; exact hU, rfl, rfl, fun _ _ h => h⟩
  · refine ⟨g.universeObjs.length, U1, IntMap.find_insert_self _ _ _ hu,
      getElem?_append_set_self _ _ _, hU1id, ?_⟩
    rw [h1]
    show IntMap.find (IntMap.insert U0.cells cell.id a) cell.id = some a
    rw [h0c]
    simp [IntMap.insert, IntMap.find]
  · intro _
    exact ⟨IntMap.find_insert_self _ _ _ hu, U1, getElem?_append_set_self _ _ _, by
      rw [h1]; exact h0t⟩

/-- Lines 288-350 of `addCell` for a cell object whose id is not registered: they
end in a fatal error that is no duplicate-id error, or the cell is registered
and the refinement starts. -/
theorem addCell_head (sqrt : F → F) (fuel : Nat) (g : Geometry F) (a : Addr) (cell : Cell)
    (hc : g.cellObjs[a]? = some cell) (hnew : IntMap.find g.cells cell.id = none) :
    (∃ e s, addCell sqrt (fuel + 1) g a = .fatal e s ∧ NotDup e) ∨
    (∃ g4, HeadPost g a cell g4 ∧ addCell sqrt (fuel + 1) g a =
      match cell.data with
      | .basic material num_rings num_sectors =>
        refineCell (addCell sqrt fuel) sqrt a cell cell.surfaces
          material num_rings num_sectors g4
      | .fill _ _ => .ok () g4) := by
  rw [addCell_unfold sqrt fuel g a cell hc hnew]
  cases hm : cellMaterialMissing g cell with
  | some material =>
    exact Or.inl ⟨_, g, rfl, NotDup.of_cellMaterialMissing _⟩
  | none =>
    simp only []
    rcases forEach_addCellSurface_spec a cell.surfaces g with ⟨e, s, h1, h2⟩ | ⟨objs, h1, h2⟩
    · exact Or.inl ⟨e, s, by rw [h1, Outcome.bind_fatal], h2⟩
    · rw [h1, Outcome.bind_ok]
      cases hu : IntMap.find g.universes cell.universe_id with
      | some ua =>
        have hacu : addCellUniverse cell.universe_id
            ({ g with cellObjs := objs, cells := IntMap.insert g.cells cell.id a } : Geometry F)
            = .ok () { g with cellObjs := objs, cells := IntMap.insert g.cells cell.id a } := by
          simp [addCellUniverse, hu]
        simp only [hacu, Outcome.bind_ok]
        cases hU : g.universeObjs[ua]? with
        | none =>
          exact Or.inl ⟨.nullPointer, _, by
            simp only [universeAddCell, hu, hU, Outcome.bind_fatal]; rfl,
            NotDup.of_nullPointer⟩
        | some U =>
          refine Or.inr ⟨_, universe_step_registered g a cell ua hnew objs h2 hu U hU, ?_⟩
          simp only [universeAddCell, hu, hU, Outcome.bind_ok]
      | none =>
        have hacu : addCellUniverse cell.universe_id
            ({ g with cellObjs := objs, cells := IntMap.insert g.cells cell.id a } : Geometry F)
            = .ok ()
              { g with
                cellObjs := setUniverseFillPointers cell.universe_id g.universeObjs.length
                  (IntMap.insert g.cells cell.id a) objs,
                cells := IntMap.insert g.cells cell.id a,
                universeObjs := g.universeObjs ++
                  [{ (Universe.simple cell.universe_id : Universe F) with
                      uid := g.statics.universe_n }],
                universes := IntMap.insert g.universes cell.universe_id g.universeObjs.length,
                statics := { g.statics with universe_n := g.statics.universe_n + 1 } } := by
          simp [addCellUniverse, hu, newUniverse, addUniverse, Universe.simple]
        simp only [hacu, Outcome.bind_ok]
        refine Or.inr ⟨_, universe_step_new g a cell objs h2 hu
          { (Universe.simple cell.universe_id : Universe F) with uid := g.statics.universe_n }
          _ rfl rfl rfl rfl { g.statics with universe_n := g.statics.universe_n + 1 } rfl, ?_⟩
        simp [universeAddCell, IntMap.find_insert_self _ _ _ hu]

theorem BlockPost.block_trans (u : Int) (g g1 g2 : Geometry F) (r1 r2 : List F)
    (h1 : BlockPost u g g1 r1) (h2 : BlockPost u g1 g2 r2) : BlockPost u g g2 (r1 ++ r2) := by
  obtain ⟨a1, b1, c1, d1⟩ := h1
  obtain ⟨a2, b2, c2, d2⟩ := h2
  refine ⟨GrowsIds.ids_trans g g1 g2 a1 a2, b2, ?_, ?_⟩
  · rw [newSurfaces_trans g g1 g2 a1 a2, circleRadii_append, c1, c2]
  · intro hok
    obtain ⟨e1, f1⟩ := d1 hok
    obtain ⟨e2, f2⟩ := d2 e1
    exact ⟨e2, GrowsUniv.univ_trans u g g1 g2 f1 f2⟩

/-- A step that only changes the cell objects, and keeps their ids. -/
theorem BlockPost.of_cellObjs (u : Int) (g : Geometry F) (objs : List Cell)
    (hf : FreshIds g) (hids : objs.map Cell.tag = g.cellObjs.map Cell.tag) :
    BlockPost u g { g with cellObjs := objs } [] :=
  ⟨GrowsIds.ids_of_frame g _ rfl rfl rfl rfl (fun _ _ h => h) hids, hf,
    by
      have := newSurfaces_of_frame g ({ g with cellObjs := objs } : Geometry F) rfl
      rw [this]; rfl,
    fun hok => ⟨UnivOK.ok_of_frame g _ hok rfl rfl (fun _ h => h), GrowsUniv.univ_of_frame u g _ rfl rfl⟩⟩

theorem BlockPost.block_refl (u : Int) (g : Geometry F) (hf : FreshIds g) : BlockPost u g g [] :=
  BlockPost.of_cellObjs u g g.cellObjs hf rfl

/-- The call `cell->addSurface(id, s)` on the cell object at `a`. -/
theorem cellAddSurface_safe (T : Prop) (u : Int) (a : Addr) (k : Int) (sa : Addr)
    (g : Geometry F) (hf : FreshIds g) :
    Safe T (cellAddSurface a k sa g) (fun _ g1 => BlockPost u g g1 []) := by
  unfold cellAddSurface
  cases hc : g.cellObjs[a]? with
  | none => exact NotDup.of_nullPointer
  | some c =>
    exact BlockPost.of_cellObjs u g _ hf
      (map_set_same Cell.tag g.cellObjs a c (c.addSurface k sa) hc rfl)

/-- Allocation and registration of a generated surface: its id is the static
counter, which is not registered. -/
theorem addSurface_generated (g : Geometry F) (s : Surface F) (hf : FreshIds g)
    (hid : s.id = g.statics.id) (hb : s.boundary = .BOUNDARY_NONE) :
    addSurface (newSurface g s).2 (newSurface g s).1 = .ok () (withSurface g s) := by
  have h1 := (hf g.statics.id (le_refl _)).1
  simp [addSurface, newSurface, withSurface, hid, h1, hb]

/-- A generated surface that is no circle, with the increment of the counter. -/
theorem BlockPost.of_plane (u : Int) (g : Geometry F) (s : Surface F) (hf : FreshIds g)
    (hid : s.id = g.statics.id) (hb : s.boundary = .BOUNDARY_NONE)
    (hsh : circleRadii [s] = []) :
    BlockPost u g (bumpId (withSurface g s)) [] := by
  have hfs := hf
  refine ⟨GrowsIds.of_lists g _ [{ s with uid := g.statics.surface_n }] []
    (by show g.statics.id ≤ g.statics.id + 1; omega) rfl ?_ rfl ?_ (by simp)
    (fun _ _ h => h) (by simp [bumpId, withSurface]) (by simp) List.Pairwise.nil, ?_, ?_, ?_⟩
  · intro k v hk
    have hne : k ≠ s.id := by
      intro heq
      rw [heq, hid, (hf _ (le_refl _)).1] at hk
      exact Option.noConfusion hk
    show IntMap.find (IntMap.insert g.surfaces s.id g.surfaceObjs.length) k = some v
    rw [IntMap.find_insert_ne _ _ _ _ hne]
    exact hk
  · intro t ht
    rw [List.mem_singleton] at ht
    subst ht
    exact ⟨hb, by show g.statics.id ≤ s.id; omega, by
      show s.id < g.statics.id + 1
      omega⟩
  · intro k hk
    have hk1 : g.statics.id + 1 ≤ k := hk
    refine ⟨?_, (hf k (by omega)).2⟩
    show IntMap.find (IntMap.insert g.surfaces s.id g.surfaceObjs.length) k = none
    rw [IntMap.find_insert_ne _ _ _ _ (by omega)]
    exact (hf k (by omega)).1
  · have : newSurfaces g (bumpId (withSurface g s)) = [{ s with uid := g.statics.surface_n }] := by
      simp [newSurfaces, bumpId, withSurface]
    rw [this]
    simpa [circleRadii] using hsh
  · intro hok
    exact ⟨UnivOK.ok_of_frame g _ hok rfl rfl (fun _ h => h), GrowsUniv.univ_of_frame u g _ rfl rfl⟩

/-- The function `addCell` on a material cell without rings and sectors. -/
theorem addCell_plain_safe (sqrt : F → F) (fuel : Nat) (g : Geometry F) (c : Addr)
    (cell : Cell) (material : Int)
    (hc : g.cellObjs[c]? = some cell) (hnew : IntMap.find g.cells cell.id = none)
    (hd : cell.data = .basic material 0 0) :
    Safe True (addCell sqrt (fuel + 1) g c) (fun _ g2 => HeadPost g c cell g2) := by
  rcases addCell_head sqrt fuel g c cell hc hnew with ⟨e, s, h1, h2⟩ | ⟨g4, h1, h2⟩
  · rw [h1]; exact h2
  · rw [h2, hd]
    simp only [refineCell]
    simp only [zero_add, gt_iff_lt, lt_self_iff_false, if_false, Outcome.bind_ok]
    exact h1

theorem addSectorCell_unfold (rec : Geometry F → Addr → Outcome (Geometry F) Unit)
    (u m num : Int) (list : List Int) (sg1 : Int) (s1 : Addr) (sg2 : Int) (s2 : Addr)
    (g : Geometry F) :
    addSectorCell rec u m num list sg1 s1 sg2 s2 g =
      (rec (newCell g (CellBasic g.statics.id u num list m 0 0)).2
          (newCell g (CellBasic g.statics.id u num list m 0 0)).1).bind fun _ g2 =>
      (cellAddSurface (newCell g (CellBasic g.statics.id u num list m 0 0)).1 sg1 s1 g2).bind
        fun _ g3 =>
      (cellAddSurface (newCell g (CellBasic g.statics.id u num list m 0 0)).1 sg2 s2 g3).bind
        fun _ g4 => .ok () (bumpId g4) := rfl

/-- The state reached from `g` by one sector cell: it has the registries of `g` with
the new cell entered under the old counter, one more cell object, and the
counter advanced by one. -/
theorem BlockPost.of_sectorCell (u : Int) (g g2 : Geometry F) (cell : Cell) (hf : FreshIds g)
    (hid : cell.id = g.statics.id) (hu : cell.universe_id = u)
    (objs : List Cell)
    (hobjs : objs.map Cell.tag = g2.cellObjs.map Cell.tag)
    (hp : HeadPost (newCell g cell).2 g.cellObjs.length { cell with uid := g.statics.cell_n }
      g2) :
    BlockPost u g (bumpId { g2 with cellObjs := objs }) [] := by
  have hfresh := hf g.statics.id (le_refl _)
  have e1 : g2.statics.id = g.statics.id := hp.statics_id
  have e2 : g2.surfaces = g.surfaces := hp.surfaces
  have e3 : g2.surfaceObjs = g.surfaceObjs := hp.surfaceObjs
  have e4 : g2.materials = g.materials := hp.materials
  have e5 : g2.cells = IntMap.insert g.cells g.statics.id g.cellObjs.length := by
    rw [hp.cells]
    show IntMap.insert g.cells cell.id g.cellObjs.length = _
    rw [hid]
  have e6 : g2.cellObjs.map Cell.tag = g.cellObjs.map Cell.tag ++ [(g.statics.id, u)] := by
    rw [tags_of_shapes _ _ hp.cell_shapes]
    simp [newCell, Cell.tag, hid, hu]
  refine ⟨GrowsIds.of_lists g _ [] [(g.statics.id, u)]
    (by show g.statics.id ≤ g2.statics.id + 1; omega) e4 (fun k v h => by
      show IntMap.find g2.surfaces k = some v
      rw [e2]; exact h)
    (by show g2.surfaceObjs = _; rw [e3, List.append_nil])
    (fun s hs => absurd hs (List.not_mem_nil _)) List.Pairwise.nil ?_
    (by show objs.map Cell.tag = _; rw [hobjs, e6]) ?_ (by simp), ?_, ?_, ?_⟩
  · intro k v hk
    have hne : k ≠ g.statics.id := by
      intro heq
      rw [heq, hfresh.2] at hk
      exact Option.noConfusion hk
    show IntMap.find g2.cells k = some v
    rw [e5, IntMap.find_insert_ne _ _ _ _ hne]
    exact hk
  · intro k hk
    simp only [List.map_cons, List.map_nil, List.mem_singleton] at hk
    subst hk
    exact ⟨le_refl _, by show g.statics.id < g2.statics.id + 1; omega⟩
  · intro k hk
    have hk1 : g2.statics.id + 1 ≤ k := hk
    refine ⟨by show IntMap.find g2.surfaces k = none; rw [e2]; exact (hf k (by omega)).1, ?_⟩
    show IntMap.find g2.cells k = none
    rw [e5, IntMap.find_insert_ne _ _ _ _ (by omega)]
    exact (hf k (by omega)).2
  · have : newSurfaces g (bumpId { g2 with cellObjs := objs }) = [] :=
      newSurfaces_of_frame g _ e3
    rw [this]; rfl
  · intro hok
    have hok1 : UnivOK (newCell g cell).2 :=
      UnivOK.ok_of_frame g _ hok rfl rfl (fun _ h => h)
    obtain ⟨hok2, hgu, _, _⟩ := hp.univ hok1
    have hgu1 : GrowsUniv u g g2 := by
      have := GrowsUniv.univ_trans u g (newCell g cell).2 g2 (GrowsUniv.univ_of_frame u g _ rfl rfl)
        (by rw [← hu]; exact hgu)
      exact this
    exact ⟨UnivOK.ok_of_frame g2 _ hok2 rfl rfl (fun _ h => h),
      GrowsUniv.univ_trans u g g2 _ hgu1 (GrowsUniv.univ_of_frame u g2 _ rfl rfl)⟩

theorem IntMap.keys_insert_congr {V W : Type} (k : Int) (v : V) (w : W) :
    ∀ (m : IntMap V) (m1 : IntMap W), IntMap.keys m = IntMap.keys m1 →
      IntMap.keys (IntMap.insert m k v) = IntMap.keys (IntMap.insert m1 k w) := by
  intro m
  induction m with
  | nil =>
    intro m1 h
    cases m1 with
    | nil => rfl
    | cons e rest => simp [IntMap.keys] at h
  | cons e rest ih =>
    intro m1 h
    cases m1 with
    | nil => simp [IntMap.keys] at h
    | cons e1 rest1 =>
      obtain ⟨k1, x⟩ := e
      obtain ⟨k2, y⟩ := e1
      simp only [IntMap.keys, List.map_cons, List.cons.injEq] at h
      obtain ⟨hk, hrest⟩ := h
      subst hk
      simp only [IntMap.insert]
      by_cases h1 : k < k1
      · simp only [h1, if_true, IntMap.keys, List.map_cons]
        rw [hrest]
      · by_cases h2 : k = k1
        · simp only [h1, h2, if_false, if_true, IntMap.keys, List.map_cons]
          simp only [lt_self_iff_false, if_false, List.map_cons, hrest]
        · simp only [h1, h2, if_false, IntMap.keys, List.map_cons]
          have := ih rest1 hrest
          simp only [IntMap.keys] at this
          rw [this]

/-- The cell objects after a sector cell has received its two halfspaces. -/
theorem sectorCell_shapes (l l2 : List Cell) (cell c3 c4 : Cell) (sg1 sg2 : Int)
    (s1 s2 : Addr) (h : l2.map Cell.shape = (l ++ [cell]).map Cell.shape)
    (h3 : l2[l.length]? = some c3)
    (h4 : (l2.set l.length (c3.addSurface sg1 s1))[l.length]? = some c4) :
    ((l2.set l.length (c3.addSurface sg1 s1)).set l.length (c4.addSurface sg2 s2)).map
        Cell.shape =
      l.map Cell.shape ++ [(cell.id, cell.universe_id,
        IntMap.keys (IntMap.insert (IntMap.insert cell.surfaces sg1 (none : Option Addr))
          sg2 none), cell.data.erase)] := by
  have hlen : l2.length = l.length + 1 := by
    have := congrArg List.length h
    simpa using this
  have hc4 : c4 = c3.addSurface sg1 s1 := by
    rw [List.getElem?_set_self (by omega)] at h4
    exact (Option.some.inj h4).symm
  have hsh : c3.shape = cell.shape := by
    have h5 : (l2.map Cell.shape)[l.length]? = some c3.shape := by
      rw [List.getElem?_map, h3]; rfl
    rw [h] at h5
    simp at h5
    exact h5.symm
  have hid : c3.id = cell.id := congrArg Prod.fst hsh
  have hu : c3.universe_id = cell.universe_id := congrArg (fun x => x.2.1) hsh
  have hk : IntMap.keys c3.surfaces = IntMap.keys cell.surfaces :=
    congrArg (fun x => x.2.2.1) hsh
  have hd : c3.data.erase = cell.data.erase := congrArg (fun x => x.2.2.2) hsh
  rw [List.set_set, List.map_set, h, List.map_append, List.map_cons, List.map_nil]
  have hl : l.length = (l.map Cell.shape).length := by simp
  rw [hl, List.set_append_right _ _ (le_refl _), Nat.sub_self, List.set_cons_zero, hc4]
  congr 2
  show (c3.id, c3.universe_id, IntMap.keys (IntMap.insert (IntMap.insert c3.surfaces sg1
    (some s1)) sg2 (some s2)), c3.data.erase) = _
  rw [hid, hu, hd, IntMap.keys_insert_congr sg2 (some s2) (none : Option Addr) _ _
    (IntMap.keys_insert_congr sg1 (some s1) (none : Option Addr) _ _ hk)]

/-- One of the three new sector cells. -/
theorem addSectorCell_safe (T : Prop) (sqrt : F → F) (fuel : Nat) (hT : T → 1 ≤ fuel)
    (u m num : Int) (list : List Int) (sg1 : Int) (s1 : Addr) (sg2 : Int) (s2 : Addr)
    (g : Geometry F) (hf : FreshIds g) :
    Safe T (addSectorCell (addCell sqrt fuel) u m num list sg1 s1 sg2 s2 g)
      (fun _ g1 => BlockPost u g g1 [] ∧
        SectorCellPost g g1 (sectorShape g.statics.id u m num list sg1 sg2)) := by
  rw [addSectorCell_unfold]
  cases fuel with
  | zero =>
    intro h
    have := hT h
    omega
  | succ f =>
    have hc : (newCell g (CellBasic g.statics.id u num list m 0 0)).2.cellObjs[
        (newCell g (CellBasic g.statics.id u num list m 0 0)).1]? =
        some { CellBasic g.statics.id u num list m 0 0 with uid := g.statics.cell_n } := by
      simp [newCell]
    have hplain := addCell_plain_safe sqrt f
      (newCell g (CellBasic g.statics.id u num list m 0 0)).2
      (newCell g (CellBasic g.statics.id u num list m 0 0)).1
      { CellBasic g.statics.id u num list m 0 0 with uid := g.statics.cell_n } m hc
      (hf g.statics.id (le_refl _)).2 rfl
    cases hrun : addCell sqrt (f + 1) (newCell g (CellBasic g.statics.id u num list m 0 0)).2
        (newCell g (CellBasic g.statics.id u num list m 0 0)).1 with
    | outOfFuel => rw [hrun] at hplain; exact absurd trivial hplain
    | fatal e s => rw [hrun] at hplain; exact hplain
    | ok v g2 =>
      rw [hrun] at hplain
      have hp : HeadPost (newCell g (CellBasic g.statics.id u num list m 0 0)).2
          g.cellObjs.length
          { CellBasic g.statics.id u num list m 0 0 with uid := g.statics.cell_n } g2 := hplain
      simp only [Outcome.bind_ok]
      unfold cellAddSurface
      cases h3 : g2.cellObjs[(newCell g (CellBasic g.statics.id u num list m 0 0)).1]? with
      | none => exact NotDup.of_nullPointer
      | some c3 =>
        simp only [Outcome.bind_ok]
        cases h4 : (g2.cellObjs.set (newCell g (CellBasic g.statics.id u num list m 0 0)).1
            (c3.addSurface sg1 s1))[(newCell g (CellBasic g.statics.id u num list m 0 0)).1]? with
        | none => exact NotDup.of_nullPointer
        | some c4 =>
          simp only [Outcome.bind_ok]
          have hids : ((g2.cellObjs.set
              (newCell g (CellBasic g.statics.id u num list m 0 0)).1
              (c3.addSurface sg1 s1)).set
              (newCell g (CellBasic g.statics.id u num list m 0 0)).1
              (c4.addSurface sg2 s2)).map Cell.tag = g2.cellObjs.map Cell.tag := by
            rw [map_set_same Cell.tag _ _ c4 (c4.addSurface sg2 s2) h4 rfl,
              map_set_same Cell.tag _ _ c3 (c3.addSurface sg1 s1) h3 rfl]
          refine ⟨BlockPost.of_sectorCell u g g2 (CellBasic g.statics.id u num list m 0 0) hf
            rfl rfl _ hids hp, ?_⟩
          refine ⟨by show g2.statics.id + 1 = _; rw [hp.statics_id]; rfl, hp.surfaces,
            hp.surfaceObjs, hp.materials, hp.cells, ?_⟩
          exact sectorCell_shapes g.cellObjs g2.cellObjs
            { CellBasic g.statics.id u num list m 0 0 with uid := g.statics.cell_n } c3 c4
            sg1 sg2 s1 s2 hp.cell_shapes h3 h4

end GrowLemmas

section SectLemmas

variable {F : Type} [LinearOrderedField F]

theorem getElem?_set_some {α : Type} (l : List α) (a : Nat) (x y : α)
    (h : (l.set a x)[a]? = some y) : y = x ∧ a < l.length := by
  have hlt : a < l.length := by
    by_contra hcon
    rw [List.getElem?_eq_none (by simpa using Nat.le_of_not_lt hcon)] at h
    exact Option.noConfusion h
  rw [List.getElem?_set_self hlt] at h
  exact ⟨(Option.some.inj h).symm, hlt⟩

theorem CellData.erase_basic (d : CellData) (m r s : Int) (h : d.erase = .basic m r s) :
    d = .basic m r s := by
  cases d with
  | basic m1 r1 s1 => exact h
  | fill u p => exact CellData.noConfusion h

theorem shape_getElem? (l l1 : List Cell) (rest : List (Int × Int × List Int × CellData))
    (h : l1.map Cell.shape = l.map Cell.shape ++ rest) (a : Addr) (c : Cell)
    (hc : l[a]? = some c) : ∃ c1, l1[a]? = some c1 ∧ c1.shape = c.shape := by
  have hlt : a < l.length := by
    by_contra hcon
    rw [List.getElem?_eq_none (Nat.le_of_not_lt hcon)] at hc
    exact Option.noConfusion hc
  have h1 : (l1.map Cell.shape)[a]? = some c.shape := by
    rw [h, List.getElem?_append_left (by simpa using hlt), List.getElem?_map, hc]
    rfl
  rw [List.getElem?_map] at h1
  cases hx : l1[a]? with
  | none => rw [hx] at h1; exact Option.noConfusion h1
  | some c1 =>
    rw [hx] at h1
    exact ⟨c1, rfl, Option.some.inj h1⟩

/-- Sector refinement of the cell at `a`. -/
theorem addSectors4_safe (T : Prop) (sqrt : F → F) (fuel : Nat) (hT : T → 1 ≤ fuel)
    (a : Addr) (g : Geometry F) (hf : FreshIds g) (cell : Cell)
    (hc : g.cellObjs[a]? = some cell) :
    Safe T (addSectors4 (addCell sqrt fuel) a g)
      (fun _ g1 => BlockPost cell.universe_id g g1 [] ∧ Sectors4Post g a cell g1) := by
  unfold addSectors4
  simp only [hc]
  cases hd : cell.data with
  | fill uf p => exact NotDup.of_nullPointer
  | basic m R S =>
  simp only []
  have h1 := addSurface_generated g (Plane g.statics.id .BOUNDARY_NONE 1 1 0) hf rfl rfl
  have hb1 := BlockPost.of_plane cell.universe_id g (Plane g.statics.id .BOUNDARY_NONE 1 1 0)
    hf rfl rfl rfl
  have h2 := addSurface_generated (bumpId (withSurface g (Plane g.statics.id .BOUNDARY_NONE 1 1 0)))
    (Plane (bumpId (withSurface g (Plane g.statics.id .BOUNDARY_NONE 1 1 0))).statics.id
      .BOUNDARY_NONE 1 (-1) 0) hb1.2.1 rfl rfl
  have hb2 := BlockPost.of_plane cell.universe_id
    (bumpId (withSurface g (Plane g.statics.id .BOUNDARY_NONE 1 1 0)))
    (Plane (bumpId (withSurface g (Plane g.statics.id .BOUNDARY_NONE 1 1 0))).statics.id
      .BOUNDARY_NONE 1 (-1) 0) hb1.2.1 rfl rfl rfl
  have hb6 := BlockPost.block_trans _ _ _ _ _ _ hb1 hb2
  simp only [newSurface] at h1 h2 ⊢
  simp only [h1, Outcome.bind_ok, h2]
  clear h1 h2 hb1 hb2
  have e3 : (bumpId (withSurface g (Plane g.statics.id .BOUNDARY_NONE 1 1 0))).statics.id =
      g.statics.id + 1 := rfl
  have e4 : (bumpId (withSurface g
      (Plane g.statics.id .BOUNDARY_NONE 1 1 0))).surfaceObjs.length =
      g.surfaceObjs.length + 1 := by simp [bumpId, withSurface]
  obtain ⟨g6, hg6⟩ : ∃ g6 : Geometry F, g6 = bumpId (withSurface
      (bumpId (withSurface g (Plane g.statics.id .BOUNDARY_NONE 1 1 0)))
      (Plane (bumpId (withSurface g (Plane g.statics.id .BOUNDARY_NONE 1 1 0))).statics.id
        .BOUNDARY_NONE 1 (-1) 0)) := ⟨_, rfl⟩
  rw [← hg6] at hb6 ⊢
  rw [e3, e4]
  have f1 : g6.statics.id = g.statics.id + 2 := by
    rw [hg6]; show g.statics.id + 1 + 1 = _; ring
  have f2 : g6.surfaceObjs = g.surfaceObjs ++
      [({ Plane g.statics.id .BOUNDARY_NONE 1 1 0 with uid := g.statics.surface_n } : Surface F),
       { Plane (g.statics.id + 1) .BOUNDARY_NONE 1 (-1) 0 with
          uid := g.statics.surface_n + 1 }] := by
    rw [hg6]; simp [bumpId, withSurface]
  have f3 : g6.surfaces = IntMap.insert (IntMap.insert g.surfaces g.statics.id
      g.surfaceObjs.length) (g.statics.id + 1) (g.surfaceObjs.length + 1) := by
    rw [hg6]; simp [bumpId, withSurface, Plane]
  have f4 : g6.materials = g.materials := by rw [hg6]; rfl
  have f5 : g6.cells = g.cells := by rw [hg6]; rfl
  have f6 : g6.cellObjs = g.cellObjs := by rw [hg6]; rfl
  clear hg6
  refine Safe.bind T _ _ _ _ (addSectorCell_safe T sqrt fuel hT cell.universe_id m
    cell.getNumSurfaces (IntMap.keys cell.surfaces) g.statics.id g.surfaceObjs.length
    (g.statics.id + 1) (g.surfaceObjs.length + 1) g6 hb6.2.1) ?_
  intro _ g7 h7
  obtain ⟨hb7, hp7⟩ := h7
  refine Safe.bind T _ _ _ _ (addSectorCell_safe T sqrt fuel hT cell.universe_id m
    cell.getNumSurfaces (IntMap.keys cell.surfaces) (-1 * g.statics.id) g.surfaceObjs.length
    (-1 * (g.statics.id + 1)) (g.surfaceObjs.length + 1) g7 hb7.2.1) ?_
  intro _ g8 h8
  obtain ⟨hb8, hp8⟩ := h8
  refine Safe.bind T _ _ _ _ (addSectorCell_safe T sqrt fuel hT cell.universe_id m
    cell.getNumSurfaces (IntMap.keys cell.surfaces) (-1 * g.statics.id) g.surfaceObjs.length
    (g.statics.id + 1) (g.surfaceObjs.length + 1) g8 hb8.2.1) ?_
  intro _ g9 h9
  obtain ⟨hb9, hp9⟩ := h9
  have hlen7 : g7.cellObjs.length = g.cellObjs.length + 1 := by
    have := congrArg List.length hp7.shapes
    simpa [f6] using this
  have hlen8 : g8.cellObjs.length = g.cellObjs.length + 2 := by
    have := congrArg List.length hp8.shapes
    simp only [List.length_map, List.length_append, List.length_singleton, hlen7] at this
    exact this
  have hsh9 : g9.cellObjs.map Cell.shape = g.cellObjs.map Cell.shape ++
      [sectorShape (g.statics.id + 2) cell.universe_id m cell.getNumSurfaces
         (IntMap.keys cell.surfaces) g.statics.id (g.statics.id + 1),
       sectorShape (g.statics.id + 3) cell.universe_id m cell.getNumSurfaces
         (IntMap.keys cell.surfaces) (-1 * g.statics.id) (-1 * (g.statics.id + 1)),
       sectorShape (g.statics.id + 4) cell.universe_id m cell.getNumSurfaces
         (IntMap.keys cell.surfaces) (-1 * g.statics.id) (g.statics.id + 1)] := by
    have i7 : g7.statics.id = g.statics.id + 3 := by rw [hp7.statics_id, f1]; ring
    have i8 : g8.statics.id = g.statics.id + 4 := by rw [hp8.statics_id, i7]; ring
    rw [hp9.shapes, hp8.shapes, hp7.shapes, f6, f1, i7, i8]
    simp
  obtain ⟨cell9, hc9, hs9⟩ := shape_getElem? g.cellObjs g9.cellObjs _ hsh9 a cell hc
  have hd9 : cell9.data = .basic m R S := by
    apply CellData.erase_basic
    have : cell9.data.erase = cell.data.erase := congrArg (fun x => x.2.2.2) hs9
    rw [this, hd]
    rfl
  have ha9 : a < g9.cellObjs.length := by
    by_contra hcon
    rw [List.getElem?_eq_none (Nat.le_of_not_lt hcon)] at hc9
    exact Option.noConfusion hc9
  simp only [hc9, hd9, cellAddSurface, List.getElem?_set_self ha9, Outcome.bind_ok,
    List.length_set]
  simp only [List.set_set, List.getElem?_set_self ha9]
  have i7 : g7.statics.id = g.statics.id + 3 := by rw [hp7.statics_id, f1]; ring
  have i8 : g8.statics.id = g.statics.id + 4 := by rw [hp8.statics_id, i7]; ring
  have hid9 : cell9.id = cell.id := congrArg Prod.fst hs9
  have hu9 : cell9.universe_id = cell.universe_id := congrArg (fun x => x.2.1) hs9
  have hk9 : IntMap.keys cell9.surfaces = IntMap.keys cell.surfaces :=
    congrArg (fun x => x.2.2.1) hs9
  have hfin := BlockPost.of_cellObjs cell.universe_id g9
    (g9.cellObjs.set a
      ((({ cell9 with data := .basic m R 0 } : Cell).addSurface g.statics.id
        g.surfaceObjs.length).addSurface (-1 * (g.statics.id + 1)) (g.surfaceObjs.length + 1)))
    hb9.2.1 (map_set_same Cell.tag _ _ cell9 _ hc9 rfl)
  refine ⟨BlockPost.block_trans _ _ _ _ _ _ (BlockPost.block_trans _ _ _ _ _ _ (BlockPost.block_trans _ _ _ _ _ _
    (BlockPost.block_trans _ _ _ _ _ _ hb6 hb7) hb8) hb9) hfin, ?_⟩
  refine ⟨?_, ?_, ?_, ?_, ?_, m, R, S, hd, ?_⟩
  · show g9.statics.id = _
    rw [hp9.statics_id, i8]; ring
  · show g9.surfaceObjs = _
    rw [hp9.surfaceObjs, hp8.surfaceObjs, hp7.surfaceObjs, f2]
  · show g9.surfaces = _
    rw [hp9.surfaces, hp8.surfaces, hp7.surfaces, f3]
  · show g9.materials = _
    rw [hp9.materials, hp8.materials, hp7.materials, f4]
  · show g9.cells = _
    rw [hp9.cells, hp8.cells, hp7.cells, f5, f1, i7, i8, f6, hlen7, hlen8]
  · show (g9.cellObjs.set a _).map Cell.shape = _
    have hal : a < (g.cellObjs.map Cell.shape).length := by
      have := congrArg List.length hsh9
      simp only [List.length_map, List.length_append] at this
      have hlt : a < g.cellObjs.length := by
        by_contra hcon
        rw [List.getElem?_eq_none (Nat.le_of_not_lt hcon)] at hc
        exact Option.noConfusion hc
      simpa using hlt
    rw [List.map_set, hsh9, List.set_append_left _ _ hal]
    congr 2
    show (cell9.id, cell9.universe_id, IntMap.keys (IntMap.insert (IntMap.insert cell9.surfaces
      g.statics.id (some g.surfaceObjs.length)) (-1 * (g.statics.id + 1))
      (some (g.surfaceObjs.length + 1))), CellData.basic m R 0) = _
    rw [hid9, hu9, IntMap.keys_insert_congr (-1 * (g.statics.id + 1))
      (some (g.surfaceObjs.length + 1)) (none : Option Addr) _ _
      (IntMap.keys_insert_congr g.statics.id (some g.surfaceObjs.length)
        (none : Option Addr) _ _ hk9)]

end SectLemmas

section RingsLemmas

variable {F : Type} [LinearOrderedField F]

/-- Allocation and registration of a generated circle, allocation of its ring cell,
and the increment of the counter. -/
theorem BlockPost.of_ring (u : Int) (g : Geometry F) (s : Surface F) (cell : Cell)
    (hf : FreshIds g) (hid : s.id = g.statics.id) (hb : s.boundary = .BOUNDARY_NONE)
    (hcid : cell.id = g.statics.id) (hcu : cell.universe_id = u) :
    BlockPost u g (bumpId (newCell (withSurface g s) cell).2) (circleRadii [s]) := by
  refine ⟨GrowsIds.of_lists g _ [{ s with uid := g.statics.surface_n }] [(g.statics.id, u)]
    (by show g.statics.id ≤ g.statics.id + 1; omega) rfl ?_ rfl ?_ (by simp)
    (fun _ _ h => h) (by simp [bumpId, withSurface, newCell, Cell.tag, hcid, hcu]) ?_ (by simp),
    ?_, ?_, ?_⟩
  · intro k v hk
    have hne : k ≠ s.id := by
      intro heq
      rw [heq, hid, (hf _ (le_refl _)).1] at hk
      exact Option.noConfusion hk
    show IntMap.find (IntMap.insert g.surfaces s.id g.surfaceObjs.length) k = some v
    rw [IntMap.find_insert_ne _ _ _ _ hne]
    exact hk
  · intro t ht
    rw [List.mem_singleton] at ht
    subst ht
    exact ⟨hb, by show g.statics.id ≤ s.id; omega, by
      show s.id < g.statics.id + 1
      omega⟩
  · intro k hk
    simp only [List.map_cons, List.map_nil, List.mem_singleton] at hk
    subst hk
    exact ⟨le_refl _, by show g.statics.id < g.statics.id + 1; omega⟩
  · intro k hk
    have hk1 : g.statics.id + 1 ≤ k := hk
    refine ⟨?_, (hf k (by omega)).2⟩
    show IntMap.find (IntMap.insert g.surfaces s.id g.surfaceObjs.length) k = none
    rw [IntMap.find_insert_ne _ _ _ _ (by omega)]
    exact (hf k (by omega)).1
  · have : newSurfaces g (bumpId (newCell (withSurface g s) cell).2) =
        [{ s with uid := g.statics.surface_n }] := by
      simp [newSurfaces, bumpId, withSurface, newCell]
    rw [this]
    rfl
  · intro hok
    exact ⟨UnivOK.ok_of_frame g _ hok rfl rfl (fun _ h => h), GrowsUniv.univ_of_frame u g _ rfl rfl⟩

/-- A normal return of `addCell` for a cell without rings, seen as a part of the
refinement of another cell of the same universe. -/
theorem AddCellPost.post_toBlock (g : Geometry F) (a : Addr) (cell : Cell) (g1 : Geometry F)
    (h : AddCellPost g a cell g1) (hn : NoRings cell) :
    BlockPost cell.universe_id g g1 [] :=
  ⟨h.1, h.2.1, h.2.2.2.1 hn, fun hok => ⟨(h.2.2.2.2 hok).1, (h.2.2.2.2 hok).2.1⟩⟩

/-- One ring of the refinement, after its circle has been registered: the ring cell
is allocated and handed to `addCell`. -/
theorem ring_step_safe (T : Prop) (fuel : Nat)
    (rec : Geometry F → Addr → Outcome (Geometry F) Unit) (hrec : RecSpec fuel rec)
    (u m S : Int) (hT : T → (if S > 0 then 2 else 1) ≤ fuel)
    (g : Geometry F) (hf : FreshIds g) (r : F) (num : Int) (list : List Int) :
    Safe T
      (rec (bumpId (newCell (withSurface g (Circle g.statics.id .BOUNDARY_NONE 0 0 r))
          (CellBasic g.statics.id u num list m 0 S)).2)
        (newCell (withSurface g (Circle g.statics.id .BOUNDARY_NONE 0 0 r))
          (CellBasic g.statics.id u num list m 0 S)).1)
      (fun _ g4 => BlockPost u g g4 [r]) := by
  have hb := BlockPost.of_ring u g (Circle g.statics.id .BOUNDARY_NONE 0 0 r)
    (CellBasic g.statics.id u num list m 0 S) hf rfl rfl rfl rfl
  have hcell : (bumpId (newCell (withSurface g (Circle g.statics.id .BOUNDARY_NONE 0 0 r))
      (CellBasic g.statics.id u num list m 0 S)).2).cellObjs[
      (newCell (withSurface g (Circle g.statics.id .BOUNDARY_NONE 0 0 r))
        (CellBasic g.statics.id u num list m 0 S)).1]? =
      some { CellBasic g.statics.id u num list m 0 S with
        uid := (withSurface g (Circle g.statics.id .BOUNDARY_NONE 0 0 r)).statics.cell_n } := by
    simp [bumpId, newCell]
  have h := hrec _ _ _ hb.2.1 hcell (hf _ (le_refl _)).2
    (by show g.statics.id < g.statics.id + 1; omega)
  have hneed : need ({ CellBasic g.statics.id u num list m 0 S with
      uid := (withSurface g (Circle g.statics.id .BOUNDARY_NONE 0 0 r)).statics.cell_n } : Cell)
      = if S > 0 then 2 else 1 := by
    simp [need, CellBasic]
  rw [hneed] at h
  refine Safe.mono T _ _ _ (Safe.weaken _ T _ _ h hT) ?_
  intro _ g4 h4
  have hb4 := AddCellPost.post_toBlock _ _ _ _ h4 (by simp [NoRings, CellBasic])
  have := BlockPost.block_trans u _ _ _ _ _ hb hb4
  simpa [circleRadii, Circle] using this

theorem ringRadii_cons (sqrt : F → F) (dr2 rold : F) (n : Nat) :
    [sqrt (rold * rold + dr2)] ++
        ((List.range n).map fun j => loopRadius sqrt dr2 (j + 1) (sqrt (rold * rold + dr2))) =
      (List.range (n + 1)).map fun j => loopRadius sqrt dr2 (j + 1) rold := by
  rw [List.range_succ_eq_map, List.map_cons, List.map_map]
  rfl

theorem ringRadii_first (sqrt : F → F) (dr2 r1 : F) (n : Nat) :
    [r1] ++ ((List.range n).map fun j => loopRadius sqrt dr2 (j + 1) r1) =
      ringRadii sqrt dr2 r1 (n + 1) := by
  unfold ringRadii
  rw [List.range_succ_eq_map, List.map_cons, List.map_map]
  rfl

/-- The ring loop. -/
theorem ringLoop_safe (T : Prop) (fuel : Nat)
    (rec : Geometry F → Addr → Outcome (Geometry F) Unit) (hrec : RecSpec fuel rec)
    (sqrt : F → F) (u m S : Int) (hT : T → (if S > 0 then 2 else 1) ≤ fuel) (dr2 : F) :
    ∀ (n : Nat) (g : Geometry F) (rold : F) (old_id : Int) (s0 : Addr), FreshIds g →
      Safe T (ringLoop rec sqrt u m S dr2 n g rold old_id s0)
        (fun _ g1 => BlockPost u g g1
          ((List.range n).map fun j => loopRadius sqrt dr2 (j + 1) rold)) := by
  intro n
  induction n with
  | zero =>
    intro g rold old_id s0 hf
    exact BlockPost.block_refl u g hf
  | succ n ih =>
    intro g rold old_id s0 hf
    have h1 := addSurface_generated g (Circle g.statics.id .BOUNDARY_NONE 0 0
      (sqrt (rold * rold + dr2))) hf rfl rfl
    simp only [ringLoop]
    simp only [newSurface] at h1 ⊢
    simp only [h1, Outcome.bind_ok]
    refine Safe.bind T _ _ _ _ (ring_step_safe T fuel rec hrec u m S hT g hf
      (sqrt (rold * rold + dr2)) 2 [old_id, -1 * g.statics.id]) ?_
    intro _ g4 hb4
    refine Safe.mono T _ _ _ (ih g4 (sqrt (rold * rold + dr2)) _ _ hb4.2.1) ?_
    intro _ g1 hb1
    have := BlockPost.block_trans u _ _ _ _ _ hb4 hb1
    rw [ringRadii_cons] at this
    exact this

theorem circleRadius_cases (g : Geometry F) (k : Int) :
    (∃ r, circleRadius g k = .ok r g) ∨ (∃ e, circleRadius g k = .fatal e g ∧ NotDup e) := by
  cases hf : IntMap.find g.surfaces k with
  | none => exact Or.inr ⟨_, by simp [circleRadius, hf], NotDup.of_outOfRange⟩
  | some sa =>
    cases hs : g.surfaceObjs[sa]? with
    | none => exact Or.inr ⟨_, by simp [circleRadius, hf, hs], NotDup.of_nullPointer⟩
    | some s =>
      cases hsh : s.shape with
      | circle x y radius => exact Or.inl ⟨radius, by simp [circleRadius, hf, hs, hsh]⟩
      | plane A B C =>
        exact Or.inr ⟨_, by simp [circleRadius, hf, hs, hsh], NotDup.of_nullPointer⟩
      | xplane C =>
        exact Or.inr ⟨_, by simp [circleRadius, hf, hs, hsh], NotDup.of_nullPointer⟩
      | yplane C =>
        exact Or.inr ⟨_, by simp [circleRadius, hf, hs, hsh], NotDup.of_nullPointer⟩

/-- Ring refinement of a cell with one surface. -/
theorem addRingsDisk_safe (T : Prop) (fuel : Nat)
    (rec : Geometry F → Addr → Outcome (Geometry F) Unit) (hrec : RecSpec fuel rec)
    (sqrt : F → F) (a : Addr) (surfs : IntMap (Option Addr)) (u m S t : Int)
    (hT : T → (if S > 0 then 2 else 1) ≤ fuel) (g : Geometry F) (hf : FreshIds g) :
    Safe T (addRingsDisk rec sqrt a surfs u m S t g)
      (fun _ g1 => ∃ k0 p rest r0, surfs = (k0, p) :: rest ∧
        circleRadius g (iabs k0) = .ok r0 g ∧
        BlockPost u g g1 (ringRadii sqrt ((r0 * r0) / (t : F)) (r0 / sqrt (t : F))
          ((t - 2).toNat + 1))) := by
  cases surfs with
  | nil => exact NotDup.of_nullPointer
  | cons entry rest =>
    obtain ⟨k0, p⟩ := entry
    simp only [addRingsDisk]
    rcases circleRadius_cases g (iabs k0) with ⟨r0, hr⟩ | ⟨e, hr, he⟩
    · have h1 := addSurface_generated g (Circle g.statics.id .BOUNDARY_NONE 0 0
        (r0 / sqrt (t : F))) hf rfl rfl
      simp only [newSurface] at h1 ⊢
      simp only [hr, h1, Outcome.bind_ok]
      refine Safe.bind T _ _ _ _ (ring_step_safe T fuel rec hrec u m S hT g hf
        (r0 / sqrt (t : F)) 1 [-1 * g.statics.id]) ?_
      intro _ g4 hb4
      refine Safe.bind T _ _ _ _ (ringLoop_safe T fuel rec hrec sqrt u m S hT
        ((r0 * r0) / (t : F)) (t - 2).toNat g4 (r0 / sqrt (t : F)) _ _ hb4.2.1) ?_
      intro last g5 hb5
      refine Safe.mono T _ _ _ (cellAddSurface_safe T u a last.1 last.2 g5 hb5.2.1) ?_
      intro _ g6 hb6
      refine ⟨k0, p, rest, r0, rfl, hr, ?_⟩
      have := BlockPost.block_trans u _ _ _ _ _ (BlockPost.block_trans u _ _ _ _ _ hb4 hb5) hb6
      rw [List.append_nil, ringRadii_first] at this
      exact this
    · simp only [hr, Outcome.bind_fatal]
      exact he

/-- Ring refinement of a cell with two surfaces. -/
theorem addRingsAnnulus_safe (T : Prop) (fuel : Nat)
    (rec : Geometry F → Addr → Outcome (Geometry F) Unit) (hrec : RecSpec fuel rec)
    (sqrt : F → F) (a : Addr) (surfs : IntMap (Option Addr)) (u m S t : Int)
    (hT : T → (if S > 0 then 2 else 1) ≤ fuel) (g : Geometry F) (hf : FreshIds g) :
    Safe T (addRingsAnnulus rec sqrt a surfs u m S t g)
      (fun _ g1 => ∃ e1 e2 rest r01 r02, surfs = e1 :: e2 :: rest ∧
        circleRadius g (if iabs e1.1 < iabs e2.1 then iabs e1.1 else iabs e2.1) = .ok r01 g ∧
        circleRadius g (if iabs e1.1 < iabs e2.1 then iabs e2.1 else iabs e1.1) = .ok r02 g ∧
        BlockPost u g g1 (ringRadii sqrt ((r02 * r02 - r01 * r01) / (t : F))
          (sqrt (r01 * r01 + ((r02 * r02 - r01 * r01) / (t : F)))) ((t - 2).toNat + 1))) := by
  cases surfs with
  | nil => exact NotDup.of_nullPointer
  | cons e1 rest1 =>
  cases rest1 with
  | nil => exact NotDup.of_nullPointer
  | cons e2 rest =>
    simp only [addRingsAnnulus]
    rcases circleRadius_cases g (if iabs e1.1 < iabs e2.1 then iabs e1.1 else iabs e2.1) with
      ⟨r01, hr1⟩ | ⟨e, hr1, he⟩
    · rcases circleRadius_cases g (if iabs e1.1 < iabs e2.1 then iabs e2.1 else iabs e1.1) with
        ⟨r02, hr2⟩ | ⟨e, hr2, he⟩
      · have h1 := addSurface_generated g (Circle g.statics.id .BOUNDARY_NONE 0 0
          (sqrt (r01 * r01 + ((r02 * r02 - r01 * r01) / (t : F))))) hf rfl rfl
        simp only [newSurface] at h1 ⊢
        simp only [hr1, hr2, h1, Outcome.bind_ok]
        refine Safe.bind T _ _ _ _ (ring_step_safe T fuel rec hrec u m S hT g hf
          (sqrt (r01 * r01 + ((r02 * r02 - r01 * r01) / (t : F)))) 2
          [-1 * g.statics.id, if iabs e1.1 < iabs e2.1 then iabs e1.1 else iabs e2.1]) ?_
        intro _ g4 hb4
        refine Safe.bind T _ _ _ _ (ringLoop_safe T fuel rec hrec sqrt u m S hT
          ((r02 * r02 - r01 * r01) / (t : F)) (t - 2).toNat g4
          (sqrt (r01 * r01 + ((r02 * r02 - r01 * r01) / (t : F)))) _ _ hb4.2.1) ?_
        intro last g5 hb5
        refine Safe.mono T _ _ _ (cellAddSurface_safe T u a last.1 last.2 g5 hb5.2.1) ?_
        intro _ g6 hb6
        refine ⟨e1, e2, rest, r01, r02, rfl, hr1, hr2, ?_⟩
        have := BlockPost.block_trans u _ _ _ _ _ (BlockPost.block_trans u _ _ _ _ _ hb4 hb5) hb6
        rw [List.append_nil, ringRadii_first] at this
        exact this
      · simp only [hr1, hr2, Outcome.bind_ok, Outcome.bind_fatal]
        exact he
    · simp only [hr1, Outcome.bind_fatal]
      exact he

end RingsLemmas

section SpecLemmas

variable {F : Type} [LinearOrderedField F]

/-- The sector stage of the refinement. -/
theorem sectorStage_safe (T : Prop) (sqrt : F → F) (fuel : Nat) (a : Addr) (u S : Int)
    (hT : T → S > 0 → 1 ≤ fuel) (g : Geometry F) (hf : FreshIds g)
    (hc : ∃ c, g.cellObjs[a]? = some c ∧ c.universe_id = u) :
    Safe T (if S > 0 then
        if S = 4 then addSectors4 (addCell sqrt fuel) a g
        else .fatal (.sectorsUnsupported S) g
      else .ok () g)
      (fun _ g1 => BlockPost u g g1 []) := by
  obtain ⟨c, hc, hu⟩ := hc
  by_cases hS : S > 0
  · by_cases h4 : S = 4
    · simp only [hS, h4, if_true]
      have := addSectors4_safe (T ∧ S > 0) sqrt fuel (fun h => hT h.1 h.2) a g hf c hc
      rw [hu] at this
      refine Safe.mono T _ _ _ (Safe.weaken _ T _ _ this (fun h => ⟨h, hS⟩)) ?_
      intro _ g1 h1
      exact h1.1
    · simp only [hS, h4, if_true, if_false]
      exact NotDup.of_sectorsUnsupported S
  · simp only [hS, if_false]
    exact BlockPost.block_refl u g hf

/-- The refinement part of `addCell`. -/
theorem refineCell_safe (T : Prop) (sqrt : F → F) (fuel : Nat)
    (hrec : RecSpec fuel (addCell sqrt fuel)) (a : Addr) (cell : Cell)
    (surfs : IntMap (Option Addr)) (m R S : Int)
    (hT : T → (if R + 1 > 1 then 3 else if S > 0 then 2 else 1) ≤ fuel + 1)
    (g : Geometry F) (hf : FreshIds g)
    (hc : ∃ c, g.cellObjs[a]? = some c ∧ c.universe_id = cell.universe_id) :
    Safe T (refineCell (addCell sqrt fuel) sqrt a cell surfs m R S g)
      (fun _ g1 => ∃ radii, BlockPost cell.universe_id g g1 radii ∧
        RadiiSpec sqrt g cell surfs R radii) := by
  unfold refineCell
  simp only []
  obtain ⟨c, hc, hu⟩ := hc
  have hsect : ∀ (g1 : Geometry F) (radii : List F),
      BlockPost cell.universe_id g g1 radii → RadiiSpec sqrt g cell surfs R radii →
      Safe T (if S > 0 then
          if S = 4 then addSectors4 (addCell sqrt fuel) a g1
          else .fatal (.sectorsUnsupported S) g1
        else .ok () g1)
        (fun _ g2 => ∃ radii, BlockPost cell.universe_id g g2 radii ∧
          RadiiSpec sqrt g cell surfs R radii) := by
    intro g1 radii hb hr
    obtain ⟨c1, hc1, hu1⟩ := hb.1.cell_univ a c hc
    refine Safe.mono T _ _ _ (sectorStage_safe T sqrt fuel a cell.universe_id S ?_ g1 hb.2.1
      ⟨c1, hc1, by rw [hu1, hu]⟩) ?_
    · intro h hS
      have := hT h
      by_cases hR : R + 1 > 1
      · simp only [hR, if_true] at this
        omega
      · simp only [hR, hS, if_true, if_false] at this
        omega
    · intro _ g2 hb2
      have := BlockPost.block_trans _ _ _ _ _ _ hb hb2
      rw [List.append_nil] at this
      exact ⟨radii, this, hr⟩
  have hTr : R + 1 > 1 → T → (if S > 0 then 2 else 1) ≤ fuel := by
    intro hR h
    have := hT h
    simp only [hR, if_true] at this
    split <;> omega
  by_cases hR : R + 1 > 1
  · by_cases h1 : cell.getNumSurfaces = 1
    · simp only [hR, h1, if_true]
      refine Safe.bind T _ _ _ _ (addRingsDisk_safe T fuel _ hrec sqrt a surfs cell.universe_id
        m S (R + 1) (hTr hR) g hf) ?_
      intro _ g1 h
      obtain ⟨k0, p, rest, r0, hs, hr, hb⟩ := h
      exact hsect g1 _ hb ⟨fun h => absurd hR h, fun _ _ => ⟨k0, p, rest, r0, hs, hr, rfl⟩,
        fun _ h => absurd h1 h⟩
    · by_cases h2 : cell.getNumSurfaces = 2
      · simp only [hR, h1, h2, if_true, if_false]
        refine Safe.bind T _ _ _ _ (addRingsAnnulus_safe T fuel _ hrec sqrt a surfs
          cell.universe_id m S (R + 1) (hTr hR) g hf) ?_
        intro _ g1 h
        obtain ⟨e1, e2, rest, r01, r02, hs, hr1, hr2, hb⟩ := h
        exact hsect g1 _ hb ⟨fun h => absurd hR h, fun _ h => absurd h h1,
          fun _ _ => ⟨e1, e2, rest, r01, r02, hs, hr1, hr2, rfl⟩⟩
      · simp only [hR, h1, h2, if_true, if_false, Outcome.bind_fatal]
        exact NotDup.of_ringsUnsupported
  · simp only [hR, if_false, Outcome.bind_ok]
    exact hsect g [] (BlockPost.block_refl _ g hf) ⟨fun _ => rfl, fun h => absurd h hR,
      fun h => absurd h hR⟩

/-- Lines 288-350 of `addCell`, seen as a part of the run. -/
theorem HeadPost.head_toBlock (g : Geometry F) (a : Addr) (cell : Cell) (g4 : Geometry F)
    (hp : HeadPost g a cell g4) (hf : FreshIds g)
    (hnew : IntMap.find g.cells cell.id = none) (hid : cell.id < g.statics.id) :
    BlockPost cell.universe_id g g4 [] := by
  refine ⟨GrowsIds.ids_of_frame g g4 hp.statics_id hp.materials hp.surfaces hp.surfaceObjs ?_
    (tags_of_shapes _ _ hp.cell_shapes), ?_, ?_, ?_⟩
  · intro k v hk
    have hne : k ≠ cell.id := by
      intro heq
      rw [heq, hnew] at hk
      exact Option.noConfusion hk
    rw [hp.cells, IntMap.find_insert_ne _ _ _ _ hne]
    exact hk
  · intro k hk
    rw [hp.statics_id] at hk
    refine ⟨by rw [hp.surfaces]; exact (hf k hk).1, ?_⟩
    rw [hp.cells, IntMap.find_insert_ne _ _ _ _ (by omega)]
    exact (hf k hk).2
  · rw [newSurfaces_of_frame g g4 hp.surfaceObjs]
    rfl
  · intro hok
    exact ⟨(hp.univ hok).1, (hp.univ hok).2.1⟩

theorem Member.grows (g g1 : Geometry F) (cell : Cell) (a : Addr) (h : Member g cell a)
    (hg : GrowsUniv cell.universe_id g g1) : Member g1 cell a := by
  obtain ⟨ua, U, h1, h2, h3, h4⟩ := h
  obtain ⟨e1, _⟩ := hg.reg_same ua h1
  obtain ⟨U1, f1, f2, _, f4⟩ := hg.objs_grow ua U h2
  exact ⟨ua, U1, by rw [e1]; exact h1, f1, by rw [f2, h3], f4 _ _ h4⟩

/-- What the states before and after the refinement give for the whole call. -/
theorem AddCellPost.of_blocks (g : Geometry F) (a : Addr) (cell : Cell) (g4 g1 : Geometry F)
    (radii : List F) (hp : HeadPost g a cell g4) (hf : FreshIds g)
    (hnew : IntMap.find g.cells cell.id = none) (hid : cell.id < g.statics.id)
    (hb : BlockPost cell.universe_id g4 g1 radii) (hr : NoRings cell → radii = []) :
    AddCellPost g a cell g1 ∧ circleRadii (newSurfaces g g1) = radii := by
  have hb4 := HeadPost.head_toBlock g a cell g4 hp hf hnew hid
  have hb1 := BlockPost.block_trans _ _ _ _ _ _ hb4 hb
  rw [List.nil_append] at hb1
  have hreg : IntMap.find g1.cells cell.id = some a :=
    hb.1.cell_reg _ _ (by rw [hp.cells]; exact IntMap.find_insert_self _ _ _ hnew)
  refine ⟨⟨hb1.1, hb1.2.1, hreg, fun hn => by rw [hb1.2.2.1]; exact hr hn, ?_⟩, hb1.2.2.1⟩
  intro hok
  obtain ⟨hok4, hg4, hm4, hn4⟩ := hp.univ hok
  obtain ⟨hok1, hg1⟩ := hb.2.2.2 hok4
  refine ⟨hok1, GrowsUniv.univ_trans _ _ _ _ hg4 hg1, Member.grows g4 g1 cell a hm4 hg1, ?_⟩
  intro hnone
  obtain ⟨h5, U, h6, h7⟩ := hn4 hnone
  obtain ⟨e1, _⟩ := hg1.reg_same _ h5
  obtain ⟨U1, f1, _, f3, _⟩ := hg1.objs_grow _ U h6
  exact ⟨by rw [e1]; exact h5, U1, f1, by rw [f3]; exact h7⟩

/-- The contract of `addCell`, for every recursion budget. -/
theorem addCell_spec (sqrt : F → F) : ∀ fuel : Nat, RecSpec fuel (addCell sqrt fuel) := by
  intro fuel
  induction fuel with
  | zero =>
    intro g a cell hf hc hnew hid
    show ¬ (need cell ≤ 0)
    unfold need
    cases cell.data with
    | basic m R S => simp only []; split <;> [omega; (split <;> omega)]
    | fill u p => simp
  | succ fuel ih =>
    intro g a cell hf hc hnew hid
    rcases addCell_head sqrt fuel g a cell hc hnew with ⟨e, s, h1, h2⟩ | ⟨g4, hp, h2⟩
    · rw [h1]; exact h2
    · rw [h2]
      have hb4 := HeadPost.head_toBlock g a cell g4 hp hf hnew hid
      cases hd : cell.data with
      | fill u p =>
        simp only []
        exact (AddCellPost.of_blocks g a cell g4 g4 [] hp hf hnew hid
          (BlockPost.block_refl _ g4 hb4.2.1) (fun _ => rfl)).1
      | basic m R S =>
        simp only []
        obtain ⟨c4, hc4, hu4⟩ := hb4.1.cell_univ a cell hc
        have hneed : need cell = if R + 1 > 1 then 3 else if S > 0 then 2 else 1 := by
          simp [need, hd]
        refine Safe.mono _ _ _ _ (refineCell_safe (need cell ≤ fuel + 1) sqrt fuel ih a cell
          cell.surfaces m R S (fun h => by rw [← hneed]; exact h) g4 hb4.2.1
          ⟨c4, hc4, hu4⟩) ?_
        intro _ g1 h
        obtain ⟨radii, hb, hr⟩ := h
        exact (AddCellPost.of_blocks g a cell g4 g1 radii hp hf hnew hid hb
          (fun hn => hr.1 (by simpa [NoRings, hd] using hn))).1

end SpecLemmas

section TopLemmas

variable {F : Type} [LinearOrderedField F]

theorem circleRadius_frame (g g4 : Geometry F) (k : Int) (r : F)
    (h1 : g4.surfaces = g.surfaces) (h2 : g4.surfaceObjs = g.surfaceObjs)
    (h : circleRadius g4 k = .ok r g4) : circleRadius g k = .ok r g := by
  obtain ⟨s, x, y, hs, hsh⟩ := circleRadius_surfaceAt g4 k r g4 h
  have : surfaceAt g k = some s := by
    unfold surfaceAt at hs ⊢
    rw [← h1, ← h2]
    exact hs
  exact surfaceAt_circleRadius g k s x y r this hsh

theorem RadiiSpec.frame (sqrt : F → F) (g g4 : Geometry F) (cell : Cell)
    (surfs : IntMap (Option Addr)) (R : Int) (radii : List F)
    (h1 : g4.surfaces = g.surfaces) (h2 : g4.surfaceObjs = g.surfaceObjs)
    (h : RadiiSpec sqrt g4 cell surfs R radii) : RadiiSpec sqrt g cell surfs R radii := by
  obtain ⟨a, b, c⟩ := h
  refine ⟨a, ?_, ?_⟩
  · intro hR hn
    obtain ⟨k0, p, rest, r0, hs, hr, hrad⟩ := b hR hn
    exact ⟨k0, p, rest, r0, hs, circleRadius_frame g g4 _ _ h1 h2 hr, hrad⟩
  · intro hR hn
    obtain ⟨e1, e2, rest, r01, r02, hs, hr1, hr2, hrad⟩ := c hR hn
    exact ⟨e1, e2, rest, r01, r02, hs, circleRadius_frame g g4 _ _ h1 h2 hr1,
      circleRadius_frame g g4 _ _ h1 h2 hr2, hrad⟩

/-- What a normal return of `addCell` guarantees, with the radii of the generated
circles. -/
theorem addCell_ok_post (sqrt : F → F) (fuel : Nat) (g : Geometry F) (a : Addr) (cell : Cell)
    (g1 : Geometry F) (hf : FreshIds g) (hc : g.cellObjs[a]? = some cell)
    (hnew : IntMap.find g.cells cell.id = none) (hid : cell.id < g.statics.id)
    (hrun : addCell sqrt fuel g a = .ok () g1) :
    AddCellPost g a cell g1 ∧ ∀ m R S, cell.data = .basic m R S →
      RadiiSpec sqrt g cell cell.surfaces R (circleRadii (newSurfaces g g1)) := by
  cases fuel with
  | zero => exact Outcome.noConfusion hrun
  | succ fuel =>
    rcases addCell_head sqrt fuel g a cell hc hnew with ⟨e, s, h1, h2⟩ | ⟨g4, hp, h2⟩
    · rw [h1] at hrun; exact Outcome.noConfusion hrun
    · rw [h2] at hrun
      have hb4 := HeadPost.head_toBlock g a cell g4 hp hf hnew hid
      cases hd : cell.data with
      | fill u p =>
        rw [hd] at hrun
        simp only [Outcome.ok.injEq, true_and] at hrun
        subst hrun
        exact ⟨(AddCellPost.of_blocks g a cell g4 g4 [] hp hf hnew hid
          (BlockPost.block_refl _ g4 hb4.2.1) (fun _ => rfl)).1,
          fun m R S h => CellData.noConfusion h⟩
      | basic m R S =>
        rw [hd] at hrun
        simp only [] at hrun
        obtain ⟨c4, hc4, hu4⟩ := hb4.1.cell_univ a cell hc
        have h := refineCell_safe False sqrt fuel (addCell_spec sqrt fuel) a cell
          cell.surfaces m R S (fun h => False.elim h) g4 hb4.2.1 ⟨c4, hc4, hu4⟩
        rw [hrun] at h
        obtain ⟨radii, hb, hr⟩ := h
        obtain ⟨h5, h6⟩ := AddCellPost.of_blocks g a cell g4 g1 radii hp hf hnew hid hb
          (fun hn => hr.1 (by simpa [NoRings, hd] using hn))
        refine ⟨h5, ?_⟩
        intro m1 R1 S1 h1
        cases h1
        rw [h6]
        exact RadiiSpec.frame sqrt g g4 cell cell.surfaces R radii hp.surfaces hp.surfaceObjs hr

/-- With a budget of three levels `addCell` never runs out of budget, and a fatal
error is no duplicate-id error. -/
theorem addCell_terminates (sqrt : F → F) (fuel : Nat) (g : Geometry F) (a : Addr)
    (cell : Cell) (hf : FreshIds g) (hc : g.cellObjs[a]? = some cell)
    (hnew : IntMap.find g.cells cell.id = none) (hid : cell.id < g.statics.id) :
    (need cell ≤ fuel → addCell sqrt fuel g a ≠ .outOfFuel) ∧
    (∀ e s, addCell sqrt fuel g a = .fatal e s → NotDup e) := by
  have h := addCell_spec sqrt fuel g a cell hf hc hnew hid
  refine ⟨?_, ?_⟩
  · intro hn hrun
    rw [hrun] at h
    exact h hn
  · intro e s hrun
    rw [hrun] at h
    exact h

theorem need_le_three (cell : Cell) : need cell ≤ 3 := by
  unfold need
  cases cell.data with
  | basic m R S => simp only []; split <;> [omega; (split <;> omega)]
  | fill u p => simp

theorem Outcome.bind_congr {σ α β : Type} (x y : Outcome σ α) (f f1 : α → σ → Outcome σ β)
    (h : x = y) (hf : ∀ v s, y = .ok v s → f v s = f1 v s) : x.bind f = y.bind f1 := by
  subst h
  cases x with
  | ok v s => exact hf v s rfl
  | fatal e s => rfl
  | outOfFuel => rfl

/-- The ring cell that ring refinement hands to `addCell`. -/
theorem ring_isRingCell (u m S : Int) (g : Geometry F) (hf : FreshIds g) (hok : UnivOK g)
    (r : F) (num : Int) (list : List Int) :
    IsRingCell u m S
      (bumpId (newCell (withSurface g (Circle g.statics.id .BOUNDARY_NONE 0 0 r))
        (CellBasic g.statics.id u num list m 0 S)).2)
      (newCell (withSurface g (Circle g.statics.id .BOUNDARY_NONE 0 0 r))
        (CellBasic g.statics.id u num list m 0 S)).1 := by
  have hb := BlockPost.of_ring u g (Circle g.statics.id .BOUNDARY_NONE 0 0 r)
    (CellBasic g.statics.id u num list m 0 S) hf rfl rfl rfl rfl
  refine ⟨hb.2.1, (hb.2.2.2 hok).1,
    { CellBasic g.statics.id u num list m 0 S with
      uid := (withSurface g (Circle g.statics.id .BOUNDARY_NONE 0 0 r)).statics.cell_n },
    by simp [bumpId, newCell], rfl, rfl, (hf _ (le_refl _)).2, ?_⟩
  show g.statics.id < g.statics.id + 1
  omega

/-- The state after a ring cell has been registered. -/
theorem ring_step_post (sqrt : F → F) (fuel : Nat) (u m S : Int) (g : Geometry F)
    (hf : FreshIds g) (hok : UnivOK g) (r : F) (num : Int) (list : List Int)
    (g4 : Geometry F)
    (hrun : addCell sqrt fuel
      (bumpId (newCell (withSurface g (Circle g.statics.id .BOUNDARY_NONE 0 0 r))
        (CellBasic g.statics.id u num list m 0 S)).2)
      (newCell (withSurface g (Circle g.statics.id .BOUNDARY_NONE 0 0 r))
        (CellBasic g.statics.id u num list m 0 S)).1 = .ok () g4) :
    FreshIds g4 ∧ UnivOK g4 := by
  have h := ring_step_safe False fuel (addCell sqrt fuel) (addCell_spec sqrt fuel) u m S
    (fun h => False.elim h) g hf r num list
  rw [hrun] at h
  exact ⟨h.2.1, (h.2.2.2 hok).1⟩

/-- The ring loop calls `addCell` for ring cells only. -/
theorem ringLoop_calls (sqrt : F → F) (fuel : Nat) (u m S : Int) (dr2 : F)
    (rec1 : Geometry F → Addr → Outcome (Geometry F) Unit)
    (hrec1 : ∀ g0 c, IsRingCell u m S g0 c → rec1 g0 c = addCell sqrt fuel g0 c) :
    ∀ (n : Nat) (g : Geometry F) (rold : F) (old_id : Int) (s0 : Addr),
      FreshIds g → UnivOK g →
      ringLoop rec1 sqrt u m S dr2 n g rold old_id s0 =
        ringLoop (addCell sqrt fuel) sqrt u m S dr2 n g rold old_id s0 := by
  intro n
  induction n with
  | zero => intro g rold old_id s0 _ _; rfl
  | succ n ih =>
    intro g rold old_id s0 hf hok
    have h1 := addSurface_generated g (Circle g.statics.id .BOUNDARY_NONE 0 0
      (sqrt (rold * rold + dr2))) hf rfl rfl
    simp only [ringLoop]
    simp only [newSurface] at h1 ⊢
    simp only [h1, Outcome.bind_ok]
    refine Outcome.bind_congr _ _ _ _ (hrec1 _ _ (ring_isRingCell u m S g hf hok
      (sqrt (rold * rold + dr2)) 2 [old_id, -1 * g.statics.id])) ?_
    intro _ g4 hrun
    obtain ⟨hf4, hok4⟩ := ring_step_post sqrt fuel u m S g hf hok _ _ _ g4 hrun
    exact ih g4 _ _ _ hf4 hok4

/-- Ring refinement of a cell with one surface calls `addCell` for ring cells only. -/
theorem addRingsDisk_calls (sqrt : F → F) (fuel : Nat) (u m S : Int)
    (rec1 : Geometry F → Addr → Outcome (Geometry F) Unit)
    (hrec1 : ∀ g0 c, IsRingCell u m S g0 c → rec1 g0 c = addCell sqrt fuel g0 c)
    (a : Addr) (surfs : IntMap (Option Addr)) (t : Int) (g : Geometry F)
    (hf : FreshIds g) (hok : UnivOK g) :
    addRingsDisk rec1 sqrt a surfs u m S t g =
      addRingsDisk (addCell sqrt fuel) sqrt a surfs u m S t g := by
  cases surfs with
  | nil => rfl
  | cons entry rest =>
    obtain ⟨k0, p⟩ := entry
    simp only [addRingsDisk]
    rcases circleRadius_cases g (iabs k0) with ⟨r0, hr⟩ | ⟨e, hr, he⟩
    · have h1 := addSurface_generated g (Circle g.statics.id .BOUNDARY_NONE 0 0
        (r0 / sqrt (t : F))) hf rfl rfl
      simp only [newSurface] at h1 ⊢
      simp only [hr, h1, Outcome.bind_ok]
      refine Outcome.bind_congr _ _ _ _ (hrec1 _ _ (ring_isRingCell u m S g hf hok
        (r0 / sqrt (t : F)) 1 [-1 * g.statics.id])) ?_
      intro _ g4 hrun
      obtain ⟨hf4, hok4⟩ := ring_step_post sqrt fuel u m S g hf hok _ _ _ g4 hrun
      rw [ringLoop_calls sqrt fuel u m S _ rec1 hrec1 _ g4 _ _ _ hf4 hok4]
    · simp only [hr, Outcome.bind_fatal]

/-- Ring refinement of a cell with two surfaces calls `addCell` for ring cells only. -/
theorem addRingsAnnulus_calls (sqrt : F → F) (fuel : Nat) (u m S : Int)
    (rec1 : Geometry F → Addr → Outcome (Geometry F) Unit)
    (hrec1 : ∀ g0 c, IsRingCell u m S g0 c → rec1 g0 c = addCell sqrt fuel g0 c)
    (a : Addr) (surfs : IntMap (Option Addr)) (t : Int) (g : Geometry F)
    (hf : FreshIds g) (hok : UnivOK g) :
    addRingsAnnulus rec1 sqrt a surfs u m S t g =
      addRingsAnnulus (addCell sqrt fuel) sqrt a surfs u m S t g := by
  cases surfs with
  | nil => rfl
  | cons e1 rest1 =>
  cases rest1 with
  | nil => rfl
  | cons e2 rest =>
    simp only [addRingsAnnulus]
    rcases circleRadius_cases g (if iabs e1.1 < iabs e2.1 then iabs e1.1 else iabs e2.1) with
      ⟨r01, hr1⟩ | ⟨e, hr1, he⟩
    · rcases circleRadius_cases g (if iabs e1.1 < iabs e2.1 then iabs e2.1 else iabs e1.1) with
        ⟨r02, hr2⟩ | ⟨e, hr2, he⟩
      · have h1 := addSurface_generated g (Circle g.statics.id .BOUNDARY_NONE 0 0
          (sqrt (r01 * r01 + ((r02 * r02 - r01 * r01) / (t : F))))) hf rfl rfl
        simp only [newSurface] at h1 ⊢
        simp only [hr1, hr2, h1, Outcome.bind_ok]
        refine Outcome.bind_congr _ _ _ _ (hrec1 _ _ (ring_isRingCell u m S g hf hok
          (sqrt (r01 * r01 + ((r02 * r02 - r01 * r01) / (t : F)))) 2
          [-1 * g.statics.id, if iabs e1.1 < iabs e2.1 then iabs e1.1 else iabs e2.1])) ?_
        intro _ g4 hrun
        obtain ⟨hf4, hok4⟩ := ring_step_post sqrt fuel u m S g hf hok _ _ _ g4 hrun
        rw [ringLoop_calls sqrt fuel u m S _ rec1 hrec1 _ g4 _ _ _ hf4 hok4]
      · simp only [hr1, hr2, Outcome.bind_ok, Outcome.bind_fatal]
    · simp only [hr1, Outcome.bind_fatal]

end TopLemmas

section SecDescLemmas

variable {F : Type} [LinearOrderedField F]

theorem IntMap.mem_keys_insert {V : Type} (m : IntMap V) (k0 : Int) (v : V) (k : Int) :
    k ∈ IntMap.keys (IntMap.insert m k0 v) ↔ k ∈ IntMap.keys m ∨ k = k0 := by
  induction m with
  | nil => simp [IntMap.insert, IntMap.keys]
  | cons e rest ih =>
    obtain ⟨k1, w⟩ := e
    simp only [IntMap.insert]
    by_cases h1 : k0 < k1
    · simp only [h1, if_true, IntMap.keys, List.map_cons, List.mem_cons]
      tauto
    · by_cases h2 : k0 = k1
      · simp only [h1, h2, if_false, if_true, IntMap.keys, List.map_cons, List.mem_cons]
        simp only [lt_self_iff_false, if_false, List.map_cons, List.mem_cons]
        tauto
      · simp only [h1, h2, if_false, IntMap.keys, List.map_cons, List.mem_cons]
        simp only [IntMap.keys] at ih
        rw [ih]
        tauto

theorem IntMap.mem_keys_foldl_insert (l : List Int) :
    ∀ (m : IntMap (Option Addr)) (k : Int),
      k ∈ IntMap.keys (l.foldl (fun m k => IntMap.insert m k none) m) ↔
        k ∈ IntMap.keys m ∨ k ∈ l := by
  induction l with
  | nil => intro m k; simp
  | cons k0 rest ih =>
    intro m k
    rw [List.foldl_cons, ih, IntMap.mem_keys_insert, List.mem_cons]
    tauto

theorem IntMap.isSome_find_insert {V : Type} (m : IntMap V) (k0 : Int) (v : V) (k : Int) :
    (IntMap.find (IntMap.insert m k0 v) k).isSome = true ↔
      (IntMap.find m k).isSome = true ∨ k = k0 := by
  by_cases h : k = k0
  · subst h
    simp [IntMap.find_insert_isSome]
  · rw [IntMap.find_insert_ne _ _ _ _ h]
    simp [h]

/-- The signed surface ids of a sector cell. -/
theorem sectorShape_keys (id u m : Int) (cell : Cell) (sg1 sg2 : Int) :
    HalfspacesAdded (IntMap.keys cell.surfaces)
      (sectorShape id u m cell.getNumSurfaces (IntMap.keys cell.surfaces) sg1 sg2).2.2.1
      sg1 sg2 := by
  intro k
  show k ∈ IntMap.keys (IntMap.insert (IntMap.insert
    (CellBasic id u cell.getNumSurfaces (IntMap.keys cell.surfaces) m 0 0).surfaces sg1
    (none : Option Addr)) sg2 none) ↔ _
  rw [IntMap.mem_keys_insert, IntMap.mem_keys_insert]
  have : k ∈ IntMap.keys (CellBasic id u cell.getNumSurfaces (IntMap.keys cell.surfaces)
      m 0 0).surfaces ↔ k ∈ IntMap.keys cell.surfaces := by
    show k ∈ IntMap.keys ((List.take cell.getNumSurfaces.toNat
      (IntMap.keys cell.surfaces)).foldl (fun m k => IntMap.insert m k none) []) ↔ _
    rw [IntMap.mem_keys_foldl_insert]
    have hl : cell.getNumSurfaces.toNat = (IntMap.keys cell.surfaces).length := by
      simp [Cell.getNumSurfaces, IntMap.keys]
    rw [hl, List.take_length]
    simp [IntMap.keys]
  rw [this]
  tauto

/-- A normal return of `addCell` for a material cell with four sectors and no rings
ends with the sector refinement of the registered cell. -/
theorem addCell_sectors_post (sqrt : F → F) (fuel : Nat) (g : Geometry F) (a : Addr)
    (cell : Cell) (m R : Int) (g1 : Geometry F) (hf : FreshIds g)
    (hc : g.cellObjs[a]? = some cell) (hnew : IntMap.find g.cells cell.id = none)
    (hid : cell.id < g.statics.id) (hd : cell.data = .basic m R 4) (hR : ¬ (R + 1 > 1))
    (hrun : addCell sqrt fuel g a = .ok () g1) :
    ∃ f g4 cell4, fuel = f + 1 ∧ HeadPost g a cell g4 ∧ g4.cellObjs[a]? = some cell4 ∧
      cell4.shape = cell.shape ∧ addSectors4 (addCell sqrt f) a g4 = .ok () g1 ∧
      Sectors4Post g4 a cell4 g1 := by
  cases fuel with
  | zero => exact Outcome.noConfusion hrun
  | succ fuel =>
    rcases addCell_head sqrt fuel g a cell hc hnew with ⟨e, s, h1, h2⟩ | ⟨g4, hp, h2⟩
    · rw [h1] at hrun; exact Outcome.noConfusion hrun
    · rw [h2, hd] at hrun
      simp only [refineCell, hR, if_false, Outcome.bind_ok] at hrun
      have h4 : addSectors4 (addCell sqrt fuel) a g4 = .ok () g1 := by
        simpa using hrun
      have hb4 := HeadPost.head_toBlock g a cell g4 hp hf hnew hid
      obtain ⟨cell4, hc4, hs4⟩ := shape_getElem? g.cellObjs g4.cellObjs []
        (by rw [List.append_nil]; exact hp.cell_shapes) a cell hc
      have h := addSectors4_safe False sqrt fuel (fun h => False.elim h) a g4 hb4.2.1 cell4 hc4
      rw [h4] at h
      exact ⟨fuel, g4, cell4, rfl, hp, hc4, hs4, h4, h.2⟩

theorem getElem?_of_map_shape (l : List Cell) (i : Nat)
    (sh : Int × Int × List Int × CellData) (h : (l.map Cell.shape)[i]? = some sh) :
    ∃ c, l[i]? = some c ∧ c.id = sh.1 ∧ c.universe_id = sh.2.1 ∧
      IntMap.keys c.surfaces = sh.2.2.1 ∧ c.data.erase = sh.2.2.2 := by
  rw [List.getElem?_map] at h
  cases hx : l[i]? with
  | none => rw [hx] at h; exact Option.noConfusion h
  | some c =>
    rw [hx] at h
    have h1 : c.shape = sh := Option.some.inj h
    exact ⟨c, rfl, congrArg Prod.fst h1, congrArg (fun x => x.2.1) h1,
      congrArg (fun x => x.2.2.1) h1, congrArg (fun x => x.2.2.2) h1⟩

/-- The description of the sector refinement in terms of the state in which
`addCell` was called. -/
theorem SectorsAdded.of_posts (g : Geometry F) (a : Addr) (cell : Cell) (m R : Int)
    (g4 : Geometry F) (cell4 : Cell) (g1 : Geometry F) (hf : FreshIds g)
    (hc : g.cellObjs[a]? = some cell) (hnew : IntMap.find g.cells cell.id = none)
    (hid : cell.id < g.statics.id) (hd : cell.data = .basic m R 4)
    (hp : HeadPost g a cell g4) (hs4 : cell4.shape = cell.shape)
    (hs : Sectors4Post g4 a cell4 g1) : SectorsAdded g a cell m R g1 := by
  have e1 : g4.statics.id = g.statics.id := hp.statics_id
  have e2 : g4.surfaceObjs = g.surfaceObjs := hp.surfaceObjs
  have e3 : g4.surfaces = g.surfaces := hp.surfaces
  have e4 : g4.cells = IntMap.insert g.cells cell.id a := hp.cells
  have e5 : g4.cellObjs.length = g.cellObjs.length := by
    have := congrArg List.length hp.cell_shapes
    simpa using this
  have hid4 : cell4.id = cell.id := congrArg Prod.fst hs4
  have hu4 : cell4.universe_id = cell.universe_id := congrArg (fun x => x.2.1) hs4
  have hk4 : IntMap.keys cell4.surfaces = IntMap.keys cell.surfaces :=
    congrArg (fun x => x.2.2.1) hs4
  have hn4 : cell4.getNumSurfaces = cell.getNumSurfaces := by
    have := congrArg List.length hk4
    simp only [IntMap.keys, List.length_map] at this
    simp [Cell.getNumSurfaces, this]
  have hd4 : cell4.data = .basic m R 4 := by
    apply CellData.erase_basic
    have : cell4.data.erase = cell.data.erase := congrArg (fun x => x.2.2.2) hs4
    rw [this, hd]
    rfl
  have hal : a < g.cellObjs.length := by
    by_contra hcon
    rw [List.getElem?_eq_none (Nat.le_of_not_lt hcon)] at hc
    exact Option.noConfusion hc
  have fs0 := (hf g.statics.id (le_refl _)).1
  have fs1 := (hf (g.statics.id + 1) (by omega)).1
  have fc2 := (hf (g.statics.id + 2) (by omega)).2
  have fc3 := (hf (g.statics.id + 3) (by omega)).2
  have fc4 := (hf (g.statics.id + 4) (by omega)).2
  have hcells := hs.cells
  rw [e4, e1, e5] at hcells
  obtain ⟨m1, R1, S1, hd1, hshapes⟩ := hs.shapes
  rw [hd4] at hd1
  cases hd1
  rw [hp.cell_shapes, e1, hid4, hu4, hn4, hk4] at hshapes
  have hlen : (g.cellObjs.map Cell.shape).length = g.cellObjs.length := by simp
  have hset : ((g.cellObjs.map Cell.shape).set a
      (cell.id, cell.universe_id, IntMap.keys (IntMap.insert (IntMap.insert cell4.surfaces
        g.statics.id (none : Option Addr)) (-1 * (g.statics.id + 1)) none),
        CellData.basic m R 0)).length = g.cellObjs.length := by simp
  have hfind2 : IntMap.find g1.cells (g.statics.id + 2) = some g.cellObjs.length := by
    rw [hcells, IntMap.find_insert_ne _ _ _ _ (by omega), IntMap.find_insert_ne _ _ _ _ (by omega)]
    apply IntMap.find_insert_self
    rw [IntMap.find_insert_ne _ _ _ _ (by omega)]
    exact fc2
  have hfind3 : IntMap.find g1.cells (g.statics.id + 3) = some (g.cellObjs.length + 1) := by
    rw [hcells, IntMap.find_insert_ne _ _ _ _ (by omega)]
    apply IntMap.find_insert_self
    rw [IntMap.find_insert_ne _ _ _ _ (by omega), IntMap.find_insert_ne _ _ _ _ (by omega)]
    exact fc3
  have hfind4 : IntMap.find g1.cells (g.statics.id + 4) = some (g.cellObjs.length + 2) := by
    rw [hcells]
    apply IntMap.find_insert_self
    rw [IntMap.find_insert_ne _ _ _ _ (by omega), IntMap.find_insert_ne _ _ _ _ (by omega),
      IntMap.find_insert_ne _ _ _ _ (by omega)]
    exact fc4
  have hfind0 : IntMap.find g1.cells cell.id = some a := by
    rw [hcells, IntMap.find_insert_ne _ _ _ _ (by omega), IntMap.find_insert_ne _ _ _ _ (by omega),
      IntMap.find_insert_ne _ _ _ _ (by omega)]
    exact IntMap.find_insert_self _ _ _ hnew
  refine ⟨?_, ?_, ?_, ?_⟩
  · have hsurf : g1.surfaces = IntMap.insert (IntMap.insert g.surfaces g.statics.id
        g.surfaceObjs.length) (g.statics.id + 1) (g.surfaceObjs.length + 1) := by
      rw [hs.surfaces, e3, e1, e2]
    obtain ⟨p1, p2, hobjs, i1, b1, s1, i2, b2, s2⟩ : ∃ p1 p2 : Surface F,
        g1.surfaceObjs = g.surfaceObjs ++ [p1, p2] ∧
        p1.id = g.statics.id ∧ p1.boundary = .BOUNDARY_NONE ∧ p1.shape = .plane 1 1 0 ∧
        p2.id = g.statics.id + 1 ∧ p2.boundary = .BOUNDARY_NONE ∧
        p2.shape = .plane 1 (-1) 0 :=
      ⟨{ Plane g4.statics.id .BOUNDARY_NONE 1 1 0 with uid := g4.statics.surface_n },
        { Plane (g4.statics.id + 1) .BOUNDARY_NONE 1 (-1) 0 with
          uid := g4.statics.surface_n + 1 }, by rw [hs.surfaceObjs, e2], e1, rfl, rfl, by
            show g4.statics.id + 1 = _
            rw [e1], rfl, rfl⟩
    refine ⟨p1, p2, hobjs, i1, b1, s1, i2, b2, s2, ?_, ?_⟩
    · unfold surfaceAt
      rw [hsurf, IntMap.find_insert_ne _ _ _ _ (by omega),
        IntMap.find_insert_self _ _ _ fs0, Option.some_bind, hobjs,
        List.getElem?_append_right (le_refl _), Nat.sub_self]
      rfl
    · unfold surfaceAt
      have h1 : IntMap.find (IntMap.insert g.surfaces g.statics.id g.surfaceObjs.length)
          (g.statics.id + 1) = none := by
        rw [IntMap.find_insert_ne _ _ _ _ (by omega)]
        exact fs1
      rw [hsurf, IntMap.find_insert_self _ _ _ h1, Option.some_bind, hobjs,
        List.getElem?_append_right (Nat.le_succ _)]
      have : g.surfaceObjs.length.succ - g.surfaceObjs.length = 1 := by omega
      rw [this]
      rfl
  · intro k
    rw [hcells, IntMap.isSome_find_insert, IntMap.isSome_find_insert,
      IntMap.isSome_find_insert, IntMap.isSome_find_insert]
    tauto
  · have := congrArg List.length hshapes
    simpa using this
  · have h0 : (g1.cellObjs.map Cell.shape)[a]? = some (cell.id, cell.universe_id,
        IntMap.keys (IntMap.insert (IntMap.insert cell4.surfaces g.statics.id
          (none : Option Addr)) (-1 * (g.statics.id + 1)) none), CellData.basic m R 0) := by
      rw [hshapes, List.getElem?_append_left (by rw [hset]; exact hal),
        List.getElem?_set_self (by rw [hlen]; exact hal)]
    have h1 : (g1.cellObjs.map Cell.shape)[g.cellObjs.length]? = some
        (sectorShape (g.statics.id + 2) cell.universe_id m cell.getNumSurfaces
          (IntMap.keys cell.surfaces) g.statics.id (g.statics.id + 1)) := by
      rw [hshapes, List.getElem?_append_right (by rw [hset]), hset]
      simp
    have h2 : (g1.cellObjs.map Cell.shape)[g.cellObjs.length + 1]? = some
        (sectorShape (g.statics.id + 3) cell.universe_id m cell.getNumSurfaces
          (IntMap.keys cell.surfaces) (-1 * g.statics.id) (-1 * (g.statics.id + 1))) := by
      rw [hshapes, List.getElem?_append_right (by rw [hset]; omega), hset]
      simp
    have h3 : (g1.cellObjs.map Cell.shape)[g.cellObjs.length + 2]? = some
        (sectorShape (g.statics.id + 4) cell.universe_id m cell.getNumSurfaces
          (IntMap.keys cell.surfaces) (-1 * g.statics.id) (g.statics.id + 1)) := by
      rw [hshapes, List.getElem?_append_right (by rw [hset]; omega), hset]
      simp
    obtain ⟨c0, a0, b0, c0u, d0, f0⟩ := getElem?_of_map_shape _ _ _ h0
    obtain ⟨c1, a1, b1, c1u, d1, f1⟩ := getElem?_of_map_shape _ _ _ h1
    obtain ⟨c2, a2, b2, c2u, d2, f2⟩ := getElem?_of_map_shape _ _ _ h2
    obtain ⟨c3, a3, b3, c3u, d3, f3⟩ := getElem?_of_map_shape _ _ _ h3
    refine ⟨c0, c1, c2, c3, ⟨a0, hfind0, b0, c0u, CellData.erase_basic _ _ _ _ f0, ?_⟩,
      ⟨a1, hfind2, b1, c1u, CellData.erase_basic _ _ _ _ f1, ?_⟩,
      ⟨a2, hfind3, b2, c2u, CellData.erase_basic _ _ _ _ f2, ?_⟩,
      ⟨a3, hfind4, b3, c3u, CellData.erase_basic _ _ _ _ f3, ?_⟩⟩
    · intro k
      rw [d0]
      show k ∈ IntMap.keys (IntMap.insert (IntMap.insert cell4.surfaces g.statics.id
        (none : Option Addr)) (-1 * (g.statics.id + 1)) none) ↔ _
      rw [IntMap.mem_keys_insert, IntMap.mem_keys_insert, hk4, neg_one_mul]
      tauto
    · rw [d1]
      exact sectorShape_keys _ _ _ cell _ _
    · rw [d2]
      have := sectorShape_keys (g.statics.id + 3) cell.universe_id m cell
        (-1 * g.statics.id) (-1 * (g.statics.id + 1))
      rw [neg_one_mul, neg_one_mul] at this
      rw [neg_one_mul, neg_one_mul]
      exact this
    · rw [d3]
      have := sectorShape_keys (g.statics.id + 4) cell.universe_id m cell
        (-1 * g.statics.id) (g.statics.id + 1)
      rw [neg_one_mul] at this
      rw [neg_one_mul]
      exact this

end SecDescLemmas

section TotalLemmas

variable {F : Type} [LinearOrderedField F]

/-- Lines 288-350 of `addCell` run through for a material cell whose id is not
registered and whose material, surfaces and universe are in order. -/
theorem addCell_head_ok (sqrt : F → F) (fuel : Nat) (g : Geometry F) (a : Addr)
    (cell : Cell) (m R S : Int)
    (hc : g.cellObjs[a]? = some cell) (hnew : IntMap.find g.cells cell.id = none)
    (hd : cell.data = .basic m R S)
    (hmat : (IntMap.find g.materials m).isSome = true)
    (hs : ∀ e ∈ cell.surfaces, ∃ sa, IntMap.find g.surfaces (iabs e.1) = some sa ∧
      sa < g.surfaceObjs.length)
    (hu : ∀ ua, IntMap.find g.universes cell.universe_id = some ua →
      ua < g.universeObjs.length) :
    ∃ g4, HeadPost g a cell g4 ∧
      addCell sqrt (fuel + 1) g a =
        refineCell (addCell sqrt fuel) sqrt a cell cell.surfaces m R S g4 ∧
      ∃ ua, IntMap.find g4.universes cell.universe_id = some ua ∧
        ua < g4.universeObjs.length := by
  have ha : a < g.cellObjs.length := by
    by_contra hcon
    rw [List.getElem?_eq_none (Nat.le_of_not_lt hcon)] at hc
    exact Option.noConfusion hc
  rw [addCell_unfold sqrt fuel g a cell hc hnew]
  obtain ⟨ma, hma⟩ := Option.isSome_iff_exists.mp hmat
  have hm : cellMaterialMissing g cell = none := by
    simp [cellMaterialMissing, hd, hma]
  rw [hm]
  simp only []
  obtain ⟨objs0, hok0, _⟩ := forEach_addCellSurface_ok a cell.surfaces g ha hs
  rcases forEach_addCellSurface_spec a cell.surfaces g with ⟨e, s, h1, h2⟩ | ⟨objs, h1, h2⟩
  · rw [h1] at hok0
    exact Outcome.noConfusion hok0
  · rw [h1, Outcome.bind_ok]
    cases hfu : IntMap.find g.universes cell.universe_id with
    | some ua =>
      have hacu : addCellUniverse cell.universe_id
          ({ g with cellObjs := objs, cells := IntMap.insert g.cells cell.id a } : Geometry F)
          = .ok () { g with cellObjs := objs, cells := IntMap.insert g.cells cell.id a } := by
        simp [addCellUniverse, hfu]
      simp only [hacu, Outcome.bind_ok]
      have hlt := hu ua hfu
      obtain ⟨U, hU⟩ : ∃ U, g.universeObjs[ua]? = some U :=
        ⟨_, List.getElem?_eq_getElem hlt⟩
      refine ⟨_, universe_step_registered g a cell ua hnew objs h2 hfu U hU, ?_, ua, hfu, ?_⟩
      · simp only [universeAddCell, hfu, hU, Outcome.bind_ok, hd]
      · simpa using hlt
    | none =>
      have hacu : addCellUniverse cell.universe_id
          ({ g with cellObjs := objs, cells := IntMap.insert g.cells cell.id a } : Geometry F)
          = .ok ()
            { g with
              cellObjs := setUniverseFillPointers cell.universe_id g.universeObjs.length
                (IntMap.insert g.cells cell.id a) objs,
              cells := IntMap.insert g.cells cell.id a,
              universeObjs := g.universeObjs ++
                [{ (Universe.simple cell.universe_id : Universe F) with
                    uid := g.statics.universe_n }],
              universes := IntMap.insert g.universes cell.universe_id g.universeObjs.length,
              statics := { g.statics with universe_n := g.statics.universe_n + 1 } } := by
        simp [addCellUniverse, hfu, newUniverse, addUniverse, Universe.simple]
      simp only [hacu, Outcome.bind_ok]
      refine ⟨_, universe_step_new g a cell objs h2 hfu
        { (Universe.simple cell.universe_id : Universe F) with uid := g.statics.universe_n }
        _ rfl rfl rfl rfl { g.statics with universe_n := g.statics.universe_n + 1 } rfl, ?_,
        g.universeObjs.length, IntMap.find_insert_self _ _ _ hfu, by simp⟩
      simp [universeAddCell, IntMap.find_insert_self _ _ _ hfu, hd]

/-- One sector cell is added without error when the material, the listed surfaces
and the universe are registered. -/
theorem addSectorCell_ok (sqrt : F → F) (fuel : Nat) (u m num : Int) (list : List Int)
    (sg1 : Int) (s1 : Addr) (sg2 : Int) (s2 : Addr) (g : Geometry F) (hf : FreshIds g)
    (hmat : (IntMap.find g.materials m).isSome = true)
    (hs : ∀ k ∈ list, ∃ sa, IntMap.find g.surfaces (iabs k) = some sa ∧
      sa < g.surfaceObjs.length)
    (hu : ∃ ua, IntMap.find g.universes u = some ua ∧ ua < g.universeObjs.length) :
    ∃ g1, addSectorCell (addCell sqrt (fuel + 1)) u m num list sg1 s1 sg2 s2 g = .ok () g1 ∧
      g1.universes = g.universes ∧ g1.universeObjs.length = g.universeObjs.length := by
  obtain ⟨ua, hua, hualt⟩ := hu
  rw [addSectorCell_unfold]
  obtain ⟨objs, uobjs, hrun, hl1, hl2⟩ := addCell_plain sqrt fuel
    (newCell g (CellBasic g.statics.id u num list m 0 0)).2
    (newCell g (CellBasic g.statics.id u num list m 0 0)).1
    { CellBasic g.statics.id u num list m 0 0 with uid := g.statics.cell_n } m ua
    (by simp [newCell]) rfl (hf g.statics.id (le_refl _)).2 hmat
    (fun e he => hs e.1 (CellBasic_surfaces_mem g.statics.id u num list m 0 0 e he)) hua hualt
  rw [hrun, Outcome.bind_ok]
  have hlen : objs.length = g.cellObjs.length + 1 := by
    rw [hl1]; simp [newCell]
  have hlt : g.cellObjs.length < objs.length := by omega
  have h3 : objs[g.cellObjs.length]? = some (objs[g.cellObjs.length]) :=
    List.getElem?_eq_getElem hlt
  have hc : (newCell g (CellBasic g.statics.id u num list m 0 0)).1 = g.cellObjs.length := rfl
  simp only [hc, cellAddSurface, h3, Outcome.bind_ok, List.getElem?_set_self hlt]
  exact ⟨_, rfl, rfl, hl2⟩

/-- Registered surfaces stay registered along `GrowsIds`. -/
theorem GrowsIds.surface_valid (g g1 : Geometry F) (h : GrowsIds g g1) (k : Int)
    (hk : ∃ sa, IntMap.find g.surfaces k = some sa ∧ sa < g.surfaceObjs.length) :
    ∃ sa, IntMap.find g1.surfaces k = some sa ∧ sa < g1.surfaceObjs.length := by
  obtain ⟨sa, h1, h2⟩ := hk
  refine ⟨sa, h.surf_reg k sa h1, ?_⟩
  rw [h.surf_objs, List.length_append]
  exact Nat.lt_of_lt_of_le h2 (Nat.le_add_right _ _)

/-- The sector refinement of the cell at `a` runs through when the material, the
surfaces of the cell and its universe are registered. -/
theorem addSectors4_ok (sqrt : F → F) (fuel : Nat) (a : Addr) (g : Geometry F)
    (hf : FreshIds g) (cell : Cell) (m R S : Int) (hc : g.cellObjs[a]? = some cell)
    (hd : cell.data = .basic m R S)
    (hmat : (IntMap.find g.materials m).isSome = true)
    (hs : ∀ k ∈ IntMap.keys cell.surfaces, ∃ sa, IntMap.find g.surfaces (iabs k) = some sa ∧
      sa < g.surfaceObjs.length)
    (hu : ∃ ua, IntMap.find g.universes cell.universe_id = some ua ∧
      ua < g.universeObjs.length) :
    ∃ g1, addSectors4 (addCell sqrt (fuel + 1)) a g = .ok () g1 := by
  unfold addSectors4
  simp only [hc, hd]
  have h1 := addSurface_generated g (Plane g.statics.id .BOUNDARY_NONE 1 1 0) hf rfl rfl
  have hb1 := BlockPost.of_plane cell.universe_id g (Plane g.statics.id .BOUNDARY_NONE 1 1 0)
    hf rfl rfl rfl
  have h2 := addSurface_generated (bumpId (withSurface g (Plane g.statics.id .BOUNDARY_NONE 1 1 0)))
    (Plane (bumpId (withSurface g (Plane g.statics.id .BOUNDARY_NONE 1 1 0))).statics.id
      .BOUNDARY_NONE 1 (-1) 0) hb1.2.1 rfl rfl
  have hb2 := BlockPost.of_plane cell.universe_id
    (bumpId (withSurface g (Plane g.statics.id .BOUNDARY_NONE 1 1 0)))
    (Plane (bumpId (withSurface g (Plane g.statics.id .BOUNDARY_NONE 1 1 0))).statics.id
      .BOUNDARY_NONE 1 (-1) 0) hb1.2.1 rfl rfl rfl
  have hb6 := BlockPost.block_trans _ _ _ _ _ _ hb1 hb2
  simp only [newSurface] at h1 h2 ⊢
  simp only [h1, Outcome.bind_ok, h2]
  clear h1 h2 hb1 hb2
  have e3 : (bumpId (withSurface g (Plane g.statics.id .BOUNDARY_NONE 1 1 0))).statics.id =
      g.statics.id + 1 := rfl
  have e4 : (bumpId (withSurface g
      (Plane g.statics.id .BOUNDARY_NONE 1 1 0))).surfaceObjs.length =
      g.surfaceObjs.length + 1 := by simp [bumpId, withSurface]
  obtain ⟨g6, hg6⟩ : ∃ g6 : Geometry F, g6 = bumpId (withSurface
      (bumpId (withSurface g (Plane g.statics.id .BOUNDARY_NONE 1 1 0)))
      (Plane (bumpId (withSurface g (Plane g.statics.id .BOUNDARY_NONE 1 1 0))).statics.id
        .BOUNDARY_NONE 1 (-1) 0)) := ⟨_, rfl⟩
  rw [← hg6] at hb6 ⊢
  rw [e3, e4]
  have f4 : g6.materials = g.materials := by rw [hg6]; rfl
  have f6 : g6.cellObjs = g.cellObjs := by rw [hg6]; rfl
  have f7 : g6.universes = g.universes := by rw [hg6]; rfl
  have f8 : g6.universeObjs = g.universeObjs := by rw [hg6]; rfl
  clear hg6
  have hmat6 : (IntMap.find g6.materials m).isSome = true := by rw [f4]; exact hmat
  have hs6 : ∀ k ∈ IntMap.keys cell.surfaces, ∃ sa,
      IntMap.find g6.surfaces (iabs k) = some sa ∧ sa < g6.surfaceObjs.length :=
    fun k hk => GrowsIds.surface_valid g g6 hb6.1 _ (hs k hk)
  have hu6 : ∃ ua, IntMap.find g6.universes cell.universe_id = some ua ∧
      ua < g6.universeObjs.length := by rw [f7, f8]; exact hu
  -- first sector cell
  obtain ⟨g7, hrun7, u7, l7⟩ := addSectorCell_ok sqrt fuel cell.universe_id m
    cell.getNumSurfaces (IntMap.keys cell.surfaces) g.statics.id g.surfaceObjs.length
    (g.statics.id + 1) (g.surfaceObjs.length + 1) g6 hb6.2.1 hmat6 hs6 hu6
  have hp7 := addSectorCell_safe False sqrt (fuel + 1) (fun h => False.elim h)
    cell.universe_id m cell.getNumSurfaces (IntMap.keys cell.surfaces) g.statics.id
    g.surfaceObjs.length (g.statics.id + 1) (g.surfaceObjs.length + 1) g6 hb6.2.1
  rw [hrun7] at hp7
  obtain ⟨hb7, hp7⟩ := hp7
  rw [hrun7, Outcome.bind_ok]
  have hmat7 : (IntMap.find g7.materials m).isSome = true := by
    rw [hp7.materials]; exact hmat6
  have hs7 : ∀ k ∈ IntMap.keys cell.surfaces, ∃ sa,
      IntMap.find g7.surfaces (iabs k) = some sa ∧ sa < g7.surfaceObjs.length :=
    fun k hk => GrowsIds.surface_valid g6 g7 hb7.1 _ (hs6 k hk)
  have hu7 : ∃ ua, IntMap.find g7.universes cell.universe_id = some ua ∧
      ua < g7.universeObjs.length := by rw [u7, l7]; exact hu6
  -- second sector cell
  obtain ⟨g8, hrun8, u8, l8⟩ := addSectorCell_ok sqrt fuel cell.universe_id m
    cell.getNumSurfaces (IntMap.keys cell.surfaces) (-1 * g.statics.id) g.surfaceObjs.length
    (-1 * (g.statics.id + 1)) (g.surfaceObjs.length + 1) g7 hb7.2.1 hmat7 hs7 hu7
  have hp8 := addSectorCell_safe False sqrt (fuel + 1) (fun h => False.elim h)
    cell.universe_id m cell.getNumSurfaces (IntMap.keys cell.surfaces) (-1 * g.statics.id)
    g.surfaceObjs.length (-1 * (g.statics.id + 1)) (g.surfaceObjs.length + 1) g7 hb7.2.1
  rw [hrun8] at hp8
  obtain ⟨hb8, hp8⟩ := hp8
  rw [hrun8, Outcome.bind_ok]
  have hmat8 : (IntMap.find g8.materials m).isSome = true := by
    rw [hp8.materials]; exact hmat7
  have hs8 : ∀ k ∈ IntMap.keys cell.surfaces, ∃ sa,
      IntMap.find g8.surfaces (iabs k) = some sa ∧ sa < g8.surfaceObjs.length :=
    fun k hk => GrowsIds.surface_valid g7 g8 hb8.1 _ (hs7 k hk)
  have hu8 : ∃ ua, IntMap.find g8.universes cell.universe_id = some ua ∧
      ua < g8.universeObjs.length := by rw [u8, l8]; exact hu7
  -- third sector cell
  obtain ⟨g9, hrun9, u9, l9⟩ := addSectorCell_ok sqrt fuel cell.universe_id m
    cell.getNumSurfaces (IntMap.keys cell.surfaces) (-1 * g.statics.id) g.surfaceObjs.length
    (g.statics.id + 1) (g.surfaceObjs.length + 1) g8 hb8.2.1 hmat8 hs8 hu8
  have hp9 := addSectorCell_safe False sqrt (fuel + 1) (fun h => False.elim h)
    cell.universe_id m cell.getNumSurfaces (IntMap.keys cell.surfaces) (-1 * g.statics.id)
    g.surfaceObjs.length (g.statics.id + 1) (g.surfaceObjs.length + 1) g8 hb8.2.1
  rw [hrun9] at hp9
  obtain ⟨hb9, hp9⟩ := hp9
  rw [hrun9, Outcome.bind_ok]
  -- the refined cell itself
  have hsh9 : g9.cellObjs.map Cell.shape = g.cellObjs.map Cell.shape ++
      [sectorShape g6.statics.id cell.universe_id m cell.getNumSurfaces
         (IntMap.keys cell.surfaces) g.statics.id (g.statics.id + 1),
       sectorShape g7.statics.id cell.universe_id m cell.getNumSurfaces
         (IntMap.keys cell.surfaces) (-1 * g.statics.id) (-1 * (g.statics.id + 1)),
       sectorShape g8.statics.id cell.universe_id m cell.getNumSurfaces
         (IntMap.keys cell.surfaces) (-1 * g.statics.id) (g.statics.id + 1)] := by
    rw [hp9.shapes, hp8.shapes, hp7.shapes, f6]
    simp
  obtain ⟨cell9, hc9, hs9⟩ := shape_getElem? g.cellObjs g9.cellObjs _ hsh9 a cell hc
  have hd9 : cell9.data = .basic m R S := by
    apply CellData.erase_basic
    have : cell9.data.erase = cell.data.erase := congrArg (fun x => x.2.2.2) hs9
    rw [this, hd]
    rfl
  have ha9 : a < g9.cellObjs.length := by
    by_contra hcon
    rw [List.getElem?_eq_none (Nat.le_of_not_lt hcon)] at hc9
    exact Option.noConfusion hc9
  simp only [hc9, hd9, cellAddSurface, List.getElem?_set_self ha9, Outcome.bind_ok,
    List.length_set]
  simp only [List.set_set, List.getElem?_set_self ha9]
  exact ⟨_, rfl⟩

/-- The function `addCell` on a material cell with four sectors and no rings whose
material, surfaces and universe are in order: the call returns normally and
the result is the sector refinement of the cell. -/
theorem addCell_sectors_total (sqrt : F → F) (fuel : Nat) (g : Geometry F) (a : Addr)
    (cell : Cell) (m R : Int) (hf : FreshIds g)
    (hc : g.cellObjs[a]? = some cell) (hnew : IntMap.find g.cells cell.id = none)
    (hid : cell.id < g.statics.id) (hd : cell.data = .basic m R 4) (hR : ¬ (R + 1 > 1))
    (hmat : (IntMap.find g.materials m).isSome = true)
    (hs : ∀ e ∈ cell.surfaces, ∃ sa, IntMap.find g.surfaces (iabs e.1) = some sa ∧
      sa < g.surfaceObjs.length)
    (hu : ∀ ua, IntMap.find g.universes cell.universe_id = some ua →
      ua < g.universeObjs.length) :
    ∃ g1, addCell sqrt (fuel + 2) g a = .ok () g1 ∧ SectorsAdded g a cell m R g1 := by
  obtain ⟨g4, hp, heq, ua, hua, hualt⟩ := addCell_head_ok sqrt (fuel + 1) g a cell m R 4
    hc hnew hd hmat hs hu
  have hb4 := HeadPost.head_toBlock g a cell g4 hp hf hnew hid
  obtain ⟨cell4, hc4, hs4⟩ := shape_getElem? g.cellObjs g4.cellObjs []
    (by rw [List.append_nil]; exact hp.cell_shapes) a cell hc
  have hu4 : cell4.universe_id = cell.universe_id := congrArg (fun x => x.2.1) hs4
  have hk4 : IntMap.keys cell4.surfaces = IntMap.keys cell.surfaces :=
    congrArg (fun x => x.2.2.1) hs4
  have hd4 : cell4.data = .basic m R 4 := by
    apply CellData.erase_basic
    have : cell4.data.erase = cell.data.erase := congrArg (fun x => x.2.2.2) hs4
    rw [this, hd]
    rfl
  obtain ⟨g1, hrun4⟩ := addSectors4_ok sqrt fuel a g4 hb4.2.1 cell4 m R 4 hc4 hd4
    (by rw [hp.materials]; exact hmat)
    (by
      intro k hk
      rw [hk4] at hk
      obtain ⟨e, he, hek⟩ := List.mem_map.mp hk
      rw [hp.surfaces, hp.surfaceObjs, ← hek]
      exact hs e he)
    ⟨ua, by rw [hu4]; exact hua, hualt⟩
  have hrun : addCell sqrt (fuel + 2) g a = .ok () g1 := by
    rw [heq]
    simp only [refineCell, hR, if_false, Outcome.bind_ok]
    simpa using hrun4
  obtain ⟨f, g4p, cell4p, _, hpp, _, hs4p, _, hpost⟩ :=
    addCell_sectors_post sqrt (fuel + 2) g a cell m R g1 hf hc hnew hid hd hR hrun
  exact ⟨g1, hrun, SectorsAdded.of_posts g a cell m R g4p cell4p g1 hf hc hnew hid hd hpp hs4p
    hpost⟩

end TotalLemmas

section RealLemmas

variable {F : Type} [LinearOrderedField F]

/-- Over the reals each pass of the ring loop adds `d` to the squared radius. -/
theorem loopRadius_sq_real (d : ℝ) (hd : 0 ≤ d) :
    ∀ (j : Nat) (r1 : ℝ), (loopRadius Real.sqrt d j r1) ^ 2 = r1 ^ 2 + j * d := by
  intro j
  induction j with
  | zero => intro r1; simp [loopRadius]
  | succ j ih =>
    intro r1
    show (loopRadius Real.sqrt d j (Real.sqrt (r1 * r1 + d))) ^ 2 = _
    rw [ih, Real.sq_sqrt (by nlinarith [mul_self_nonneg r1])]
    push_cast
    ring

/-- Over the reals the ring loop that starts from `sqrt x` reaches `sqrt (x + j d)`
after `j` passes, as long as the radicands before stay nonnegative. -/
theorem loopRadius_sqrt_real (d : ℝ) :
    ∀ (j : Nat) (x : ℝ), (∀ i : Nat, i < j → 0 ≤ x + i * d) →
      loopRadius Real.sqrt d j (Real.sqrt x) = Real.sqrt (x + j * d) := by
  intro j
  induction j with
  | zero => intro x _; simp [loopRadius]
  | succ j ih =>
    intro x h
    have h0 : 0 ≤ x := by simpa using h 0 (Nat.succ_pos j)
    show loopRadius Real.sqrt d j (Real.sqrt (Real.sqrt x * Real.sqrt x + d)) = _
    rw [Real.mul_self_sqrt h0, ih (x + d)]
    · congr 1
      push_cast
      ring
    · intro i hi
      have := h (i + 1) (Nat.succ_lt_succ hi)
      push_cast at this
      linarith

/-- The radii of the annulus refinement over the reals, in closed form. -/
theorem annulusRadii_real (ra rb : ℝ) (R : Int) (hR : 0 < R) :
    ringRadii Real.sqrt ((rb * rb - ra * ra) / ((R + 1 : Int) : ℝ))
        (Real.sqrt (ra * ra + ((rb * rb - ra * ra) / ((R + 1 : Int) : ℝ))))
        ((R + 1 - 2).toNat + 1) =
      (List.range R.toNat).map fun (j : Nat) =>
        Real.sqrt (ra ^ 2 + ((j : ℝ) + 1) * (rb ^ 2 - ra ^ 2) / ((R : ℝ) + 1)) := by
  have hn : (R + 1 - 2).toNat + 1 = R.toNat := by omega
  have hcast : (((R + 1 : Int)) : ℝ) = (R : ℝ) + 1 := by push_cast; ring
  have hRpos : (0 : ℝ) < (R : ℝ) := by exact_mod_cast hR
  have ht : (0 : ℝ) < (R : ℝ) + 1 := by linarith
  have hRn : ((R.toNat : Nat) : ℝ) = (R : ℝ) := by
    have : ((R.toNat : Nat) : Int) = R := Int.toNat_of_nonneg (le_of_lt hR)
    exact_mod_cast this
  rw [hn, hcast]
  unfold ringRadii
  apply List.map_congr_left
  intro j hj
  have hjlt : j < R.toNat := List.mem_range.mp hj
  have hjR : (j : ℝ) + 1 ≤ (R : ℝ) := by
    have : ((j + 1 : Nat) : ℝ) ≤ ((R.toNat : Nat) : ℝ) := by exact_mod_cast hjlt
    rw [hRn] at this
    push_cast at this
    exact this
  have key : ∀ i : Nat, i ≤ j →
      0 ≤ ra * ra + (rb * rb - ra * ra) / ((R : ℝ) + 1) +
        i * ((rb * rb - ra * ra) / ((R : ℝ) + 1)) := by
    intro i hi
    have hi1 : (i : ℝ) ≤ (j : ℝ) := by exact_mod_cast hi
    have hi0 : (0 : ℝ) ≤ (i : ℝ) := Nat.cast_nonneg i
    have e : ra * ra + (rb * rb - ra * ra) / ((R : ℝ) + 1) +
        i * ((rb * rb - ra * ra) / ((R : ℝ) + 1)) =
        (ra * ra * ((R : ℝ) + 1 - ((i : ℝ) + 1)) + rb * rb * ((i : ℝ) + 1)) /
          ((R : ℝ) + 1) := by
      field_simp
      ring
    rw [e]
    apply div_nonneg _ ht.le
    have h1 : 0 ≤ ra * ra := mul_self_nonneg ra
    have h2 : 0 ≤ rb * rb := mul_self_nonneg rb
    have h3 : 0 ≤ (R : ℝ) + 1 - ((i : ℝ) + 1) := by linarith
    have h4 : 0 ≤ (i : ℝ) + 1 := by linarith
    nlinarith [mul_nonneg h1 h3, mul_nonneg h2 h4]
  rw [loopRadius_sqrt_real _ j _ (fun i hi => key i (le_of_lt hi))]
  congr 1
  field_simp
  ring

end RealLemmas

section InputsLemmas

variable {F : Type} [LinearOrderedField F]

theorem sectorsGeometry_fresh (S : Int) : FreshIds (sectorsGeometry F S) := by
  intro k hk
  have hk1 : (10000 : Int) ≤ k := hk
  have hne : k ≠ 1 := by omega
  exact ⟨by simp [sectorsGeometry, IntMap.find, hne], rfl⟩

theorem annulusGeometry_fresh : FreshIds (annulusGeometry F) := by
  intro k hk
  have hk1 : (10000 : Int) ≤ k := hk
  have hne : k ≠ 1 := by omega
  have hne2 : k ≠ 2 := by omega
  exact ⟨by simp [annulusGeometry, IntMap.find, hne, hne2], rfl⟩

theorem univOK_of_empty (g : Geometry F) (h1 : g.universes = []) (h2 : g.universeObjs = []) :
    UnivOK g := by
  refine ⟨?_, ?_⟩
  · intro k ua h
    rw [h1] at h
    exact Option.noConfusion h
  · intro ub U cid h
    rw [h2] at h
    exact Option.noConfusion h

theorem Outcome.isOk_elim {σ : Type} (x : Outcome σ Unit) (h : x.isOk = true) :
    ∃ s, x = .ok () s := by
  cases x with
  | ok v s => exact ⟨s, rfl⟩
  | fatal e s => exact Bool.noConfusion h
  | outOfFuel => exact Bool.noConfusion h

/-- The annulus of `annulusGeometry` is refined without error. -/
theorem annulus_run (sqrt : F → F) : (addCell sqrt 3 (annulusGeometry F) 0).isOk = true := rfl

end InputsLemmas

section RefLemmas

variable {F : Type} [LinearOrderedField F]

/-- The signed surface ids of a cell whose surfaces are registered do not name a
surface at or above the counter. -/
theorem keys_below_counter (g : Geometry F) (cell : Cell) (hf : FreshIds g)
    (hs : ∀ e ∈ cell.surfaces, ∃ sa, IntMap.find g.surfaces (iabs e.1) = some sa ∧
      sa < g.surfaceObjs.length) (k : Int) (hk : k ∈ IntMap.keys cell.surfaces) :
    k ≠ g.statics.id ∧ k ≠ -g.statics.id ∧ k ≠ g.statics.id + 1 ∧
      k ≠ -(g.statics.id + 1) := by
  obtain ⟨e, he, hek⟩ := List.mem_map.mp hk
  obtain ⟨sa, hsa, _⟩ := hs e he
  rw [hek] at hsa
  have hlt : iabs k < g.statics.id := by
    by_contra hcon
    rw [(hf (iabs k) (by omega)).1] at hsa
    exact Option.noConfusion hsa
  unfold iabs at hlt
  refine ⟨?_, ?_, ?_, ?_⟩ <;> intro h <;> subst h <;> split at hlt <;> omega

/-- The radii of the circles that `addCell` generates for a cell with two surfaces
and `R > 0` rings, over the reals. -/
theorem addCell_annulus_radii (fuel : Nat) (g : Geometry ℝ) (a : Addr) (cell : Cell)
    (m R S : Int) (e1 e2 : Int × Option Addr) (ra rb : ℝ) (g1 : Geometry ℝ)
    (hf : FreshIds g) (hc : g.cellObjs[a]? = some cell)
    (hnew : IntMap.find g.cells cell.id = none) (hid : cell.id < g.statics.id)
    (hd : cell.data = .basic m R S) (hR : 0 < R) (hsurf : cell.surfaces = [e1, e2])
    (hra : circleRadius g (if iabs e1.1 < iabs e2.1 then iabs e1.1 else iabs e2.1) =
      .ok ra g)
    (hrb : circleRadius g (if iabs e1.1 < iabs e2.1 then iabs e2.1 else iabs e1.1) =
      .ok rb g)
    (hrun : addCell Real.sqrt fuel g a = .ok () g1) :
    circleRadii (newSurfaces g g1) = (List.range R.toNat).map fun (j : Nat) =>
      Real.sqrt (ra ^ 2 + ((j : ℝ) + 1) * (rb ^ 2 - ra ^ 2) / ((R : ℝ) + 1)) := by
  obtain ⟨_, hrad⟩ := addCell_ok_post Real.sqrt fuel g a cell g1 hf hc hnew hid hrun
  obtain ⟨_, _, h3⟩ := hrad m R S hd
  obtain ⟨f1, f2, rest, r01, r02, hs, hr1, hr2, heq⟩ := h3 (by omega)
    (by simp [Cell.getNumSurfaces, hsurf])
  rw [hsurf] at hs
  simp only [List.cons.injEq] at hs
  obtain ⟨hs1, hs2, _⟩ := hs
  subst hs1
  subst hs2
  rw [hra] at hr1
  rw [hrb] at hr2
  simp only [Outcome.ok.injEq, and_true] at hr1 hr2
  subst hr1
  subst hr2
  rw [heq]
  exact annulusRadii_real ra rb R hR

/-- The universe of a cell after a normal return of `addCell`. -/
theorem addCell_universe_post (sqrt : F → F) (fuel : Nat) (g : Geometry F) (a : Addr)
    (cell : Cell) (g1 : Geometry F) (hf : FreshIds g) (hok : UnivOK g)
    (hc : g.cellObjs[a]? = some cell) (hnew : IntMap.find g.cells cell.id = none)
    (hid : cell.id < g.statics.id) (hrun : addCell sqrt fuel g a = .ok () g1) :
    IntMap.find g1.cells cell.id = some a ∧ Member g1 cell a ∧
    (IntMap.find g.universes cell.universe_id = none →
      IntMap.find g1.universes cell.universe_id = some g.universeObjs.length ∧
      ∃ U, g1.universeObjs[g.universeObjs.length]? = some U ∧ U.type = .SIMPLE ∧
        U.id = cell.universe_id ∧ IntMap.find U.cells cell.id = some a) ∧
    (∀ ua, IntMap.find g.universes cell.universe_id = some ua →
      g1.universes = g.universes ∧ g1.universeObjs.length = g.universeObjs.length ∧
      ∀ U, g.universeObjs[ua]? = some U →
        ∃ U1, g1.universeObjs[ua]? = some U1 ∧ U1.id = U.id ∧ U1.type = U.type ∧
          (∀ cid v, IntMap.find U.cells cid = some v → IntMap.find U1.cells cid = some v) ∧
          IntMap.find U1.cells cell.id = some a) ∧
    (∀ k, k ≠ cell.universe_id → IntMap.find g1.universes k = IntMap.find g.universes k) ∧
    (∀ (ub : Addr) (U : Universe F), g.universeObjs[ub]? = some U →
      U.id ≠ cell.universe_id → g1.universeObjs[ub]? = some U) := by
  obtain ⟨hpost, _⟩ := addCell_ok_post sqrt fuel g a cell g1 hf hc hnew hid hrun
  obtain ⟨_, _, hreg, _, huniv⟩ := hpost
  obtain ⟨hok1, hgrow, hmem, hnone⟩ := huniv hok
  refine ⟨hreg, hmem, ?_, ?_, hgrow.reg_other, hgrow.objs_other⟩
  · intro h
    obtain ⟨h1, U, h2, h3⟩ := hnone h
    obtain ⟨ua, U1, m1, m2, m3, m4⟩ := hmem
    rw [h1] at m1
    cases m1
    rw [h2] at m2
    cases m2
    exact ⟨h1, U, h2, h3, m3, m4⟩
  · intro ua hua
    obtain ⟨e1, e2⟩ := hgrow.reg_same ua hua
    refine ⟨e1, e2, ?_⟩
    intro U hU
    obtain ⟨U1, f1, f2, f3, f4⟩ := hgrow.objs_grow ua U hU
    obtain ⟨ub, U2, m1, m2, m3, m4⟩ := hmem
    rw [e1, hua] at m1
    cases m1
    rw [f1] at m2
    cases m2
    exact ⟨U1, f1, f2, f3, f4, m4⟩

end RefLemmas

section EasyLemmas

variable {F : Type} [LinearOrderedField F]

/-- The loop over the lattices of `findNextCell` never ends when the lowest link of
the chain is a `UNIV` link of a universe other than 0: the body does nothing and
the condition stays true. -/
theorem crossLattices_spins (T : Tracer F) (g : Geometry F) (angle : F)
    (coords : List (LocalCoords F)) (curr : LocalCoords F)
    (hlast : coords.getLast? = some curr) (hu : curr.universe_id ≠ 0)
    (ht : curr.type = .UNIV) :
    ∀ fuel, crossLattices T g angle fuel coords = .outOfFuel := by
  intro fuel
  induction fuel with
  | zero => rfl
  | succ n ih =>
    rw [crossLattices]
    simp only [hlast, hu, ht, ne_eq, not_false_eq_true, if_true]
    simpa using ih

/-- A call of `segmentize` in which the first `findNextCell` does not return does not
return either. -/
theorem segmentize_spins (T : Tracer F) (g : Geometry F) (track : Track F) (c : Addr)
    (coords : List (LocalCoords F))
    (h0 : findCellCoords T g [LocalCoords.new track.x0 track.y0 0] = .ok (some c) coords)
    (h : ∀ fuel, findNextCell T fuel g coords track.phi = .outOfFuel) :
    ∀ fuel, segmentize T fuel g track = .outOfFuel := by
  intro fuel
  unfold segmentize
  simp only [h0]
  cases fuel with
  | zero => rfl
  | succ n =>
    rw [segmentLoop]
    simp only [h n]

/-- In a geometry with the universes, cells and lines of `roundTripInput`, the point
`(-1, -1)` lies in the material cell 3 of universe 5, reached through the fill
cell 1 of the root universe; a ray in the direction of the x axis meets no
surface of cell 3, and `findNextCell` then enters the loop over the lattices with
a chain whose lowest link is a `UNIV` link of universe 5. -/
theorem round_trip_spins (sqrt : ℚ → ℚ)
    (latF : Geometry ℚ → Addr → List (LocalCoords ℚ) →
      Outcome (List (LocalCoords ℚ)) (Option Addr))
    (latN : Geometry ℚ → Addr → List (LocalCoords ℚ) → Nat → ℚ →
      Outcome (List (LocalCoords ℚ)) (Option Addr))
    (g : Geometry ℚ) (h1 : g.universes = [(0, 0), (5, 1)])
    (h2 : g.universeObjs[0]? =
      some { Universe.simple 0 with cells := [(1, 0), (2, 1)], region_map := [(1, 0), (2, 2)] })
    (h2b : g.universeObjs[1]? =
      some { Universe.simple 5 with uid := 1, cells := [(3, 2), (4, 3)],
                                    region_map := [(3, 0), (4, 1)] })
    (h3 : g.cellObjs[0]? =
      some { CellFill 1 0 1 [-1] 5 with surfaces := [(-1, some 0)], data := .fill 5 (some 1) })
    (h4 : g.cellObjs[2]? =
      some { CellBasic 3 5 1 [-2] 1 0 0 with uid := 2, surfaces := [(-2, some 1)] })
    (h5 : g.surfaceObjs[0]? = some (xLine 1 0))
    (h6 : g.surfaceObjs[1]? = some { (yLine 2 0 : Surface ℚ) with uid := 1 }) :
    findCellCoords (xAxisTracer sqrt latF latN) g [LocalCoords.new (-1) (-1) 0] =
      .ok (some 2) [{ LocalCoords.new (-1) (-1) 0 with cell := 1 },
                    { LocalCoords.new (-1) (-1) 5 with cell := 3 }] ∧
    (xAxisTracer sqrt latF latN).minSurfaceDist g 2 (-1, -1) 0 = (.posInf, (-1, -1)) ∧
    (∀ fuel, findNextCell (xAxisTracer sqrt latF latN) fuel g
      [{ LocalCoords.new (-1) (-1) 0 with cell := 1 },
       { LocalCoords.new (-1) (-1) 5 with cell := 3 }] 0 = .outOfFuel) ∧
    (∀ fuel, segmentize (xAxisTracer sqrt latF latN) fuel g ⟨-1, -1, 0, []⟩ = .outOfFuel) := by
  have hfind : findCellCoords (xAxisTracer sqrt latF latN) g [LocalCoords.new (-1) (-1) 0] =
      .ok (some 2) [{ LocalCoords.new (-1) (-1) 0 with cell := 1 },
                    { LocalCoords.new (-1) (-1) 5 with cell := 3 }] := by
    norm_num [findCellCoords, xAxisTracer, specTracer, universeFindCell, LocalCoords.new, h1,
      IntMap.find, h2, h2b, Universe.simple, firstContaining, h3, h4, cellContains, h5, h6,
      CellFill, CellBasic, xLine, yLine, Plane, Surface.evaluate, pushLink]
  have hfind2 : findCellCoords (xAxisTracer sqrt latF latN) g
      [{ LocalCoords.new (-1) (-1) 0 with cell := 1 },
       { LocalCoords.new (-1) (-1) 5 with cell := 3 }] =
      .ok (some 2) [{ LocalCoords.new (-1) (-1) 0 with cell := 1 },
                    { LocalCoords.new (-1) (-1) 5 with cell := 3 }] := by
    norm_num [findCellCoords, xAxisTracer, specTracer, universeFindCell, LocalCoords.new, h1,
      IntMap.find, h2, h2b, Universe.simple, firstContaining, h3, h4, cellContains, h5, h6,
      CellFill, CellBasic, xLine, yLine, Plane, Surface.evaluate, pushLink]
  have hdist : (xAxisTracer sqrt latF latN).minSurfaceDist g 2 (-1, -1) 0 =
      (.posInf, (-1, -1)) := by
    norm_num [xAxisTracer, specTracer, cellMinSurfaceDist, h4, h6, CellBasic, yLine, Plane,
      Surface.intersectionParams, planeParams, TINY_EPS, minParam]
  have hnext : ∀ fuel, findNextCell (xAxisTracer sqrt latF latN) fuel g
      [{ LocalCoords.new (-1) (-1) 0 with cell := 1 },
       { LocalCoords.new (-1) (-1) 5 with cell := 3 }] 0 = .outOfFuel := by
    intro fuel
    unfold findNextCell
    rw [hfind2]
    have hretrace : retrace [{ LocalCoords.new (-1 : ℚ) (-1) 0 with cell := 1 },
        { LocalCoords.new (-1) (-1) 5 with cell := 3 }] =
        .ok () [{ LocalCoords.new (-1) (-1) 0 with cell := 1 },
                { LocalCoords.new (-1) (-1) 5 with cell := 3 }] := by
      simp [retrace, retraceScan, LocalCoords.new]
    simp only [LocalCoords.new] at hretrace hdist ⊢
    simp only [Outcome.bind_ok, List.getLast?_cons_cons, List.getLast?_singleton, hdist,
      ne_eq, not_true_eq_false, if_false, hretrace]
    exact crossLattices_spins (xAxisTracer sqrt latF latN) g 0
      [⟨.UNIV, 0, 1, 0, 0, 0, -1, -1⟩, ⟨.UNIV, 5, 3, 0, 0, 0, -1, -1⟩]
      ⟨.UNIV, 5, 3, 0, 0, 0, -1, -1⟩ rfl (by decide) rfl fuel
  exact ⟨hfind, hdist, hnext, segmentize_spins _ g ⟨-1, -1, 0, []⟩ 2 _ hfind hnext⟩

theorem first_build_surfaces (sqrt : ℚ → ℚ) :
    IntMap.keys (firstBuild sqrt).surfaces = [1, 10000, 10001] := rfl

theorem first_build_cells (sqrt : ℚ → ℚ) :
    IntMap.keys (firstBuild sqrt).cells = [1, 10000, 10001] := rfl

theorem second_build_surfaces (sqrt : ℚ → ℚ) :
    IntMap.keys (secondBuild sqrt).surfaces = [1, 10002, 10003] := rfl

theorem second_build_cells (sqrt : ℚ → ℚ) :
    IntMap.keys (secondBuild sqrt).cells = [1, 10002, 10003] := rfl

theorem first_build_tables (sqrt : ℚ → ℚ) :
    (firstBuild sqrt).FSRs_to_cells = [1, 10000, 10001] ∧
    (firstBuild sqrt).FSRs_to_materials = [1, 1, 1] := ⟨rfl, rfl⟩

theorem second_build_tables (sqrt : ℚ → ℚ) :
    (secondBuild sqrt).FSRs_to_cells = [1, 10002, 10003] ∧
    (secondBuild sqrt).FSRs_to_materials = [1, 1, 1] := ⟨rfl, rfl⟩

set_option maxHeartbeats 1000000 in
theorem builds_run (sqrt : ℚ → ℚ) :
    (Geometry.build sqrt 3 startStatics ringsInput).isOk = true ∧
    (firstBuild sqrt).statics = staticsAfterFirst ∧
    (Geometry.build sqrt 3 staticsAfterFirst ringsInput).isOk = true := ⟨rfl, rfl, rfl⟩

/-- A call of `segmentize` whose start point lies in no cell returns at once. -/
theorem segmentize_no_start_cell (T : Tracer F) (fuel : Nat) (g : Geometry F)
    (track : Track F) (coords : List (LocalCoords F))
    (h : findCellCoords T g [LocalCoords.new track.x0 track.y0 0] = .ok none coords) :
    segmentize T (fuel + 1) g track = .ok () (g, track) := by
  unfold segmentize
  simp only [h]
  rfl

/-- A bind returns normally only when its first part does. -/
theorem Outcome.isOk_bind {σ α β : Type} (x : Outcome σ α) (f : α → σ → Outcome σ β)
    (h : (x.bind f).isOk = true) : ∃ a s, x = .ok a s ∧ (f a s).isOk = true := by
  cases x with
  | ok a s => exact ⟨a, s, rfl, h⟩
  | fatal e s => simp [Outcome.bind, Outcome.isOk] at h
  | outOfFuel => simp [Outcome.bind, Outcome.isOk] at h

/-- The refinement part of `addCell` does not return normally for a positive sector
count other than 4. -/
theorem refineCell_sectors_not_ok
    (rec : Geometry F → Addr → Outcome (Geometry F) Unit) (sqrt : F → F) (a : Addr)
    (cell : Cell) (surfs : IntMap (Option Addr)) (m R S : Int) (g : Geometry F)
    (hpos : 0 < S) (h4 : S ≠ 4) :
    (refineCell rec sqrt a cell surfs m R S g).isOk = false := by
  cases hr : (refineCell rec sqrt a cell surfs m R S g).isOk with
  | false => rfl
  | true =>
    unfold refineCell at hr
    obtain ⟨_, g1, _, h2⟩ := Outcome.isOk_bind _ _ hr
    simp [hpos, h4, Outcome.isOk] at h2

/-- No call of `addCell` returns normally for a material cell with a positive sector
count other than 4. -/
theorem addCell_sectors_not_ok (sqrt : F → F) (fuel : Nat) (g : Geometry F) (a : Addr)
    (cell : Cell) (m R S : Int) (hc : g.cellObjs[a]? = some cell)
    (hd : cell.data = .basic m R S) (hpos : 0 < S) (h4 : S ≠ 4) :
    (addCell sqrt fuel g a).isOk = false := by
  cases fuel with
  | zero => rfl
  | succ n =>
    cases hr : (addCell sqrt (n + 1) g a).isOk with
    | false => rfl
    | true =>
      unfold addCell at hr
      simp only [hc] at hr
      split at hr
      · simp [Outcome.isOk] at hr
      · split at hr
        · simp [Outcome.isOk] at hr
        · obtain ⟨_, g1, _, h1⟩ := Outcome.isOk_bind _ _ hr
          obtain ⟨_, g3, _, h3⟩ := Outcome.isOk_bind _ _ h1
          obtain ⟨_, g4, _, h4a⟩ := Outcome.isOk_bind _ _ h3
          simp only [hd] at h4a
          rw [refineCell_sectors_not_ok _ sqrt a cell _ m R S g4 hpos h4] at h4a
          exact absurd h4a (by decide)

end EasyLemmas

section FrameLemmas

variable {F : Type} [LinearOrderedField F]

theorem sameButLengths_update (g1 g : Geometry F) (len : F) (h : sameButLengths g1 g) :
    sameButLengths (updateSegLengths g1 len) g := by
  obtain ⟨mx, mn, rfl⟩ := h
  exact ⟨_, _, rfl⟩

theorem sameButLengths_record (g : Geometry F) (segs : List (segment F)) :
    ∀ g1, sameButLengths g1 g → sameButLengths (recordLengths g1 segs) g := by
  induction segs with
  | nil => intro g1 h; exact h
  | cons s rest ih =>
    intro g1 h
    exact ih _ (sameButLengths_update g1 g s.length h)

theorem recordLengths_append (g : Geometry F) (l1 l2 : List (segment F)) :
    recordLengths g (l1 ++ l2) = recordLengths (recordLengths g l1) l2 := by
  simp [recordLengths, List.foldl_append]

/-- A pass of the loop body of `segmentize` that ends in a fatal error leaves the track
as it was and has at most entered one length into the statistics. -/
theorem addSegmentFor_fatal (T : Tracer F) (prev : Addr) (ss se : List (LocalCoords F))
    (st s : Geometry F × Track F) (e : Err) (h : addSegmentFor T prev ss se st = .fatal e s) :
    s.2 = st.2 ∧ sameButLengths s.1 st.1 := by
  unfold addSegmentFor at h
  cases hs : getPoint ss with
  | none =>
    simp only [hs] at h
    cases h
    exact ⟨rfl, sameButLengths_refl _⟩
  | some p_start =>
    cases he : getPoint se with
    | none =>
      simp only [hs, he] at h
      cases h
      exact ⟨rfl, sameButLengths_refl _⟩
    | some p_end =>
      simp only [hs, he] at h
      cases hm : segmentMaterial st.1 prev with
      | error e1 =>
        simp only [hm] at h
        cases h
        exact ⟨rfl, sameButLengths_refl _⟩
      | ok ma =>
        simp only [hm] at h
        cases hf : findFSRId (updateSegLengths st.1 (T.distance p_end p_start)) ss with
        | error e1 =>
          simp only [hf] at h
          cases h
          exact ⟨rfl, sameButLengths_update _ _ _ (sameButLengths_refl _)⟩
        | ok region_id =>
          simp only [hf] at h
          split at h
          · cases h
            exact ⟨rfl, sameButLengths_update _ _ _ (sameButLengths_refl _)⟩
          · cases h

/-- What the loop of `segmentize` does to its state: whenever it ends with a state, the
track has gained segments and nothing else, and the geometry differs from the one
at the start at most in the segment-length statistics; after a normal return the
statistics hold the lengths of the segments gained. -/
theorem segmentLoop_frame (T : Tracer F) (phi : F) :
    ∀ (fuel : Nat) (curr : Option Addr) (coords : List (LocalCoords F))
      (st st1 : Geometry F × Track F),
      (segmentLoop T phi fuel curr coords st).state = some st1 →
      sameButLengths st1.1 st.1 ∧
      ∃ segs, st1.2 = { st.2 with segments := st.2.segments ++ segs } ∧
        (segmentLoop T phi fuel curr coords st = .ok () st1 →
          st1.1 = recordLengths st.1 segs) := by
  intro fuel
  induction fuel with
  | zero => intro curr coords st st1 h; simp [segmentLoop, Outcome.state] at h
  | succ n ih =>
    intro curr coords st st1 h
    cases curr with
    | none =>
      simp only [segmentLoop, Outcome.state, Option.some.injEq] at h
      subst h
      exact ⟨sameButLengths_refl _, [], by simp, fun _ => rfl⟩
    | some prev =>
      simp only [segmentLoop] at h ⊢
      cases hn : findNextCell T n st.1 coords phi with
      | outOfFuel => simp [hn, Outcome.state] at h
      | fatal e c =>
        simp only [hn, Outcome.state, Option.some.injEq] at h
        subst h
        exact ⟨sameButLengths_refl _, [], by simp, fun hh => by simp at hh⟩
      | ok curr1 coords1 =>
        simp only [hn] at h ⊢
        cases ha : addSegmentFor T prev coords coords1 st with
        | outOfFuel => simp [ha, Outcome.bind, Outcome.state] at h
        | fatal e s =>
          simp only [ha, Outcome.bind_fatal, Outcome.state, Option.some.injEq] at h
          subst h
          obtain ⟨h1, h2⟩ := addSegmentFor_fatal T prev coords coords1 st s e ha
          refine ⟨h2, [], ?_, fun hh => by simp at hh⟩
          rw [h1]
          simp
        | ok u st2 =>
          simp only [ha, Outcome.bind_ok] at h ⊢
          obtain ⟨seg, hst2, _⟩ := addSegmentFor_ok T prev coords coords1 st st2 ha
          obtain ⟨hs, segs, htrack, hok⟩ := ih curr1 coords1 st2 st1 h
          rw [hst2] at hs htrack hok
          obtain ⟨mx, mn, hmm⟩ := hs
          refine ⟨⟨mx, mn, ?_⟩, seg :: segs, ?_, ?_⟩
          · rw [hmm]; simp [updateSegLengths]
          · rw [htrack]; simp
          · intro hh
            rw [hst2] at hh
            rw [hok hh]
            rfl

/-- What `segmentize` does to the geometry and the track. -/
theorem segmentize_frame_lemma (T : Tracer F) (fuel : Nat) (g : Geometry F) (track : Track F)
    (st : Geometry F × Track F) (h : (segmentize T fuel g track).state = some st) :
    sameButLengths st.1 g ∧
    ∃ segs, st.2 = { track with segments := track.segments ++ segs } ∧
      (segmentize T fuel g track = .ok () st → st.1 = recordLengths g segs) := by
  unfold segmentize at h ⊢
  cases hf : findCellCoords T g [LocalCoords.new track.x0 track.y0 0] with
  | outOfFuel => simp [hf, Outcome.state] at h
  | fatal e c =>
    simp only [hf, Outcome.state, Option.some.injEq] at h
    subst h
    exact ⟨sameButLengths_refl _, [], by simp, fun hh => by simp [hf] at hh⟩
  | ok curr coords =>
    simp only [hf] at h ⊢
    exact segmentLoop_frame T track.phi fuel curr coords (g, track) st h

end FrameLemmas

section KeysLemmas

variable {F : Type} [LinearOrderedField F]

theorem IntMap.mem_insert_of_mem {V : Type} (m : IntMap V) (k : Int) (v : V) (e : Int × V)
    (h : e ∈ m) : e ∈ IntMap.insert m k v := by
  induction m with
  | nil => cases h
  | cons e1 rest ih =>
    obtain ⟨k1, w⟩ := e1
    simp only [IntMap.insert]
    split
    · exact List.mem_cons_of_mem _ h
    · split
      · exact h
      · rcases List.mem_cons.mp h with h | h
        · exact h ▸ List.mem_cons_self _ _
        · exact List.mem_cons_of_mem _ (ih h)

theorem IntMap.mem_insert_new {V : Type} (m : IntMap V) (k : Int) (v : V)
    (h : ∀ e ∈ m, e.1 ≠ k) : (k, v) ∈ IntMap.insert m k v := by
  induction m with
  | nil => simp [IntMap.insert]
  | cons e1 rest ih =>
    obtain ⟨k1, w⟩ := e1
    have hne : k ≠ k1 := fun heq => h (k1, w) (List.mem_cons_self _ _) heq.symm
    simp only [IntMap.insert]
    split
    · exact List.mem_cons_self _ _
    · exact List.mem_cons_of_mem _ (ih fun e he => h e (List.mem_cons_of_mem _ he))

theorem IntMap.length_insert_new {V : Type} (m : IntMap V) (k : Int) (v : V)
    (h : ∀ e ∈ m, e.1 ≠ k) : (IntMap.insert m k v).length = m.length + 1 := by
  induction m with
  | nil => simp [IntMap.insert]
  | cons e1 rest ih =>
    obtain ⟨k1, w⟩ := e1
    have hne : k ≠ k1 := fun heq => h (k1, w) (List.mem_cons_self _ _) heq.symm
    simp only [IntMap.insert]
    split
    · simp
    · simp only [List.length_cons]
      rw [ih fun e he => h e (List.mem_cons_of_mem _ he)]

/-- The loop that fills a new map runs through when every entity has an object, and
the new map holds the old entities under their uids. -/
theorem adjustedMap_spec (uidAt : Addr → Option Int) :
    ∀ (old acc : IntMap Addr), (∀ e ∈ old, ∃ u, uidAt e.2 = some u) →
      ∃ new, adjustedMap uidAt old acc = some new ∧
        (∀ e ∈ new, e ∈ acc ∨ (uidAt e.2 = some e.1 ∧ ∃ k0, (k0, e.2) ∈ old)) ∧
        (∀ e ∈ acc, e ∈ new) ∧
        (old.Pairwise (fun e1 e2 => uidAt e1.2 ≠ uidAt e2.2) →
          (∀ e ∈ old, ∀ e1 ∈ acc, uidAt e.2 ≠ some e1.1) →
          (∀ e ∈ old, ∃ u, uidAt e.2 = some u ∧ (u, e.2) ∈ new) ∧
          new.length = acc.length + old.length) := by
  intro old
  induction old with
  | nil =>
    intro acc _
    refine ⟨acc, rfl, fun e he => Or.inl he, fun e he => he, fun _ _ => ⟨?_, by simp⟩⟩
    intro e he
    cases he
  | cons e0 rest ih =>
    intro acc hres
    obtain ⟨k0, a⟩ := e0
    obtain ⟨u, hu⟩ := hres (k0, a) (List.mem_cons_self _ _)
    have hu1 : uidAt a = some u := hu
    obtain ⟨new, hnew, h1, h2, h3⟩ := ih (IntMap.insert acc u a)
      (fun e he => hres e (List.mem_cons_of_mem _ he))
    have hrun : adjustedMap uidAt ((k0, a) :: rest) acc = some new := by
      rw [adjustedMap]
      simp only [hu1]
      exact hnew
    refine ⟨new, hrun, ?_, ?_, ?_⟩
    · intro e he
      rcases h1 e he with h | ⟨h, k1, hk1⟩
      · rcases IntMap.mem_insert acc u a e h with h | h
        · exact Or.inl h
        · refine Or.inr ⟨?_, k0, ?_⟩
          · rw [h]; exact hu1
          · rw [h]; exact List.mem_cons_self _ _
      · exact Or.inr ⟨h, k1, List.mem_cons_of_mem _ hk1⟩
    · intro e he
      exact h2 e (IntMap.mem_insert_of_mem acc u a e he)
    · intro hpair hacc
      have hfresh : ∀ e ∈ acc, e.1 ≠ u := by
        intro e he heq
        exact hacc (k0, a) (List.mem_cons_self _ _) e he (by rw [heq]; exact hu1)
      obtain ⟨h4, h5⟩ := h3 (List.Pairwise.of_cons hpair) (by
        intro e he e1 he1
        rcases IntMap.mem_insert acc u a e1 he1 with h | h
        · exact hacc e (List.mem_cons_of_mem _ he) e1 h
        · rw [h]
          intro heq
          exact List.rel_of_pairwise_cons hpair he (by rw [hu1, heq]))
      refine ⟨?_, ?_⟩
      · intro e he
        rcases List.mem_cons.mp he with rfl | he
        · exact ⟨u, hu1, h2 _ (IntMap.mem_insert_new acc u a hfresh)⟩
        · exact h4 e he
      · rw [h5, IntMap.length_insert_new acc u a hfresh]
        simp only [List.length_cons]
        omega

/-- The loop that fills a new map, started with the empty map, rekeys the registry. -/
theorem adjustedMap_rekeyed (uidAt : Addr → Option Int) (old : IntMap Addr)
    (h : ∀ e ∈ old, ∃ u, uidAt e.2 = some u) :
    ∃ new, adjustedMap uidAt old [] = some new ∧ Rekeyed uidAt old new := by
  obtain ⟨new, hnew, h1, _, h3⟩ := adjustedMap_spec uidAt old [] h
  refine ⟨new, hnew, ?_⟩
  unfold Rekeyed
  refine ⟨?_, ?_⟩
  · intro e he
    rcases h1 e he with h | h
    · cases h
    · exact h
  · intro hpair
    obtain ⟨h4, h5⟩ := h3 hpair (fun _ _ e1 he1 => nomatch he1)
    exact ⟨h4, by simpa using h5⟩

/-- The surface container of a cell can be rekeyed when every surface pointer points
to an object. -/
theorem adjustSurfaceKeys_some (g : Geometry F) :
    ∀ (l acc : IntMap (Option Addr)),
      (∀ e ∈ l, ∃ sa, e.2 = some sa ∧ sa < g.surfaceObjs.length) →
      ∃ r, adjustSurfaceKeys g l acc = some r := by
  intro l
  induction l with
  | nil => intro acc _; exact ⟨acc, rfl⟩
  | cons e rest ih =>
    intro acc h
    obtain ⟨k, p⟩ := e
    obtain ⟨sa, hsa, hlt⟩ := h (k, p) (List.mem_cons_self _ _)
    have hp : p = some sa := hsa
    subst hp
    obtain ⟨s, hs⟩ : ∃ s, g.surfaceObjs[sa]? = some s :=
      ⟨g.surfaceObjs[sa], List.getElem?_eq_getElem hlt⟩
    simp only [adjustSurfaceKeys, hs]
    exact ih _ fun e he => h e (List.mem_cons_of_mem _ he)

/-- The body of the cell loop returns normally for a cell whose references resolve,
and replaces the cell object by one with the same uid and id. -/
theorem adjustCellKeys_ok (g : Geometry F) (a : Addr) (h : CellResolved g a) :
    ∃ cell cell1, g.cellObjs[a]? = some cell ∧ cell1.uid = cell.uid ∧ cell1.id = cell.id ∧
      adjustCellKeys a g = .ok () { g with cellObjs := g.cellObjs.set a cell1 } := by
  obtain ⟨cell, hc, ⟨ua, u, hua, hu⟩, hbasic, hfill, hsurf⟩ := h
  obtain ⟨surfs, hsurfs⟩ := adjustSurfaceKeys_some g cell.surfaces [] hsurf
  unfold adjustCellKeys
  simp only [hc, hua, hu]
  cases hd : cell.data with
  | basic material nr ns =>
    obtain ⟨ma, m, hma, hm⟩ := hbasic material nr ns hd
    simp only [hma, hm, Cell.adjustKeys, hsurfs]
    exact ⟨cell, { cell with universe_id := u.uid, surfaces := surfs,
                             data := .basic m.uid nr ns }, rfl, rfl, rfl, by rw [hd]⟩
  | fill universe_fill ptr =>
    obtain ⟨fa, uf, hfa, huf⟩ := hfill universe_fill ptr hd
    simp only [hfa, huf, Cell.adjustKeys, hsurfs]
    exact ⟨cell, { cell with universe_id := u.uid, surfaces := surfs,
                             data := .fill uf.uid ptr }, rfl, rfl, rfl, by rw [hd]⟩

/-- The references of a cell resolve in a state that differs only in another cell
object. -/
theorem CellResolved.cell_of_set (g : Geometry F) (a b : Addr) (c1 : Cell) (hne : b ≠ a)
    (h : CellResolved g b) :
    CellResolved { g with cellObjs := g.cellObjs.set a c1 } b := by
  obtain ⟨cell, hc, h1, h2, h3, h4⟩ := h
  refine ⟨cell, ?_, h1, h2, h3, h4⟩
  show (g.cellObjs.set a c1)[b]? = some cell
  rw [List.getElem?_set_ne (Ne.symm hne)]
  exact hc

theorem map_set_keep {α β : Type} (f : α → β) (l : List α) (a : Nat) (c c1 : α)
    (h : l[a]? = some c) (hf : f c1 = f c) : (l.set a c1).map f = l.map f := by
  rw [List.map_set]
  apply List.ext_getElem?
  intro i
  by_cases hi : a = i
  · subst hi
    by_cases hlt : a < (l.map f).length
    · rw [List.getElem?_set_self hlt, hf, List.getElem?_map, h]; rfl
    · rw [List.getElem?_eq_none (by simpa using hlt),
        List.getElem?_eq_none (by simpa using hlt)]
  · rw [List.getElem?_set_ne hi]

/-- The loop over the cells of `adjustKeys` returns normally when the references of
the cells resolve and no cell object comes twice; only cell objects change, and
they keep their uids and ids. -/
theorem adjustCells_ok :
    ∀ (l : IntMap Addr) (g : Geometry F), (l.map Prod.snd).Nodup →
      (∀ e ∈ l, CellResolved g e.2) →
      ∃ objs, forEach (fun entry g => adjustCellKeys entry.2 g) l g =
          .ok () { g with cellObjs := objs } ∧
        objs.map (fun c => (c.uid, c.id)) = g.cellObjs.map (fun c => (c.uid, c.id)) := by
  intro l
  induction l with
  | nil => intro g _ _; exact ⟨g.cellObjs, rfl, rfl⟩
  | cons e rest ih =>
    intro g hnd hres
    obtain ⟨cell, cell1, hc, huid, hid, hrun⟩ :=
      adjustCellKeys_ok g e.2 (hres e (List.mem_cons_self _ _))
    have hnd1 : e.2 ∉ rest.map Prod.snd ∧ (rest.map Prod.snd).Nodup := by
      simpa using hnd
    obtain ⟨objs, hloop, hmap⟩ := ih { g with cellObjs := g.cellObjs.set e.2 cell1 } hnd1.2
      (fun e1 he1 => CellResolved.cell_of_set g e.2 e1.2 cell1
        (fun heq => hnd1.1 (heq ▸ List.mem_map_of_mem _ he1))
        (hres e1 (List.mem_cons_of_mem _ he1)))
    refine ⟨objs, ?_, ?_⟩
    · simp only [forEach, hrun, Outcome.bind_ok]
      exact hloop
    · rw [hmap]
      exact map_set_keep _ g.cellObjs e.2 cell cell1 hc (by rw [huid, hid])

/-- A row of tiles can be rekeyed when every tile points to a universe object. -/
theorem adjustTileRow_some (g : Geometry F) :
    ∀ (row : List (Int × Option Addr)),
      (∀ t ∈ row, ∃ ua, t.2 = some ua ∧ ua < g.universeObjs.length) →
      ∃ r, adjustTileRow g row = some r := by
  intro row
  induction row with
  | nil => intro _; exact ⟨[], rfl⟩
  | cons t rest ih =>
    intro h
    obtain ⟨k, p⟩ := t
    obtain ⟨ua, hua, hlt⟩ := h (k, p) (List.mem_cons_self _ _)
    have hp : p = some ua := hua
    subst hp
    obtain ⟨u, hu⟩ : ∃ u, g.universeObjs[ua]? = some u :=
      ⟨g.universeObjs[ua], List.getElem?_eq_getElem hlt⟩
    obtain ⟨r, hr⟩ := ih fun t ht => h t (List.mem_cons_of_mem _ ht)
    exact ⟨(u.uid, some ua) :: r, by simp only [adjustTileRow, hu, hr]⟩

/-- A tile table can be rekeyed when every tile points to a universe object. -/
theorem adjustTileRows_some (g : Geometry F) :
    ∀ (rows : List (List (Int × Option Addr))),
      (∀ row ∈ rows, ∀ t ∈ row, ∃ ua, t.2 = some ua ∧ ua < g.universeObjs.length) →
      ∃ r, adjustTileRows g rows = some r := by
  intro rows
  induction rows with
  | nil => intro _; exact ⟨[], rfl⟩
  | cons row rest ih =>
    intro h
    obtain ⟨r1, hr1⟩ := adjustTileRow_some g row (h row (List.mem_cons_self _ _))
    obtain ⟨r2, hr2⟩ := ih fun row1 hrow1 => h row1 (List.mem_cons_of_mem _ hrow1)
    exact ⟨r1 :: r2, by simp only [adjustTileRows, hr1, hr2]⟩

/-- The body of the lattice loop returns normally for a lattice whose tiles point to
universe objects, and replaces the lattice object by one with the same uid and
id. -/
theorem adjustLatticeKeys_ok (g : Geometry F) (a : Addr) (h : LatticeResolved g a) :
    ∃ lat lat1, g.universeObjs[a]? = some lat ∧ lat1.uid = lat.uid ∧ lat1.id = lat.id ∧
      adjustLatticeKeys a g = .ok () { g with universeObjs := g.universeObjs.set a lat1 } := by
  obtain ⟨lat, hl, htiles⟩ := h
  obtain ⟨rows, hrows⟩ := adjustTileRows_some g lat.universes htiles
  exact ⟨lat, { lat with universes := rows }, hl, rfl, rfl, by
    simp only [adjustLatticeKeys, hl, hrows]⟩

/-- The tiles of a lattice resolve in a state that differs only in another universe
object. -/
theorem LatticeResolved.lattice_of_set (g : Geometry F) (a b : Addr) (u1 : Universe F) (hne : b ≠ a)
    (h : LatticeResolved g b) :
    LatticeResolved { g with universeObjs := g.universeObjs.set a u1 } b := by
  obtain ⟨lat, hl, htiles⟩ := h
  refine ⟨lat, ?_, ?_⟩
  · show (g.universeObjs.set a u1)[b]? = some lat
    rw [List.getElem?_set_ne (Ne.symm hne)]
    exact hl
  · intro row hrow t ht
    obtain ⟨ua, hua, hlt⟩ := htiles row hrow t ht
    exact ⟨ua, hua, by simpa using hlt⟩

/-- The loop over the lattices of `adjustKeys` returns normally when the tiles of the
lattices point to universe objects and no lattice object comes twice; only
lattice objects change, and they keep their uids and ids. -/
theorem adjustLattices_ok :
    ∀ (l : IntMap Addr) (g : Geometry F), (l.map Prod.snd).Nodup →
      (∀ e ∈ l, LatticeResolved g e.2) →
      ∃ objs, forEach (fun entry g => adjustLatticeKeys entry.2 g) l g =
          .ok () { g with universeObjs := objs } ∧
        objs.map (fun u => (u.uid, u.id)) = g.universeObjs.map (fun u => (u.uid, u.id)) := by
  intro l
  induction l with
  | nil => intro g _ _; exact ⟨g.universeObjs, rfl, rfl⟩
  | cons e rest ih =>
    intro g hnd hres
    obtain ⟨lat, lat1, hl, huid, hid, hrun⟩ :=
      adjustLatticeKeys_ok g e.2 (hres e (List.mem_cons_self _ _))
    have hnd1 : e.2 ∉ rest.map Prod.snd ∧ (rest.map Prod.snd).Nodup := by
      simpa using hnd
    obtain ⟨objs, hloop, hmap⟩ := ih { g with universeObjs := g.universeObjs.set e.2 lat1 }
      hnd1.2
      (fun e1 he1 => LatticeResolved.lattice_of_set g e.2 e1.2 lat1
        (fun heq => hnd1.1 (heq ▸ List.mem_map_of_mem _ he1))
        (hres e1 (List.mem_cons_of_mem _ he1)))
    refine ⟨objs, ?_, ?_⟩
    · simp only [forEach, hrun, Outcome.bind_ok]
      exact hloop
    · rw [hmap]
      exact map_set_keep _ g.universeObjs e.2 lat lat1 hl (by rw [huid, hid])

/-- Object stores that agree in the uids and ids of their objects agree in the uid
read at every address. -/
theorem uid_of_map_eq {α : Type} (uid id : α → Int) (l1 l2 : List α)
    (h : l1.map (fun c => (uid c, id c)) = l2.map (fun c => (uid c, id c))) (a : Addr) :
    (l1[a]?).map uid = (l2[a]?).map uid := by
  have h1 := congrArg (fun l => (l[a]?).map Prod.fst) h
  simpa [List.getElem?_map, Option.map_map, Function.comp_def] using h1

theorem isSome_of_lt {α : Type} (l : List α) (a : Nat) (f : α → Int) (h : a < l.length) :
    ∃ u, (l[a]?).map f = some u :=
  ⟨f l[a], by rw [List.getElem?_eq_getElem h]; rfl⟩

/-- What `adjustKeys` does in a state without dangling references: it returns
normally; the material and surface objects are untouched, the cell and universe
objects keep their places, uids and ids; and each of the five registries is the
former one rekeyed by uid. -/
theorem adjustKeys_spec (g : Geometry F) (h : KeysResolved g) :
    ∃ g1, adjustKeys g = .ok () g1 ∧
      g1.materialObjs = g.materialObjs ∧ g1.surfaceObjs = g.surfaceObjs ∧
      g1.cellObjs.map (fun c => (c.uid, c.id)) = g.cellObjs.map (fun c => (c.uid, c.id)) ∧
      g1.universeObjs.map (fun u => (u.uid, u.id)) =
        g.universeObjs.map (fun u => (u.uid, u.id)) ∧
      Rekeyed (materialUid g.materialObjs) g.materials g1.materials ∧
      Rekeyed (surfaceUid g.surfaceObjs) g.surfaces g1.surfaces ∧
      Rekeyed (cellUid g.cellObjs) g.cells g1.cells ∧
      Rekeyed (universeUid g.universeObjs) g.universes g1.universes ∧
      Rekeyed (universeUid g.universeObjs) g.lattices g1.lattices := by
  obtain ⟨cobjs, hcells, hcmap⟩ := adjustCells_ok g.cells g h.cells_once h.cells
  obtain ⟨uobjs, hlats, humap⟩ := adjustLattices_ok g.lattices { g with cellObjs := cobjs }
    h.lattices_once (fun e he => by
      obtain ⟨lat, hl, ht⟩ := h.lattices e he
      exact ⟨lat, hl, ht⟩)
  have e3 : cellUid cobjs = cellUid g.cellObjs := by
    funext a
    exact uid_of_map_eq (fun c => c.uid) (fun c => c.id) cobjs g.cellObjs hcmap a
  have e4 : universeUid uobjs = universeUid g.universeObjs := by
    funext a
    exact uid_of_map_eq (fun u => u.uid) (fun u => u.id) uobjs g.universeObjs humap a
  obtain ⟨m1, hm1, hrm⟩ := adjustedMap_rekeyed (materialUid g.materialObjs) g.materials
    (fun e he => isSome_of_lt g.materialObjs e.2 _ (h.materials e he))
  obtain ⟨s1, hs1, hrs⟩ := adjustedMap_rekeyed (surfaceUid g.surfaceObjs) g.surfaces
    (fun e he => isSome_of_lt g.surfaceObjs e.2 _ (h.surfaces e he))
  obtain ⟨c1, hc1, hrc⟩ := adjustedMap_rekeyed (cellUid g.cellObjs) g.cells
    (fun e he => by
      obtain ⟨cell, hc, _⟩ := h.cells e he
      exact ⟨cell.uid, by simp [cellUid, hc]⟩)
  obtain ⟨u1, hu1, hru⟩ := adjustedMap_rekeyed (universeUid g.universeObjs) g.universes
    (fun e he => isSome_of_lt g.universeObjs e.2 _ (h.universes e he))
  obtain ⟨l1, hl1, hrl⟩ := adjustedMap_rekeyed (universeUid g.universeObjs) g.lattices
    (fun e he => by
      obtain ⟨lat, hl, _⟩ := h.lattices e he
      exact ⟨lat.uid, by simp [universeUid, hl]⟩)
  refine ⟨{ g with cellObjs := cobjs, universeObjs := uobjs, materials := m1, surfaces := s1,
                   cells := c1, universes := u1, lattices := l1 },
    ?_, rfl, rfl, hcmap, humap, hrm, hrs, hrc, hru, hrl⟩
  unfold adjustKeys
  rw [hcells, Outcome.bind_ok]
  rw [show ({ g with cellObjs := cobjs } : Geometry F).lattices = g.lattices from rfl, hlats,
    Outcome.bind_ok]
  simp only [e3, e4, hm1, hs1, hc1, hu1, hl1]

/-- The state `keyedGeometry` has no dangling reference. -/
theorem keyed_resolved : KeysResolved keyedGeometry := by
  refine ⟨by decide, by decide, ?_, ?_, ?_, ?_, ?_⟩
  · intro e he
    have hc : e = (10, 1) ∨ e = (20, 0) ∨ e = (30, 2) := by
      simpa [keyedGeometry] using he
    rcases hc with rfl | rfl | rfl
    · refine ⟨_, rfl, ⟨0, _, rfl, rfl⟩, ?_, ?_, ?_⟩
      · intro material nr ns hd; cases hd
      · intro uf ptr hd; cases hd; exact ⟨1, _, rfl, rfl⟩
      · intro e1 he1
        have h0 : e1 ∈ [((5 : Int), some (1 : Addr))] := he1
        have h1 : e1 = (5, some 1) := by simpa using h0
        subst h1
        exact ⟨1, rfl, by decide⟩
    · refine ⟨_, rfl, ⟨0, _, rfl, rfl⟩, ?_, ?_, ?_⟩
      · intro material nr ns hd; cases hd; exact ⟨1, _, rfl, rfl⟩
      · intro uf ptr hd; cases hd
      · intro e1 he1
        have h0 : e1 ∈ [((-5 : Int), some (1 : Addr))] := he1
        have h1 : e1 = (-5, some 1) := by simpa using h0
        subst h1
        exact ⟨1, rfl, by decide⟩
    · refine ⟨_, rfl, ⟨1, _, rfl, rfl⟩, ?_, ?_, ?_⟩
      · intro material nr ns hd; cases hd; exact ⟨0, _, rfl, rfl⟩
      · intro uf ptr hd; cases hd
      · intro e1 he1
        have h0 : e1 ∈ ([] : List (Int × Option Addr)) := he1
        cases h0
  · intro e he
    have hc : e = (9, 2) := by simpa [keyedGeometry] using he
    subst hc
    refine ⟨_, rfl, ?_⟩
    intro row hrow t ht
    have h0 : row ∈ [[((4 : Int), some (1 : Addr))]] := hrow
    have h1 : row = [(4, some 1)] := by simpa using h0
    subst h1
    have h2 : t = (4, some 1) := by simpa using ht
    subst h2
    exact ⟨1, rfl, by decide⟩
  · intro e he
    have hc : e = (3, 1) ∨ e = (7, 0) := by simpa [keyedGeometry] using he
    rcases hc with rfl | rfl <;> decide
  · intro e he
    have hc : e = (2, 0) ∨ e = (5, 1) := by simpa [keyedGeometry] using he
    rcases hc with rfl | rfl <;> decide
  · intro e he
    have hc : e = (0, 0) ∨ e = (4, 1) ∨ e = (9, 2) := by simpa [keyedGeometry] using he
    rcases hc with rfl | rfl | rfl <;> decide

end KeysLemmas

section NestLemmas

variable {F : Type} [LinearOrderedField F]

/-- In a geometry in which the root universe is registered, `findNextCell` with
`nestedTracer` from the centre of the left tile of lattice 10 returns the cell
found behind the line `x = 3/2`, in the right tile of lattice 10. -/
theorem nested_step_generic (g : Geometry ℚ) (ua : Addr)
    (h1 : IntMap.find g.universes 0 = some ua) (fuel : Nat) :
    findCellCoords nestedTracer g [LocalCoords.new (-1) 0 0] =
      .ok (some 2) (nestedChain (-1) 0 0) ∧
    findNextCell nestedTracer fuel g (nestedChain (-1) 0 0) 0 =
      .ok (some 2) (nestedChain (1 / 2 + 1 / 100000000) 0 1) := by
  have hne : ∀ x : ℚ, (Ext.fin x = Ext.posInf) = False := fun x =>
    eq_false (fun h => Ext.noConfusion h)
  constructor
  · norm_num [findCellCoords, LocalCoords.new, h1, nestedTracer, nestedChain]
  · norm_num [findNextCell, findCellCoords, LocalCoords.new, h1, nestedTracer, nestedChain,
      adjustCoords, updateMostLocal, TINY_MOVE, latticeCheck, hne]
    intro h
    cases h

end NestLemmas

section RootLemmas

variable {F : Type} [LinearOrderedField F]

theorem map_eq_two {α β : Type} (f : α → β) (l : List α) (a b : β)
    (h : l.map f = [a, b]) : ∃ x y, l = [x, y] ∧ f x = a ∧ f y = b := by
  match l, h with
  | [x, y], h =>
    simp only [List.map_cons, List.map_nil, List.cons.injEq, and_true] at h
    exact ⟨x, y, rfl, h.1, h.2⟩

theorem map_eq_three {α β : Type} (f : α → β) (l : List α) (a b c : β)
    (h : l.map f = [a, b, c]) : ∃ x y z, l = [x, y, z] ∧ f x = a ∧ f y = b ∧ f z = c := by
  match l, h with
  | [x, y, z], h =>
    simp only [List.map_cons, List.map_nil, List.cons.injEq, and_true] at h
    exact ⟨x, y, z, rfl, h.1, h.2.1, h.2.2⟩

/-- A cell that lies inside the circle at address 2 and outside the circle at address
0 holds no point when the first circle is the smaller one. -/
theorem cellContains_inverted_ring (g1 : Geometry F) (c : Cell) (sh1 : SurfaceShape F) (r : F)
    (hc : c.surfaces = [(-10000, some 2), (1, some 0)])
    (hs : g1.surfaceObjs.map (fun s => s.shape) = [.circle 0 0 2, sh1, .circle 0 0 r])
    (hr : r * r < 4) (p : F × F) : cellContains g1 c p = some false := by
  obtain ⟨s0, s1, s2, hso, h0, h1, h2⟩ := map_eq_three _ _ _ _ _ hs
  have e0 : g1.surfaceObjs[0]? = some s0 := by rw [hso]; rfl
  have e2 : g1.surfaceObjs[2]? = some s2 := by rw [hso]; rfl
  have hneg : ((-10000 : Int) < 0) = True := by decide
  have hpos : ((1 : Int) < 0) = False := by decide
  simp only [cellContains, hc, List.foldl_cons, List.foldl_nil, e0, e2, Surface.evaluate, h0,
    h2, hneg, hpos, if_true, if_false, Bool.true_and, Option.some.injEq,
    Bool.and_eq_false_imp, decide_eq_true_eq, decide_eq_false_iff_not, not_le]
  intro h
  nlinarith [mul_self_nonneg p.1, mul_self_nonneg p.2]

/-- A cell that lies outside the circle at address 2 holds no point within the
radius of that circle. -/
theorem cellContains_outer_part (g1 : Geometry F) (c : Cell) (sh0 sh1 : SurfaceShape F) (r : F)
    (hc : c.surfaces = [(-1, some 0), (2, some 1), (10000, some 2)])
    (hs : g1.surfaceObjs.map (fun s => s.shape) = [sh0, sh1, .circle 0 0 r])
    (p : F × F) (hp : p.1 * p.1 + p.2 * p.2 < r * r) : cellContains g1 c p = some false := by
  obtain ⟨s0, s1, s2, hso, h0, h1, h2⟩ := map_eq_three _ _ _ _ _ hs
  have e0 : g1.surfaceObjs[0]? = some s0 := by rw [hso]; rfl
  have e1 : g1.surfaceObjs[1]? = some s1 := by rw [hso]; rfl
  have e2 : g1.surfaceObjs[2]? = some s2 := by rw [hso]; rfl
  have hpos : ((10000 : Int) < 0) = False := by decide
  simp only [cellContains, hc, List.foldl_cons, List.foldl_nil, e0, e1, e2, Surface.evaluate,
    h2, hpos, if_false, Option.some.injEq, Bool.and_eq_false_imp, decide_eq_true_eq,
    decide_eq_false_iff_not, not_le]
  intro _
  linarith

/-- The annulus of `swappedAnnulusGeometry` is refined without error. -/
theorem swapped_run (sqrt : F → F) :
    (addCell sqrt 3 (swappedAnnulusGeometry F) 0).isOk = true := rfl

theorem swapped_surfaces (sqrt : F → F) :
    (addCell sqrt 3 (swappedAnnulusGeometry F) 0).state.map
        (fun g1 => g1.surfaceObjs.map fun s => (s.id, s.shape)) =
      some [(1, .circle 0 0 2), (2, .circle 0 0 1),
        (10000, .circle 0 0 (sqrt (2 * 2 + (1 * 1 - 2 * 2) / ((2 : Int) : F))))] := rfl

theorem swapped_cells (sqrt : F → F) :
    (addCell sqrt 3 (swappedAnnulusGeometry F) 0).state.map (fun g1 => g1.cells) =
      some [(1, 0), (10000, 1)] := rfl

theorem swapped_cellObjs (sqrt : F → F) :
    (addCell sqrt 3 (swappedAnnulusGeometry F) 0).state.map
        (fun g1 => g1.cellObjs.map fun c => (c.id, c.surfaces)) =
      some [(1, [(-1, some 0), (2, some 1), (10000, some 2)]),
        (10000, [(-10000, some 2), (1, some 0)])] := rfl

/-- The unit disk of `ringSectorGeometry` is refined without error. -/
theorem ringSector_run :
    (addCell (fun x => x) 3 (ringSectorGeometry ℚ) 0).isOk = true := by decide

theorem ringSector_surfaces :
    (addCell (fun x => x) 3 (ringSectorGeometry ℚ) 0).state.map
        (fun g1 => (newSurfaces (ringSectorGeometry ℚ) g1).map fun s => s.id) =
      some [10000, 10001, 10002, 10006, 10007] := by decide

theorem ringSector_circles :
    (addCell (fun x => x) 3 (ringSectorGeometry ℚ) 0).state.map
        (fun g1 => (circleRadii (newSurfaces (ringSectorGeometry ℚ) g1)).length) =
      some 1 := by decide

theorem ringSector_cells :
    (addCell (fun x => x) 3 (ringSectorGeometry ℚ) 0).state.map (fun g1 => g1.cells) =
      some [(1, 0), (10000, 1), (10003, 2), (10004, 3), (10005, 4), (10008, 5),
        (10009, 6), (10010, 7)] := by decide

theorem ringSector_cellObjs :
    (addCell (fun x => x) 3 (ringSectorGeometry ℚ) 0).state.map
        (fun g1 => g1.cellObjs.map fun c => (c.id, IntMap.keys c.surfaces)) =
      some [(1, [-10007, -1, 10000, 10006]),
        (10000, [-10002, -10000, 10001]),
        (10003, [-10000, 10001, 10002]),
        (10004, [-10002, -10001, -10000]),
        (10005, [-10001, -10000, 10002]),
        (10008, [-1, 10000, 10006, 10007]),
        (10009, [-10007, -10006, -1, 10000]),
        (10010, [-10006, -1, 10000, 10007])] := by decide

end RootLemmas

section StatsLemmas

variable {F : Type} [LinearOrderedField F]

theorem Ext.le_of_lt_true (a b : Ext F) (h : Ext.lt a b = true) : Ext.le a b = true := by
  unfold Ext.lt at h
  rcases Ext.le_or_le a b with h1 | h1
  · exact h1
  · rw [h1] at h
    exact absurd h (by decide)

theorem updateSegLengths_max_le (g : Geometry F) (len : F) :
    Ext.le g.max_seg_length (updateSegLengths g len).max_seg_length = true := by
  show Ext.le g.max_seg_length
    (if Ext.lt g.max_seg_length (.fin len) then .fin len else g.max_seg_length) = true
  cases h : Ext.lt g.max_seg_length (.fin len) with
  | true => simpa using Ext.le_of_lt_true _ _ h
  | false => simpa using Ext.le_self _

theorem updateSegLengths_min_le (g : Geometry F) (len : F) :
    Ext.le (updateSegLengths g len).min_seg_length g.min_seg_length = true := by
  show Ext.le (if Ext.lt (.fin len) g.min_seg_length then .fin len else g.min_seg_length)
    g.min_seg_length = true
  cases h : Ext.lt (.fin len) g.min_seg_length with
  | true => simpa using Ext.le_of_lt_true _ _ h
  | false => simpa using Ext.le_self _

theorem updateSegLengths_min_le_len (g : Geometry F) (len : F) :
    Ext.le (updateSegLengths g len).min_seg_length (.fin len) = true := by
  show Ext.le (if Ext.lt (.fin len) g.min_seg_length then .fin len else g.min_seg_length)
    (.fin len) = true
  cases h : Ext.lt (.fin len) g.min_seg_length with
  | true => simpa using Ext.le_self _
  | false =>
    unfold Ext.lt at h
    simpa using h

theorem updateSegLengths_min_cases (g : Geometry F) (len : F) :
    (updateSegLengths g len).min_seg_length = g.min_seg_length ∨
      (updateSegLengths g len).min_seg_length = .fin len := by
  show (if Ext.lt (.fin len) g.min_seg_length then .fin len else g.min_seg_length) = _ ∨
    (if Ext.lt (.fin len) g.min_seg_length then .fin len else g.min_seg_length) = _
  cases h : Ext.lt (.fin len) g.min_seg_length with
  | true => exact Or.inr (by simp)
  | false => exact Or.inl (by simp)

theorem updateSegLengths_max_fin (g : Geometry F) (M len : F)
    (h : g.max_seg_length = .fin M) :
    (updateSegLengths g len).max_seg_length = .fin (max M len) := by
  show (if Ext.lt g.max_seg_length (.fin len) then .fin len else g.max_seg_length) = _
  rw [h]
  by_cases hle : len ≤ M
  · simp [Ext.lt, Ext.le, hle]
  · have hlt : M ≤ len := le_of_lt (not_le.mp hle)
    simp [Ext.lt, Ext.le, hle, hlt]

/-- The running maximum: from the maximum `M`, the lengths of `segs` lead to the
greatest of `M` and these lengths. -/
theorem recordLengths_max (segs : List (segment F)) :
    ∀ (g : Geometry F) (M : F), g.max_seg_length = .fin M →
      ∃ m, (recordLengths g segs).max_seg_length = .fin m ∧ M ≤ m ∧
        (∀ s ∈ segs, s.length ≤ m) ∧ (m = M ∨ ∃ s ∈ segs, s.length = m) := by
  induction segs with
  | nil =>
    intro g M h
    exact ⟨M, h, le_refl _, fun s hs => absurd hs (List.not_mem_nil _), Or.inl rfl⟩
  | cons s rest ih =>
    intro g M h
    obtain ⟨m, h1, h2, h3, h4⟩ := ih (updateSegLengths g s.length) (max M s.length)
      (updateSegLengths_max_fin g M s.length h)
    refine ⟨m, h1, le_trans (le_max_left _ _) h2, ?_, ?_⟩
    · intro t ht
      rcases List.mem_cons.mp ht with ht | ht
      · rw [ht]
        exact le_trans (le_max_right _ _) h2
      · exact h3 t ht
    · rcases h4 with h4 | ⟨t, ht, h4⟩
      · rcases max_choice M s.length with hc | hc
        · exact Or.inl (by rw [h4, hc])
        · exact Or.inr ⟨s, List.mem_cons_self _ _, by rw [h4, hc]⟩
      · exact Or.inr ⟨t, List.mem_cons_of_mem _ ht, h4⟩

/-- The running maximum never decreases. -/
theorem recordLengths_max_le (segs : List (segment F)) :
    ∀ g : Geometry F,
      Ext.le g.max_seg_length (recordLengths g segs).max_seg_length = true := by
  induction segs with
  | nil => intro g; exact Ext.le_self _
  | cons s rest ih =>
    intro g
    exact Ext.le_chain _ _ _ (updateSegLengths_max_le g s.length)
      (ih (updateSegLengths g s.length))

/-- The running minimum: it never increases, it is at most every length entered, and
it is the former minimum or one of the lengths. -/
theorem recordLengths_min (segs : List (segment F)) :
    ∀ g : Geometry F,
      Ext.le (recordLengths g segs).min_seg_length g.min_seg_length = true ∧
      (∀ s ∈ segs, Ext.le (recordLengths g segs).min_seg_length (.fin s.length) = true) ∧
      ((recordLengths g segs).min_seg_length = g.min_seg_length ∨
        ∃ s ∈ segs, (recordLengths g segs).min_seg_length = .fin s.length) := by
  induction segs with
  | nil =>
    intro g
    exact ⟨Ext.le_self _, fun s hs => absurd hs (List.not_mem_nil _), Or.inl rfl⟩
  | cons s rest ih =>
    intro g
    obtain ⟨h1, h2, h3⟩ := ih (updateSegLengths g s.length)
    refine ⟨Ext.le_chain _ _ _ h1 (updateSegLengths_min_le g s.length), ?_, ?_⟩
    · intro t ht
      rcases List.mem_cons.mp ht with ht | ht
      · rw [ht]
        exact Ext.le_chain _ _ _ h1 (updateSegLengths_min_le_len g s.length)
      · exact h2 t ht
    · rcases h3 with h3 | ⟨t, ht, h3⟩
      · rcases updateSegLengths_min_cases g s.length with hc | hc
        · exact Or.inl (h3.trans hc)
        · exact Or.inr ⟨s, List.mem_cons_self _ _, h3.trans hc⟩
      · exact Or.inr ⟨t, List.mem_cons_of_mem _ ht, h3⟩

/-- A call of `segmentize` that returns has entered the lengths of the segments it
added into the statistics and has changed the track in nothing else. -/
theorem segmentize_ok_records (T : Tracer F) (fuel : Nat) (g : Geometry F) (track : Track F)
    (st : Geometry F × Track F) (h : segmentize T fuel g track = .ok () st) :
    ∃ segs, st.2 = { track with segments := track.segments ++ segs } ∧
      st.1 = recordLengths g segs := by
  obtain ⟨_, segs, h1, h2⟩ := segmentize_frame_lemma T fuel g track st (by rw [h]; rfl)
  exact ⟨segs, h1, h2 h⟩

/-- A sequence of calls that all return has entered the lengths of the created
segments, in the order of their creation, and has left every track with its
former segments followed by the new ones. -/
theorem segmentizeAll_records (T : Tracer F) (fuel : Nat) :
    ∀ (tracks : List (Track F)) (g g1 : Geometry F) (tracks1 : List (Track F)),
      segmentizeAll T fuel tracks g = .ok () (g1, tracks1) →
      g1 = recordLengths g (createdSegments tracks tracks1) ∧
      List.Forall₂ (fun t t1 => ∃ segs, t1 = { t with segments := t.segments ++ segs })
        tracks tracks1 := by
  intro tracks
  induction tracks with
  | nil =>
    intro g g1 tracks1 h
    simp only [segmentizeAll, Outcome.ok.injEq, Prod.mk.injEq, true_and] at h
    obtain ⟨h1, h2⟩ := h
    subst h1 h2
    exact ⟨rfl, List.Forall₂.nil⟩
  | cons track rest ih =>
    intro g g1 tracks1 h
    simp only [segmentizeAll] at h
    cases hs : segmentize T fuel g track with
    | outOfFuel => simp [hs] at h
    | fatal e st => simp [hs] at h
    | ok u st =>
      simp only [hs] at h
      cases hr : segmentizeAll T fuel rest st.1 with
      | outOfFuel => simp [hr] at h
      | fatal e st1 => simp [hr] at h
      | ok u1 st1 =>
        simp only [hr, Outcome.ok.injEq, Prod.mk.injEq, true_and] at h
        obtain ⟨h1, h2⟩ := h
        subst h1 h2
        obtain ⟨segs, e1, e2⟩ := segmentize_ok_records T fuel g track st hs
        obtain ⟨e3, e4⟩ := ih st.1 st1.1 st1.2 hr
        refine ⟨?_, List.Forall₂.cons ⟨segs, e1⟩ e4⟩
        have hdrop : st.2.segments.drop track.segments.length = segs := by
          rw [e1]
          exact List.drop_left _ _
        show st1.1 = recordLengths g
          (st.2.segments.drop track.segments.length ++ createdSegments rest st1.2)
        rw [hdrop, recordLengths_append, ← e2]
        exact e3

/-- The statistics after a sequence of calls on a geometry that starts with the values
of the constructor, and their change by one call. -/
theorem segment_statistics_lemma (T : Tracer F) (fuel : Nat) (tracks tracks1 : List (Track F))
    (g g1 : Geometry F)
    (hmax : g.getMaxSegmentLength = .fin 0) (hmin : g.getMinSegmentLength = .posInf)
    (hrun : segmentizeAll T fuel tracks g = .ok () (g1, tracks1)) :
    List.Forall₂ (fun t t1 => ∃ segs, t1 = { t with segments := t.segments ++ segs })
      tracks tracks1 ∧
    (∃ m, g1.getMaxSegmentLength = .fin m ∧ 0 ≤ m ∧
      (∀ s ∈ createdSegments tracks tracks1, s.length ≤ m) ∧
      (m = 0 ∨ ∃ s ∈ createdSegments tracks tracks1, s.length = m)) ∧
    (∀ s ∈ createdSegments tracks tracks1,
      Ext.le g1.getMinSegmentLength (.fin s.length) = true) ∧
    (g1.getMinSegmentLength = .posInf ∨
      ∃ s ∈ createdSegments tracks tracks1, g1.getMinSegmentLength = .fin s.length) ∧
    (∀ (g2 : Geometry F) (track : Track F) (st : Geometry F × Track F),
      segmentize T fuel g2 track = .ok () st →
      Ext.le g2.getMaxSegmentLength st.1.getMaxSegmentLength = true ∧
      Ext.le st.1.getMinSegmentLength g2.getMinSegmentLength = true) := by
  obtain ⟨e1, e2⟩ := segmentizeAll_records T fuel tracks g g1 tracks1 hrun
  obtain ⟨m, h1, h2, h3, h4⟩ := recordLengths_max (createdSegments tracks tracks1) g 0 hmax
  obtain ⟨_, h6, h7⟩ := recordLengths_min (createdSegments tracks tracks1) g
  rw [← e1] at h1 h6 h7
  refine ⟨e2, ⟨m, h1, h2, h3, h4⟩, h6, ?_, ?_⟩
  · rcases h7 with h7 | h7
    · exact Or.inl (h7.trans hmin)
    · exact Or.inr h7
  · intro g2 track st hst
    obtain ⟨segs, _, e3⟩ := segmentize_ok_records T fuel g2 track st hst
    show Ext.le g2.max_seg_length st.1.max_seg_length = true ∧
      Ext.le st.1.min_seg_length g2.min_seg_length = true
    rw [e3]
    exact ⟨recordLengths_max_le segs g2, (recordLengths_min segs g2).1⟩

/-- The run of `segmentize` with `tileTracer` from the point `(-1/2, 0)` of the tile,
on a geometry with the registries and offsets of `tileGeometry`. -/
theorem tile_run_left (g : Geometry ℚ) (h1 : g.universes = [(0, 0), (1, 2), (2, 1)])
    (h2 : g.lattices = [(1, 2)]) (h3 : g.materials = [(1, 0)])
    (h4 : ∃ c, g.cellObjs[1]? = some c ∧ c.data = .basic 1 0 0)
    (h5 : ∃ u, g.universeObjs[0]? = some u ∧ u.region_map = [(1, 0)])
    (h6 : ∃ u, g.universeObjs[1]? = some u ∧ u.region_map = [(2, 0)])
    (h7 : ∃ u, g.universeObjs[2]? = some u ∧ u.tile_region_map = [[0]]) :
    segmentize tileTracer 3 g ⟨-1 / 2, 0, 0, []⟩ =
      .ok () (updateSegLengths g (3 / 2 + 1 / 100000000),
        ⟨-1 / 2, 0, 0, [⟨3 / 2 + 1 / 100000000, 0, 0⟩]⟩) := by
  obtain ⟨c, hc, hcd⟩ := h4
  obtain ⟨u0, hu0, hr0⟩ := h5
  obtain ⟨u1, hu1, hr1⟩ := h6
  obtain ⟨u2, hu2, hr2⟩ := h7
  have habs : |(150000001 : ℚ) / 100000000| = 150000001 / 100000000 :=
    abs_of_pos (by norm_num)
  norm_num [segmentize, findCellCoords, LocalCoords.new, h1, h2, h3, hc, hcd, habs, hu0, hr0,
    hu1, hr1, hu2, hr2, IntMap.find, tileTracer, tileChain, segmentLoop, findNextCell,
    adjustCoords, updateMostLocal, TINY_MOVE, retrace, retraceScan, crossLattices,
    addSegmentFor, getPoint, segmentMaterial, findFSRId, findFSRIdLoop, Universe.getFSR,
    Universe.getFSRAt, Universe.getTileFSR, latticeCheck, updateSegLengths]

/-- The run of `segmentize` with `tileTracer` from the point `(1/2, 0)` of the tile, on
a geometry with the registries and offsets of `tileGeometry`. -/
theorem tile_run_right (g : Geometry ℚ) (h1 : g.universes = [(0, 0), (1, 2), (2, 1)])
    (h2 : g.lattices = [(1, 2)]) (h3 : g.materials = [(1, 0)])
    (h4 : ∃ c, g.cellObjs[1]? = some c ∧ c.data = .basic 1 0 0)
    (h5 : ∃ u, g.universeObjs[0]? = some u ∧ u.region_map = [(1, 0)])
    (h6 : ∃ u, g.universeObjs[1]? = some u ∧ u.region_map = [(2, 0)])
    (h7 : ∃ u, g.universeObjs[2]? = some u ∧ u.tile_region_map = [[0]]) :
    segmentize tileTracer 3 g ⟨1 / 2, 0, 0, []⟩ =
      .ok () (updateSegLengths g (1 / 2 + 1 / 100000000),
        ⟨1 / 2, 0, 0, [⟨1 / 2 + 1 / 100000000, 0, 0⟩]⟩) := by
  obtain ⟨c, hc, hcd⟩ := h4
  obtain ⟨u0, hu0, hr0⟩ := h5
  obtain ⟨u1, hu1, hr1⟩ := h6
  obtain ⟨u2, hu2, hr2⟩ := h7
  have habs : |(50000001 : ℚ) / 100000000| = 50000001 / 100000000 :=
    abs_of_pos (by norm_num)
  norm_num [segmentize, findCellCoords, LocalCoords.new, h1, h2, h3, hc, hcd, habs, hu0, hr0,
    hu1, hr1, hu2, hr2, IntMap.find, tileTracer, tileChain, segmentLoop, findNextCell,
    adjustCoords, updateMostLocal, TINY_MOVE, retrace, retraceScan, crossLattices,
    addSegmentFor, getPoint, segmentMaterial, findFSRId, findFSRIdLoop, Universe.getFSR,
    Universe.getFSRAt, Universe.getTileFSR, latticeCheck, updateSegLengths]

/-- The statistics after the lengths of the three tracks have been entered in turn. -/
theorem stats_lengths :
    updateSegLengths (updateSegLengths (updateSegLengths tileGeometry (1 + 1 / 100000000))
      (3 / 2 + 1 / 100000000)) (1 / 2 + 1 / 100000000) = statsGeometry := by
  have hmax : tileGeometry.max_seg_length = .fin 0 := rfl
  have hmin : tileGeometry.min_seg_length = .posInf := rfl
  simp only [updateSegLengths, statsGeometry, hmax, hmin, Ext.lt, Ext.le]
  norm_num

/-- The three calls for `statsTracks` on `tileGeometry`. -/
theorem stats_run :
    segmentizeAll tileTracer 3 statsTracks tileGeometry =
      .ok () (statsGeometry, statsTracksDone) := by
  have r1 := tile_run
  have r2 := tile_run_left (updateSegLengths tileGeometry (1 + 1 / 100000000)) rfl rfl rfl
    ⟨_, rfl, rfl⟩ ⟨_, rfl, rfl⟩ ⟨_, rfl, rfl⟩ ⟨_, rfl, rfl⟩
  have r3 := tile_run_right (updateSegLengths (updateSegLengths tileGeometry
    (1 + 1 / 100000000)) (3 / 2 + 1 / 100000000)) rfl rfl rfl
    ⟨_, rfl, rfl⟩ ⟨_, rfl, rfl⟩ ⟨_, rfl, rfl⟩ ⟨_, rfl, rfl⟩
  simp only [segmentizeAll, statsTracks, r1, r2, r3, stats_lengths]
  rfl

end StatsLemmas

section RotLemmas

variable {F : Type} [LinearOrderedField F]

theorem cellRegion_iff (g : Geometry F) (c : Cell) (p : F × F) :
    cellRegion g c p = true ↔ ∀ k ∈ IntMap.keys c.surfaces,
      ∃ s, surfaceAt g (iabs k) = some s ∧ 0 ≤ (if k < 0 then -1 else 1) * s.evaluate p := by
  unfold cellRegion
  rw [List.all_eq_true]
  constructor
  · intro h k hk
    have := h k hk
    cases hs : surfaceAt g (iabs k) with
    | none => simp [hs] at this
    | some s =>
      simp only [hs, decide_eq_true_eq] at this
      exact ⟨s, rfl, this⟩
  · intro h k hk
    obtain ⟨s, hs, hle⟩ := h k hk
    simp only [hs, decide_eq_true_eq]
    exact hle

/-- Registered surfaces denote the same objects after a run of `addCell`. -/
theorem surfaceAt_grows (g g1 : Geometry F) (h : GrowsIds g g1) (k : Int) (sa : Addr)
    (hk : IntMap.find g.surfaces k = some sa) (hlt : sa < g.surfaceObjs.length) :
    surfaceAt g1 k = surfaceAt g k := by
  unfold surfaceAt
  rw [h.surf_reg k sa hk, hk, Option.some_bind, Option.some_bind, h.surf_objs,
    List.getElem?_append_left hlt]

/-- The point set of a cell that carries the constraints of another cell and two more
halfspaces. -/
theorem cellRegion_halfspaces (g g1 : Geometry F) (cell c : Cell) (h1 h2 : Int)
    (q1 q2 : Surface F)
    (hkeys : HalfspacesAdded (IntMap.keys cell.surfaces) (IntMap.keys c.surfaces) h1 h2)
    (hold : ∀ k ∈ IntMap.keys cell.surfaces, surfaceAt g1 (iabs k) = surfaceAt g (iabs k))
    (hq1 : surfaceAt g1 (iabs h1) = some q1) (hq2 : surfaceAt g1 (iabs h2) = some q2)
    (p : F × F) :
    cellRegion g1 c p = (cellRegion g cell p &&
      decide (0 ≤ (if h1 < 0 then -1 else 1) * q1.evaluate p) &&
      decide (0 ≤ (if h2 < 0 then -1 else 1) * q2.evaluate p)) := by
  rw [Bool.eq_iff_iff, Bool.and_eq_true, Bool.and_eq_true, cellRegion_iff, cellRegion_iff,
    decide_eq_true_eq, decide_eq_true_eq]
  constructor
  · intro h
    refine ⟨⟨?_, ?_⟩, ?_⟩
    · intro k hk
      obtain ⟨s, hs, hle⟩ := h k ((hkeys k).mpr (Or.inl hk))
      rw [hold k hk] at hs
      exact ⟨s, hs, hle⟩
    · obtain ⟨s, hs, hle⟩ := h h1 ((hkeys h1).mpr (Or.inr (Or.inl rfl)))
      rw [hq1] at hs
      cases hs
      exact hle
    · obtain ⟨s, hs, hle⟩ := h h2 ((hkeys h2).mpr (Or.inr (Or.inr rfl)))
      rw [hq2] at hs
      cases hs
      exact hle
  · rintro ⟨⟨h0, hle1⟩, hle2⟩ k hk
    rcases (hkeys k).mp hk with hk | hk | hk
    · obtain ⟨s, hs, hle⟩ := h0 k hk
      exact ⟨s, by rw [hold k hk]; exact hs, hle⟩
    · subst hk
      exact ⟨q1, hq1, hle1⟩
    · subst hk
      exact ⟨q2, hq2, hle2⟩

/-- The two sector planes under the rotation: `x + y` at the rotated point is `x - y`
at the point, and `x - y` at the rotated point is `-(x + y)` at the point. -/
theorem sector_planes_rotate (p1 p2 : Surface F) (hp1 : p1.shape = .plane 1 1 0)
    (hp2 : p2.shape = .plane 1 (-1) 0) (p : F × F) :
    p1.evaluate p = p.1 + p.2 ∧ p2.evaluate p = p.1 - p.2 ∧
    p1.evaluate (rotate p) = p2.evaluate p ∧ p2.evaluate (rotate p) = -p1.evaluate p := by
  simp only [Surface.evaluate, hp1, hp2, rotate]
  refine ⟨by ring, by ring, by ring, by ring⟩

/-- The wedge with the sign pair `(a, b)` holds a point exactly when the wedge with the
sign pair `(b, -a)` holds the rotated point. -/
theorem wedge_rotate (p1 p2 : Surface F) (hp1 : p1.shape = .plane 1 1 0)
    (hp2 : p2.shape = .plane 1 (-1) 0) (a b : F) (p : F × F) :
    (0 ≤ a * p1.evaluate p ∧ 0 ≤ b * p2.evaluate p) ↔
      (0 ≤ b * p1.evaluate (rotate p) ∧ 0 ≤ -a * p2.evaluate (rotate p)) := by
  obtain ⟨_, _, e3, e4⟩ := sector_planes_rotate p1 p2 hp1 hp2 p
  rw [e3, e4]
  have : -a * -p1.evaluate p = a * p1.evaluate p := by ring
  rw [this]
  exact And.comm

/-- A sector with the sign pair `(a, b)` holds a point exactly when the sector with the
sign pair `(b, -a)` holds the rotated point, for a cell whose own constraints are
invariant under the rotation. -/
theorem sector_rotate (p1 p2 : Surface F) (hp1 : p1.shape = .plane 1 1 0)
    (hp2 : p2.shape = .plane 1 (-1) 0) (a b : F) (r r1 : Bool) (p : F × F) (hr : r1 = r) :
    (r && decide (0 ≤ a * p1.evaluate p) && decide (0 ≤ b * p2.evaluate p)) =
      (r1 && decide (0 ≤ b * p1.evaluate (rotate p)) &&
        decide (0 ≤ -a * p2.evaluate (rotate p))) := by
  rw [hr, Bool.eq_iff_iff]
  simp only [Bool.and_eq_true, decide_eq_true_eq]
  have h := wedge_rotate p1 p2 hp1 hp2 a b p
  constructor
  · rintro ⟨⟨h0, h1⟩, h2⟩
    exact ⟨⟨h0, (h.mp ⟨h1, h2⟩).1⟩, (h.mp ⟨h1, h2⟩).2⟩
  · rintro ⟨⟨h0, h1⟩, h2⟩
    exact ⟨⟨h0, (h.mpr ⟨h1, h2⟩).1⟩, (h.mpr ⟨h1, h2⟩).2⟩

theorem cellContains_foldl (g : Geometry F) (p : F × F)
    (f : Option Bool → Int × Option Addr → Option Bool)
    (hf : ∀ (b : Bool) (e : Int × Option Addr) (sa : Addr) (s : Surface F),
      e.2 = some sa → g.surfaceObjs[sa]? = some s →
      f (some b) e = some (b && decide (0 ≤ (if e.1 < 0 then -1 else 1) * s.evaluate p))) :
    ∀ (l : List (Int × Option Addr)) (b : Bool),
      (∀ e ∈ l, ∃ sa s, e.2 = some sa ∧ IntMap.find g.surfaces (iabs e.1) = some sa ∧
        g.surfaceObjs[sa]? = some s) →
      l.foldl f (some b) =
      some (b && (l.map Prod.fst).all fun k =>
        match surfaceAt g (iabs k) with
        | none => false
        | some s => decide (0 ≤ (if k < 0 then -1 else 1) * s.evaluate p)) := by
  intro l
  induction l with
  | nil => intro b _; simp
  | cons e rest ih =>
    intro b h
    obtain ⟨sa, s, h1, h2, h3⟩ := h e (List.mem_cons_self _ _)
    have hs : surfaceAt g (iabs e.1) = some s := by
      unfold surfaceAt
      rw [h2, Option.some_bind, h3]
    rw [List.foldl_cons, hf b e sa s h1 h3,
      ih _ (fun e1 he1 => h e1 (List.mem_cons_of_mem _ he1))]
    simp only [List.map_cons, List.all_cons, hs, Bool.and_assoc]

/-- For a cell whose surface pointers agree with the registry, `Cell::contains` by
pointers is the point set by ids. -/
theorem cellContains_eq_region (g : Geometry F) (c : Cell) (p : F × F)
    (h : pointersResolved g c = true) : cellContains g c p = some (cellRegion g c p) := by
  have h0 : ∀ e ∈ c.surfaces, ∃ sa s, e.2 = some sa ∧
      IntMap.find g.surfaces (iabs e.1) = some sa ∧ g.surfaceObjs[sa]? = some s := by
    intro e he
    unfold pointersResolved at h
    rw [List.all_eq_true] at h
    have h1 := h e he
    cases h2 : e.2 with
    | none => simp [h2] at h1
    | some sa =>
      simp only [h2, Bool.and_eq_true, decide_eq_true_eq] at h1
      obtain ⟨s, hs⟩ := Option.isSome_iff_exists.mp h1.2
      exact ⟨sa, s, rfl, h1.1, hs⟩
  unfold cellContains cellRegion IntMap.keys
  rw [cellContains_foldl g p _ ?_ c.surfaces true h0, Bool.true_and]
  intro b e sa s h1 h3
  simp only [h1, h3]

theorem iabs_of_pos (k : Int) (h : 0 < k) : iabs k = k := by
  unfold iabs
  split <;> omega

theorem iabs_of_neg (k : Int) (h : 0 < k) : iabs (-k) = k := by
  unfold iabs
  split <;> omega

/-- The four sectors of a cell under the rotation by `pi/2`. -/
theorem sectors_rotate_lemma (sqrt : F → F) (fuel : Nat) (g : Geometry F) (a : Addr)
    (cell : Cell) (m : Int) (hf : FreshIds g)
    (hc : g.cellObjs[a]? = some cell) (hd : cell.data = .basic m 0 4)
    (hnew : IntMap.find g.cells cell.id = none) (hid : cell.id < g.statics.id)
    (hmat : (IntMap.find g.materials m).isSome = true)
    (hs : ∀ e ∈ cell.surfaces, ∃ sa, IntMap.find g.surfaces (iabs e.1) = some sa ∧
      sa < g.surfaceObjs.length)
    (hu : ∀ ua, IntMap.find g.universes cell.universe_id = some ua →
      ua < g.universeObjs.length)
    (hpos : 0 < g.statics.id)
    (hinv : ∀ p, cellRegion g cell (rotate p) = cellRegion g cell p) :
    ∃ g1 p1 p2 c0 c1 c2 c3, addCell sqrt (fuel + 2) g a = .ok () g1 ∧
      surfaceAt g1 g.statics.id = some p1 ∧ surfaceAt g1 (g.statics.id + 1) = some p2 ∧
      (∀ p, p1.evaluate p = p.1 + p.2 ∧ p2.evaluate p = p.1 - p.2) ∧
      (∀ (x y : F) (p : F × F), (0 ≤ x * p1.evaluate p ∧ 0 ≤ y * p2.evaluate p) ↔
        (0 ≤ y * p1.evaluate (rotate p) ∧ 0 ≤ -x * p2.evaluate (rotate p))) ∧
      (IntMap.find g1.cells cell.id).bind (fun b => g1.cellObjs[b]?) = some c0 ∧
      (IntMap.find g1.cells (g.statics.id + 2)).bind (fun b => g1.cellObjs[b]?) = some c1 ∧
      (IntMap.find g1.cells (g.statics.id + 3)).bind (fun b => g1.cellObjs[b]?) = some c2 ∧
      (IntMap.find g1.cells (g.statics.id + 4)).bind (fun b => g1.cellObjs[b]?) = some c3 ∧
      (∀ p, cellRegion g1 c0 p = (cellRegion g cell p &&
        decide (0 ≤ 1 * p1.evaluate p) && decide (0 ≤ -1 * p2.evaluate p))) ∧
      (∀ p, cellRegion g1 c1 p = (cellRegion g cell p &&
        decide (0 ≤ 1 * p1.evaluate p) && decide (0 ≤ 1 * p2.evaluate p))) ∧
      (∀ p, cellRegion g1 c2 p = (cellRegion g cell p &&
        decide (0 ≤ -1 * p1.evaluate p) && decide (0 ≤ -1 * p2.evaluate p))) ∧
      (∀ p, cellRegion g1 c3 p = (cellRegion g cell p &&
        decide (0 ≤ -1 * p1.evaluate p) && decide (0 ≤ 1 * p2.evaluate p))) ∧
      (∀ p, cellRegion g1 c1 p = cellRegion g1 c0 (rotate p)) ∧
      (∀ p, cellRegion g1 c0 p = cellRegion g1 c2 (rotate p)) ∧
      (∀ p, cellRegion g1 c2 p = cellRegion g1 c3 (rotate p)) ∧
      (∀ p, cellRegion g1 c3 p = cellRegion g1 c1 (rotate p)) ∧
      (∀ c p, pointersResolved g1 c = true →
        cellContains g1 c p = some (cellRegion g1 c p)) := by
  obtain ⟨g1, hrun, hsec⟩ := addCell_sectors_total sqrt fuel g a cell m 0 hf hc hnew hid hd
    (by decide) hmat hs hu
  have hgrow := (addCell_ok_post sqrt (fuel + 2) g a cell g1 hf hc hnew hid hrun).1.1
  obtain ⟨p1, p2, _, _, _, hsh1, _, _, hsh2, hat1, hat2⟩ := hsec.planes
  obtain ⟨c0, c1, c2, c3, ⟨hc0, hf0, _, _, _, hk0⟩, ⟨hc1, hf1, _, _, _, hk1⟩,
    ⟨hc2, hf2, _, _, _, hk2⟩, ⟨hc3, hf3, _, _, _, hk3⟩⟩ := hsec.cells
  have hold : ∀ k ∈ IntMap.keys cell.surfaces,
      surfaceAt g1 (iabs k) = surfaceAt g (iabs k) := by
    intro k hk
    obtain ⟨e, he, hek⟩ := List.mem_map.mp hk
    obtain ⟨sa, hsa, hlt⟩ := hs e he
    rw [hek] at hsa
    exact surfaceAt_grows g g1 hgrow _ sa hsa hlt
  have hpos1 : 0 < g.statics.id + 1 := by omega
  have i1 : iabs g.statics.id = g.statics.id := iabs_of_pos _ hpos
  have i2 : iabs (g.statics.id + 1) = g.statics.id + 1 := iabs_of_pos _ hpos1
  have i3 : iabs (-g.statics.id) = g.statics.id := iabs_of_neg _ hpos
  have i4 : iabs (-(g.statics.id + 1)) = g.statics.id + 1 := iabs_of_neg _ hpos1
  have s1 : (if g.statics.id < 0 then (-1 : F) else 1) = 1 := if_neg (by omega)
  have s2 : (if g.statics.id + 1 < 0 then (-1 : F) else 1) = 1 := if_neg (by omega)
  have s3 : (if -g.statics.id < 0 then (-1 : F) else 1) = -1 := if_pos (by omega)
  have s4 : (if -(g.statics.id + 1) < 0 then (-1 : F) else 1) = -1 := if_pos (by omega)
  have r0 : ∀ p, cellRegion g1 c0 p = (cellRegion g cell p &&
      decide (0 ≤ 1 * p1.evaluate p) && decide (0 ≤ -1 * p2.evaluate p)) := by
    intro p
    have := cellRegion_halfspaces g g1 cell c0 _ _ p1 p2 hk0 hold (by rw [i1]; exact hat1)
      (by rw [i4]; exact hat2) p
    rw [s1, s4] at this
    exact this
  have r1 : ∀ p, cellRegion g1 c1 p = (cellRegion g cell p &&
      decide (0 ≤ 1 * p1.evaluate p) && decide (0 ≤ 1 * p2.evaluate p)) := by
    intro p
    have := cellRegion_halfspaces g g1 cell c1 _ _ p1 p2 hk1 hold (by rw [i1]; exact hat1)
      (by rw [i2]; exact hat2) p
    rw [s1, s2] at this
    exact this
  have r2 : ∀ p, cellRegion g1 c2 p = (cellRegion g cell p &&
      decide (0 ≤ -1 * p1.evaluate p) && decide (0 ≤ -1 * p2.evaluate p)) := by
    intro p
    have := cellRegion_halfspaces g g1 cell c2 _ _ p1 p2 hk2 hold (by rw [i3]; exact hat1)
      (by rw [i4]; exact hat2) p
    rw [s3, s4] at this
    exact this
  have r3 : ∀ p, cellRegion g1 c3 p = (cellRegion g cell p &&
      decide (0 ≤ -1 * p1.evaluate p) && decide (0 ≤ 1 * p2.evaluate p)) := by
    intro p
    have := cellRegion_halfspaces g g1 cell c3 _ _ p1 p2 hk3 hold (by rw [i3]; exact hat1)
      (by rw [i2]; exact hat2) p
    rw [s3, s2] at this
    exact this
  have hnn : (- -1 : F) = 1 := neg_neg 1
  refine ⟨g1, p1, p2, c0, c1, c2, c3, hrun, hat1, hat2, ?_, ?_, ?_, ?_, ?_, ?_,
    r0, r1, r2, r3, ?_, ?_, ?_, ?_, ?_⟩
  · intro p
    exact ⟨(sector_planes_rotate p1 p2 hsh1 hsh2 p).1, (sector_planes_rotate p1 p2 hsh1 hsh2 p).2.1⟩
  · intro x y p
    exact wedge_rotate p1 p2 hsh1 hsh2 x y p
  · rw [hf0, Option.some_bind, hc0]
  · rw [hf1, Option.some_bind, hc1]
  · rw [hf2, Option.some_bind, hc2]
  · rw [hf3, Option.some_bind, hc3]
  · intro p
    rw [r1 p, r0 (rotate p)]
    exact sector_rotate p1 p2 hsh1 hsh2 1 1 _ _ p (hinv p)
  · intro p
    rw [r0 p, r2 (rotate p)]
    exact sector_rotate p1 p2 hsh1 hsh2 1 (-1) _ _ p (hinv p)
  · intro p
    rw [r2 p, r3 (rotate p)]
    have := sector_rotate p1 p2 hsh1 hsh2 (-1) (-1) _ _ p (hinv p)
    rw [hnn] at this
    exact this
  · intro p
    rw [r3 p, r1 (rotate p)]
    have := sector_rotate p1 p2 hsh1 hsh2 (-1) 1 _ _ p (hinv p)
    rw [hnn] at this
    exact this
  · intro c p h
    exact cellContains_eq_region g1 c p h

/-- The constraint of the unit disk of `sectorsGeometry` is invariant under the
rotation. -/
theorem disk_region_rotate (S : Int) (p : ℚ × ℚ) :
    cellRegion (sectorsGeometry ℚ S) (CellBasic 1 0 1 [-1] 1 0 S) (rotate p) =
      cellRegion (sectorsGeometry ℚ S) (CellBasic 1 0 1 [-1] 1 0 S) p := by
  have hk : IntMap.keys (CellBasic 1 0 1 [-1] 1 0 S).surfaces = [-1] := rfl
  have hs : surfaceAt (sectorsGeometry ℚ S) (iabs (-1)) =
      some (Circle 1 .BOUNDARY_NONE 0 0 1) := rfl
  simp only [cellRegion, hk, List.all_cons, List.all_nil, hs, Bool.and_true, Surface.evaluate,
    Circle, rotate]
  congr 2
  ring

theorem sectorsDone_run :
    addCell (fun x => x) 2 (sectorsGeometry ℚ 4) 0 = .ok () sectorsDone := rfl

theorem sectorsDone_resolved :
    sectorsDone.cellObjs.all (fun c => pointersResolved sectorsDone c) = true := by decide

theorem mem_of_find_bind (g : Geometry F) (k : Int) (c : Cell)
    (h : (IntMap.find g.cells k).bind (fun b => g.cellObjs[b]?) = some c) :
    c ∈ g.cellObjs := by
  cases hf : IntMap.find g.cells k with
  | none => simp [hf] at h
  | some b =>
    rw [hf, Option.some_bind] at h
    exact List.mem_iff_getElem?.mpr ⟨b, h⟩

end RotLemmas

section ShapeLemmas

variable {F : Type} [LinearOrderedField F]

theorem RingInv.inv_fresh (g : Geometry F) (a : Addr) (u m : Int) (h : RingInv g a u m) :
    FreshIds g := fun k hk => ⟨h.fresh_s k hk, h.fresh_c k hk⟩

theorem keys_ring_first (i u m : Int) :
    IntMap.keys (CellBasic i u 1 [-1 * i] m 0 0).surfaces = [-i] := by
  simp [CellBasic, IntMap.insert, IntMap.keys]

theorem keys_ring_next (i old u m : Int) (h : -i < old) :
    IntMap.keys (CellBasic i u 2 [old, -1 * i] m 0 0).surfaces = [-i, old] := by
  have h2 : (2 : Int).toNat = 2 := rfl
  simp [CellBasic, IntMap.insert, IntMap.keys, h2, h]

/-- One ring of the refinement, with the shape of the cell it adds. -/
theorem ring_step_shape (sqrt : F → F) (fuel : Nat) (g : Geometry F) (a : Addr)
    (uid material : Int) (r : F) (spec : Cell) (hinv : RingInv g a uid material)
    (hid : spec.id = g.statics.id) (hu : spec.universe_id = uid)
    (hd : spec.data = .basic material 0 0)
    (hs : ∀ e ∈ spec.surfaces, iabs e.1 = g.statics.id ∨
      ∃ sa, IntMap.find g.surfaces (iabs e.1) = some sa ∧ sa < g.surfaceObjs.length) :
    ∃ g2 objs uobjs,
      addSurface (newSurface g (Circle g.statics.id .BOUNDARY_NONE 0 0 r)).2
          (newSurface g (Circle g.statics.id .BOUNDARY_NONE 0 0 r)).1 = .ok () g2 ∧
      g2.statics.id = g.statics.id ∧
      addCell sqrt (fuel + 1) (bumpId (newCell g2 spec).2) (newCell g2 spec).1 =
        .ok () (afterRing g r objs uobjs) ∧
      objs.length = g.cellObjs.length + 1 ∧ uobjs.length = g.universeObjs.length ∧
      objs.map Cell.shape = g.cellObjs.map Cell.shape ++ [spec.shape] := by
  obtain ⟨g2, objs, uobjs, hadd, hid2, hcell, hl1, hl2⟩ :=
    ring_step sqrt fuel g a uid material r spec hinv hid hu hd hs
  refine ⟨g2, objs, uobjs, hadd, hid2, hcell, hl1, hl2, ?_⟩
  have hgen := addSurface_generated g (Circle g.statics.id .BOUNDARY_NONE 0 0 r)
    (RingInv.inv_fresh g a uid material hinv) rfl rfl
  rw [hgen] at hadd
  have e2 : g2 = withSurface g (Circle g.statics.id .BOUNDARY_NONE 0 0 r) := by
    injection hadd with _ h
    exact h.symm
  have hc : (bumpId (newCell g2 spec).2).cellObjs[(newCell g2 spec).1]? =
      some { spec with uid := g2.statics.cell_n } := by
    simp [bumpId, newCell]
  have hnew : IntMap.find (bumpId (newCell g2 spec).2).cells
      ({ spec with uid := g2.statics.cell_n } : Cell).id = none := by
    rw [e2]
    exact hid ▸ hinv.fresh_c g.statics.id (le_refl _)
  rcases addCell_head sqrt fuel _ _ _ hc hnew with ⟨e, s, h1, _⟩ | ⟨g4, hp, h2⟩
  · rw [hcell] at h1
    exact Outcome.noConfusion h1
  · rw [hcell] at h2
    simp [hd, refineCell] at h2
    have e4 : afterRing g r objs uobjs = g4 := h2
    have h5 := hp.cell_shapes
    rw [← e4, e2] at h5
    have h6 : (bumpId (newCell (withSurface g (Circle g.statics.id .BOUNDARY_NONE 0 0 r))
        spec).2).cellObjs = g.cellObjs ++ [{ spec with uid := g.statics.cell_n }] := rfl
    rw [h6, List.map_append] at h5
    exact h5

theorem ringShape_zero (u m id0 : Int) :
    ringShape u m id0 0 = (id0, u, [-id0], .basic m 0 0) := by
  simp [ringShape]

theorem ringShape_succ (u m id0 : Int) (j : Nat) :
    ringShape u m id0 (j + 1) = (id0 + 1 + j, u, [-(id0 + 1 + j), id0 + j], .basic m 0 0) := by
  have h1 : id0 + ((j + 1 : Nat) : Int) = id0 + 1 + j := by push_cast; ring
  have h2 : id0 + 1 + (j : Int) - 1 = id0 + j := by ring
  simp only [ringShape, h1, h2, Nat.succ_ne_zero, if_false]

theorem RingCells.cells_zero (g : Geometry F) (shape : Nat → Int × Int × List Int × CellData) :
    RingCells g g 0 shape :=
  ⟨by simp, fun j hj => absurd hj (Nat.not_lt_zero j)⟩

/-- A ring cell followed by `n` ring cells makes `n + 1` ring cells. -/
theorem RingCells.cells_cons (g g1 : Geometry F) (a : Addr) (uid material : Int) (r : F)
    (objs : List Cell) (uobjs : List (Universe F)) (n : Nat)
    (shape shape1 : Nat → Int × Int × List Int × CellData)
    (hinv : RingInv g a uid material)
    (hl1 : objs.length = g.cellObjs.length + 1)
    (hsh : objs.map Cell.shape = g.cellObjs.map Cell.shape ++ [shape 0])
    (hpres : ∀ k v, IntMap.find (afterRing g r objs uobjs).cells k = some v →
      IntMap.find g1.cells k = some v)
    (h : RingCells (afterRing g r objs uobjs) g1 n shape1)
    (h1 : ∀ j, shape1 j = shape (j + 1)) : RingCells g g1 (n + 1) shape := by
  obtain ⟨ha, hb⟩ := h
  constructor
  · have e1 : (afterRing g r objs uobjs).cellObjs = objs := rfl
    rw [ha, e1, hsh, List.append_assoc, List.range_succ_eq_map, List.map_cons, List.map_map]
    congr 1
    rw [List.singleton_append]
    congr 1
    apply List.map_congr_left
    intro j _
    exact h1 j
  · intro j hj
    cases j with
    | zero =>
      have hnew : IntMap.find (afterRing g r objs uobjs).cells g.statics.id =
          some g.cellObjs.length :=
        IntMap.find_insert_self _ _ _ (hinv.fresh_c _ (le_refl _))
      simpa using hpres _ _ hnew
    | succ j =>
      have := hb j (Nat.lt_of_succ_lt_succ hj)
      have e1 : (afterRing g r objs uobjs).statics.id = g.statics.id + 1 := rfl
      have e2 : (afterRing g r objs uobjs).cellObjs.length = g.cellObjs.length + 1 := hl1
      rw [e1, e2] at this
      have hcast : g.statics.id + ((j + 1 : Nat) : Int) = g.statics.id + 1 + (j : Int) := by
        push_cast; ring
      rw [hcast, this]
      congr 1
      omega

theorem loopShape_succ (u m id0 : Int) (j : Nat) :
    loopShape u m (id0 + 1) j = loopShape u m id0 (j + 1) := by
  have h1 : id0 + ((j + 1 : Nat) : Int) = id0 + 1 + j := by push_cast; ring
  simp only [loopShape, h1]

theorem ringShape_loop (u m id0 : Int) (j : Nat) :
    loopShape u m (id0 + 1) j = ringShape u m id0 (j + 1) := by
  rw [ringShape_succ]
  have h2 : id0 + 1 + (j : Int) - 1 = id0 + j := by ring
  simp only [loopShape, h2]

theorem shape_first_cell (i u m : Int) :
    (CellBasic i u 1 [-1 * i] m 0 0).shape = ringShape u m i 0 := by
  rw [ringShape_zero]
  show ((CellBasic i u 1 [-1 * i] m 0 0).id, (CellBasic i u 1 [-1 * i] m 0 0).universe_id,
    IntMap.keys (CellBasic i u 1 [-1 * i] m 0 0).surfaces,
    (CellBasic i u 1 [-1 * i] m 0 0).data.erase) = _
  rw [keys_ring_first]
  rfl

theorem shape_loop_cell (i old u m : Int) (hold : old + 1 = i) (hpos : 0 < old) :
    (CellBasic i u 2 [old, -1 * i] m 0 0).shape = loopShape u m i 0 := by
  show ((CellBasic i u 2 [old, -1 * i] m 0 0).id, (CellBasic i u 2 [old, -1 * i] m 0 0).universe_id,
    IntMap.keys (CellBasic i u 2 [old, -1 * i] m 0 0).surfaces,
    (CellBasic i u 2 [old, -1 * i] m 0 0).data.erase) = _
  rw [keys_ring_next i old u m (by omega)]
  have h1 : old = i - 1 := by omega
  simp [loopShape, CellBasic, CellData.erase, h1]

/-- The ring loop runs through and adds one ring per pass; the cells it adds have the
shapes `loopShape`. -/
theorem ringLoop_shape (sqrt : F → F) (fuel : Nat) (a : Addr) (uid material : Int) (dr2 : F) :
    ∀ (n : Nat) (g : Geometry F) (rold : F) (old_id : Int) (s0 : Addr),
      RingInv g a uid material → 0 < old_id → old_id + 1 = g.statics.id →
      (∃ so, IntMap.find g.surfaces old_id = some so ∧ so < g.surfaceObjs.length) →
      ∃ last g1,
        ringLoop (addCell sqrt (fuel + 1)) sqrt uid material 0 dr2 n g rold old_id s0 =
          .ok last g1 ∧
        RingInv g1 a uid material ∧
        RingsAdded g g1 n (fun j => loopRadius sqrt dr2 (j + 1) rold) ∧
        last.1 + 1 = g.statics.id + n ∧
        RingCells g g1 n (loopShape uid material g.statics.id) := by
  intro n
  induction n with
  | zero =>
    intro g rold old_id s0 hinv _ hold _
    exact ⟨(old_id, s0), g, rfl, hinv, RingsAdded.zero g _, by simpa using hold,
      RingCells.cells_zero g _⟩
  | succ n ih =>
    intro g rold old_id s0 hinv hold hnext hreg
    have hpos := hinv.pos
    obtain ⟨g2, objs, uobjs, hadd, hid2, hcell, hl1, hl2, hsh⟩ :=
      ring_step_shape sqrt fuel g a uid material (sqrt (rold * rold + dr2))
        (CellBasic g.statics.id uid 2 [old_id, -1 * g.statics.id] material 0 0) hinv rfl rfl rfl
        (by
          intro e he
          have hm := CellBasic_surfaces_mem _ _ _ _ _ _ _ e he
          rcases List.mem_cons.mp hm with h | h
          · rw [h, iabs_pos _ hold]
            exact Or.inr hreg
          · rw [List.mem_singleton.mp h, iabs_neg _ hpos]
            exact Or.inl rfl)
    have hinv4 := RingInv.afterRing g a uid material (sqrt (rold * rold + dr2)) objs uobjs hinv
      hl1 hl2
    obtain ⟨last, g1, hloop, hinv1, hadded, hlast, hcells⟩ :=
      ih (afterRing g (sqrt (rold * rold + dr2)) objs uobjs)
      (sqrt (rold * rold + dr2)) g.statics.id
      (newSurface g (Circle g.statics.id .BOUNDARY_NONE 0 0 (sqrt (rold * rold + dr2)))).1
      hinv4 hpos rfl
      ⟨g.surfaceObjs.length, IntMap.find_insert_self _ _ _ (hinv.fresh_s _ (le_refl _)), by
        simp [OpenMOC.afterRing]⟩
    rw [shape_loop_cell _ _ _ _ hnext hold] at hsh
    refine ⟨last, g1, ?_, hinv1,
      RingsAdded.cons g g1 a uid material _ objs uobjs n _ hinv hadded rfl, ?_,
      RingCells.cells_cons g g1 a uid material _ objs uobjs n _ _ hinv hl1 hsh hadded.2.2.2.1 hcells
        (loopShape_succ uid material g.statics.id)⟩
    · show (addSurface (newSurface g (Circle g.statics.id .BOUNDARY_NONE 0 0
          (sqrt (rold * rold + dr2)))).2
        (newSurface g (Circle g.statics.id .BOUNDARY_NONE 0 0
          (sqrt (rold * rold + dr2)))).1).bind (fun _ g2 =>
          (addCell sqrt (fuel + 1)
            (bumpId (newCell g2 (CellBasic g2.statics.id uid 2 [old_id, -1 * g2.statics.id]
              material 0 0)).2)
            (newCell g2 (CellBasic g2.statics.id uid 2 [old_id, -1 * g2.statics.id]
              material 0 0)).1).bind fun _ g4 =>
          ringLoop (addCell sqrt (fuel + 1)) sqrt uid material 0 dr2 n g4
            (sqrt (rold * rold + dr2)) g2.statics.id
            (newSurface g (Circle g.statics.id .BOUNDARY_NONE 0 0
              (sqrt (rold * rold + dr2)))).1) = _
      rw [hadd, Outcome.bind_ok, hid2, hcell, Outcome.bind_ok, hloop]
    · have e1 : (afterRing g (sqrt (rold * rold + dr2)) objs uobjs).statics.id =
          g.statics.id + 1 := rfl
      rw [e1] at hlast
      rw [hlast]
      push_cast
      ring

/-- Ring refinement of a disk (lines 371-444) runs through; with `n` passes of its loop
it adds `n + 1` rings, whose cells have the shapes `ringShape`, and then enters
the outside of the last circle into the refined cell. -/
theorem addRingsDisk_shape (sqrt : F → F) (fuel : Nat) (g : Geometry F) (a : Addr)
    (uid material t : Int) (k0 : Int) (p : Option Addr) (rest : IntMap (Option Addr))
    (r0 : F) (hinv : RingInv g a uid material)
    (hr : circleRadius g (iabs k0) = .ok r0 g) :
    ∃ g5 c5 sa,
      addRingsDisk (addCell sqrt (fuel + 1)) sqrt a ((k0, p) :: rest) uid material 0 t g =
        .ok () { g5 with cellObjs :=
          g5.cellObjs.set a (c5.addSurface (g.statics.id + (t - 2).toNat) sa) } ∧
      g5.cellObjs[a]? = some c5 ∧
      RingsAdded g g5 ((t - 2).toNat + 1)
        (fun j => loopRadius sqrt ((r0 * r0) / (t : F)) j (r0 / sqrt (t : F))) ∧
      RingCells g g5 ((t - 2).toNat + 1) (ringShape uid material g.statics.id) := by
  have hpos := hinv.pos
  obtain ⟨g2, objs, uobjs, hadd, hid2, hcell, hl1, hl2, hsh⟩ :=
    ring_step_shape sqrt fuel g a uid material (r0 / sqrt (t : F))
      (CellBasic g.statics.id uid 1 [-1 * g.statics.id] material 0 0) hinv rfl rfl rfl
      (by
        intro e he
        have hm := CellBasic_surfaces_mem _ _ _ _ _ _ _ e he
        rw [List.mem_singleton.mp hm, iabs_neg _ hpos]
        exact Or.inl rfl)
  have hinv4 := RingInv.afterRing g a uid material (r0 / sqrt (t : F)) objs uobjs hinv hl1 hl2
  obtain ⟨last, g5, hloop, hinv5, hadded, hlast, hcells⟩ := ringLoop_shape sqrt fuel a uid material
    ((r0 * r0) / (t : F)) (t - 2).toNat (afterRing g (r0 / sqrt (t : F)) objs uobjs)
    (r0 / sqrt (t : F)) g.statics.id
    (newSurface g (Circle g.statics.id .BOUNDARY_NONE 0 0 (r0 / sqrt (t : F)))).1
    hinv4 hpos rfl
    ⟨g.surfaceObjs.length, IntMap.find_insert_self _ _ _ (hinv.fresh_s _ (le_refl _)), by
      simp [OpenMOC.afterRing]⟩
  obtain ⟨c5, h5⟩ : ∃ c, g5.cellObjs[a]? = some c :=
    ⟨_, List.getElem?_eq_getElem hinv5.cell⟩
  have hlast1 : last.1 = g.statics.id + ((t - 2).toNat : Int) := by
    have e1 : (afterRing g (r0 / sqrt (t : F)) objs uobjs).statics.id = g.statics.id + 1 := rfl
    rw [e1] at hlast
    omega
  rw [shape_first_cell] at hsh
  refine ⟨g5, c5, last.2, ?_, h5,
    RingsAdded.cons g g5 a uid material _ objs uobjs _
      (fun j => loopRadius sqrt ((r0 * r0) / (t : F)) j (r0 / sqrt (t : F))) hinv hadded rfl,
    RingCells.cells_cons g g5 a uid material _ objs uobjs _ _ _ hinv hl1 hsh hadded.2.2.2.1 hcells
      (ringShape_loop uid material g.statics.id)⟩
  rw [← hlast1]
  show (circleRadius g (iabs k0)).bind _ = _
  rw [hr, Outcome.bind_ok]
  show (addSurface (newSurface g (Circle g.statics.id .BOUNDARY_NONE 0 0
      (r0 / sqrt (t : F)))).2
    (newSurface g (Circle g.statics.id .BOUNDARY_NONE 0 0 (r0 / sqrt (t : F)))).1).bind
      (fun _ g2 =>
        (addCell sqrt (fuel + 1)
          (bumpId (newCell g2 (CellBasic g.statics.id uid 1 [-1 * g.statics.id]
            material 0 0)).2)
          (newCell g2 (CellBasic g.statics.id uid 1 [-1 * g.statics.id]
            material 0 0)).1).bind fun _ g4 =>
        (ringLoop (addCell sqrt (fuel + 1)) sqrt uid material 0 ((r0 * r0) / (t : F))
          (t - 2).toNat g4 (r0 / sqrt (t : F)) g.statics.id
          (newSurface g (Circle g.statics.id .BOUNDARY_NONE 0 0
            (r0 / sqrt (t : F)))).1).bind fun last g5 =>
        cellAddSurface a last.1 last.2 g5) = _
  rw [hadd, Outcome.bind_ok, hcell, Outcome.bind_ok, hloop, Outcome.bind_ok]
  simp only [cellAddSurface, h5]

/-- The keys of a cell with the one key `k0` after a larger key has been entered. -/
theorem keys_addSurface_single (c : Cell) (k0 k : Int) (sa : Addr)
    (hk : IntMap.keys c.surfaces = [k0]) (hlt : k0 < k) :
    IntMap.keys (c.addSurface k sa).surfaces = [k0, k] := by
  unfold IntMap.keys at hk
  obtain ⟨e, he, he1⟩ : ∃ e, c.surfaces = [e] ∧ e.1 = k0 := by
    match hc : c.surfaces, hk with
    | [e], h =>
      simp only [List.map_cons, List.map_nil, List.cons.injEq, and_true] at h
      exact ⟨e, rfl, h⟩
  obtain ⟨k1, q⟩ := e
  simp only at he1
  subst he1
  have h1 : ¬ k < k1 := by omega
  have h2 : ¬ k = k1 := by omega
  simp [Cell.addSurface, he, IntMap.insert, IntMap.keys, h1, h2]

/-- The function `addCell` on a material cell bounded by one circle, with
`num_rings = R > 0` and no sectors: the constraints of the cells after the
refinement. -/
theorem addCell_disk_shape (sqrt : F → F) (fuel : Nat) (g : Geometry F) (a : Addr)
    (cell : Cell) (material : Int) (R : Nat) (k0 : Int) (p : Option Addr) (r0 : F)
    (hcell : g.cellObjs[a]? = some cell) (hdata : cell.data = .basic material R 0)
    (hR : 0 < R) (hsurf : cell.surfaces = [(k0, p)])
    (hr : circleRadius g (iabs k0) = .ok r0 g)
    (hmat : (IntMap.find g.materials material).isSome = true)
    (hnew : IntMap.find g.cells cell.id = none)
    (hpos : 0 < g.statics.id) (hid : cell.id < g.statics.id)
    (hfresh : ∀ k, g.statics.id ≤ k →
      IntMap.find g.surfaces k = none ∧ IntMap.find g.cells k = none)
    (huniv : ∀ ua, IntMap.find g.universes cell.universe_id = some ua →
      ua < g.universeObjs.length) :
    ∃ g1, addCell sqrt (fuel + 2) g a = .ok () g1 ∧
      g1.cellObjs.length = g.cellObjs.length + R ∧
      (∀ j : Nat, j < R → ∃ c s r,
        (IntMap.find g1.cells (g.statics.id + j)).bind (fun b => g1.cellObjs[b]?) = some c ∧
        c.id = g.statics.id + j ∧ c.universe_id = cell.universe_id ∧
        c.data = .basic material 0 0 ∧
        IntMap.keys c.surfaces =
          (if j = 0 then [-g.statics.id] else [-(g.statics.id + j), g.statics.id + j - 1]) ∧
        surfaceAt g1 (g.statics.id + j) = some s ∧ s.shape = .circle 0 0 r) ∧
      ∃ c, (IntMap.find g1.cells cell.id).bind (fun b => g1.cellObjs[b]?) = some c ∧
        c.id = cell.id ∧ c.universe_id = cell.universe_id ∧ c.data = .basic material R 0 ∧
        IntMap.keys c.surfaces = [k0, g.statics.id + R - 1] := by
  obtain ⟨s0, x, y, hs0, hsh0⟩ := circleRadius_surfaceAt g _ r0 g hr
  obtain ⟨sa, hsa, hsalt⟩ := surfaceAt_lt g _ s0 hs0
  obtain ⟨g4, hp, heq, ua, hua, hualt⟩ :=
    addCell_head_ok sqrt (fuel + 1) g a cell material R 0 hcell hnew hdata hmat
      (by
        intro e he
        rw [hsurf, List.mem_singleton] at he
        rw [he]
        exact ⟨sa, hsa, hsalt⟩) huniv
  have ha : a < g.cellObjs.length := by
    by_contra hcon
    rw [List.getElem?_eq_none (Nat.le_of_not_lt hcon)] at hcell
    exact Option.noConfusion hcell
  have hlen4 : g4.cellObjs.length = g.cellObjs.length := by
    have := congrArg List.length hp.cell_shapes
    simpa using this
  have hinv : RingInv g4 a cell.universe_id material := by
    refine ⟨⟨ua, hua, hualt⟩, by rw [hp.materials]; exact hmat, ?_, ?_,
      by rw [hp.statics_id]; exact hpos, by rw [hlen4]; exact ha⟩
    · intro k hk
      rw [hp.surfaces]
      exact (hfresh k (by rw [← hp.statics_id]; exact hk)).1
    · intro k hk
      rw [hp.statics_id] at hk
      rw [hp.cells, IntMap.find_insert_ne _ _ _ _ (by omega)]
      exact (hfresh k hk).2
  have hsame : ∀ k, surfaceAt g4 k = surfaceAt g k := by
    intro k
    unfold surfaceAt
    rw [hp.surfaces, hp.surfaceObjs]
  have hr4 : circleRadius g4 (iabs k0) = .ok r0 g4 :=
    surfaceAt_circleRadius g4 _ s0 x y r0 (by rw [hsame]; exact hs0) hsh0
  obtain ⟨g5, c5, sa5, hrings, hc5, hadded, hcells⟩ := addRingsDisk_shape sqrt fuel g4 a
    cell.universe_id material ((R : Int) + 1) k0 p [] r0 hinv hr4
  have hn : (((R : Int) + 1 - 2).toNat + 1 : Nat) = R := by omega
  have hn1 : ((((R : Int) + 1 - 2).toNat : Nat) : Int) = (R : Int) - 1 := by omega
  rw [hn] at hadded hcells
  rw [hn1, hp.statics_id] at hrings
  obtain ⟨hshapes, hreg⟩ := hcells
  rw [hp.cell_shapes, hp.statics_id] at hshapes
  rw [hp.statics_id, hlen4] at hreg
  obtain ⟨_, _, _, hpres, _, hcirc⟩ := hadded
  rw [hp.statics_id] at hcirc
  have hlen5 : g5.cellObjs.length = g.cellObjs.length + R := by
    have := congrArg List.length hshapes
    simpa using this
  have hk0 : k0 < g.statics.id + (R : Int) - 1 := by
    have hlt : iabs k0 < g.statics.id := by
      by_contra hcon
      rw [(hfresh (iabs k0) (by omega)).1] at hsa
      exact Option.noConfusion hsa
    unfold iabs at hlt
    split at hlt <;> omega
  refine ⟨({ g5 with
    cellObjs := g5.cellObjs.set a (c5.addSurface (g.statics.id + ((R : Int) - 1)) sa5) } :
      Geometry F), ?_, ?_, ?_, ?_⟩
  · have ht : ((R : Int) + 1 > 1) := by omega
    rw [heq]
    simp only [refineCell, ht, if_true, Cell.getNumSurfaces, hsurf, List.length_singleton,
      Nat.cast_one, hrings, Outcome.bind_ok]
    simp
  · show (g5.cellObjs.set a _).length = _
    rw [List.length_set, hlen5]
  · intro j hj
    have h1 : (g5.cellObjs.map Cell.shape)[g.cellObjs.length + j]? =
        some (ringShape cell.universe_id material g.statics.id j) := by
      rw [hshapes, List.getElem?_append_right (by simp), List.length_map,
        Nat.add_sub_cancel_left, List.getElem?_map, List.getElem?_range hj]
      rfl
    obtain ⟨c, hc, e1, e2, e3, e4⟩ := getElem?_of_map_shape _ _ _ h1
    obtain ⟨_, s, hs1, hs2⟩ := hcirc j hj
    refine ⟨c, s, _, ?_, e1, e2, CellData.erase_basic _ _ _ _ e4, e3, hs1, hs2⟩
    show (IntMap.find g5.cells (g.statics.id + j)).bind
      (fun b => (g5.cellObjs.set a _)[b]?) = some c
    have hne : a ≠ g.cellObjs.length + j :=
      Nat.ne_of_lt (Nat.lt_of_lt_of_le ha (Nat.le_add_right _ _))
    rw [hreg j hj, Option.some_bind, List.getElem?_set_ne hne, hc]
  · obtain ⟨c5a, hc5a, hs5⟩ := shape_getElem? g.cellObjs g5.cellObjs _ hshapes a cell hcell
    rw [hc5] at hc5a
    have e5 : c5 = c5a := Option.some.inj hc5a
    subst e5
    have hk5 : IntMap.keys c5.surfaces = [k0] := by
      have := congrArg (fun x => x.2.2.1) hs5
      simp only [Cell.shape] at this
      rw [this, hsurf]
      rfl
    have hd5 : c5.data = .basic material R 0 := by
      apply CellData.erase_basic
      have : c5.data.erase = cell.data.erase := congrArg (fun x => x.2.2.2) hs5
      rw [this, hdata]
      rfl
    refine ⟨c5.addSurface (g.statics.id + ((R : Int) - 1)) sa5, ?_, congrArg Prod.fst hs5,
      congrArg (fun x => x.2.1) hs5, hd5, ?_⟩
    · have hfa : IntMap.find g5.cells cell.id = some a :=
        hpres _ _ (by rw [hp.cells]; exact IntMap.find_insert_self _ _ _ hnew)
      show (IntMap.find g5.cells cell.id).bind (fun b => (g5.cellObjs.set a _)[b]?) = some _
      have hlt5 : a < g5.cellObjs.length := by
        rw [hlen5]
        exact Nat.lt_of_lt_of_le ha (Nat.le_add_right _ _)
      rw [hfa, Option.some_bind, List.getElem?_set_self hlt5]
    · have := keys_addSurface_single c5 k0 (g.statics.id + ((R : Int) - 1)) sa5 hk5 (by omega)
      rw [this]
      congr 2
      ring

end ShapeLemmas

section RevLemmas

variable {F : Type} [LinearOrderedField F]

/-- The radii that `addCell` generates for a cell between an inner circle `ki` of
radius `ri` and an outer circle `ko` of radius `ro`, when the inner circle has the
smaller id: the generated radii follow the formula with the inner radius as the
start, and each lies strictly between the two radii. -/
theorem addCell_annulus_between (fuel : Nat) (g : Geometry ℝ) (a : Addr) (cell : Cell)
    (m R S : Int) (e1 e2 : Int × Option Addr) (ki ko : Int) (ri ro : ℝ) (g1 : Geometry ℝ)
    (hf : FreshIds g) (hc : g.cellObjs[a]? = some cell)
    (hnew : IntMap.find g.cells cell.id = none) (hid : cell.id < g.statics.id)
    (hd : cell.data = .basic m R S) (hR : 0 < R) (hsurf : cell.surfaces = [e1, e2])
    (hkeys : (iabs e1.1 = ki ∧ iabs e2.1 = ko) ∨ (iabs e1.1 = ko ∧ iabs e2.1 = ki))
    (hri : circleRadius g ki = .ok ri g) (hro : circleRadius g ko = .ok ro g)
    (h0 : 0 ≤ ri) (hlt : ri < ro) (hk : ki < ko)
    (hrun : addCell Real.sqrt fuel g a = .ok () g1) :
    circleRadii (newSurfaces g g1) = ((List.range R.toNat).map fun (j : Nat) =>
      Real.sqrt (ri ^ 2 + ((j : ℝ) + 1) * (ro ^ 2 - ri ^ 2) / ((R : ℝ) + 1))) ∧
    ∀ r ∈ circleRadii (newSurfaces g g1), ri < r ∧ r < ro := by
  have hin : (if iabs e1.1 < iabs e2.1 then iabs e1.1 else iabs e2.1) = ki := by
    rcases hkeys with ⟨h1, h2⟩ | ⟨h1, h2⟩
    · rw [h1, h2, if_pos hk]
    · rw [h1, h2, if_neg (by omega)]
  have hout : (if iabs e1.1 < iabs e2.1 then iabs e2.1 else iabs e1.1) = ko := by
    rcases hkeys with ⟨h1, h2⟩ | ⟨h1, h2⟩
    · rw [h1, h2, if_pos hk]
    · rw [h1, h2, if_neg (by omega)]
  have h := addCell_annulus_radii fuel g a cell m R S e1 e2 ri ro g1 hf hc hnew hid hd hR hsurf
    (by rw [hin]; exact hri) (by rw [hout]; exact hro) hrun
  refine ⟨h, ?_⟩
  intro r hr
  rw [h] at hr
  obtain ⟨j, hj, hjr⟩ := List.mem_map.mp hr
  rw [List.mem_range] at hj
  have hjR : ((j : ℝ) + 1) ≤ (R : ℝ) := by
    have h1 : ((j + 1 : Nat) : Int) ≤ R := by omega
    have h2 : (((j + 1 : Nat) : Int) : ℝ) ≤ (R : ℝ) := Int.cast_le.mpr h1
    push_cast at h2
    exact h2
  have hRpos : (0 : ℝ) < (R : ℝ) + 1 := by
    have : (0 : ℝ) < (R : ℝ) := Int.cast_pos.mpr hR
    linarith
  have hjpos : (0 : ℝ) < (j : ℝ) + 1 := by positivity
  have hd2 : 0 < ro ^ 2 - ri ^ 2 := by nlinarith
  have hq : 0 < ((j : ℝ) + 1) * (ro ^ 2 - ri ^ 2) / ((R : ℝ) + 1) :=
    div_pos (mul_pos hjpos hd2) hRpos
  have hq2 : ((j : ℝ) + 1) * (ro ^ 2 - ri ^ 2) / ((R : ℝ) + 1) < ro ^ 2 - ri ^ 2 := by
    rw [div_lt_iff₀ hRpos]
    nlinarith
  have hro0 : 0 ≤ ro := by linarith
  rw [← hjr]
  constructor
  · calc ri = Real.sqrt (ri ^ 2) := (Real.sqrt_sq h0).symm
      _ < _ := Real.sqrt_lt_sqrt (by positivity) (by linarith)
  · calc Real.sqrt (ri ^ 2 + ((j : ℝ) + 1) * (ro ^ 2 - ri ^ 2) / ((R : ℝ) + 1))
        < Real.sqrt (ro ^ 2) := Real.sqrt_lt_sqrt (by positivity) (by linarith)
      _ = ro := Real.sqrt_sq hro0

/-- The cell that lies inside the circle at address 1, a circle about the origin, is
the disc of its radius about the origin. -/
theorem cellContains_origin_disc (g1 : Geometry F) (c : Cell) (sh0 : SurfaceShape F) (r : F)
    (hc : c.surfaces = [(-10000, some 1)])
    (hs : g1.surfaceObjs.map (fun s => s.shape) = [sh0, .circle 0 0 r]) (p : F × F) :
    cellContains g1 c p = some (decide (p.1 * p.1 + p.2 * p.2 ≤ r * r)) := by
  obtain ⟨s0, s1, hso, h0, h1⟩ := map_eq_two _ _ _ _ hs
  have e1 : g1.surfaceObjs[1]? = some s1 := by rw [hso]; rfl
  have hneg : ((-10000 : Int) < 0) = True := by decide
  simp only [cellContains, hc, List.foldl_cons, List.foldl_nil, e1, Surface.evaluate, h1,
    hneg, if_true, Bool.true_and, Option.some.injEq, decide_eq_decide]
  constructor <;> intro h <;> nlinarith

/-- The cell that lies inside the circle of radius 1 about (3, 4) at address 0 and
outside a circle about the origin at address 1 whose squared radius is at most 1
is the whole disk of radius 1 about (3, 4). -/
theorem cellContains_shifted_disk (g1 : Geometry F) (c : Cell) (r : F)
    (hc : c.surfaces = [(-1, some 0), (10000, some 1)])
    (hs : g1.surfaceObjs.map (fun s => s.shape) = [.circle 3 4 1, .circle 0 0 r])
    (hr : r * r ≤ 1) (p : F × F) :
    cellContains g1 c p =
      some (decide ((p.1 - 3) * (p.1 - 3) + (p.2 - 4) * (p.2 - 4) ≤ 1)) := by
  obtain ⟨s0, s1, hso, h0, h1⟩ := map_eq_two _ _ _ _ hs
  have e0 : g1.surfaceObjs[0]? = some s0 := by rw [hso]; rfl
  have e1 : g1.surfaceObjs[1]? = some s1 := by rw [hso]; rfl
  have hneg : ((-1 : Int) < 0) = True := by decide
  have hpos : ((10000 : Int) < 0) = False := by decide
  simp only [cellContains, hc, List.foldl_cons, List.foldl_nil, e0, e1, Surface.evaluate, h0,
    h1, hneg, hpos, if_true, if_false, Bool.true_and, Option.some.injEq]
  rw [Bool.eq_iff_iff, Bool.and_eq_true, decide_eq_true_eq, decide_eq_true_eq,
    decide_eq_true_eq]
  constructor
  · intro h
    nlinarith [h.1]
  · intro h
    constructor
    · nlinarith
    · nlinarith [sq_nonneg (p.1 - 1), sq_nonneg (p.2 - 1), mul_self_nonneg p.1,
        mul_self_nonneg p.2]

/-- The area of the disc of radius `r` about `(x0, y0)` in the plane is `pi * r * r`. -/
theorem disc_volume (x0 y0 r : ℝ) (hr : 0 ≤ r) :
    MeasureTheory.volume
        {p : ℝ × ℝ | (p.1 - x0) * (p.1 - x0) + (p.2 - y0) * (p.2 - y0) ≤ r * r} =
      ENNReal.ofReal (Real.pi * (r * r)) := by
  rw [← Complex.volume_preserving_equiv_real_prod.measure_preimage_equiv]
  have hset : Set.preimage Complex.measurableEquivRealProd
      {p : ℝ × ℝ | (p.1 - x0) * (p.1 - x0) + (p.2 - y0) * (p.2 - y0) ≤ r * r} =
      Metric.closedBall (⟨x0, y0⟩ : ℂ) r := by
    ext z
    simp only [Set.mem_preimage, Set.mem_setOf_eq, Complex.measurableEquivRealProd_apply,
      Metric.mem_closedBall, Complex.dist_eq, Complex.abs_apply, Complex.normSq_apply,
      Complex.sub_re, Complex.sub_im]
    rw [Real.sqrt_le_iff]
    constructor
    · intro h
      exact ⟨hr, by rw [pow_two]; exact h⟩
    · intro h
      have := h.2
      rw [pow_two] at this
      exact this
  rw [hset, Complex.volume_closedBall, ← ENNReal.ofReal_pow hr, ← NNReal.coe_real_pi,
    ENNReal.ofReal_mul (NNReal.coe_nonneg _), ENNReal.ofReal_coe_nnreal, mul_comm, pow_two]

/-- The disk of `shiftedDiskGeometry` about (3, 4) is refined without error. -/
theorem shifted_run (sqrt : F → F) :
    (addCell sqrt 3 (shiftedDiskGeometry F 3 4) 0).isOk = true := rfl

theorem shifted_surfaces (sqrt : F → F) :
    (addCell sqrt 3 (shiftedDiskGeometry F 3 4) 0).state.map
        (fun g1 => g1.surfaceObjs.map fun s => (s.id, s.shape)) =
      some [(1, .circle 3 4 1), (10000, .circle 0 0 (1 / sqrt ((2 : Int) : F)))] := rfl

theorem shifted_cells (sqrt : F → F) :
    (addCell sqrt 3 (shiftedDiskGeometry F 3 4) 0).state.map (fun g1 => g1.cells) =
      some [(1, 0), (10000, 1)] := rfl

theorem shifted_cellObjs (sqrt : F → F) :
    (addCell sqrt 3 (shiftedDiskGeometry F 3 4) 0).state.map
        (fun g1 => g1.cellObjs.map fun c => (c.id, c.surfaces)) =
      some [(1, [(-1, some 0), (10000, some 1)]), (10000, [(-10000, some 1)])] := rfl

end RevLemmas

section RegLemmas

variable {F : Type} [LinearOrderedField F]

theorem Carried.carried_refl (u : Int) (a : Addr) (g : Geometry F) : Carried u a g g :=
  ⟨GrowsIds.ids_refl g, GrowsUniv.univ_refl u g, fun _ c h _ => ⟨c, h, rfl⟩⟩

theorem Carried.carried_trans (u : Int) (a : Addr) (g g1 g2 : Geometry F)
    (h1 : Carried u a g g1) (h2 : Carried u a g1 g2) : Carried u a g g2 :=
  ⟨GrowsIds.ids_trans g g1 g2 h1.ids h2.ids, GrowsUniv.univ_trans u g g1 g2 h1.univ h2.univ,
    fun b c hc hb => by
      obtain ⟨c1, hc1, hs1⟩ := h1.keeps b c hc hb
      obtain ⟨c2, hc2, hs2⟩ := h2.keeps b c1 hc1 hb
      exact ⟨c2, hc2, hs2.trans hs1⟩⟩

theorem Member.of_ids (g : Geometry F) (c c1 : Cell) (a : Addr) (h : Member g c a)
    (h1 : c1.universe_id = c.universe_id) (h2 : c1.id = c.id) : Member g c1 a := by
  unfold Member at h ⊢
  rw [h1, h2]
  exact h

theorem shape_fields (c c1 : Cell) (h : c1.shape = c.shape) :
    c1.id = c.id ∧ c1.universe_id = c.universe_id ∧
      IntMap.keys c1.surfaces = IntMap.keys c.surfaces ∧
      ∀ m R S, c.data = .basic m R S → c1.data = .basic m R S := by
  refine ⟨congrArg Prod.fst h, congrArg (fun x => x.2.1) h, congrArg (fun x => x.2.2.1) h, ?_⟩
  intro m R S hd
  apply CellData.erase_basic
  have : c1.data.erase = c.data.erase := congrArg (fun x => x.2.2.2) h
  rw [this, hd]
  rfl

theorem surfaceAt_carried (g g1 : Geometry F) (h : GrowsIds g g1) (k : Int) (s : Surface F)
    (hs : surfaceAt g k = some s) : surfaceAt g1 k = some s := by
  obtain ⟨sa, h1, h2⟩ := surfaceAt_lt g k s hs
  rw [surfaceAt_grows g g1 h k sa h1 h2]
  exact hs

theorem RingCellIn.ring_carried (u : Int) (a : Addr) (g g1 : Geometry F) (h : Carried u a g g1)
    (m S id : Int) (b : Addr) (keys : List Int) (hb : b ≠ a)
    (hc : RingCellIn g u m S id b keys) : RingCellIn g1 u m S id b keys := by
  obtain ⟨c, h1, h2, h3, h4, h5, h6, h7⟩ := hc
  obtain ⟨c1, hc1, hs1⟩ := h.keeps b c h2 hb
  obtain ⟨e1, e2, e3, e4⟩ := shape_fields c c1 hs1
  refine ⟨c1, h.ids.cell_reg _ _ h1, hc1, by rw [e1, h3], by rw [e2, h4], e4 _ _ _ h5, ?_,
    by rw [e3]; exact h7⟩
  apply Member.grows g g1 c1 b (Member.of_ids g c c1 b h6 e2 e1)
  rw [e2, h4]
  exact h.univ

theorem SectorCellIn.sector_carried (u : Int) (a : Addr) (g g1 : Geometry F) (h : Carried u a g g1)
    (m id : Int) (b : Addr) (keys : List Int) (hb : b ≠ a)
    (hc : SectorCellIn g u m id b keys) : SectorCellIn g1 u m id b keys := by
  obtain ⟨c, h1, h2, h3, h4, h5, h7⟩ := hc
  obtain ⟨c1, hc1, hs1⟩ := h.keeps b c h2 hb
  obtain ⟨e1, e2, e3, e4⟩ := shape_fields c c1 hs1
  exact ⟨c1, h.ids.cell_reg _ _ h1, hc1, by rw [e1, h3], by rw [e2, h4], e4 _ _ _ h5,
    by rw [e3]; exact h7⟩

theorem RingIn.rings_carried (u : Int) (a : Addr) (g g1 : Geometry F) (h : Carried u a g g1)
    (m S id : Int) (b : Addr) (hb : a < b) (hr : RingIn g u m S id b) :
    RingIn g1 u m S id b := by
  obtain ⟨⟨s, r, hs, hsh⟩, h1, h2⟩ := hr
  refine ⟨⟨s, r, surfaceAt_carried g g1 h.ids _ _ hs, hsh⟩, ?_, ?_⟩
  · intro hS
    exact RingCellIn.ring_carried u a g g1 h m S id b _ (Nat.ne_of_gt hb) (h1 hS)
  · intro hS
    obtain ⟨⟨p1, hp1, hq1⟩, ⟨p2, hp2, hq2⟩, h3, h4, h5, h6⟩ := h2 hS
    exact ⟨⟨p1, surfaceAt_carried g g1 h.ids _ _ hp1, hq1⟩,
      ⟨p2, surfaceAt_carried g g1 h.ids _ _ hp2, hq2⟩,
      RingCellIn.ring_carried u a g g1 h m 0 id b _ (Nat.ne_of_gt hb) h3,
      SectorCellIn.sector_carried u a g g1 h m _ _ _
        (Nat.ne_of_gt (Nat.lt_of_lt_of_le hb (Nat.le_add_right _ _))) h4,
      SectorCellIn.sector_carried u a g g1 h m _ _ _
        (Nat.ne_of_gt (Nat.lt_of_lt_of_le hb (Nat.le_add_right _ _))) h5,
      SectorCellIn.sector_carried u a g g1 h m _ _ _
        (Nat.ne_of_gt (Nat.lt_of_lt_of_le hb (Nat.le_add_right _ _))) h6⟩

/-- Cell objects keep their shape when the list of shapes is kept up to the place `a`
and an extension. -/
theorem keeps_of_shapes (l l1 : List Cell) (a : Addr)
    (x : Int × Int × List Int × CellData) (rest : List (Int × Int × List Int × CellData))
    (h : l1.map Cell.shape = (l.map Cell.shape).set a x ++ rest)
    (b : Addr) (c : Cell) (hc : l[b]? = some c) (hb : b ≠ a) :
    ∃ c1, l1[b]? = some c1 ∧ c1.shape = c.shape := by
  have hlt : b < l.length := by
    by_contra hcon
    rw [List.getElem?_eq_none (Nat.le_of_not_lt hcon)] at hc
    exact Option.noConfusion hc
  have h1 : (l1.map Cell.shape)[b]? = some c.shape := by
    rw [h, List.getElem?_append_left (by simpa using hlt),
      List.getElem?_set_ne (Ne.symm hb), List.getElem?_map, hc]
    rfl
  rw [List.getElem?_map] at h1
  cases hx : l1[b]? with
  | none => rw [hx] at h1; exact Option.noConfusion h1
  | some c1 =>
    rw [hx] at h1
    exact ⟨c1, rfl, Option.some.inj h1⟩

theorem univ_bound (g : Geometry F) (hok : UnivOK g) (u : Int) (ua : Addr)
    (h : IntMap.find g.universes u = some ua) : ua < g.universeObjs.length := by
  obtain ⟨U, hU, _⟩ := hok.1 u ua h
  by_contra hcon
  rw [List.getElem?_eq_none (Nat.le_of_not_lt hcon)] at hU
  exact Option.noConfusion hU

/-- The call of `addCell` for a cell without rings and with no or four sectors whose
material and surfaces are registered: it returns normally, the cell is registered
and a member of its universe, and with four sectors it is sector-refined. -/
theorem ring_call (sqrt : F → F) (fuel : Nat) (u m S : Int) (G : Geometry F) (c : Addr)
    (spec : Cell) (hS : S ≤ 0 ∨ S = 4) (hf : FreshIds G) (hok : UnivOK G)
    (hc : G.cellObjs[c]? = some spec) (hu : spec.universe_id = u)
    (hd : spec.data = .basic m 0 S) (hnew : IntMap.find G.cells spec.id = none)
    (hid : spec.id < G.statics.id)
    (hmat : (IntMap.find G.materials m).isSome = true)
    (hs : ∀ e ∈ spec.surfaces, ∃ sa, IntMap.find G.surfaces (iabs e.1) = some sa ∧
      sa < G.surfaceObjs.length) :
    ∃ g1, addCell sqrt (fuel + 2) G c = .ok () g1 ∧ FreshIds g1 ∧ UnivOK g1 ∧
      Carried u c G g1 ∧
      g1.statics.id = G.statics.id + (if S = 4 then 5 else 0) ∧
      g1.cellObjs.length = G.cellObjs.length + (if S = 4 then 3 else 0) ∧
      (S ≠ 4 → RingCellIn g1 u m S spec.id c (IntMap.keys spec.surfaces)) ∧
      (S = 4 →
        (∃ p, surfaceAt g1 G.statics.id = some p ∧ p.shape = .plane 1 1 0) ∧
        (∃ p, surfaceAt g1 (G.statics.id + 1) = some p ∧ p.shape = .plane 1 (-1) 0) ∧
        RingCellIn g1 u m 0 spec.id c
          (IntMap.keys spec.surfaces ++ [G.statics.id, -(G.statics.id + 1)]) ∧
        SectorCellIn g1 u m (G.statics.id + 2) G.cellObjs.length
          (IntMap.keys spec.surfaces ++ [G.statics.id, G.statics.id + 1]) ∧
        SectorCellIn g1 u m (G.statics.id + 3) (G.cellObjs.length + 1)
          (IntMap.keys spec.surfaces ++ [-G.statics.id, -(G.statics.id + 1)]) ∧
        SectorCellIn g1 u m (G.statics.id + 4) (G.cellObjs.length + 2)
          (IntMap.keys spec.surfaces ++ [-G.statics.id, G.statics.id + 1])) := by
  have hub : ∀ ua, IntMap.find G.universes spec.universe_id = some ua →
      ua < G.universeObjs.length := fun ua h => univ_bound G hok _ ua h
  rcases hS with hS | hS
  · have hS4 : S ≠ 4 := by omega
    obtain ⟨g4, hp, heq, _⟩ := addCell_head_ok sqrt (fuel + 1) G c spec m 0 S hc hnew hd hmat
      hs hub
    have hrun : addCell sqrt (fuel + 2) G c = .ok () g4 := by
      rw [heq]
      have h1 : ¬ (S > 0) := by omega
      simp [refineCell, h1]
    obtain ⟨hpost, _⟩ := addCell_ok_post sqrt (fuel + 2) G c spec g4 hf hc hnew hid hrun
    obtain ⟨hg, hf4, hreg, _, hun⟩ := hpost
    obtain ⟨hok4, hgu, hmem, _⟩ := hun hok
    have hkeep : ∀ (b : Addr) (cb : Cell), G.cellObjs[b]? = some cb →
        ∃ c1, g4.cellObjs[b]? = some c1 ∧ c1.shape = cb.shape := fun b cb hb =>
      shape_getElem? G.cellObjs g4.cellObjs [] (by rw [List.append_nil]; exact hp.cell_shapes)
        b cb hb
    have hlen : g4.cellObjs.length = G.cellObjs.length := by
      have := congrArg List.length hp.cell_shapes
      simpa using this
    refine ⟨g4, hrun, hf4, hok4, ⟨hg, by rw [← hu]; exact hgu, fun b cb hb _ => hkeep b cb hb⟩,
      by rw [if_neg hS4, hp.statics_id]; simp, by rw [if_neg hS4, hlen]; simp, ?_,
      fun h => absurd h hS4⟩
    intro _
    obtain ⟨c1, hc1, hs1⟩ := hkeep c spec hc
    obtain ⟨e1, e2, e3, e4⟩ := shape_fields spec c1 hs1
    exact ⟨c1, hreg, hc1, e1, by rw [e2, hu], e4 _ _ _ hd, Member.of_ids g4 spec c1 c hmem e2 e1,
      fun k hk => by rw [e3]; exact hk⟩
  · subst hS
    obtain ⟨g1, hrun, hsa⟩ := addCell_sectors_total sqrt fuel G c spec m 0 hf hc hnew hid hd
      (by decide) hmat hs hub
    obtain ⟨hpost, _⟩ := addCell_ok_post sqrt (fuel + 2) G c spec g1 hf hc hnew hid hrun
    obtain ⟨hg, hf1, hreg, _, hun⟩ := hpost
    obtain ⟨hok1, hgu, hmem, _⟩ := hun hok
    obtain ⟨f, g4, cell4, _, hp, hc4, hs4, _, hpost4⟩ :=
      addCell_sectors_post sqrt (fuel + 2) G c spec m 0 g1 hf hc hnew hid hd (by decide) hrun
    obtain ⟨m4, R4, S4, _, hshapes⟩ := hpost4.shapes
    rw [hp.cell_shapes] at hshapes
    obtain ⟨⟨p1, p2, _, _, _, hq1, _, _, hq2, hp1, hp2⟩, _, hobjs,
      c0, c1, c2, c3, ⟨a1, a2, a3, a4, a5, a6⟩, ⟨b1, b2, b3, b4, b5, b6⟩,
      ⟨d1, d2, d3, d4, d5, d6⟩, ⟨f1, f2, f3, f4, f5, f6⟩⟩ := hsa
    refine ⟨g1, hrun, hf1, hok1, ⟨hg, by rw [← hu]; exact hgu, fun b cb hb hne =>
        keeps_of_shapes G.cellObjs g1.cellObjs c _ _ hshapes b cb hb hne⟩,
      by rw [if_pos rfl, hpost4.statics_id, hp.statics_id], by rw [if_pos rfl, hobjs],
      fun h => absurd rfl h, fun _ => ⟨⟨p1, hp1, hq1⟩, ⟨p2, hp2, hq2⟩, ?_, ?_, ?_, ?_⟩⟩
    · refine ⟨c0, a2, a1, a3, by rw [a4, hu], a5, Member.of_ids g1 spec c0 c hmem a4 a3, ?_⟩
      intro k hk
      rw [a6 k]
      simpa [List.mem_append] using hk
    · refine ⟨c1, b2, b1, b3, by rw [b4, hu], b5, ?_⟩
      intro k hk
      rw [b6 k]
      simpa [List.mem_append] using hk
    · refine ⟨c2, d2, d1, d3, by rw [d4, hu], d5, ?_⟩
      intro k hk
      rw [d6 k]
      simpa [List.mem_append] using hk
    · refine ⟨c3, f2, f1, f3, by rw [f4, hu], f5, ?_⟩
      intro k hk
      rw [f6 k]
      simpa [List.mem_append] using hk

theorem RingCellIn.ring_sub_keys (g : Geometry F) (u m S id : Int) (b : Addr)
    (keys keys1 : List Int) (h : RingCellIn g u m S id b keys)
    (hk : ∀ k ∈ keys1, k ∈ keys) : RingCellIn g u m S id b keys1 := by
  obtain ⟨c, h1, h2, h3, h4, h5, h6, h7⟩ := h
  exact ⟨c, h1, h2, h3, h4, h5, h6, fun k hk1 => h7 k (hk k hk1)⟩

theorem SectorCellIn.sector_sub_keys (g : Geometry F) (u m id : Int) (b : Addr)
    (keys keys1 : List Int) (h : SectorCellIn g u m id b keys)
    (hk : ∀ k ∈ keys1, k ∈ keys) : SectorCellIn g u m id b keys1 := by
  obtain ⟨c, h1, h2, h3, h4, h5, h7⟩ := h
  exact ⟨c, h1, h2, h3, h4, h5, fun k hk1 => h7 k (hk k hk1)⟩

theorem CellBasic_keys_mem (id universe_id n : Int) (l : List Int) (material R S : Int)
    (k : Int) (h : k ∈ l.take n.toNat) :
    k ∈ IntMap.keys (CellBasic id universe_id n l material R S).surfaces := by
  show k ∈ IntMap.keys ((l.take n.toNat).foldl (fun m k => IntMap.insert m k none) [])
  rw [IntMap.mem_keys_foldl_insert]
  exact Or.inr h

/-- One ring of the refinement, after its circle has been registered: the ring cell
is allocated and handed to `addCell`, which returns normally and leaves the ring
in place. -/
theorem ring_done (sqrt : F → F) (fuel : Nat) (u m S : Int) (g : Geometry F) (r : F)
    (num : Int) (list : List Int) (hS : S ≤ 0 ∨ S = 4) (hinv : StepInv u m g)
    (hlist : ∀ k ∈ list, iabs k = g.statics.id ∨
      ∃ sa, IntMap.find g.surfaces (iabs k) = some sa ∧ sa < g.surfaceObjs.length)
    (hmem : -g.statics.id ∈ list.take num.toNat) :
    ∃ g1, addCell sqrt (fuel + 2)
        (bumpId (newCell (withSurface g (Circle g.statics.id .BOUNDARY_NONE 0 0 r))
          (CellBasic g.statics.id u num list m 0 S)).2)
        (newCell (withSurface g (Circle g.statics.id .BOUNDARY_NONE 0 0 r))
          (CellBasic g.statics.id u num list m 0 S)).1 = .ok () g1 ∧
      StepInv u m g1 ∧ (∀ x, Carried u x g g1) ∧
      g1.statics.id = g.statics.id + (ringStride S : Nat) ∧
      g1.cellObjs.length = g.cellObjs.length + ringObjects S ∧
      (∃ sa, IntMap.find g1.surfaces g.statics.id = some sa ∧ sa < g1.surfaceObjs.length) ∧
      RingIn g1 u m S g.statics.id g.cellObjs.length := by
  obtain ⟨hf, hok, ⟨ua, hua⟩, hmat, hpos⟩ := hinv
  have hb := BlockPost.of_ring u g (Circle g.statics.id .BOUNDARY_NONE 0 0 r)
    (CellBasic g.statics.id u num list m 0 S) hf rfl rfl rfl rfl
  obtain ⟨G, hG⟩ : ∃ G : Geometry F, G = bumpId (newCell (withSurface g
      (Circle g.statics.id .BOUNDARY_NONE 0 0 r)) (CellBasic g.statics.id u num list m 0 S)).2 :=
    ⟨_, rfl⟩
  obtain ⟨spec, hspec⟩ : ∃ spec : Cell, spec = { CellBasic g.statics.id u num list m 0 S with
      uid := (withSurface g (Circle g.statics.id .BOUNDARY_NONE 0 0 r)).statics.cell_n } :=
    ⟨_, rfl⟩
  rw [← hG] at hb ⊢
  show ∃ g1, addCell sqrt (fuel + 2) G g.cellObjs.length = .ok () g1 ∧ _
  have eid : G.statics.id = g.statics.id + 1 := by rw [hG]; rfl
  have elen : G.cellObjs.length = g.cellObjs.length + 1 := by
    rw [hG]; simp [bumpId, newCell, withSurface]
  have ecells : G.cells = g.cells := by rw [hG]; rfl
  have emat : G.materials = g.materials := by rw [hG]; rfl
  have esurf : G.surfaces = IntMap.insert g.surfaces g.statics.id g.surfaceObjs.length := by
    rw [hG]; rfl
  have eobjs : G.surfaceObjs.length = g.surfaceObjs.length + 1 := by
    rw [hG]; simp [bumpId, newCell, withSurface]
  have hc : G.cellObjs[g.cellObjs.length]? = some spec := by
    rw [hG, hspec]; simp [bumpId, newCell, withSurface]
  have hprev : ∀ (b : Addr) (cb : Cell), g.cellObjs[b]? = some cb →
      G.cellObjs[b]? = some cb ∧ b ≠ g.cellObjs.length := by
    intro b cb hcb
    have hlt : b < g.cellObjs.length := by
      by_contra hcon
      rw [List.getElem?_eq_none (Nat.le_of_not_lt hcon)] at hcb
      exact Option.noConfusion hcb
    refine ⟨?_, Nat.ne_of_lt hlt⟩
    rw [hG]
    show (g.cellObjs ++ _)[b]? = some cb
    rw [List.getElem?_append_left hlt]
    exact hcb
  have hcirc : ∃ s, surfaceAt G g.statics.id = some s ∧ s.shape = .circle 0 0 r := by
    refine ⟨{ Circle g.statics.id .BOUNDARY_NONE 0 0 r with uid := g.statics.surface_n }, ?_,
      rfl⟩
    rw [hG]
    show (IntMap.find (IntMap.insert g.surfaces g.statics.id g.surfaceObjs.length)
      g.statics.id).bind (fun sa => (g.surfaceObjs ++ _)[sa]?) = some _
    rw [IntMap.find_insert_self _ _ _ (hf _ (le_refl _)).1, Option.some_bind]
    simp
  have hs : ∀ e ∈ spec.surfaces, ∃ sa, IntMap.find G.surfaces (iabs e.1) = some sa ∧
      sa < G.surfaceObjs.length := by
    intro e he
    have he1 : e ∈ (CellBasic g.statics.id u num list m 0 S).surfaces := by
      rw [hspec] at he; exact he
    have hm := CellBasic_surfaces_mem _ _ _ _ _ _ _ e he1
    rcases hlist _ hm with h | h
    · obtain ⟨s, hs1, _⟩ := hcirc
      rw [h]
      exact surfaceAt_lt G _ s hs1
    · exact GrowsIds.surface_valid g G hb.1 _ h
  obtain ⟨g1, hrun, hf1, hok1, hcar, hid1, hlen1, hno, hfour⟩ := ring_call sqrt fuel u m S G
    g.cellObjs.length spec hS hb.2.1 (hb.2.2.2 hok).1 hc (by rw [hspec]; rfl)
    (by rw [hspec]; rfl)
    (by rw [ecells, hspec]; exact (hf _ (le_refl _)).2)
    (by rw [eid, hspec]; show g.statics.id < g.statics.id + 1; omega)
    (by rw [emat]; exact hmat) hs
  have hgrow : GrowsIds g g1 := GrowsIds.ids_trans g G g1 hb.1 hcar.ids
  have hguniv : GrowsUniv u g g1 :=
    GrowsUniv.univ_trans u g G g1 (hb.2.2.2 hok).2 hcar.univ
  have hsid : spec.id = g.statics.id := by rw [hspec]; rfl
  have hkey : -g.statics.id ∈ IntMap.keys spec.surfaces := by
    have := CellBasic_keys_mem g.statics.id u num list m 0 S _ hmem
    rw [hspec]
    exact this
  refine ⟨g1, hrun, ⟨hf1, hok1, ⟨ua, by rw [(hguniv.reg_same ua hua).1]; exact hua⟩,
      by rw [hgrow.mats]; exact hmat, lt_of_lt_of_le hpos hgrow.id_le⟩, ?_, ?_, ?_, ?_, ?_⟩
  · intro x
    refine ⟨hgrow, hguniv, ?_⟩
    intro b cb hcb _
    obtain ⟨h1, h2⟩ := hprev b cb hcb
    exact hcar.keeps b cb h1 h2
  · rw [hid1, eid]
    unfold ringStride
    split_ifs <;> push_cast <;> ring
  · rw [hlen1, elen]
    unfold ringObjects
    split_ifs <;> rfl
  · obtain ⟨s, hs1, _⟩ := hcirc
    exact surfaceAt_lt g1 _ s (surfaceAt_carried G g1 hcar.ids _ _ hs1)
  · obtain ⟨s, hs1, hs2⟩ := hcirc
    refine ⟨⟨s, r, surfaceAt_carried G g1 hcar.ids _ _ hs1, hs2⟩, ?_, ?_⟩
    · intro h4
      have := hno h4
      rw [hsid] at this
      refine RingCellIn.ring_sub_keys g1 u m S _ _ _ _ this ?_
      intro k hk
      rw [List.mem_singleton.mp hk]
      exact hkey
    · intro h4
      obtain ⟨hp1, hp2, hr0, hs1, hs2, hs3⟩ := hfour h4
      rw [hsid] at hr0
      rw [eid] at hp1 hp2 hr0 hs1 hs2 hs3
      rw [elen] at hs1 hs2 hs3
      have e2 : g.statics.id + 1 + 1 = g.statics.id + 2 := by ring
      have e3 : g.statics.id + 1 + 2 = g.statics.id + 3 := by ring
      have e4 : g.statics.id + 1 + 3 = g.statics.id + 4 := by ring
      have e5 : g.statics.id + 1 + 4 = g.statics.id + 5 := by ring
      rw [e2] at hp2 hr0 hs1 hs2 hs3
      rw [e3] at hs1
      rw [e4] at hs2
      rw [e5] at hs3
      refine ⟨hp1, hp2, ?_, ?_, ?_, ?_⟩
      · refine RingCellIn.ring_sub_keys g1 u m 0 _ _ _ _ hr0 ?_
        intro k hk
        simp only [List.mem_cons, List.mem_singleton, List.not_mem_nil, or_false] at hk
        rcases hk with h | h | h
        · rw [h]; exact List.mem_append_left _ hkey
        · rw [h]; exact List.mem_append_right _ (by simp)
        · rw [h]; exact List.mem_append_right _ (by simp)
      · refine SectorCellIn.sector_sub_keys g1 u m _ _ _ _ hs1 ?_
        intro k hk
        simp only [List.mem_cons, List.mem_singleton, List.not_mem_nil, or_false] at hk
        rcases hk with h | h | h
        · rw [h]; exact List.mem_append_left _ hkey
        · rw [h]; exact List.mem_append_right _ (by simp)
        · rw [h]; exact List.mem_append_right _ (by simp)
      · refine SectorCellIn.sector_sub_keys g1 u m _ _ _ _ hs2 ?_
        intro k hk
        simp only [List.mem_cons, List.mem_singleton, List.not_mem_nil, or_false] at hk
        rcases hk with h | h | h
        · rw [h]; exact List.mem_append_left _ hkey
        · rw [h]; exact List.mem_append_right _ (by simp)
        · rw [h]; exact List.mem_append_right _ (by simp)
      · refine SectorCellIn.sector_sub_keys g1 u m _ _ _ _ hs3 ?_
        intro k hk
        simp only [List.mem_cons, List.mem_singleton, List.not_mem_nil, or_false] at hk
        rcases hk with h | h | h
        · rw [h]; exact List.mem_append_left _ hkey
        · rw [h]; exact List.mem_append_right _ (by simp)
        · rw [h]; exact List.mem_append_right _ (by simp)

/-- The ring loop runs through; every pass leaves one ring in place. -/
theorem ringLoop_done (sqrt : F → F) (fuel : Nat) (u m S : Int) (a : Addr) (dr2 : F)
    (hS : S ≤ 0 ∨ S = 4) :
    ∀ (n : Nat) (g : Geometry F) (rold : F) (old_id : Int) (s0 : Addr),
      StepInv u m g → a < g.cellObjs.length → 0 < old_id →
      (∃ so, IntMap.find g.surfaces old_id = some so ∧ so < g.surfaceObjs.length) →
      ∃ last g1,
        ringLoop (addCell sqrt (fuel + 2)) sqrt u m S dr2 n g rold old_id s0 = .ok last g1 ∧
        StepInv u m g1 ∧ (∀ x, Carried u x g g1) ∧
        g1.statics.id = g.statics.id + ((n * ringStride S : Nat) : Int) ∧
        g1.cellObjs.length = g.cellObjs.length + n * ringObjects S ∧
        0 < last.1 ∧
        (∃ so, IntMap.find g1.surfaces last.1 = some so ∧ so < g1.surfaceObjs.length) ∧
        ∀ j : Nat, j < n → RingIn g1 u m S (g.statics.id + ((j * ringStride S : Nat) : Int))
          (g.cellObjs.length + j * ringObjects S) := by
  intro n
  induction n with
  | zero =>
    intro g rold old_id s0 hinv _ hold hreg
    exact ⟨(old_id, s0), g, rfl, hinv, fun x => Carried.carried_refl u x g, by simp, by simp,
      hold, hreg, fun j hj => absurd hj (Nat.not_lt_zero j)⟩
  | succ n ih =>
    intro g rold old_id s0 hinv ha hold hreg
    have hpos := hinv.pos
    have h1 := addSurface_generated g (Circle g.statics.id .BOUNDARY_NONE 0 0
      (sqrt (rold * rold + dr2))) hinv.fresh rfl rfl
    obtain ⟨g4, hrun, hinv4, hcar4, hid4, hlen4, hreg4, hring4⟩ := ring_done sqrt fuel u m S g
      (sqrt (rold * rold + dr2)) 2 [old_id, -1 * g.statics.id] hS hinv
      (by
        intro k hk
        simp only [List.mem_cons, List.mem_singleton, List.not_mem_nil, or_false] at hk
        rcases hk with h | h
        · rw [h, iabs_pos _ hold]
          exact Or.inr hreg
        · rw [h, iabs_neg _ hpos]
          exact Or.inl rfl)
      (by simp)
    obtain ⟨last, g1, hloop, hinv1, hcar1, hid1, hlen1, hlast, hlreg, hrings⟩ :=
      ih g4 (sqrt (rold * rold + dr2)) g.statics.id
        (newSurface g (Circle g.statics.id .BOUNDARY_NONE 0 0 (sqrt (rold * rold + dr2)))).1
        hinv4 (by rw [hlen4]; exact Nat.lt_of_lt_of_le ha (Nat.le_add_right _ _)) hpos hreg4
    refine ⟨last, g1, ?_, hinv1, fun x => Carried.carried_trans u x g g4 g1 (hcar4 x) (hcar1 x),
      ?_, ?_, hlast, hlreg, ?_⟩
    · simp only [ringLoop]
      simp only [newSurface] at h1 ⊢
      simp only [h1, Outcome.bind_ok]
      have hrun1 := hrun
      simp only [newCell, withSurface] at hrun1
      simp only [newCell, withSurface, hrun1, Outcome.bind_ok]
      exact hloop
    · rw [hid1, hid4]
      push_cast
      ring
    · rw [hlen1, hlen4]
      ring
    · intro j hj
      cases j with
      | zero =>
        have := RingIn.rings_carried u a g4 g1 (hcar1 a) m S g.statics.id g.cellObjs.length ha hring4
        simpa using this
      | succ j =>
        have := hrings j (Nat.lt_of_succ_lt_succ hj)
        rw [hid4, hlen4] at this
        have e1 : g.statics.id + ((ringStride S : Nat) : Int) + ((j * ringStride S : Nat) : Int)
            = g.statics.id + (((j + 1) * ringStride S : Nat) : Int) := by
          push_cast
          ring
        have e2 : g.cellObjs.length + ringObjects S + j * ringObjects S =
            g.cellObjs.length + (j + 1) * ringObjects S := by ring
        rw [e1, e2] at this
        exact this

/-- The call `cell->addSurface(k, s)` on the cell object at `a`. -/
theorem cellAddSurface_done (u : Int) (a : Addr) (k : Int) (sa : Addr) (g : Geometry F)
    (c : Cell) (hf : FreshIds g) (hok : UnivOK g) (hc : g.cellObjs[a]? = some c) :
    ∃ g1, cellAddSurface a k sa g = .ok () g1 ∧ FreshIds g1 ∧ UnivOK g1 ∧
      Carried u a g g1 ∧ g1.cellObjs.length = g.cellObjs.length ∧
      g1.surfaces = g.surfaces ∧ g1.surfaceObjs = g.surfaceObjs ∧
      g1.cellObjs[a]? = some (c.addSurface k sa) := by
  have hlt : a < g.cellObjs.length := by
    by_contra hcon
    rw [List.getElem?_eq_none (Nat.le_of_not_lt hcon)] at hc
    exact Option.noConfusion hc
  have hrun : cellAddSurface a k sa g =
      .ok () { g with cellObjs := g.cellObjs.set a (c.addSurface k sa) } := by
    simp [cellAddSurface, hc]
  have h := cellAddSurface_safe False u a k sa g hf
  rw [hrun] at h
  obtain ⟨hg, hf1, _, hun⟩ := h
  refine ⟨_, hrun, hf1, (hun hok).1, ⟨hg, (hun hok).2, ?_⟩, by simp, rfl, rfl, by simp [hlt]⟩
  intro b cb hb hne
  exact ⟨cb, by
    show (g.cellObjs.set a _)[b]? = some cb
    rw [List.getElem?_set_ne (Ne.symm hne)]
    exact hb, rfl⟩

/-- The first ring, the ring loop and the update of the original cell, which the two
variants of the ring refinement share. -/
theorem rings_done (sqrt : F → F) (fuel : Nat) (u m S : Int) (a : Addr) (dr2 r1 : F)
    (n : Nat) (g : Geometry F) (c : Cell) (num : Int) (list : List Int)
    (hS : S ≤ 0 ∨ S = 4) (hinv : StepInv u m g) (hc : g.cellObjs[a]? = some c)
    (hlist : ∀ k ∈ list, iabs k = g.statics.id ∨
      ∃ sa, IntMap.find g.surfaces (iabs k) = some sa ∧ sa < g.surfaceObjs.length)
    (hmem : -g.statics.id ∈ list.take num.toNat) :
    ∃ g4 last g5 g6,
      addCell sqrt (fuel + 2)
        (bumpId (newCell (withSurface g (Circle g.statics.id .BOUNDARY_NONE 0 0 r1))
          (CellBasic g.statics.id u num list m 0 S)).2)
        (newCell (withSurface g (Circle g.statics.id .BOUNDARY_NONE 0 0 r1))
          (CellBasic g.statics.id u num list m 0 S)).1 = .ok () g4 ∧
      ringLoop (addCell sqrt (fuel + 2)) sqrt u m S dr2 n g4 r1 g.statics.id
        (newSurface g (Circle g.statics.id .BOUNDARY_NONE 0 0 r1)).1 = .ok last g5 ∧
      cellAddSurface a last.1 last.2 g5 = .ok () g6 ∧
      RingsPost u m S a (n + 1) g g6 c := by
  have ha : a < g.cellObjs.length := by
    by_contra hcon
    rw [List.getElem?_eq_none (Nat.le_of_not_lt hcon)] at hc
    exact Option.noConfusion hc
  obtain ⟨g4, hrun, hinv4, hcar4, hid4, hlen4, hreg4, hring4⟩ := ring_done sqrt fuel u m S g
    r1 num list hS hinv hlist hmem
  obtain ⟨last, g5, hloop, hinv5, hcar5, hid5, hlen5, hlast, hlreg, hrings⟩ :=
    ringLoop_done sqrt fuel u m S a dr2 hS n g4 r1 g.statics.id
      (newSurface g (Circle g.statics.id .BOUNDARY_NONE 0 0 r1)).1 hinv4
      (by rw [hlen4]; exact Nat.lt_of_lt_of_le ha (Nat.le_add_right _ _)) hinv.pos hreg4
  have hcar : ∀ x, Carried u x g g5 := fun x =>
    Carried.carried_trans u x g g4 g5 (hcar4 x) (hcar5 x)
  obtain ⟨c5, hc5, hs5⟩ := (hcar (a + 1)).keeps a c hc (Nat.ne_of_lt (Nat.lt_succ_self a))
  obtain ⟨e1, e2, e3, e4⟩ := shape_fields c c5 hs5
  obtain ⟨g6, hadd, hf6, hok6, hcar6, hlen6, hsurf6, hobjs6, hc6⟩ :=
    cellAddSurface_done u a last.1 last.2 g5 c5 hinv5.fresh hinv5.ok hc5
  have hcar06 : Carried u a g g6 := Carried.carried_trans u a g g5 g6 (hcar a) hcar6
  obtain ⟨ua, hua⟩ := hinv5.univ
  refine ⟨g4, last, g5, g6, hrun, hloop, hadd,
    ⟨hf6, hok6, ⟨ua, by rw [(hcar6.univ.reg_same ua hua).1]; exact hua⟩,
      by rw [hcar6.ids.mats]; exact hinv5.mat, lt_of_lt_of_le hinv5.pos hcar6.ids.id_le⟩,
    hcar06, ?_, ?_, ?_⟩
  · rw [hlen6, hlen5, hlen4]
    ring
  · intro j hj
    have hb : a < g.cellObjs.length + j * ringObjects S :=
      Nat.lt_of_lt_of_le ha (Nat.le_add_right _ _)
    cases j with
    | zero =>
      have h1 := RingIn.rings_carried u a g4 g5 (hcar5 a) m S g.statics.id g.cellObjs.length ha hring4
      have h2 := RingIn.rings_carried u a g5 g6 hcar6 m S g.statics.id g.cellObjs.length ha h1
      simpa using h2
    | succ j =>
      have := hrings j (Nat.lt_of_succ_lt_succ hj)
      rw [hid4, hlen4] at this
      have e5 : g.statics.id + ((ringStride S : Nat) : Int) + ((j * ringStride S : Nat) : Int)
          = g.statics.id + (((j + 1) * ringStride S : Nat) : Int) := by
        push_cast
        ring
      have e6 : g.cellObjs.length + ringObjects S + j * ringObjects S =
          g.cellObjs.length + (j + 1) * ringObjects S := by ring
      rw [e5, e6] at this
      exact RingIn.rings_carried u a g5 g6 hcar6 m S _ _ hb this
  · refine ⟨c5.addSurface last.1 last.2, hc6, e2, e4, ?_⟩
    intro k hk
    have hk1 : k ∈ IntMap.keys (IntMap.insert c5.surfaces last.1 (some last.2)) := hk
    rw [IntMap.mem_keys_insert] at hk1
    rcases hk1 with h | h
    · rw [e3] at h
      exact Or.inl h
    · rw [h, iabs_pos _ hlast, hsurf6, hobjs6]
      exact Or.inr hlreg

theorem iabs_iabs (k : Int) : iabs (iabs k) = iabs k := by
  unfold iabs
  split_ifs <;> omega

theorem circleRadius_registered (g : Geometry F) (k : Int) (r : F) (g1 : Geometry F)
    (h : circleRadius g k = .ok r g1) :
    ∃ sa, IntMap.find g.surfaces k = some sa ∧ sa < g.surfaceObjs.length := by
  obtain ⟨s, _, _, hs, _⟩ := circleRadius_surfaceAt g k r g1 h
  exact surfaceAt_lt g k s hs

/-- Ring refinement of a cell with one surface (lines 371-444) returns normally and
leaves `(t - 2) + 1` rings in place. -/
theorem addRingsDisk_done (sqrt : F → F) (fuel : Nat) (u m S : Int) (a : Addr) (t : Int)
    (g : Geometry F) (c : Cell) (k0 : Int) (p : Option Addr) (rest : IntMap (Option Addr))
    (r0 : F) (hS : S ≤ 0 ∨ S = 4) (hinv : StepInv u m g) (hc : g.cellObjs[a]? = some c)
    (hr : circleRadius g (iabs k0) = .ok r0 g) :
    ∃ g6, addRingsDisk (addCell sqrt (fuel + 2)) sqrt a ((k0, p) :: rest) u m S t g =
        .ok () g6 ∧
      RingsPost u m S a ((t - 2).toNat + 1) g g6 c := by
  have hpos := hinv.pos
  have h1 := addSurface_generated g (Circle g.statics.id .BOUNDARY_NONE 0 0
    (r0 / sqrt (t : F))) hinv.fresh rfl rfl
  obtain ⟨g4, last, g5, g6, hrun, hloop, hadd, hpost⟩ := rings_done sqrt fuel u m S a
    ((r0 * r0) / (t : F)) (r0 / sqrt (t : F)) (t - 2).toNat g c 1 [-1 * g.statics.id] hS hinv hc
    (by
      intro k hk
      rw [List.mem_singleton.mp hk, iabs_neg _ hpos]
      exact Or.inl rfl)
    (by simp)
  refine ⟨g6, ?_, hpost⟩
  simp only [addRingsDisk]
  simp only [newSurface] at h1 hloop ⊢
  simp only [hr, h1, Outcome.bind_ok]
  have hrun1 := hrun
  simp only [newCell, withSurface] at hrun1 hloop
  simp only [newCell, withSurface, hrun1, Outcome.bind_ok, hloop, hadd]

/-- Ring refinement of a cell with two surfaces (lines 447-537) returns normally and
leaves `(t - 2) + 1` rings in place. -/
theorem addRingsAnnulus_done (sqrt : F → F) (fuel : Nat) (u m S : Int) (a : Addr) (t : Int)
    (g : Geometry F) (c : Cell) (e1 e2 : Int × Option Addr) (rest : IntMap (Option Addr))
    (r1 r2 : F) (hS : S ≤ 0 ∨ S = 4) (hinv : StepInv u m g) (hc : g.cellObjs[a]? = some c)
    (hr1 : circleRadius g (iabs e1.1) = .ok r1 g)
    (hr2 : circleRadius g (iabs e2.1) = .ok r2 g) :
    ∃ g6, addRingsAnnulus (addCell sqrt (fuel + 2)) sqrt a (e1 :: e2 :: rest) u m S t g =
        .ok () g6 ∧
      RingsPost u m S a ((t - 2).toNat + 1) g g6 c := by
  have hpos := hinv.pos
  obtain ⟨r01, r02, hin, hout⟩ : ∃ r01 r02,
      circleRadius g (if iabs e1.1 < iabs e2.1 then iabs e1.1 else iabs e2.1) = .ok r01 g ∧
      circleRadius g (if iabs e1.1 < iabs e2.1 then iabs e2.1 else iabs e1.1) = .ok r02 g := by
    by_cases h : iabs e1.1 < iabs e2.1
    · exact ⟨r1, r2, by rw [if_pos h]; exact hr1, by rw [if_pos h]; exact hr2⟩
    · exact ⟨r2, r1, by rw [if_neg h]; exact hr2, by rw [if_neg h]; exact hr1⟩
  have h1 := addSurface_generated g (Circle g.statics.id .BOUNDARY_NONE 0 0
    (sqrt (r01 * r01 + ((r02 * r02 - r01 * r01) / (t : F))))) hinv.fresh rfl rfl
  obtain ⟨g4, last, g5, g6, hrun, hloop, hadd, hpost⟩ := rings_done sqrt fuel u m S a
    ((r02 * r02 - r01 * r01) / (t : F))
    (sqrt (r01 * r01 + ((r02 * r02 - r01 * r01) / (t : F)))) (t - 2).toNat g c 2
    [-1 * g.statics.id, if iabs e1.1 < iabs e2.1 then iabs e1.1 else iabs e2.1] hS hinv hc
    (by
      intro k hk
      simp only [List.mem_cons, List.mem_singleton, List.not_mem_nil, or_false] at hk
      rcases hk with h | h
      · rw [h, iabs_neg _ hpos]
        exact Or.inl rfl
      · right
        rw [h]
        by_cases h2 : iabs e1.1 < iabs e2.1
        · rw [if_pos h2, iabs_iabs]
          exact circleRadius_registered g _ _ _ hr1
        · rw [if_neg h2, iabs_iabs]
          exact circleRadius_registered g _ _ _ hr2)
    (by simp)
  refine ⟨g6, ?_, hpost⟩
  simp only [addRingsAnnulus]
  simp only [newSurface] at h1 hloop ⊢
  simp only [hin, hout, h1, Outcome.bind_ok]
  have hrun1 := hrun
  simp only [newCell, withSurface] at hrun1 hloop
  simp only [newCell, withSurface, hrun1, Outcome.bind_ok, hloop, hadd]

/-- The sector stage of the refinement of the cell object `c` at `a` returns normally
for no or four sectors and keeps the other cell objects. -/
theorem sector_stage_done (sqrt : F → F) (fuel : Nat) (u m R S : Int) (a : Addr)
    (g : Geometry F) (c : Cell) (hS : S ≤ 0 ∨ S = 4) (hinv : StepInv u m g)
    (hc : g.cellObjs[a]? = some c) (hu : c.universe_id = u) (hd : c.data = .basic m R S)
    (hs : ∀ k ∈ IntMap.keys c.surfaces, ∃ sa, IntMap.find g.surfaces (iabs k) = some sa ∧
      sa < g.surfaceObjs.length) :
    ∃ g1, (if S > 0 then
        if S = 4 then addSectors4 (addCell sqrt (fuel + 2)) a g
        else .fatal (.sectorsUnsupported S) g
      else .ok () g) = .ok () g1 ∧
      Carried u a g g1 ∧
      g1.cellObjs.length = g.cellObjs.length + (if S = 4 then 3 else 0) := by
  rcases hS with hS | hS
  · have h1 : ¬ (S > 0) := by omega
    have h2 : S ≠ 4 := by omega
    exact ⟨g, by rw [if_neg h1], Carried.carried_refl u a g, by rw [if_neg h2]; rfl⟩
  · subst hS
    obtain ⟨ua, hua⟩ := hinv.univ
    obtain ⟨g1, hrun⟩ := addSectors4_ok sqrt (fuel + 1) a g hinv.fresh c m R 4 hc hd hinv.mat hs
      ⟨ua, by rw [hu]; exact hua, univ_bound g hinv.ok u ua hua⟩
    have h := addSectors4_safe False sqrt (fuel + 2) (fun h => False.elim h) a g hinv.fresh c hc
    rw [hrun] at h
    obtain ⟨⟨hg, _, _, hun⟩, hpost⟩ := h
    obtain ⟨m4, R4, S4, _, hshapes⟩ := hpost.shapes
    refine ⟨g1, by simpa using hrun, ⟨hg, by rw [← hu]; exact (hun hinv.ok).2, ?_⟩, ?_⟩
    · intro b cb hb hne
      exact keeps_of_shapes g.cellObjs g1.cellObjs a _ _ hshapes b cb hb hne
    · have := congrArg List.length hshapes
      simpa using this

/-- The function `addCell` on a material cell bounded by one or two circles, with
`R > 0` rings and no or four sectors: the call returns normally within three
levels of recursion and leaves the `R` rings in place. -/
theorem addCell_rings_done (sqrt : F → F) (fuel : Nat) (g : Geometry F) (a : Addr)
    (cell : Cell) (m : Int) (R : Nat) (S : Int)
    (hf : FreshIds g) (hok : UnivOK g) (hc : g.cellObjs[a]? = some cell)
    (hd : cell.data = .basic m R S) (hR : 0 < R) (hS : S ≤ 0 ∨ S = 4)
    (hnew : IntMap.find g.cells cell.id = none) (hid : cell.id < g.statics.id)
    (hpos : 0 < g.statics.id) (hmat : (IntMap.find g.materials m).isSome = true)
    (hsurf : (∃ k0 p r0, cell.surfaces = [(k0, p)] ∧ circleRadius g (iabs k0) = .ok r0 g) ∨
      (∃ e1 e2 r1 r2, cell.surfaces = [e1, e2] ∧ circleRadius g (iabs e1.1) = .ok r1 g ∧
        circleRadius g (iabs e2.1) = .ok r2 g)) :
    ∃ g1, addCell sqrt (fuel + 3) g a = .ok () g1 ∧
      g1.cellObjs.length = g.cellObjs.length + R * ringObjects S + (if S = 4 then 3 else 0) ∧
      ∀ j : Nat, j < R →
        RingIn g1 cell.universe_id m S (g.statics.id + ((j * ringStride S : Nat) : Int))
          (g.cellObjs.length + j * ringObjects S) := by
  have hs : ∀ e ∈ cell.surfaces, ∃ sa, IntMap.find g.surfaces (iabs e.1) = some sa ∧
      sa < g.surfaceObjs.length := by
    intro e he
    rcases hsurf with ⟨k0, p, r0, h1, h2⟩ | ⟨e1, e2, r1, r2, h1, h2, h3⟩
    · rw [h1, List.mem_singleton] at he
      rw [he]
      exact circleRadius_registered g _ _ _ h2
    · rw [h1] at he
      simp only [List.mem_cons, List.mem_singleton, List.not_mem_nil, or_false] at he
      rcases he with h | h
      · rw [h]; exact circleRadius_registered g _ _ _ h2
      · rw [h]; exact circleRadius_registered g _ _ _ h3
  obtain ⟨g4, hp, heq, ua, hua, _⟩ := addCell_head_ok sqrt (fuel + 2) g a cell m R S hc hnew hd
    hmat hs (fun ua h => univ_bound g hok _ ua h)
  have hb4 := HeadPost.head_toBlock g a cell g4 hp hf hnew hid
  have hinv4 : StepInv cell.universe_id m g4 :=
    ⟨hb4.2.1, (hp.univ hok).1, ⟨ua, hua⟩, by rw [hp.materials]; exact hmat,
      by rw [hp.statics_id]; exact hpos⟩
  obtain ⟨cell4, hc4, hs4⟩ := shape_getElem? g.cellObjs g4.cellObjs []
    (by rw [List.append_nil]; exact hp.cell_shapes) a cell hc
  obtain ⟨e1, e2, e3, e4⟩ := shape_fields cell cell4 hs4
  have hlen4 : g4.cellObjs.length = g.cellObjs.length := by
    have := congrArg List.length hp.cell_shapes
    simpa using this
  have hrad : ∀ k r, circleRadius g k = .ok r g → circleRadius g4 k = .ok r g4 := by
    intro k r h
    obtain ⟨s, x, y, h1, h2⟩ := circleRadius_surfaceAt g k r g h
    refine surfaceAt_circleRadius g4 k s x y r ?_ h2
    unfold surfaceAt
    rw [hp.surfaces, hp.surfaceObjs]
    exact h1
  have hn : (((R : Int) + 1 - 2).toNat + 1 : Nat) = R := by omega
  have ht : ((R : Int) + 1 > 1) := by omega
  obtain ⟨g6, hrings, hpost⟩ : ∃ g6,
      (if cell.getNumSurfaces = 1 then
        addRingsDisk (addCell sqrt (fuel + 2)) sqrt a cell.surfaces cell.universe_id m S
          ((R : Int) + 1) g4
      else if cell.getNumSurfaces = 2 then
        addRingsAnnulus (addCell sqrt (fuel + 2)) sqrt a cell.surfaces cell.universe_id m S
          ((R : Int) + 1) g4
      else .fatal .ringsUnsupported g4) = .ok () g6 ∧
      RingsPost cell.universe_id m S a R g4 g6 cell4 := by
    rcases hsurf with ⟨k0, p, r0, h1, h2⟩ | ⟨f1, f2, r1, r2, h1, h2, h3⟩
    · obtain ⟨g6, hrun, hpost⟩ := addRingsDisk_done sqrt fuel cell.universe_id m S a
        ((R : Int) + 1) g4 cell4 k0 p [] r0 hS hinv4 hc4 (hrad _ _ h2)
      rw [hn] at hpost
      refine ⟨g6, ?_, hpost⟩
      have hnum : cell.getNumSurfaces = 1 := by simp [Cell.getNumSurfaces, h1]
      rw [if_pos hnum, h1]
      exact hrun
    · obtain ⟨g6, hrun, hpost⟩ := addRingsAnnulus_done sqrt fuel cell.universe_id m S a
        ((R : Int) + 1) g4 cell4 f1 f2 [] r1 r2 hS hinv4 hc4 (hrad _ _ h2) (hrad _ _ h3)
      rw [hn] at hpost
      refine ⟨g6, ?_, hpost⟩
      have hnum1 : ¬ (cell.getNumSurfaces = 1) := by simp [Cell.getNumSurfaces, h1]
      have hnum2 : cell.getNumSurfaces = 2 := by simp [Cell.getNumSurfaces, h1]
      rw [if_neg hnum1, if_pos hnum2, h1]
      exact hrun
  obtain ⟨c6, hc6, hu6, hd6, hk6⟩ := hpost.original
  have hs6 : ∀ k ∈ IntMap.keys c6.surfaces, ∃ sa,
      IntMap.find g6.surfaces (iabs k) = some sa ∧ sa < g6.surfaceObjs.length := by
    intro k hk
    rcases hk6 k hk with h | h
    · rw [e3] at h
      obtain ⟨e, he, hek⟩ := List.mem_map.mp h
      have h5 := hs e he
      rw [hek] at h5
      refine GrowsIds.surface_valid g4 g6 hpost.kept.ids _ ?_
      rw [hp.surfaces, hp.surfaceObjs]
      exact h5
    · exact h
  obtain ⟨g7, hsec, hcar7, hlen7⟩ := sector_stage_done sqrt fuel cell.universe_id m R S a g6 c6 hS
    hpost.inv hc6 (by rw [hu6, e2]) (hd6 _ _ _ (e4 _ _ _ hd)) hs6
  have ha : a < g4.cellObjs.length := by
    by_contra hcon
    rw [List.getElem?_eq_none (Nat.le_of_not_lt hcon)] at hc4
    exact Option.noConfusion hc4
  refine ⟨g7, ?_, ?_, ?_⟩
  · rw [heq]
    simp only [refineCell, ht, if_true, hrings, Outcome.bind_ok]
    exact hsec
  · rw [hlen7, hpost.objects, hlen4]
  · intro j hj
    have := hpost.rings j hj
    rw [hp.statics_id, hlen4] at this
    exact RingIn.rings_carried cell.universe_id a g6 g7 hcar7 m S _ _
      (by rw [← hlen4]; exact Nat.lt_of_lt_of_le ha (Nat.le_add_right _ _)) this

theorem ringSectorGeometry_fresh : FreshIds (ringSectorGeometry F) :=
  fun k hk => @sectorsGeometry_fresh F _ 4 k hk

/-- The function `addCell` returns normally for a cell bounded by two registered
circles with `R > 0` rings and no or four sectors, over the reals. -/
theorem addCell_annulus_returns (fuel : Nat) (g : Geometry ℝ) (a : Addr) (cell : Cell)
    (m R S : Int) (e1 e2 : Int × Option Addr) (ki ko : Int) (ri ro : ℝ)
    (hf : FreshIds g) (hc : g.cellObjs[a]? = some cell)
    (hnew : IntMap.find g.cells cell.id = none) (hid : cell.id < g.statics.id)
    (hd : cell.data = .basic m R S) (hR : 0 < R) (hsurf : cell.surfaces = [e1, e2])
    (hkeys : (iabs e1.1 = ki ∧ iabs e2.1 = ko) ∨ (iabs e1.1 = ko ∧ iabs e2.1 = ki))
    (hri : circleRadius g ki = .ok ri g) (hro : circleRadius g ko = .ok ro g)
    (h3 : 3 ≤ fuel) (hS : S ≤ 0 ∨ S = 4) (hok : UnivOK g) (hpos : 0 < g.statics.id)
    (hmat : (IntMap.find g.materials m).isSome = true) :
    ∃ g1, addCell Real.sqrt fuel g a = .ok () g1 := by
  obtain ⟨f, hfuel⟩ : ∃ f, fuel = f + 3 := ⟨fuel - 3, by omega⟩
  subst hfuel
  have hRn : ((R.toNat : Nat) : Int) = R := Int.toNat_of_nonneg (le_of_lt hR)
  obtain ⟨g1, hrun, _⟩ := addCell_rings_done Real.sqrt f g a cell m R.toNat S hf hok hc
    (by rw [hRn]; exact hd) (by omega) hS hnew hid hpos hmat
    (Or.inr (by
      rcases hkeys with ⟨h1, h2⟩ | ⟨h1, h2⟩
      · exact ⟨e1, e2, ri, ro, hsurf, by rw [h1]; exact hri, by rw [h2]; exact hro⟩
      · exact ⟨e1, e2, ro, ri, hsurf, by rw [h1]; exact hro, by rw [h2]; exact hri⟩))
  exact ⟨g1, hrun⟩

end RegLemmas

section Claims

variable {F : Type} [LinearOrderedField F]

/-- C4: for each of addMaterial, addSurface, addCell, addUniverse and addLattice,
when the registry of that kind already holds an entity with the id of the object
passed in, the call raises the duplicate-id fatal error and the state at the
error is the state before the call, so every registry is unchanged and no
universe gains a cell. -/
theorem duplicate_id_is_fatal (sqrt : F → F) (fuel : Nat) (g : Geometry F) (a : Addr) :
    (∀ m, g.materialObjs[a]? = some m → (IntMap.find g.materials m.id).isSome →
      addMaterial g a = .fatal (.duplicateMaterial m.id) g) ∧
    (∀ s, g.surfaceObjs[a]? = some s → (IntMap.find g.surfaces s.id).isSome →
      addSurface g a = .fatal (.duplicateSurface s.id) g) ∧
    (∀ c, g.cellObjs[a]? = some c → (IntMap.find g.cells c.id).isSome →
      addCell sqrt (fuel + 1) g a = .fatal (.duplicateCell c.id) g) ∧
    (∀ u, g.universeObjs[a]? = some u → (IntMap.find g.universes u.id).isSome →
      addUniverse g a = .fatal (.duplicateUniverse u.id) g) ∧
    (∀ l, g.universeObjs[a]? = some l → (IntMap.find g.lattices l.id).isSome →
      addLattice g a = .fatal (.duplicateLattice l.id) g) := by
  refine ⟨?_, ?_, ?_, ?_, ?_⟩
  · intro m hm hd; simp [addMaterial, hm, hd]
  · intro s hs hd; simp [addSurface, hs, hd]
  · intro c hc hd; simp [addCell, hc, hd]
  · intro u hu hd; simp [addUniverse, hu, hd]
  · intro l hl hd; simp [addLattice, hl, hd]

/-- Witness for C4 on `dupGeometry`: the second object of each kind, which repeats
a registered id, is rejected and the state stays as it was. -/
theorem duplicate_id_is_fatal_witness :
    addMaterial dupGeometry 1 = .fatal (.duplicateMaterial 1) dupGeometry ∧
    addSurface dupGeometry 1 = .fatal (.duplicateSurface 1) dupGeometry ∧
    addCell (fun x => x) 3 dupGeometry 1 = .fatal (.duplicateCell 1) dupGeometry ∧
    addUniverse dupGeometry 3 = .fatal (.duplicateUniverse 0) dupGeometry ∧
    addLattice dupGeometry 2 = .fatal (.duplicateLattice 2) dupGeometry :=
  ⟨(duplicate_id_is_fatal (fun x => x) 2 dupGeometry 1).1 _ rfl (by decide),
   (duplicate_id_is_fatal (fun x => x) 2 dupGeometry 1).2.1 _ rfl (by decide),
   (duplicate_id_is_fatal (fun x => x) 2 dupGeometry 1).2.2.1 _ rfl (by decide),
   (duplicate_id_is_fatal (fun x => x) 2 dupGeometry 3).2.2.2.1 _ rfl (by decide),
   (duplicate_id_is_fatal (fun x => x) 2 dupGeometry 2).2.2.2.2 _ rfl (by decide)⟩

/-- C5: addCell raises a fatal error when the cell is a material cell whose
material id is not in the material registry, and when a signed surface id of the
cell has an absolute value that is not in the surface registry; the state at the
error has the registries and the universes of the state before the call, so the
cell is in no registry and in no universe. -/
theorem addCell_missing_reference (sqrt : F → F) (fuel : Nat) (g : Geometry F) (a : Addr)
    (c : Cell) (hc : g.cellObjs[a]? = some c)
    (h : (∃ material num_rings num_sectors,
            c.data = .basic material num_rings num_sectors ∧
            IntMap.find g.materials material = none) ∨
         (∃ entry ∈ c.surfaces, IntMap.find g.surfaces (iabs entry.1) = none)) :
    ∃ e g1, addCell sqrt (fuel + 1) g a = .fatal e g1 ∧ sameRegistries g1 g := by
  unfold addCell
  simp only [hc]
  by_cases hd : (IntMap.find g.cells c.id).isSome
  · exact ⟨.duplicateCell c.id, g, by simp [hd], sameRegistries_refl g⟩
  · simp only [hd]
    cases hm : cellMaterialMissing g c with
    | some material =>
      exact ⟨.cellMaterialMissing material, g, by simp, sameRegistries_refl g⟩
    | none =>
      rcases h with ⟨material, nr, ns, hdata, hnone⟩ | hsurf
      · simp [cellMaterialMissing, hdata, hnone] at hm
      · obtain ⟨e, g1, hfat, hsame⟩ := forEach_addCellSurface_missing a c.surfaces g hsurf
        exact ⟨e, g1, by simp [hfat], hsame⟩

/-- Witness for C5 on `missingRefGeometry`: the cell naming the unregistered
material 9 and the cell naming the unregistered surface 5 are both rejected. -/
theorem addCell_missing_reference_witness :
    (∃ e g1, addCell (fun x => x) 1 missingRefGeometry 0 = .fatal e g1 ∧
      sameRegistries g1 missingRefGeometry) ∧
    (∃ e g1, addCell (fun x => x) 1 missingRefGeometry 1 = .fatal e g1 ∧
      sameRegistries g1 missingRefGeometry) :=
  ⟨addCell_missing_reference (fun x => x) 0 missingRefGeometry 0 _ rfl
      (Or.inl ⟨9, 0, 0, rfl, rfl⟩),
   addCell_missing_reference (fun x => x) 0 missingRefGeometry 1 _ rfl
      (Or.inr ⟨(5, none), by decide, rfl⟩)⟩

/-- C1 (the code fails the claim): in the geometry of `mixedInput`, whose root
universe mixes the material cell 1 (FSR 0) and the fill cell 2 (FSRs 1 and 2, the
material cells 3 and 4 of universe 5), the offsets follow the enumeration rules,
yet findCell(root, 1) returns the fill cell 2 instead of the material cell 3,
findCell(root, 2) raises a fatal error instead of returning cell 4, and the
constructor stops on the fill cell in the loop that loads the FSR tables. -/
theorem findCell_mixed_universe (sqrt : ℚ → ℚ) :
    enumerated sqrt mixedInput = .ok () mixedGeometry ∧
    mixedGeometry.num_FSRs = 3 ∧
    (mixedGeometry.universeObjs.map fun u => (u.id, u.region_map)) =
      [(0, [(1, 0), (2, 1)]), (5, [(3, 0), (4, 1)])] ∧
    findCell 3 mixedGeometry (IntMap.find mixedGeometry.universes 0) 1 =
      .ok (some 0) mixedGeometry ∧
    (mixedGeometry.cellObjs[0]?).map (fun c => (c.id, c.getType)) = some (2, .FILL) ∧
    findCell 3 mixedGeometry (IntMap.find mixedGeometry.universes 0) 2 =
      .fatal (.fsrCellNotFound 1) mixedGeometry ∧
    Geometry.build sqrt 3 startStatics mixedInput =
      .fatal .nullPointer
        { mixedGeometry with FSRs_to_cells := [1], FSRs_to_materials := [1] } :=
  ⟨rfl, rfl, rfl, rfl, rfl, rfl, rfl⟩

/-- C3 (the code fails the claim): whether the universe pointer of a fill cell gets
set depends on the delivery order.  With the fill cell 2 delivered after the
first cell of universe 5 the constructor completes and the pointer of cell 2 is
null although universe 5 is registered; with the fill cell delivered first the
pointer is set; when the late fill cell sits in the root universe the FSR
enumeration follows the null pointer; and a fill cell naming the never
registered universe 9 lets the constructor complete without any error. -/
theorem fill_pointer_depends_on_order (sqrt : ℚ → ℚ) :
    (∃ g, Geometry.build sqrt 3 startStatics lateFillInput = .ok () g ∧
      (IntMap.find g.universes 5).isSome = true ∧
      (g.cellObjs[2]?).map (fun c => (c.id, c.data)) = some (2, .fill 5 none)) ∧
    (∃ g, Geometry.build sqrt 3 startStatics earlyFillInput = .ok () g ∧
      (g.cellObjs[0]?).map (fun c => (c.id, c.data)) = some (2, .fill 5 (some 2)) ∧
      IntMap.find g.universes 5 = some 2) ∧
    (∃ g, Geometry.build sqrt 3 startStatics lateFillRootInput = .fatal .nullPointer g ∧
      (IntMap.find g.universes 5).isSome = true ∧
      (g.cellObjs[1]?).map (fun c => (c.id, c.data)) = some (2, .fill 5 none)) ∧
    (∃ g, Geometry.build sqrt 3 startStatics unknownFillInput = .ok () g ∧
      IntMap.find g.universes 9 = none ∧
      (g.cellObjs[1]?).map (fun c => (c.id, c.data)) = some (2, .fill 9 none)) :=
  ⟨⟨_, rfl, rfl, rfl⟩, ⟨_, rfl, rfl, rfl⟩, ⟨_, rfl, rfl, rfl⟩, ⟨_, rfl, rfl, rfl⟩⟩

/-- C9 (the code fails the claim): in the geometry built from `roundTripInput` point
location puts the point (1, 1) into the material cell 2 of the root universe,
findFSRId of the resulting chain is 2, which lies in [0, num_FSRs) = [0, 3), but
findCell(root, 2) returns the material cell 3 of universe 5, not cell 2; the FSR
table of the constructor reads [3, 4, 3]. -/
theorem fsr_round_trip_mixed (cos sin sqrt : ℚ → ℚ)
    (latF : Geometry ℚ → Addr → List (LocalCoords ℚ) →
      Outcome (List (LocalCoords ℚ)) (Option Addr))
    (latN : Geometry ℚ → Addr → List (LocalCoords ℚ) → Nat → ℚ →
      Outcome (List (LocalCoords ℚ)) (Option Addr)) :
    Geometry.build sqrt 3 startStatics roundTripInput = .ok () roundTripGeometry ∧
    roundTripGeometry.num_FSRs = 3 ∧
    findCellCoords (specTracer cos sin sqrt latF latN 2) roundTripGeometry
        [LocalCoords.new 1 1 0] =
      .ok (some 1) [{ LocalCoords.new 1 1 0 with cell := 2 }] ∧
    (roundTripGeometry.cellObjs[1]?).map (fun c => (c.id, c.getType)) = some (2, .MATERIAL) ∧
    findFSRId roundTripGeometry [{ LocalCoords.new 1 1 0 with cell := 2 }] = .ok 2 ∧
    findCell 3 roundTripGeometry (IntMap.find roundTripGeometry.universes 0) 2 =
      .ok (some 2) roundTripGeometry ∧
    (roundTripGeometry.cellObjs[2]?).map (fun c => (c.id, c.getType)) = some (3, .MATERIAL) ∧
    roundTripGeometry.FSRs_to_cells = [3, 4, 3] :=
  ⟨rfl, rfl, locate_in_round_trip cos sin sqrt latF latN roundTripGeometry rfl rfl rfl rfl rfl,
   rfl, rfl, rfl, rfl, rfl⟩

/-- C10: findFSRId(coords) returns the sum, over every link of the chain from the
given link down to the bottom link, of the lattice's FSR offset for the tile of a
LAT link and of the universe's FSR offset for the cell of a UNIV link (a lookup
that fails gives the error of the first failing link); for the empty chain it
returns 0.  The function is a pure function of the geometry and the chain. -/
theorem findFSRId_is_sum_of_offsets (g : Geometry F) (coords : List (LocalCoords F)) :
    findFSRId g coords = (chainOffsets g coords).map List.sum ∧
    findFSRId g [] = .ok 0 := by
  constructor
  · rw [findFSRId, findFSRIdLoop_eq]
    congr 1
    funext offsets
    simp
  · rfl

/-- C6 (the code fails the claim): for the square of scenario S1, a single material
cell bounded by the lines x = -1, x = 1, y = -1, y = 1 in the root universe, and
the track from (-1, 0) at angle 0, segmentize ends in the fatal error "segment
with the same start and end point" and adds no segment, where the claim has one
segment of length 2. -/
theorem segmentize_square_fails
    (latF : Geometry ℝ → Addr → List (LocalCoords ℝ) →
      Outcome (List (LocalCoords ℝ)) (Option Addr))
    (latN : Geometry ℝ → Addr → List (LocalCoords ℝ) → Nat → ℝ →
      Outcome (List (LocalCoords ℝ)) (Option Addr))
    (fuel depth : Nat) :
    Geometry.build Real.sqrt 3 startStatics (squareInput ℝ) = .ok () (squareGeometry ℝ) ∧
    ∃ g1, segmentize (specTracer Real.cos Real.sin Real.sqrt latF latN (depth + 1))
        (fuel + 2) (squareGeometry ℝ) ⟨-1, 0, 0, []⟩ =
      .fatal .sameStartEnd (g1, ⟨-1, 0, 0, []⟩) :=
  ⟨build_square Real.sqrt,
   segmentize_square_generic Real.cos Real.sin Real.sqrt latF latN 0 Real.cos_zero
     Real.sin_zero fuel depth (squareGeometry ℝ) rfl rfl rfl rfl rfl rfl rfl rfl⟩

/-- C7 (the code fails the claim): for the square of S1 cut by the line x = 0 into
two material cells and the track from (-1, 0) at angle 0, segmentize adds one
segment of length 1 + 10^-8 (from the start to just behind the cut) and then ends
in the fatal error "segment with the same start and end point"; the ray leaves
the geometry at distance 2 from the start, so no sequence of segments adding up
to that distance is produced. -/
theorem segmentize_split_square_fails
    (latF : Geometry ℝ → Addr → List (LocalCoords ℝ) →
      Outcome (List (LocalCoords ℝ)) (Option Addr))
    (latN : Geometry ℝ → Addr → List (LocalCoords ℝ) → Nat → ℝ →
      Outcome (List (LocalCoords ℝ)) (Option Addr))
    (fuel depth : Nat) :
    Geometry.build Real.sqrt 3 startStatics (splitInput ℝ) = .ok () (splitGeometry ℝ) ∧
    ∃ g1, segmentize (specTracer Real.cos Real.sin Real.sqrt latF latN (depth + 1))
        (fuel + 3) (splitGeometry ℝ) ⟨-1, 0, 0, []⟩ =
      .fatal .sameStartEnd (g1, ⟨-1, 0, 0, [⟨1 + 1 / 100000000, 0, 0⟩]⟩) := by
  refine ⟨build_split Real.sqrt, ?_⟩
  have h := segmentize_split_generic Real.cos Real.sin Real.sqrt latF latN 0 depth
    (splitGeometry ℝ) Real.cos_zero Real.sin_zero
    ⟨rfl, rfl, rfl, rfl, rfl, rfl, rfl, rfl, rfl, rfl⟩ fuel
  rw [distance_to_cut] at h
  exact h

/-- C8 (the claim fails on the code): a track that starts outside every cell, here
from (5, 0) in `tileGeometry`, is segmentized without error, no findNextCell call
is made and no segment is added: the number of segments, 0, is not one more than
the number of calls that returned a cell, 0. -/
theorem segmentize_outside_start_adds_nothing :
    findCellCoords tileTracer tileGeometry [LocalCoords.new 5 0 0] =
      .ok none [LocalCoords.new 5 0 0] ∧
    segmentize tileTracer 1 tileGeometry ⟨5, 0, 0, []⟩ =
      .ok () (tileGeometry, ⟨5, 0, 0, []⟩) ∧
    IsTrace tileTracer 0 none [LocalCoords.new 5 0 0] [] ∧
    ([] : List (segment ℚ)).length ≠
      (([] : List (TraceStep ℚ)).filter fun s => s.next.isSome).length + 1 :=
  ⟨(tile_outside_generic tileGeometry rfl).1, (tile_outside_generic tileGeometry rfl).2, rfl,
    by decide⟩

/-- C8 (amended): when segmentize returns normally, the segments it appended
correspond, in order, to the findNextCell calls of its loop: each call starts
from the coordinates and the cell the call before left, the last call returns
null, and the segment of a call has length equal to the distance between the
coordinates held before and after the call, the material of the cell found
before the call and the region id findFSRId of the start coordinates; when the
start point lies in a cell, the number of segments is one more than the number
of calls that returned a cell; when it lies in no cell, no call is made and no
segment is added. -/
theorem segmentize_segments_follow_calls (T : Tracer F) (fuel : Nat) (g g1 : Geometry F)
    (track track1 : Track F) (h : segmentize T fuel g track = .ok () (g1, track1)) :
    ∃ curr coords steps segs,
      findCellCoords T g [LocalCoords.new track.x0 track.y0 0] = .ok curr coords ∧
      IsTrace T track.phi curr coords steps ∧
      track1.segments = track.segments ++ segs ∧
      List.Forall₂ (IsStepSegment T) steps segs ∧
      (∀ s ∈ steps, sameButLengths s.g g) ∧
      (curr ≠ none → segs.length = (steps.filter fun s => s.next.isSome).length + 1) ∧
      (curr = none → steps = [] ∧ segs = []) := by
  unfold segmentize at h
  cases hf : findCellCoords T g [LocalCoords.new track.x0 track.y0 0] with
  | outOfFuel => simp [hf] at h
  | fatal e c => simp [hf] at h
  | ok curr coords =>
    simp only [hf] at h
    obtain ⟨steps, segs, h1, h2, h3, h4, h5⟩ :=
      segmentLoop_trace T track.phi fuel curr coords _ _ h
    refine ⟨curr, coords, steps, segs, rfl, h1, h2, h3, h4, h5, ?_⟩
    intro hnone
    subst hnone
    have hsteps := isTrace_none T track.phi coords steps h1
    subst hsteps
    cases h3
    exact ⟨rfl, rfl⟩

/-- Witness for C8 (amended): on `tileGeometry`, a root universe filled with a
one-tile lattice, the track from the centre at angle 0 is segmentized without
error into one segment of length 1 + 10^-8, and the theorem applies to this
run. -/
theorem segmentize_segments_follow_calls_witness :
    segmentize tileTracer 3 tileGeometry ⟨0, 0, 0, []⟩ =
      .ok () (updateSegLengths tileGeometry (1 + 1 / 100000000),
        ⟨0, 0, 0, [⟨1 + 1 / 100000000, 0, 0⟩]⟩) ∧
    ∃ curr coords steps segs,
      findCellCoords tileTracer tileGeometry [LocalCoords.new 0 0 0] = .ok curr coords ∧
      IsTrace tileTracer 0 curr coords steps ∧
      [⟨1 + 1 / 100000000, 0, 0⟩] = [] ++ segs ∧
      List.Forall₂ (IsStepSegment tileTracer) steps segs ∧
      (∀ s ∈ steps, sameButLengths s.g tileGeometry) ∧
      (curr ≠ none → segs.length = (steps.filter fun s => s.next.isSome).length + 1) ∧
      (curr = none → steps = [] ∧ segs = []) :=
  ⟨tile_run, segmentize_segments_follow_calls tileTracer 3 tileGeometry _ ⟨0, 0, 0, []⟩ _
    tile_run⟩

/-- C20: after a sequence of successful addSurface calls the four bounds are the
start bounds (which the constructor sets to +infinity for the minima and to
-infinity for the maxima) folded with the extents of the added surfaces of
boundary type REFLECTIVE: x_min and y_min are the minima, x_max and y_max the
maxima (each bound lies beyond the start value and beyond the extent of every
added reflective surface, and is one of these values); the result is the same
for every order of insertion; adding a surface with boundary type NONE leaves
the four bounds unchanged; getWidth returns x_max - x_min and getHeight returns
y_max - y_min. -/
theorem bounding_box_of_reflective_surfaces (st : Statics) (addrs : List Addr)
    (g g1 : Geometry F) (h : forEach (fun a s => addSurface s a) addrs g = .ok () g1) :
    (Geometry.init st : Geometry F).bounds = (.posInf, .posInf, .negInf, .negInf) ∧
    g1.bounds = (reflectiveAmong g addrs).foldl extendBox g.bounds ∧
    (Ext.le g1.x_min g.x_min = true ∧ Ext.le g1.y_min g.y_min = true ∧
      Ext.le g.x_max g1.x_max = true ∧ Ext.le g.y_max g1.y_max = true) ∧
    (∀ s ∈ reflectiveAmong g addrs,
      Ext.le g1.x_min s.x_min = true ∧ Ext.le g1.y_min s.y_min = true ∧
      Ext.le s.x_max g1.x_max = true ∧ Ext.le s.y_max g1.y_max = true) ∧
    ((g1.x_min = g.x_min ∨ ∃ s ∈ reflectiveAmong g addrs, g1.x_min = s.x_min) ∧
      (g1.y_min = g.y_min ∨ ∃ s ∈ reflectiveAmong g addrs, g1.y_min = s.y_min) ∧
      (g1.x_max = g.x_max ∨ ∃ s ∈ reflectiveAmong g addrs, g1.x_max = s.x_max) ∧
      (g1.y_max = g.y_max ∨ ∃ s ∈ reflectiveAmong g addrs, g1.y_max = s.y_max)) ∧
    (∀ addrs2 g2, addrs2.Perm addrs →
      forEach (fun a s => addSurface s a) addrs2 g = .ok () g2 → g2.bounds = g1.bounds) ∧
    (∀ a s g2, g.surfaceObjs[a]? = some s → s.boundary = .BOUNDARY_NONE →
      addSurface g a = .ok () g2 → g2.bounds = g.bounds) ∧
    g1.getWidth = Ext.sub g1.x_max g1.x_min ∧ g1.getHeight = Ext.sub g1.y_max g1.y_min ∧
    (∀ x0 x1, g1.x_min = .fin x0 → g1.x_max = .fin x1 →
      g1.getWidth = some (.fin (x1 - x0))) ∧
    (∀ y0 y1, g1.y_min = .fin y0 → g1.y_max = .fin y1 →
      g1.getHeight = some (.fin (y1 - y0))) := by
  have hfold := forEach_addSurface_bounds addrs g g1 h
  have hb := foldl_extendBox_bounds (reflectiveAmong g addrs) g.bounds
  have ha := foldl_extendBox_attained (reflectiveAmong g addrs) g.bounds
  rw [← hfold] at hb ha
  refine ⟨rfl, hfold, hb.1, hb.2, ha, ?_, ?_, rfl, rfl, ?_, ?_⟩
  · intro addrs2 g2 hperm h2
    rw [forEach_addSurface_bounds addrs2 g g2 h2, hfold]
    exact foldl_extendBox_perm _ _ (reflectiveAmong_perm g _ _ hperm) _
  · intro a s g2 hs hnone h2
    obtain ⟨_, s1, hs1, hb1⟩ := addSurface_bounds g g2 a h2
    rw [hs] at hs1
    cases hs1
    rw [hb1, hnone]
    simp
  · intro x0 x1 h0 h1
    simp [Geometry.getWidth, h0, h1, Ext.sub]
  · intro y0 y1 h0 h1
    simp [Geometry.getHeight, h0, h1, Ext.sub]

/-- Witness for C20: the two reflective lines x = -1 and y = -1 are added to a new
geometry; the bounds become (-1, -1, -1, -1). -/
theorem bounding_box_of_reflective_surfaces_witness :
    forEach (fun a s => addSurface s a) [0, 1] twoWallsGeometry =
      .ok () (stateOf (forEach (fun a s => addSurface s a) [0, 1] twoWallsGeometry)) ∧
    (stateOf (forEach (fun a s => addSurface s a) [0, 1] twoWallsGeometry)).bounds =
      (.fin (-1), .fin (-1), .fin (-1), .fin (-1)) ∧
    (stateOf (forEach (fun a s => addSurface s a) [0, 1] twoWallsGeometry)).bounds =
      (reflectiveAmong twoWallsGeometry [0, 1]).foldl extendBox twoWallsGeometry.bounds :=
  ⟨rfl, rfl, (bounding_box_of_reflective_surfaces startStatics [0, 1] twoWallsGeometry _ rfl).2.1⟩

/-- C19: for a lattice object whose tile table has num_y rows of num_x entries, in a
state whose universe registry points to universe objects carrying their ids,
addLattice raises the duplicate-lattice error when the lattice id is in the
lattice registry, the duplicate-universe error when it is in the universe
registry, and the missing-universe error, for a universe id that one of the
tiles names and that is not registered, when such a tile exists (the registries
are then as before); otherwise it returns normally, every tile keeps its
universe id and points to the universe registered under that id, and the
lattice is registered under its id in the lattice registry and in the universe
registry, whose other entries stay. -/
theorem addLattice_contract (g : Geometry F) (a : Addr) (lat : Universe F)
    (hobj : g.universeObjs[a]? = some lat) (hshape : LatticeShape lat)
    (hcons : UniversesConsistent g) :
    ((IntMap.find g.lattices lat.id).isSome = true →
      addLattice g a = .fatal (.duplicateLattice lat.id) g) ∧
    (IntMap.find g.lattices lat.id = none → (IntMap.find g.universes lat.id).isSome = true →
      addLattice g a = .fatal (.duplicateLatticeUniverse lat.id) g) ∧
    (IntMap.find g.lattices lat.id = none → IntMap.find g.universes lat.id = none →
      (∃ t ∈ lat.tiles, IntMap.find g.universes t.1 = none) →
      ∃ uid g1, addLattice g a = .fatal (.latticeUniverseMissing uid) g1 ∧
        IntMap.find g.universes uid = none ∧ uid ∈ lat.tiles.map Prod.fst ∧
        g1.lattices = g.lattices ∧ g1.universes = g.universes) ∧
    (IntMap.find g.lattices lat.id = none → IntMap.find g.universes lat.id = none →
      (∀ t ∈ lat.tiles, (IntMap.find g.universes t.1).isSome = true) →
      ∃ g1 lat1, addLattice g a = .ok () g1 ∧
        g1.universeObjs[a]? = some lat1 ∧ lat1.id = lat.id ∧ IdsSame lat1 lat ∧
        (∀ t ∈ lat1.tiles, TileResolved g.universes t ∧ TileResolved g1.universes t) ∧
        IntMap.find g1.lattices lat.id = some a ∧
        IntMap.find g1.universes lat.id = some a ∧
        (∀ k, k ≠ lat.id → IntMap.find g1.universes k = IntMap.find g.universes k ∧
          IntMap.find g1.lattices k = IntMap.find g.lattices k)) := by
  have ha : a < g.universeObjs.length := by
    by_contra hcon
    rw [List.getElem?_eq_none (Nat.le_of_not_lt hcon)] at hobj
    exact Option.noConfusion hobj
  have hps : ∀ p ∈ latticeLoopIndices lat.num_x lat.num_y, ∃ t, tileAt lat p = some t :=
    fun p hp => (tileAt_isSome_iff lat hshape p).mpr hp
  refine ⟨?_, ?_, ?_, ?_⟩
  · intro h
    simp [addLattice, hobj, h]
  · intro h1 h2
    simp [addLattice, hobj, h1, h2]
  · intro h1 h2 hbad
    obtain ⟨t, ht, hnone⟩ := hbad
    obtain ⟨p, hp⟩ := mem_tiles_tileAt lat t ht
    obtain ⟨uid, lat2, hrun, hnone2, hmem⟩ := tiles_loop_missing g a lat hobj hcons h2
      (latticeLoopIndices lat.num_x lat.num_y) lat (fun _ => rfl) hps
      ⟨p, (tileAt_isSome_iff lat hshape p).mp ⟨t, hp⟩, t, hp, hnone⟩
    refine ⟨uid, { g with universeObjs := g.universeObjs.set a lat2 }, ?_, hnone2, hmem, rfl,
      rfl⟩
    rw [addLattice_eq g a lat hobj h1 h2, hrun, Outcome.bind_fatal]
  · intro h1 h2 hall
    obtain ⟨lat2, hrun, hids, hid, hres⟩ := tiles_loop_ok g a lat hobj hcons h2 hall
      (latticeLoopIndices lat.num_x lat.num_y) [] lat (fun _ => rfl) hps
      (fun p hp => absurd hp (List.not_mem_nil _))
    have hobj2 : (g.universeObjs.set a lat2)[a]? = some lat2 := by
      simp [ha]
    have hresolved : ∀ t ∈ lat2.tiles, TileResolved g.universes t := by
      intro t ht
      obtain ⟨p, hp⟩ := mem_tiles_tileAt lat2 t ht
      have hp0 : ∃ t0, tileAt lat p = some t0 := by
        have := hids p
        rw [hp] at this
        cases h0 : tileAt lat p with
        | none => rw [h0] at this; exact Option.noConfusion this
        | some t0 => exact ⟨t0, rfl⟩
      obtain ⟨t1, ht1, hr⟩ := hres p (by
        simpa using (tileAt_isSome_iff lat hshape p).mp hp0)
      rw [hp] at ht1
      cases ht1
      exact hr
    have hfin : addLattice g a = .ok ()
        { g with
          universeObjs := g.universeObjs.set a lat2,
          lattices := IntMap.insert g.lattices lat.id a,
          universes := IntMap.insert g.universes lat.id a,
          cellObjs := setUniverseFillPointers lat.id a g.cells g.cellObjs } := by
      rw [addLattice_eq g a lat hobj h1 h2, hrun, Outcome.bind_ok]
      simp only [addUniverse, hobj2, hid, h2, Option.isSome_none, Bool.false_eq_true, if_false]
    refine ⟨_, lat2, hfin, ?_, hid, hids, ?_, ?_, ?_, ?_⟩
    · exact hobj2
    · intro t ht
      refine ⟨hresolved t ht, ?_⟩
      obtain ⟨ua, hptr, hfind⟩ := hresolved t ht
      have hne : t.1 ≠ lat.id := by
        intro heq
        rw [heq, h2] at hfind
        exact Option.noConfusion hfind
      exact ⟨ua, hptr, by
        show IntMap.find (IntMap.insert g.universes lat.id a) t.1 = some ua
        rw [IntMap.find_insert_ne _ _ _ _ hne]; exact hfind⟩
    · exact IntMap.find_insert_self _ _ _ h1
    · exact IntMap.find_insert_self _ _ _ h2
    · intro k hk
      exact ⟨IntMap.find_insert_ne _ _ _ _ hk, IntMap.find_insert_ne _ _ _ _ hk⟩

/-- Witness for C19: the lattice 1 with the single tile naming the registered
universe 2 is added; the tile then points to universe 2 and the lattice is in
both registries. -/
theorem addLattice_contract_witness :
    ∃ g1 lat1, addLattice latticeReadyGeometry 1 = .ok () g1 ∧
      g1.universeObjs[1]? = some lat1 ∧
      lat1.id = ({ Lattice 1 1 1 2 2 [[2]] with uid := 1 } : Universe ℚ).id ∧
      IdsSame lat1 ({ Lattice 1 1 1 2 2 [[2]] with uid := 1 } : Universe ℚ) ∧
      (∀ t ∈ lat1.tiles, TileResolved latticeReadyGeometry.universes t ∧
        TileResolved g1.universes t) ∧
      IntMap.find g1.lattices ({ Lattice 1 1 1 2 2 [[2]] with uid := 1 } : Universe ℚ).id =
        some 1 ∧
      IntMap.find g1.universes ({ Lattice 1 1 1 2 2 [[2]] with uid := 1 } : Universe ℚ).id =
        some 1 ∧
      (∀ k, k ≠ ({ Lattice 1 1 1 2 2 [[2]] with uid := 1 } : Universe ℚ).id →
        IntMap.find g1.universes k = IntMap.find latticeReadyGeometry.universes k ∧
        IntMap.find g1.lattices k = IntMap.find latticeReadyGeometry.lattices k) :=
  (addLattice_contract latticeReadyGeometry 1 { Lattice 1 1 1 2 2 [[2]] with uid := 1 } rfl
    ⟨rfl, by simp [Lattice]⟩
    (by
      intro k ua h
      have hk : k = 2 ∧ ua = 0 := by
        simp only [latticeReadyGeometry, IntMap.find] at h
        split at h
        · rename_i hk2
          exact ⟨hk2, by simpa using h.symm⟩
        · exact Option.noConfusion h
      rw [hk.1, hk.2]
      exact ⟨_, rfl, rfl⟩)).2.2.2 rfl rfl (by simp [Universe.tiles, Lattice, latticeReadyGeometry, IntMap.find])

/-- C11: for every material cell with num_sectors = 4 and no rings whose material,
surfaces and universe are in order, whose id is unused and below the static id
counter, with no surface or cell registered at or above the counter, addCell
returns normally (two levels of recursion suffice) and the result is described
by `SectorsAdded`: the planes x + y = 0 and x - y = 0 with boundary type NONE
are registered under the counter and the counter + 1, three new material
cells under the next three ids, the cell registry has gained exactly the
original cell and these three, and the four cells carry the surface ids of
the original plus the halfspaces (+,-), (+,+), (-,-), (-,+) of the two planes;
the surface ids of the original name neither plane. -/
theorem addCell_four_sectors (sqrt : F → F) (fuel : Nat) (g : Geometry F) (a : Addr)
    (cell : Cell) (m : Int) (hf : FreshIds g)
    (hc : g.cellObjs[a]? = some cell) (hd : cell.data = .basic m 0 4)
    (hnew : IntMap.find g.cells cell.id = none) (hid : cell.id < g.statics.id)
    (hmat : (IntMap.find g.materials m).isSome = true)
    (hs : ∀ e ∈ cell.surfaces, ∃ sa, IntMap.find g.surfaces (iabs e.1) = some sa ∧
      sa < g.surfaceObjs.length)
    (hu : ∀ ua, IntMap.find g.universes cell.universe_id = some ua →
      ua < g.universeObjs.length) :
    ∃ g1, addCell sqrt (fuel + 2) g a = .ok () g1 ∧ SectorsAdded g a cell m 0 g1 ∧
      ∀ k ∈ IntMap.keys cell.surfaces, k ≠ g.statics.id ∧ k ≠ -g.statics.id ∧
        k ≠ g.statics.id + 1 ∧ k ≠ -(g.statics.id + 1) := by
  obtain ⟨g1, h1, h2⟩ := addCell_sectors_total sqrt fuel g a cell m 0 hf hc hnew hid hd
    (by decide) hmat hs hu
  exact ⟨g1, h1, h2, keys_below_counter g cell hf hs⟩

/-- Witness for C11: the unit disk of `sectorsGeometry` with four sectors meets the
hypotheses. -/
theorem addCell_four_sectors_witness :
    ∃ g1, addCell (fun x => x) 2 (sectorsGeometry ℚ 4) 0 = .ok () g1 ∧
      SectorsAdded (sectorsGeometry ℚ 4) 0 (CellBasic 1 0 1 [-1] 1 0 4) 1 0 g1 ∧
      ∀ k ∈ IntMap.keys (CellBasic 1 0 1 [-1] 1 0 4).surfaces,
        k ≠ (sectorsGeometry ℚ 4).statics.id ∧ k ≠ -(sectorsGeometry ℚ 4).statics.id ∧
        k ≠ (sectorsGeometry ℚ 4).statics.id + 1 ∧
        k ≠ -((sectorsGeometry ℚ 4).statics.id + 1) :=
  addCell_four_sectors (fun x => x) 0 (sectorsGeometry ℚ 4) 0 (CellBasic 1 0 1 [-1] 1 0 4) 1
    (sectorsGeometry_fresh 4) rfl rfl rfl (by decide) rfl
    (by
      intro e he
      have : e = (-1, none) := by simpa [CellBasic, IntMap.insert] using he
      subst this
      exact ⟨0, rfl, by decide⟩)
    (fun ua h => Option.noConfusion h)

/-- C12 (the code fails the claim): a negative num_sectors is not rejected.  For the
unit disk with num_sectors = -1 and with num_sectors = -4, addCell returns
normally, registers the cell, adds no surface and no cell, and leaves the
negative sector count in the cell; with num_sectors = 3 and also with the
documented value 8 the call ends in the fatal error on the number of sectors. -/
theorem negative_sectors_accepted (sqrt : ℚ → ℚ) :
    (∃ g1, addCell sqrt 3 (sectorsGeometry ℚ (-1)) 0 = .ok () g1 ∧
      IntMap.find g1.cells 1 = some 0 ∧ g1.surfaceObjs.length = 1 ∧
      (g1.cellObjs.map fun c => c.data) = [.basic 1 0 (-1)]) ∧
    (∃ g1, addCell sqrt 3 (sectorsGeometry ℚ (-4)) 0 = .ok () g1 ∧
      IntMap.find g1.cells 1 = some 0 ∧ g1.surfaceObjs.length = 1 ∧
      (g1.cellObjs.map fun c => c.data) = [.basic 1 0 (-4)]) ∧
    (∃ g1, addCell sqrt 3 (sectorsGeometry ℚ 3) 0 = .fatal (.sectorsUnsupported 3) g1) ∧
    (∃ g1, addCell sqrt 3 (sectorsGeometry ℚ 8) 0 = .fatal (.sectorsUnsupported 8) g1) :=
  ⟨⟨_, rfl, rfl, rfl, rfl⟩, ⟨_, rfl, rfl, rfl, rfl⟩, ⟨_, rfl⟩, ⟨_, rfl⟩⟩

/-- C15 (the code fails the claim): for a cell with one ring that is bounded by a
single plane, and for one bounded by a circle and a plane, addCell raises no
error of its own but uses the null result of the cast to a circle; only for
three surfaces it raises the error on unsupported surfaces.  In all three
cases no surface and no cell has been added when the call ends, while the
cell itself is registered. -/
theorem rings_on_non_circle_surfaces (sqrt : ℚ → ℚ) :
    (∃ g1, addCell sqrt 3 (ringGeometry ℚ [xLine 1 0] [1]) 0 = .fatal .nullPointer g1 ∧
      g1.surfaceObjs.length = 1 ∧ g1.cellObjs.length = 1 ∧
      IntMap.find g1.cells 1 = some 0) ∧
    (∃ g1, addCell sqrt 3 (ringGeometry ℚ [Circle 1 .BOUNDARY_NONE 0 0 1, xLine 2 0] [-1, 2]) 0 =
        .fatal .nullPointer g1 ∧
      g1.surfaceObjs.length = 2 ∧ g1.cellObjs.length = 1 ∧
      IntMap.find g1.cells 1 = some 0) ∧
    (∃ g1, addCell sqrt 3
        (ringGeometry ℚ [Circle 1 .BOUNDARY_NONE 0 0 1, xLine 2 0, yLine 3 0] [-1, 2, 3]) 0 =
        .fatal .ringsUnsupported g1 ∧
      g1.surfaceObjs.length = 3 ∧ g1.cellObjs.length = 1 ∧
      IntMap.find g1.cells 1 = some 0) :=
  ⟨⟨_, rfl, rfl, rfl, rfl⟩, ⟨_, rfl, rfl, rfl, rfl⟩, ⟨_, rfl, rfl, rfl, rfl⟩⟩

/-- C13 (the claim fails on the code): for the annulus between the circle 1 of radius
1 and the circle 2 of radius 2 with num_rings = 2, addCell generates two
circles, with the radii sqrt(2) and sqrt(3); the claimed radii
sqrt(1 + k*(4 - 1)/2) are sqrt(5/2) and 2. -/
theorem annulus_two_rings_radii :
    ∃ g1, addCell Real.sqrt 3 (annulusGeometry ℝ) 0 = .ok () g1 ∧
      circleRadii (newSurfaces (annulusGeometry ℝ) g1) = [Real.sqrt 2, Real.sqrt 3] ∧
      Real.sqrt 2 ≠ Real.sqrt (1 ^ 2 + 1 * (2 ^ 2 - 1 ^ 2) / 2) ∧
      Real.sqrt 3 ≠ Real.sqrt (1 ^ 2 + 2 * (2 ^ 2 - 1 ^ 2) / 2) := by
  obtain ⟨g1, hrun⟩ := Outcome.isOk_elim _ (annulus_run Real.sqrt)
  have h := addCell_annulus_radii 3 (annulusGeometry ℝ) 0 annulusCell 1 2 0 (-2, none) (1, none)
    1 2 g1 annulusGeometry_fresh rfl rfl (by decide) rfl (by decide) rfl rfl rfl hrun
  refine ⟨g1, hrun, ?_, ?_, ?_⟩
  · rw [h]
    have e2 : (2 : Int).toNat = 2 := rfl
    rw [e2]
    simp only [List.range_succ, List.range_zero, List.nil_append, List.map_cons,
      List.map_nil, List.cons_append, List.cons.injEq, and_true]
    constructor <;> · congr 1; norm_num
  · intro h1
    have := (Real.sqrt_inj (by norm_num) (by norm_num)).mp h1
    norm_num at this
  · intro h1
    have := (Real.sqrt_inj (by norm_num) (by norm_num)).mp h1
    norm_num at this

/-- C13 (amended): for every material cell with exactly two surfaces that are
circles, an inner one of radius r_i and an outer one of radius r_o with
0 <= r_i < r_o, where the inner circle has the smaller surface id, and with
num_rings = R > 0, whose id is unused and below the static id counter, with no
surface or cell registered at or above the counter: addCell does not run out
of its budget of three levels; it returns normally when in addition the
number of sectors is at most 0 or equal to 4, the material is registered, the
universes are consistent and the counter is positive; and whenever it returns
normally it has generated exactly R circles, the k-th of which (k = 1, ..., R)
has the radius sqrt(r_i^2 + k*(r_o^2 - r_i^2)/(R + 1)), and every generated
radius lies strictly between r_i and r_o; radii and square root are taken in
the real numbers. -/
theorem annulus_rings_between_radii (fuel : Nat) (g : Geometry ℝ) (a : Addr) (cell : Cell)
    (m R S : Int) (e1 e2 : Int × Option Addr) (ki ko : Int) (ri ro : ℝ)
    (hf : FreshIds g) (hc : g.cellObjs[a]? = some cell)
    (hnew : IntMap.find g.cells cell.id = none) (hid : cell.id < g.statics.id)
    (hd : cell.data = .basic m R S) (hR : 0 < R) (hsurf : cell.surfaces = [e1, e2])
    (hkeys : (iabs e1.1 = ki ∧ iabs e2.1 = ko) ∨ (iabs e1.1 = ko ∧ iabs e2.1 = ki))
    (hri : circleRadius g ki = .ok ri g) (hro : circleRadius g ko = .ok ro g)
    (h0 : 0 ≤ ri) (hlt : ri < ro) (hk : ki < ko) :
    (3 ≤ fuel → addCell Real.sqrt fuel g a ≠ .outOfFuel) ∧
    (3 ≤ fuel → (S ≤ 0 ∨ S = 4) → UnivOK g → 0 < g.statics.id →
      (IntMap.find g.materials m).isSome = true →
      ∃ g1, addCell Real.sqrt fuel g a = .ok () g1) ∧
    ∀ g1, addCell Real.sqrt fuel g a = .ok () g1 →
      circleRadii (newSurfaces g g1) = ((List.range R.toNat).map fun (j : Nat) =>
        Real.sqrt (ri ^ 2 + ((j : ℝ) + 1) * (ro ^ 2 - ri ^ 2) / ((R : ℝ) + 1))) ∧
      ∀ r ∈ circleRadii (newSurfaces g g1), ri < r ∧ r < ro :=
  ⟨fun h3 => (addCell_terminates Real.sqrt fuel g a cell hf hc hnew hid).1
      (le_trans (need_le_three cell) h3),
    fun h3 hS hok hpos hmat => addCell_annulus_returns fuel g a cell m R S e1 e2 ki ko ri ro hf
      hc hnew hid hd hR hsurf hkeys hri hro h3 hS hok hpos hmat,
    fun g1 hrun => addCell_annulus_between fuel g a cell m R S e1 e2 ki ko ri ro g1 hf hc hnew
      hid hd hR hsurf hkeys hri hro h0 hlt hk hrun⟩

/-- Witness for C13 (amended): the annulus of `annulusGeometry` between the circle 1
of radius 1 and the circle 2 of radius 2 with num_rings = 2 meets the
hypotheses, those of the normal return included. -/
theorem annulus_rings_between_radii_witness :
    ∃ g1, addCell Real.sqrt 3 (annulusGeometry ℝ) 0 = .ok () g1 ∧
      circleRadii (newSurfaces (annulusGeometry ℝ) g1) =
        ((List.range (2 : Int).toNat).map fun (j : Nat) =>
          Real.sqrt ((1 : ℝ) ^ 2 + ((j : ℝ) + 1) * ((2 : ℝ) ^ 2 - (1 : ℝ) ^ 2) /
            (((2 : Int) : ℝ) + 1))) ∧
      ∀ r ∈ circleRadii (newSurfaces (annulusGeometry ℝ) g1), (1 : ℝ) < r ∧ r < 2 := by
  have h := annulus_rings_between_radii 3 (annulusGeometry ℝ) 0 annulusCell 1 2 0
    (-2, none) (1, none) 1 2 1 2 annulusGeometry_fresh rfl rfl (by decide) rfl (by decide) rfl
    (Or.inr ⟨rfl, rfl⟩) rfl rfl (by norm_num) (by norm_num) (by decide)
  obtain ⟨g1, hrun⟩ := h.2.1 (le_refl 3) (Or.inl (le_refl 0)) (univOK_of_empty _ rfl rfl)
    (by decide) rfl
  exact ⟨g1, hrun, h.2.2 g1 hrun⟩

/-- C14 (the code fails the claim): the circles of ring refinement are created about
the origin whatever the centre of the bounding circle.  For the disk of radius 1
about (3, 4) with one ring, addCell returns normally and generates the circle
10000 of radius 1/sqrt(2) about (0, 0).  The generated ring cell 10000 is the
disc of radius 1/sqrt(2) about the origin; the original cell, which gained the
outside of that circle, is still the whole disk of radius 1 about (3, 4); no
point lies in both cells; and the two cells have the areas pi/2 and pi.  The
cells that result from the refinement do not have the same area, although the
squared radii 0, 1/2, 1 differ by a common constant. -/
theorem off_centre_disk_rings_differ_in_area :
    ∃ g1 c0 c1, addCell Real.sqrt 3 (shiftedDiskGeometry ℝ 3 4) 0 = .ok () g1 ∧
      g1.surfaceObjs.map (fun s => (s.id, s.shape)) =
        [(1, .circle 3 4 1), (10000, .circle 0 0 (1 / Real.sqrt 2))] ∧
      (1 / Real.sqrt 2) * (1 / Real.sqrt 2) = 1 / 2 ∧
      g1.cells = [(1, 0), (10000, 1)] ∧ g1.cellObjs = [c0, c1] ∧
      c0.id = 1 ∧ c0.surfaces = [(-1, some 0), (10000, some 1)] ∧
      c1.id = 10000 ∧ c1.surfaces = [(-10000, some 1)] ∧
      (∀ p, cellContains g1 c1 p = some (decide (p.1 * p.1 + p.2 * p.2 ≤ 1 / 2))) ∧
      (∀ p, cellContains g1 c0 p =
        some (decide ((p.1 - 3) * (p.1 - 3) + (p.2 - 4) * (p.2 - 4) ≤ 1))) ∧
      (∀ p, (cellContains g1 c1 p, cellContains g1 c0 p) ≠ (some true, some true)) ∧
      MeasureTheory.volume {p : ℝ × ℝ | cellContains g1 c1 p = some true} =
        ENNReal.ofReal (Real.pi / 2) ∧
      MeasureTheory.volume {p : ℝ × ℝ | cellContains g1 c0 p = some true} =
        ENNReal.ofReal Real.pi ∧
      MeasureTheory.volume {p : ℝ × ℝ | cellContains g1 c1 p = some true} ≠
        MeasureTheory.volume {p : ℝ × ℝ | cellContains g1 c0 p = some true} := by
  have hr : (1 : ℝ) / Real.sqrt ((2 : Int) : ℝ) = 1 / Real.sqrt 2 := by
    norm_num
  have hr2 : (1 / Real.sqrt 2) * (1 / Real.sqrt 2) = (1 : ℝ) / 2 := by
    rw [div_mul_div_comm, Real.mul_self_sqrt (by norm_num)]
    norm_num
  obtain ⟨g1, hrun⟩ := Outcome.isOk_elim _ (shifted_run Real.sqrt)
  have h1 := shifted_surfaces Real.sqrt
  have h2 := shifted_cells Real.sqrt
  have h3 := shifted_cellObjs Real.sqrt
  rw [hrun] at h1 h2 h3
  simp only [Outcome.state, Option.map_some', Option.some.injEq] at h1 h2 h3
  rw [hr] at h1
  obtain ⟨c0, c1, hc, hc0, hc1⟩ := map_eq_two _ _ _ _ h3
  have hshape : g1.surfaceObjs.map (fun s => s.shape) =
      [.circle 3 4 1, .circle 0 0 (1 / Real.sqrt 2)] := by
    have := congrArg (List.map Prod.snd) h1
    simpa [List.map_map, Function.comp] using this
  have hin : ∀ p, cellContains g1 c1 p = some (decide (p.1 * p.1 + p.2 * p.2 ≤ 1 / 2)) := by
    intro p
    rw [cellContains_origin_disc g1 c1 _ _ (congrArg Prod.snd hc1) hshape p, hr2]
  have hout : ∀ p, cellContains g1 c0 p =
      some (decide ((p.1 - 3) * (p.1 - 3) + (p.2 - 4) * (p.2 - 4) ≤ 1)) := fun p =>
    cellContains_shifted_disk g1 c0 _ (congrArg Prod.snd hc0) hshape
      (by rw [hr2]; norm_num) p
  have hv1 : MeasureTheory.volume {p : ℝ × ℝ | cellContains g1 c1 p = some true} =
      ENNReal.ofReal (Real.pi / 2) := by
    have hs : {p : ℝ × ℝ | cellContains g1 c1 p = some true} =
        {p : ℝ × ℝ | (p.1 - 0) * (p.1 - 0) + (p.2 - 0) * (p.2 - 0) ≤
          (1 / Real.sqrt 2) * (1 / Real.sqrt 2)} := by
      ext p
      simp only [Set.mem_setOf_eq, hin p, Option.some.injEq, decide_eq_true_eq, sub_zero, hr2]
    rw [hs, disc_volume 0 0 (1 / Real.sqrt 2) (by positivity), hr2]
    congr 1
    ring
  have hv0 : MeasureTheory.volume {p : ℝ × ℝ | cellContains g1 c0 p = some true} =
      ENNReal.ofReal Real.pi := by
    have hs : {p : ℝ × ℝ | cellContains g1 c0 p = some true} =
        {p : ℝ × ℝ | (p.1 - 3) * (p.1 - 3) + (p.2 - 4) * (p.2 - 4) ≤ 1 * 1} := by
      ext p
      simp only [Set.mem_setOf_eq, hout p, Option.some.injEq, decide_eq_true_eq, mul_one]
    rw [hs, disc_volume 3 4 1 (by norm_num)]
    congr 1
    ring
  refine ⟨g1, c0, c1, hrun, h1, hr2, h2, hc, congrArg Prod.fst hc0, congrArg Prod.snd hc0,
    congrArg Prod.fst hc1, congrArg Prod.snd hc1, hin, hout, ?_, hv1, hv0, ?_⟩
  · intro p h
    rw [hin p, hout p] at h
    simp only [Prod.mk.injEq, Option.some.injEq, decide_eq_true_eq] at h
    nlinarith [h.1, h.2, sq_nonneg (p.1 - 1), sq_nonneg (p.2 - 1), mul_self_nonneg p.1,
      mul_self_nonneg p.2]
  · rw [hv1, hv0]
    intro h
    have h3 := (ENNReal.ofReal_eq_ofReal_iff (by positivity) Real.pi_pos.le).mp h
    linarith [Real.pi_pos]

/-- C16: let no surface and no cell be registered at or above the static id counter,
which is at least 10000 (as is the case when all user ids are below 10000), and
let addCell be called for a cell whose id is unused and below the counter.
Then the call does not run out of its budget of three levels; a fatal error it
ends in is no duplicate-id error; and after a normal return the surface
objects allocated by the call have boundary type NONE and ids that are at
least 10000, unregistered before the call and strictly increasing in
allocation order, the cell objects allocated by the call have ids that are at
least 10000, unregistered before the call, different from the id of the cell
and strictly increasing in allocation order, and again no surface and no cell
is registered at or above the counter. -/
theorem refinement_ids_are_fresh (sqrt : F → F) (fuel : Nat) (g : Geometry F) (a : Addr)
    (cell : Cell) (hf : FreshIds g) (hbase : 10000 ≤ g.statics.id)
    (hc : g.cellObjs[a]? = some cell) (hnew : IntMap.find g.cells cell.id = none)
    (hid : cell.id < g.statics.id) :
    (3 ≤ fuel → addCell sqrt fuel g a ≠ .outOfFuel) ∧
    (∀ e s, addCell sqrt fuel g a = .fatal e s →
      ∀ k, e ≠ .duplicateSurface k ∧ e ≠ .duplicateCell k ∧ e ≠ .duplicateUniverse k) ∧
    ∀ g1, addCell sqrt fuel g a = .ok () g1 →
      g1.surfaceObjs = g.surfaceObjs ++ newSurfaces g g1 ∧
      (∀ s ∈ newSurfaces g g1, s.boundary = .BOUNDARY_NONE ∧ 10000 ≤ s.id ∧
        IntMap.find g.surfaces s.id = none) ∧
      ((newSurfaces g g1).map fun s => s.id).Pairwise (· < ·) ∧
      (g1.cellObjs.map fun c => c.id) = (g.cellObjs.map fun c => c.id) ++ newCellIds g g1 ∧
      (∀ k ∈ newCellIds g g1, 10000 ≤ k ∧ IntMap.find g.cells k = none ∧ k ≠ cell.id) ∧
      (newCellIds g g1).Pairwise (· < ·) ∧
      FreshIds g1 := by
  obtain ⟨hterm, hfat⟩ := addCell_terminates sqrt fuel g a cell hf hc hnew hid
  refine ⟨fun h3 => hterm (le_trans (need_le_three cell) h3), ?_, ?_⟩
  · intro e s hrun k
    obtain ⟨h1, h2, h3⟩ := hfat e s hrun
    exact ⟨h1 k, h2 k, h3 k⟩
  · intro g1 hrun
    obtain ⟨hpost, _⟩ := addCell_ok_post sqrt fuel g a cell g1 hf hc hnew hid hrun
    obtain ⟨hg, hf1, _⟩ := hpost
    refine ⟨hg.surf_objs, ?_, hg.surf_inc, hg.cell_objs, ?_, hg.cell_inc, hf1⟩
    · intro s hs
      obtain ⟨h1, h2, _⟩ := hg.surf_new s hs
      exact ⟨h1, le_trans hbase h2, (hf s.id h2).1⟩
    · intro k hk
      obtain ⟨h1, _⟩ := hg.cell_new k hk
      exact ⟨le_trans hbase h1, (hf k h1).2, by omega⟩

/-- Witness for C16: the unit disk of `diskGeometry` with num_rings = 2 meets the
hypotheses, and the call returns normally. -/
theorem refinement_ids_are_fresh_witness :
    (addCell (fun x => x) 3 (diskGeometry ℚ) 0).isOk = true ∧
    (3 ≤ 3 → addCell (fun x => x) 3 (diskGeometry ℚ) 0 ≠ .outOfFuel) ∧
    (∀ e s, addCell (fun x => x) 3 (diskGeometry ℚ) 0 = .fatal e s →
      ∀ k, e ≠ .duplicateSurface k ∧ e ≠ .duplicateCell k ∧ e ≠ .duplicateUniverse k) ∧
    ∀ g1, addCell (fun x => x) 3 (diskGeometry ℚ) 0 = .ok () g1 →
      g1.surfaceObjs = (diskGeometry ℚ).surfaceObjs ++ newSurfaces (diskGeometry ℚ) g1 ∧
      (∀ s ∈ newSurfaces (diskGeometry ℚ) g1, s.boundary = .BOUNDARY_NONE ∧ 10000 ≤ s.id ∧
        IntMap.find (diskGeometry ℚ).surfaces s.id = none) ∧
      ((newSurfaces (diskGeometry ℚ) g1).map fun s => s.id).Pairwise (· < ·) ∧
      (g1.cellObjs.map fun c => c.id) =
        ((diskGeometry ℚ).cellObjs.map fun c => c.id) ++ newCellIds (diskGeometry ℚ) g1 ∧
      (∀ k ∈ newCellIds (diskGeometry ℚ) g1, 10000 ≤ k ∧
        IntMap.find (diskGeometry ℚ).cells k = none ∧ k ≠ diskCell.id) ∧
      (newCellIds (diskGeometry ℚ) g1).Pairwise (· < ·) ∧
      FreshIds g1 :=
  ⟨rfl, refinement_ids_are_fresh (fun x => x) 3 (diskGeometry ℚ) 0 diskCell diskGeometry_fresh
    (by decide) rfl rfl (by decide)⟩

/-- C17: let `cell` be a material cell of universe u with material m, num_rings = R > 0
and num_sectors = S, where S is at most 0 or equal to 4, bounded by one or by
two registered circles, with its id unused and below the positive static id
counter, in a state that satisfies the invariants `FreshIds` and `UnivOK`.
First, both variants of the ring refinement of this cell hand to `addCell` only
ring cells in the sense of `IsRingCell`, that is unregistered material cells
of the universe u with the material m, no rings and S sectors: replacing
`addCell` by any function that agrees with it on such cells does not change
the result.  Second, `addCell` returns normally within three levels of
recursion, it allocates `ringObjects S` cell objects per ring (and three for the
sectors of the cell itself when S = 4), and for every j < R the j-th ring is in
place in the sense of `RingIn`: a circle about the origin and the ring cell are
registered under the id `counter + j * ringStride S`, the ring cell is a newly
allocated material cell of the universe u with the material m and no rings,
it is a member of the universe u and carries the inside of its circle; for
S other than 4 it has S sectors, and for S = 4 it has been sector-refined: its
two planes and three sector cells are registered under the next five ids, it
carries the halfspaces of its planes, and its own sector count has been cleared
by its sector refinement (line 656). -/
theorem ring_cells_registered (sqrt : F → F) (fuel : Nat) (g : Geometry F) (a : Addr)
    (cell : Cell) (m : Int) (R : Nat) (S : Int)
    (hf : FreshIds g) (hok : UnivOK g) (hc : g.cellObjs[a]? = some cell)
    (hd : cell.data = .basic m R S) (hR : 0 < R) (hS : S ≤ 0 ∨ S = 4)
    (hnew : IntMap.find g.cells cell.id = none) (hid : cell.id < g.statics.id)
    (hpos : 0 < g.statics.id) (hmat : (IntMap.find g.materials m).isSome = true)
    (hsurf : (∃ k0 p r0, cell.surfaces = [(k0, p)] ∧ circleRadius g (iabs k0) = .ok r0 g) ∨
      (∃ e1 e2 r1 r2, cell.surfaces = [e1, e2] ∧ circleRadius g (iabs e1.1) = .ok r1 g ∧
        circleRadius g (iabs e2.1) = .ok r2 g)) :
    (∀ (rec1 : Geometry F → Addr → Outcome (Geometry F) Unit) (g0 : Geometry F),
      FreshIds g0 → UnivOK g0 →
      (∀ g2 c, IsRingCell cell.universe_id m S g2 c →
        rec1 g2 c = addCell sqrt (fuel + 2) g2 c) →
      addRingsDisk rec1 sqrt a cell.surfaces cell.universe_id m S ((R : Int) + 1) g0 =
        addRingsDisk (addCell sqrt (fuel + 2)) sqrt a cell.surfaces cell.universe_id m S
          ((R : Int) + 1) g0 ∧
      addRingsAnnulus rec1 sqrt a cell.surfaces cell.universe_id m S ((R : Int) + 1) g0 =
        addRingsAnnulus (addCell sqrt (fuel + 2)) sqrt a cell.surfaces cell.universe_id m S
          ((R : Int) + 1) g0) ∧
    ∃ g1, addCell sqrt (fuel + 3) g a = .ok () g1 ∧
      g1.cellObjs.length = g.cellObjs.length + R * ringObjects S + (if S = 4 then 3 else 0) ∧
      ∀ j : Nat, j < R →
        RingIn g1 cell.universe_id m S (g.statics.id + ((j * ringStride S : Nat) : Int))
          (g.cellObjs.length + j * ringObjects S) :=
  ⟨fun rec1 g0 hf0 hok0 h =>
      ⟨addRingsDisk_calls sqrt (fuel + 2) cell.universe_id m S rec1 h a cell.surfaces _ g0 hf0 hok0,
        addRingsAnnulus_calls sqrt (fuel + 2) cell.universe_id m S rec1 h a cell.surfaces _ g0 hf0
          hok0⟩,
    addCell_rings_done sqrt fuel g a cell m R S hf hok hc hd hR hS hnew hid hpos hmat hsurf⟩

/-- Witness for C17: the unit disk of `ringSectorGeometry` with one ring and four
sectors meets the hypotheses. -/
theorem ring_cells_registered_witness :
    (∀ (rec1 : Geometry ℚ → Addr → Outcome (Geometry ℚ) Unit) (g0 : Geometry ℚ),
      FreshIds g0 → UnivOK g0 →
      (∀ g2 c, IsRingCell 0 1 4 g2 c → rec1 g2 c = addCell (fun x => x) 2 g2 c) →
      addRingsDisk rec1 (fun x => x) 0 (CellBasic 1 0 1 [-1] 1 1 4).surfaces 0 1 4
          (((1 : Nat) : Int) + 1) g0 =
        addRingsDisk (addCell (fun x => x) 2) (fun x => x) 0
          (CellBasic 1 0 1 [-1] 1 1 4).surfaces 0 1 4 (((1 : Nat) : Int) + 1) g0 ∧
      addRingsAnnulus rec1 (fun x => x) 0 (CellBasic 1 0 1 [-1] 1 1 4).surfaces 0 1 4
          (((1 : Nat) : Int) + 1) g0 =
        addRingsAnnulus (addCell (fun x => x) 2) (fun x => x) 0
          (CellBasic 1 0 1 [-1] 1 1 4).surfaces 0 1 4 (((1 : Nat) : Int) + 1) g0) ∧
    ∃ g1, addCell (fun x => x) 3 (ringSectorGeometry ℚ) 0 = .ok () g1 ∧
      g1.cellObjs.length = 1 + 1 * ringObjects 4 + (if (4 : Int) = 4 then 3 else 0) ∧
      ∀ j : Nat, j < 1 →
        RingIn g1 0 1 4 (10000 + ((j * ringStride 4 : Nat) : Int)) (1 + j * ringObjects 4) :=
  ring_cells_registered (fun x => x) 0 (ringSectorGeometry ℚ) 0 (CellBasic 1 0 1 [-1] 1 1 4)
    1 1 4 ringSectorGeometry_fresh (univOK_of_empty _ rfl rfl) rfl rfl (by decide)
    (Or.inr rfl) rfl (by decide) (by decide) rfl (Or.inl ⟨-1, none, 1, rfl, rfl⟩)

/-- C18: let addCell return normally for a cell c of universe id u whose id is unused
and below the static id counter, in a state that satisfies the invariants
`FreshIds` and `UnivOK`.  Then c is registered under its id and is a member of
the universe registered under u.  When u was not registered, it is now
registered for a new universe object of type SIMPLE with the id u that holds
c.  When u was registered, the universe registry and the number of universe
objects are as before, and the universe object of u has kept its id, its type
and its cells and holds c in addition.  In both cases the registry entries of
the other universe ids and the universe objects with another id are as
before. -/
theorem addCell_universe_membership (sqrt : F → F) (fuel : Nat) (g : Geometry F) (a : Addr)
    (cell : Cell) (g1 : Geometry F) (hf : FreshIds g) (hok : UnivOK g)
    (hc : g.cellObjs[a]? = some cell) (hnew : IntMap.find g.cells cell.id = none)
    (hid : cell.id < g.statics.id) (hrun : addCell sqrt fuel g a = .ok () g1) :
    IntMap.find g1.cells cell.id = some a ∧ Member g1 cell a ∧
    (IntMap.find g.universes cell.universe_id = none →
      IntMap.find g1.universes cell.universe_id = some g.universeObjs.length ∧
      ∃ U, g1.universeObjs[g.universeObjs.length]? = some U ∧ U.type = .SIMPLE ∧
        U.id = cell.universe_id ∧ IntMap.find U.cells cell.id = some a) ∧
    (∀ ua, IntMap.find g.universes cell.universe_id = some ua →
      g1.universes = g.universes ∧ g1.universeObjs.length = g.universeObjs.length ∧
      ∀ U, g.universeObjs[ua]? = some U →
        ∃ U1, g1.universeObjs[ua]? = some U1 ∧ U1.id = U.id ∧ U1.type = U.type ∧
          (∀ cid v, IntMap.find U.cells cid = some v → IntMap.find U1.cells cid = some v) ∧
          IntMap.find U1.cells cell.id = some a) ∧
    (∀ k, k ≠ cell.universe_id → IntMap.find g1.universes k = IntMap.find g.universes k) ∧
    (∀ (ub : Addr) (U : Universe F), g.universeObjs[ub]? = some U →
      U.id ≠ cell.universe_id → g1.universeObjs[ub]? = some U) :=
  addCell_universe_post sqrt fuel g a cell g1 hf hok hc hnew hid hrun

/-- Witness for C18: the unit disk of `diskGeometry`, whose universe 0 is not
registered before the call. -/
theorem addCell_universe_membership_witness :
    IntMap.find diskAdded.cells diskCell.id = some 0 ∧ Member diskAdded diskCell 0 ∧
    (IntMap.find (diskGeometry ℚ).universes diskCell.universe_id = none →
      IntMap.find diskAdded.universes diskCell.universe_id =
        some (diskGeometry ℚ).universeObjs.length ∧
      ∃ U, diskAdded.universeObjs[(diskGeometry ℚ).universeObjs.length]? = some U ∧
        U.type = .SIMPLE ∧ U.id = diskCell.universe_id ∧
        IntMap.find U.cells diskCell.id = some 0) ∧
    (∀ ua, IntMap.find (diskGeometry ℚ).universes diskCell.universe_id = some ua →
      diskAdded.universes = (diskGeometry ℚ).universes ∧
      diskAdded.universeObjs.length = (diskGeometry ℚ).universeObjs.length ∧
      ∀ U, (diskGeometry ℚ).universeObjs[ua]? = some U →
        ∃ U1, diskAdded.universeObjs[ua]? = some U1 ∧ U1.id = U.id ∧ U1.type = U.type ∧
          (∀ cid v, IntMap.find U.cells cid = some v → IntMap.find U1.cells cid = some v) ∧
          IntMap.find U1.cells diskCell.id = some 0) ∧
    (∀ k, k ≠ diskCell.universe_id →
      IntMap.find diskAdded.universes k = IntMap.find (diskGeometry ℚ).universes k) ∧
    (∀ (ub : Addr) (U : Universe ℚ), (diskGeometry ℚ).universeObjs[ub]? = some U →
      U.id ≠ diskCell.universe_id → diskAdded.universeObjs[ub]? = some U) :=
  addCell_universe_membership (fun x => x) 3 (diskGeometry ℚ) 0 diskCell diskAdded
    diskGeometry_fresh (univOK_of_empty _ rfl rfl) rfl rfl (by decide) rfl

/-- C21 (the code fails the claim): the bounds test of findCell lets the ids -1 and
num_FSRs pass.  In the geometry built from `roundTripInput`, with num_FSRs = 3,
findCell(root, 3) raises no error and returns the material cell 4; the ids 4 and
-2 raise the out-of-bounds error, and the id -1 passes the bounds test and ends
in the error of the search further down. -/
theorem findCell_accepts_num_FSRs (sqrt : ℚ → ℚ) :
    Geometry.build sqrt 3 startStatics roundTripInput = .ok () roundTripGeometry ∧
    roundTripGeometry.num_FSRs = 3 ∧
    findCell 3 roundTripGeometry (IntMap.find roundTripGeometry.universes 0) 3 =
      .ok (some 3) roundTripGeometry ∧
    (roundTripGeometry.cellObjs[3]?).map (fun c => (c.id, c.getType)) = some (4, .MATERIAL) ∧
    findCell 3 roundTripGeometry (IntMap.find roundTripGeometry.universes 0) 4 =
      .fatal (.fsrOutOfBounds 4) roundTripGeometry ∧
    findCell 3 roundTripGeometry (IntMap.find roundTripGeometry.universes 0) (-2) =
      .fatal (.fsrOutOfBounds (-2)) roundTripGeometry ∧
    findCell 3 roundTripGeometry (IntMap.find roundTripGeometry.universes 0) (-1) =
      .fatal (.fsrCellNotFound (-1)) roundTripGeometry :=
  ⟨rfl, rfl, rfl, rfl, rfl, rfl, rfl⟩

/-- C22: if findCell on the start coordinates of the track returns null, segmentize
returns normally and leaves the pair of the geometry and the track as it was
before the call: no segment is added to the track, no error is raised, and the
segment-length statistics, which are fields of the geometry, are unchanged. -/
theorem segmentize_start_in_no_cell (T : Tracer F) (fuel : Nat) (g : Geometry F)
    (track : Track F) (coords : List (LocalCoords F))
    (h : findCellCoords T g [LocalCoords.new track.x0 track.y0 0] = .ok none coords) :
    segmentize T (fuel + 1) g track = .ok () (g, track) :=
  segmentize_no_start_cell T fuel g track coords h

/-- Witness for C22: in `tileGeometry` the point (5, 0) lies in no cell, and the
track that starts there is left without a segment. -/
theorem segmentize_start_in_no_cell_witness :
    findCellCoords tileTracer tileGeometry [LocalCoords.new 5 0 0] =
      .ok none [LocalCoords.new 5 0 0] ∧
    segmentize tileTracer 1 tileGeometry ⟨5, 0, 0, []⟩ =
      .ok () (tileGeometry, ⟨5, 0, 0, []⟩) :=
  ⟨(tile_outside_generic tileGeometry rfl).1,
   segmentize_start_in_no_cell tileTracer 0 tileGeometry ⟨5, 0, 0, []⟩ _
      (tile_outside_generic tileGeometry rfl).1⟩

/-- C23 (the code fails the claim): the counter `static int id` of addCell keeps its
value between two constructions.  For the unit disk with two rings the first
construction generates the surfaces and cells 10000 and 10001 and leaves the
counter at 10002; the second construction from the same parser input, which
starts from the static variables the first one left, generates the surfaces and
cells 10002 and 10003, so the registries and the table FSRs_to_cells of the two
geometries differ, while the tables FSRs_to_materials agree. -/
theorem second_build_differs (sqrt : ℚ → ℚ) :
    (Geometry.build sqrt 3 startStatics ringsInput).isOk = true ∧
    (firstBuild sqrt).statics = staticsAfterFirst ∧
    (Geometry.build sqrt 3 staticsAfterFirst ringsInput).isOk = true ∧
    IntMap.keys (firstBuild sqrt).surfaces = [1, 10000, 10001] ∧
    IntMap.keys (secondBuild sqrt).surfaces = [1, 10002, 10003] ∧
    IntMap.keys (firstBuild sqrt).cells = [1, 10000, 10001] ∧
    IntMap.keys (secondBuild sqrt).cells = [1, 10002, 10003] ∧
    (firstBuild sqrt).FSRs_to_cells = [1, 10000, 10001] ∧
    (secondBuild sqrt).FSRs_to_cells = [1, 10002, 10003] ∧
    (firstBuild sqrt).FSRs_to_materials = [1, 1, 1] ∧
    (secondBuild sqrt).FSRs_to_materials = [1, 1, 1] :=
  ⟨(builds_run sqrt).1, (builds_run sqrt).2.1, (builds_run sqrt).2.2,
   first_build_surfaces sqrt, second_build_surfaces sqrt, first_build_cells sqrt,
   second_build_cells sqrt, (first_build_tables sqrt).1, (second_build_tables sqrt).1,
   (first_build_tables sqrt).2, (second_build_tables sqrt).2⟩

/-- C26 (the code fails the claim): no call of addCell returns normally for a
material cell with num_sectors = 8 or num_sectors = 16, whatever the state and
the recursion budget; the sector refinement is written for 4 sectors only and
every other positive count ends in the error on the number of sectors. -/
theorem sectors_8_and_16_rejected (sqrt : F → F) (fuel : Nat) (g : Geometry F) (a : Addr)
    (cell : Cell) (m R S : Int) (hc : g.cellObjs[a]? = some cell)
    (hd : cell.data = .basic m R S) (hS : S = 8 ∨ S = 16) :
    (addCell sqrt fuel g a).isOk = false :=
  addCell_sectors_not_ok sqrt fuel g a cell m R S hc hd
    (by rcases hS with h | h <;> omega) (by rcases hS with h | h <;> omega)

/-- Witness for C26 on the unit disk without rings: with 8 and with 16 sectors
addCell ends in the fatal error on the number of sectors, and no surface and no
cell has been added. -/
theorem sectors_8_and_16_rejected_witness :
    (addCell (fun x => x) 3 (sectorsGeometry ℚ 8) 0).isOk = false ∧
    (addCell (fun x => x) 3 (sectorsGeometry ℚ 16) 0).isOk = false ∧
    (∃ g1, addCell (fun x => x) 3 (sectorsGeometry ℚ 8) 0 =
        .fatal (.sectorsUnsupported 8) g1 ∧
      g1.surfaceObjs.length = 1 ∧ g1.cellObjs.length = 1) ∧
    (∃ g1, addCell (fun x => x) 3 (sectorsGeometry ℚ 16) 0 =
        .fatal (.sectorsUnsupported 16) g1 ∧
      g1.surfaceObjs.length = 1 ∧ g1.cellObjs.length = 1) :=
  ⟨sectors_8_and_16_rejected (fun x => x) 3 (sectorsGeometry ℚ 8) 0 _ 1 0 8 rfl rfl
      (Or.inl rfl),
   sectors_8_and_16_rejected (fun x => x) 3 (sectorsGeometry ℚ 16) 0 _ 1 0 16 rfl rfl
      (Or.inr rfl),
   ⟨_, rfl, rfl, rfl⟩, ⟨_, rfl, rfl, rfl⟩⟩

/-- C27 (the code fails the claim): in the geometry built from `roundTripInput` the
point (-1, -1) has the chain root universe, fill cell 1, universe 5, material
cell 3, which holds no LAT link.  A ray from there in the direction of the x axis
meets no surface of cell 3, and findNextCell does not return: the loop
`while (curr->getUniverse() != 0)` runs on the lowest link, a UNIV link of
universe 5, whose body does nothing for a link that is no LAT link.  For every
budget of loop iterations the call, and with it segmentize, is still running. -/
theorem findNextCell_spins_without_lattice (sqrt : ℚ → ℚ)
    (latF : Geometry ℚ → Addr → List (LocalCoords ℚ) →
      Outcome (List (LocalCoords ℚ)) (Option Addr))
    (latN : Geometry ℚ → Addr → List (LocalCoords ℚ) → Nat → ℚ →
      Outcome (List (LocalCoords ℚ)) (Option Addr)) :
    findCellCoords (xAxisTracer sqrt latF latN) roundTripGeometry
        [LocalCoords.new (-1) (-1) 0] =
      .ok (some 2) [{ LocalCoords.new (-1) (-1) 0 with cell := 1 },
                    { LocalCoords.new (-1) (-1) 5 with cell := 3 }] ∧
    (xAxisTracer sqrt latF latN).minSurfaceDist roundTripGeometry 2 (-1, -1) 0 =
      (.posInf, (-1, -1)) ∧
    (∀ fuel, findNextCell (xAxisTracer sqrt latF latN) fuel roundTripGeometry
      [{ LocalCoords.new (-1) (-1) 0 with cell := 1 },
       { LocalCoords.new (-1) (-1) 5 with cell := 3 }] 0 = .outOfFuel) ∧
    (∀ fuel, segmentize (xAxisTracer sqrt latF latN) fuel roundTripGeometry
      ⟨-1, -1, 0, []⟩ = .outOfFuel) :=
  ⟨(round_trip_spins sqrt latF latN roundTripGeometry rfl rfl rfl rfl rfl rfl rfl).1,
   (round_trip_spins sqrt latF latN roundTripGeometry rfl rfl rfl rfl rfl rfl rfl).2.1,
   (round_trip_spins sqrt latF latN roundTripGeometry rfl rfl rfl rfl rfl rfl rfl).2.2.1,
   (round_trip_spins sqrt latF latN roundTripGeometry rfl rfl rfl rfl rfl rfl rfl).2.2.2⟩

/-- C30 (the code fails the claim): the circles of ring refinement are created with
the centre (0, 0) written into the code.  For the disk of radius 1 about any
point (x0, y0) and for the annulus between the radii 1 and 2 about (x0, y0), each
with one ring, addCell returns normally and the one circle it generates is
centred at the origin, while the bounding circles are centred at (x0, y0). -/
theorem ring_circles_centred_at_origin (sqrt : F → F) (x0 y0 : F) :
    (∃ g1, addCell sqrt 3 (shiftedDiskGeometry F x0 y0) 0 = .ok () g1 ∧
      circleCentres (shiftedDiskGeometry F x0 y0).surfaceObjs = [(x0, y0)] ∧
      circleCentres (newSurfaces (shiftedDiskGeometry F x0 y0) g1) = [(0, 0)]) ∧
    (∃ g1, addCell sqrt 3 (shiftedAnnulusGeometry F x0 y0) 0 = .ok () g1 ∧
      circleCentres (shiftedAnnulusGeometry F x0 y0).surfaceObjs = [(x0, y0), (x0, y0)] ∧
      circleCentres (newSurfaces (shiftedAnnulusGeometry F x0 y0) g1) = [(0, 0)]) :=
  ⟨⟨_, rfl, rfl, rfl⟩, ⟨_, rfl, rfl, rfl⟩⟩

/-- C24 (the claim fails on the code): segmentize writes the segment-length
statistics of the geometry.  In `tileGeometry` the track from the centre at angle
0 gets one segment of length 1 + 10^-8, and the call changes max_seg_length from
0 and min_seg_length from +infinity to that length. -/
theorem segmentize_writes_statistics :
    segmentize tileTracer 3 tileGeometry ⟨0, 0, 0, []⟩ =
      .ok () (updateSegLengths tileGeometry (1 + 1 / 100000000),
        ⟨0, 0, 0, [⟨1 + 1 / 100000000, 0, 0⟩]⟩) ∧
    tileGeometry.max_seg_length = .fin 0 ∧
    tileGeometry.min_seg_length = .posInf ∧
    (updateSegLengths tileGeometry (1 + 1 / 100000000)).max_seg_length =
      .fin (1 + 1 / 100000000) ∧
    (updateSegLengths tileGeometry (1 + 1 / 100000000)).min_seg_length =
      .fin (1 + 1 / 100000000) ∧
    updateSegLengths tileGeometry (1 + 1 / 100000000) ≠ tileGeometry := by
  have hmax : tileGeometry.max_seg_length = .fin 0 := rfl
  have hmin : tileGeometry.min_seg_length = .posInf := rfl
  have h1 : (updateSegLengths tileGeometry (1 + 1 / 100000000)).max_seg_length =
      .fin (1 + 1 / 100000000) := by
    simp only [updateSegLengths, hmax, Ext.lt, Ext.le]
    norm_num
  have h2 : (updateSegLengths tileGeometry (1 + 1 / 100000000)).min_seg_length =
      .fin (1 + 1 / 100000000) := by
    simp only [updateSegLengths, hmin, Ext.lt, Ext.le]
    norm_num
  refine ⟨tile_run, hmax, hmin, h1, h2, ?_⟩
  intro h
  rw [h, hmin] at h2
  exact Ext.noConfusion h2

/-- C24 (amended): whenever segmentize ends, normally or in a fatal error, every
field of the geometry other than the two segment-length statistics has the
value it had before the call, and the track has its start point, its angle and
its former segments, followed by the segments the call added; after a normal
return the statistics are the former ones updated with the length of each added
segment in turn. -/
theorem segmentize_changes_statistics_only (T : Tracer F) (fuel : Nat) (g : Geometry F)
    (track : Track F) (st : Geometry F × Track F)
    (h : (segmentize T fuel g track).state = some st) :
    sameButLengths st.1 g ∧
    ∃ segs, st.2 = { track with segments := track.segments ++ segs } ∧
      (segmentize T fuel g track = .ok () st → st.1 = recordLengths g segs) :=
  segmentize_frame_lemma T fuel g track st h

/-- Witness for C24 (amended): the run on `tileGeometry` from the centre at angle 0
ends normally with one segment added and its length entered in the statistics. -/
theorem segmentize_changes_statistics_only_witness :
    (segmentize tileTracer 3 tileGeometry ⟨0, 0, 0, []⟩).state =
      some (updateSegLengths tileGeometry (1 + 1 / 100000000),
        ⟨0, 0, 0, [⟨1 + 1 / 100000000, 0, 0⟩]⟩) ∧
    sameButLengths (updateSegLengths tileGeometry (1 + 1 / 100000000)) tileGeometry ∧
    ∃ segs, (⟨0, 0, 0, [⟨1 + 1 / 100000000, 0, 0⟩]⟩ : Track ℚ) =
        { (⟨0, 0, 0, []⟩ : Track ℚ) with segments := [] ++ segs } ∧
      (segmentize tileTracer 3 tileGeometry ⟨0, 0, 0, []⟩ =
          .ok () (updateSegLengths tileGeometry (1 + 1 / 100000000),
            ⟨0, 0, 0, [⟨1 + 1 / 100000000, 0, 0⟩]⟩) →
        updateSegLengths tileGeometry (1 + 1 / 100000000) = recordLengths tileGeometry segs) :=
  ⟨by rw [tile_run]; rfl,
   segmentize_changes_statistics_only tileTracer 3 tileGeometry ⟨0, 0, 0, []⟩ _
     (by rw [tile_run]; rfl)⟩

/-- C25: in a state without dangling references adjustKeys returns normally and
replaces each of the five registries (materials, surfaces, cells, universes,
lattices) by a map in which every entry is an entity registered before the call
under its own uid; when the entities of a registry have pairwise distinct uids,
every one of them is in the new map and the size of the registry is unchanged.
The objects stay at their addresses: the material and surface objects are
untouched, the cell and universe objects keep their uids and ids. -/
theorem adjustKeys_rekeys (g : Geometry F) (h : KeysResolved g) :
    ∃ g1, adjustKeys g = .ok () g1 ∧
      g1.materialObjs = g.materialObjs ∧ g1.surfaceObjs = g.surfaceObjs ∧
      g1.cellObjs.map (fun c => (c.uid, c.id)) = g.cellObjs.map (fun c => (c.uid, c.id)) ∧
      g1.universeObjs.map (fun u => (u.uid, u.id)) =
        g.universeObjs.map (fun u => (u.uid, u.id)) ∧
      Rekeyed (materialUid g.materialObjs) g.materials g1.materials ∧
      Rekeyed (surfaceUid g.surfaceObjs) g.surfaces g1.surfaces ∧
      Rekeyed (cellUid g.cellObjs) g.cells g1.cells ∧
      Rekeyed (universeUid g.universeObjs) g.universes g1.universes ∧
      Rekeyed (universeUid g.universeObjs) g.lattices g1.lattices :=
  adjustKeys_spec g h

/-- Witness for C25 on `keyedGeometry`: the references resolve, the theorem applies,
and the five registries after the call read uid to address. -/
theorem adjustKeys_rekeys_witness :
    KeysResolved keyedGeometry ∧
    (∃ g1, adjustKeys keyedGeometry = .ok () g1 ∧
      g1.materialObjs = keyedGeometry.materialObjs ∧
      g1.surfaceObjs = keyedGeometry.surfaceObjs ∧
      g1.cellObjs.map (fun c => (c.uid, c.id)) =
        keyedGeometry.cellObjs.map (fun c => (c.uid, c.id)) ∧
      g1.universeObjs.map (fun u => (u.uid, u.id)) =
        keyedGeometry.universeObjs.map (fun u => (u.uid, u.id)) ∧
      Rekeyed (materialUid keyedGeometry.materialObjs) keyedGeometry.materials g1.materials ∧
      Rekeyed (surfaceUid keyedGeometry.surfaceObjs) keyedGeometry.surfaces g1.surfaces ∧
      Rekeyed (cellUid keyedGeometry.cellObjs) keyedGeometry.cells g1.cells ∧
      Rekeyed (universeUid keyedGeometry.universeObjs) keyedGeometry.universes
        g1.universes ∧
      Rekeyed (universeUid keyedGeometry.universeObjs) keyedGeometry.lattices
        g1.lattices) ∧
    (adjustKeys keyedGeometry).isOk = true ∧
    (stateOf (adjustKeys keyedGeometry)).materials = [(0, 0), (1, 1)] ∧
    (stateOf (adjustKeys keyedGeometry)).surfaces = [(0, 0), (1, 1)] ∧
    (stateOf (adjustKeys keyedGeometry)).cells = [(0, 0), (1, 1), (2, 2)] ∧
    (stateOf (adjustKeys keyedGeometry)).universes = [(0, 0), (1, 1), (2, 2)] ∧
    (stateOf (adjustKeys keyedGeometry)).lattices = [(2, 2)] :=
  ⟨keyed_resolved, adjustKeys_rekeys keyedGeometry keyed_resolved, rfl, rfl, rfl, rfl, rfl,
    rfl⟩

/-- C28 (the code fails the claim): the loop that compares the tile indices leaves at
the first LAT level it meets from the bottom: the statement `break` does not
belong to the `if` on the indices.  In `nestedGeometry`, a lattice inside a
lattice, the ray from the centre of the left outer tile in the direction of the
x axis meets the line x = 3/2 of cell 3 behind the wall of the tile; the nudged
point lies in the right outer tile.  The chains before and after the move agree
in the indices of the inner lattice 11 and differ in the indices of the outer
lattice 10, yet findNextCell returns the cell found with the moved coordinates;
the coordinates are not restored and the lattice-crossing step is not run.  The
move leads from the flat source region 0 into the region 1. -/
theorem lattice_check_stops_at_innermost (fuel : Nat) :
    (Geometry.build (fun x => x) 6 startStatics nestedInput).isOk = true ∧
    findCellCoords nestedTracer nestedGeometry [LocalCoords.new (-1) 0 0] =
      .ok (some 2) (nestedChain (-1) 0 0) ∧
    findNextCell nestedTracer fuel nestedGeometry (nestedChain (-1) 0 0) 0 =
      .ok (some 2) (nestedChain (1 / 2 + 1 / 100000000) 0 1) ∧
    latticeIndices (nestedChain (-1) 0 0) = [(10, 0, 0), (11, 0, 0)] ∧
    latticeIndices (nestedChain (1 / 2 + 1 / 100000000) 0 1) = [(10, 1, 0), (11, 0, 0)] ∧
    findFSRId nestedGeometry (nestedChain (-1) 0 0) = .ok 0 ∧
    findFSRId nestedGeometry (nestedChain (1 / 2 + 1 / 100000000) 0 1) = .ok 1 :=
  ⟨rfl, (nested_step_generic nestedGeometry 0 rfl fuel).1,
   (nested_step_generic nestedGeometry 0 rfl fuel).2, rfl, rfl, rfl, rfl⟩

/-- C29 (the code fails the claim): the second pass raises the count before it uses
it as the position, so the positions written are 1 to count and the last write
lies outside the list.  In `neighborGeometry`, keyed by dense uids, surface 1 has
the cells 1 and 2 on its positive side and the cell 3 on its negative side; the
lists are sized 2 and 1; cell 1 is stored at position 1 of the positive list, and
the write for cell 2 at position 2 is outside the list of size 2.  At that
moment position 0 holds no cell and the negative list is untouched. -/
theorem neighbor_write_outside_list :
    ∃ g1 counts, buildNeighborsLists neighborGeometry = .fatal .outOfRange (g1, counts) ∧
      neighborLists g1 = [([], []), ([0, 1], [0])] ∧
      counts = { positive := [0, 2], negative := [0, 0] } :=
  ⟨_, _, rfl, rfl, rfl⟩

/-- C34 (the code fails the claim): adjustKeys enters every universe under its uid,
and the uid of the root universe is 0 only if it was the first universe
created.  For the input `strayInput`, in which a cell of universe 5 is delivered
before the cell of the root universe, the constructor and adjustKeys return
normally; before adjustKeys key 0 of the universe registry denotes the universe
with the id 0 and findCell(0) returns the cell 1; after adjustKeys key 0 denotes
the universe with the id 5, and findCell(0) ends in an error. -/
theorem adjustKeys_moves_root_key :
    Geometry.build (fun x => x) 3 startStatics strayInput = .ok () strayGeometry ∧
    adjustKeys strayGeometry = .ok () strayAdjusted ∧
    strayGeometry.universeObjs.map (fun u => (u.uid, u.id)) = [(0, 5), (1, 0)] ∧
    strayAdjusted.universeObjs.map (fun u => (u.uid, u.id)) = [(0, 5), (1, 0)] ∧
    IntMap.find strayGeometry.universes 0 = some 1 ∧
    IntMap.find strayAdjusted.universes 0 = some 0 ∧
    strayGeometry.num_FSRs = 1 ∧ strayAdjusted.num_FSRs = 1 ∧
    findCell 3 strayGeometry (IntMap.find strayGeometry.universes 0) 0 =
      .ok (some 1) strayGeometry ∧
    (strayGeometry.cellObjs[1]?).map (fun c => c.id) = some 1 ∧
    findCell 3 strayAdjusted (IntMap.find strayAdjusted.universes 0) 0 =
      .fatal .fsrMissing strayAdjusted :=
  ⟨rfl, rfl, rfl, rfl, rfl, rfl, rfl, rfl, rfl, rfl, rfl⟩

/-- C35 (the code fails the claim): addCell takes the surface with the smaller id for
the inner one.  For the annulus between the circle 2 of radius 1 and the circle
1 of radius 2 with one ring, addCell returns normally and generates the circle
10000 of radius sqrt(5/2); the ring cell 10000 carries the halfspaces -10000 and
+1, the inside of the new circle and the outside of the circle of radius 2, and
holds no point; the original cell carries -1, +2 and +10000; the point (6/5, 0)
of the annulus lies in no cell. -/
theorem annulus_inner_surface_by_id :
    ∃ g1 c0 c1, addCell Real.sqrt 3 (swappedAnnulusGeometry ℝ) 0 = .ok () g1 ∧
      g1.surfaceObjs.map (fun s => (s.id, s.shape)) =
        [(1, .circle 0 0 2), (2, .circle 0 0 1), (10000, .circle 0 0 (Real.sqrt (5 / 2)))] ∧
      g1.cells = [(1, 0), (10000, 1)] ∧ g1.cellObjs = [c0, c1] ∧
      c0.id = 1 ∧ c0.surfaces = [(-1, some 0), (2, some 1), (10000, some 2)] ∧
      c1.id = 10000 ∧ c1.surfaces = [(-10000, some 2), (1, some 0)] ∧
      (∀ p, cellContains g1 c1 p = some false) ∧
      cellContains g1 c0 (6 / 5, 0) = some false := by
  have hr : Real.sqrt (2 * 2 + (1 * 1 - 2 * 2) / ((2 : Int) : ℝ)) = Real.sqrt (5 / 2) := by
    congr 1
    norm_num
  have hr2 : Real.sqrt (5 / 2) * Real.sqrt (5 / 2) = 5 / 2 :=
    Real.mul_self_sqrt (by norm_num)
  obtain ⟨g1, hrun⟩ := Outcome.isOk_elim _ (swapped_run Real.sqrt)
  have h1 := swapped_surfaces Real.sqrt
  have h2 := swapped_cells Real.sqrt
  have h3 := swapped_cellObjs Real.sqrt
  rw [hrun] at h1 h2 h3
  simp only [Outcome.state, Option.map_some', Option.some.injEq] at h1 h2 h3
  rw [hr] at h1
  obtain ⟨c0, c1, hc, hc0, hc1⟩ := map_eq_two _ _ _ _ h3
  have hshape : g1.surfaceObjs.map (fun s => s.shape) =
      [.circle 0 0 2, .circle 0 0 1, .circle 0 0 (Real.sqrt (5 / 2))] := by
    have := congrArg (List.map Prod.snd) h1
    simpa [List.map_map, Function.comp] using this
  refine ⟨g1, c0, c1, hrun, h1, h2, hc, congrArg Prod.fst hc0, congrArg Prod.snd hc0,
    congrArg Prod.fst hc1, congrArg Prod.snd hc1, ?_, ?_⟩
  · intro p
    exact cellContains_inverted_ring g1 c1 _ _ (congrArg Prod.snd hc1) hshape
      (by rw [hr2]; norm_num) p
  · exact cellContains_outer_part g1 c0 _ _ _ (congrArg Prod.snd hc0) hshape _
      (by rw [hr2]; norm_num)

/-- C31 (the claim fails on the code): a ring cell is handed to addCell with the
sector count of the original cell, and the recursive call refines it.  For the
unit disk with one ring and four sectors addCell returns normally; it generates
one circle, with the id 10000, and four planes; the innermost generated cell
10000 carries three constraints, the inside of its circle and one halfspace of
each of its sector planes 10001 and 10002; the original cell keeps its id and
carries four, having gained +10000 and the halfspaces +10006 and -10007 of its
own sector planes. -/
theorem ring_cells_with_sectors_gain_planes :
    ∃ g1, addCell (fun x => x) 3 (ringSectorGeometry ℚ) 0 = .ok () g1 ∧
      (ringSectorGeometry ℚ).cellObjs.map (fun c => (c.id, IntMap.keys c.surfaces, c.data)) =
        [(1, [-1], .basic 1 1 4)] ∧
      (newSurfaces (ringSectorGeometry ℚ) g1).map (fun s => s.id) =
        [10000, 10001, 10002, 10006, 10007] ∧
      (circleRadii (newSurfaces (ringSectorGeometry ℚ) g1)).length = 1 ∧
      g1.cells = [(1, 0), (10000, 1), (10003, 2), (10004, 3), (10005, 4), (10008, 5),
        (10009, 6), (10010, 7)] ∧
      g1.cellObjs.map (fun c => (c.id, IntMap.keys c.surfaces)) =
        [(1, [-10007, -1, 10000, 10006]),
         (10000, [-10002, -10000, 10001]),
         (10003, [-10000, 10001, 10002]),
         (10004, [-10002, -10001, -10000]),
         (10005, [-10001, -10000, 10002]),
         (10008, [-1, 10000, 10006, 10007]),
         (10009, [-10007, -10006, -1, 10000]),
         (10010, [-10006, -1, 10000, 10007])] := by
  obtain ⟨g1, hrun⟩ := Outcome.isOk_elim _ ringSector_run
  have h1 := ringSector_surfaces
  have h2 := ringSector_circles
  have h3 := ringSector_cells
  have h4 := ringSector_cellObjs
  rw [hrun] at h1 h2 h3 h4
  simp only [Outcome.state, Option.map_some', Option.some.injEq] at h1 h2 h3 h4
  exact ⟨g1, hrun, by decide, h1, h2, h3, h4⟩

/-- C33: on a geometry whose segment-length statistics have the values the
constructor gives them, 0 and +infinity, after any sequence of segmentize calls
that all return, every track holds its former segments followed by the created
ones, getMaxSegmentLength returns the greatest of 0 and the lengths of all
created segments, and getMinSegmentLength returns +infinity if no segment was
created and the least of these lengths otherwise; and for every single call that
returns, on any geometry, the maximum after the call is not below the one before
and the minimum is not above the one before. -/
theorem segment_statistics_running (T : Tracer F) (fuel : Nat)
    (tracks tracks1 : List (Track F)) (g g1 : Geometry F)
    (hmax : g.getMaxSegmentLength = .fin 0) (hmin : g.getMinSegmentLength = .posInf)
    (hrun : segmentizeAll T fuel tracks g = .ok () (g1, tracks1)) :
    List.Forall₂ (fun t t1 => ∃ segs, t1 = { t with segments := t.segments ++ segs })
      tracks tracks1 ∧
    (∃ m, g1.getMaxSegmentLength = .fin m ∧ 0 ≤ m ∧
      (∀ s ∈ createdSegments tracks tracks1, s.length ≤ m) ∧
      (m = 0 ∨ ∃ s ∈ createdSegments tracks tracks1, s.length = m)) ∧
    (∀ s ∈ createdSegments tracks tracks1,
      Ext.le g1.getMinSegmentLength (.fin s.length) = true) ∧
    (g1.getMinSegmentLength = .posInf ∨
      ∃ s ∈ createdSegments tracks tracks1, g1.getMinSegmentLength = .fin s.length) ∧
    (∀ (g2 : Geometry F) (track : Track F) (st : Geometry F × Track F),
      segmentize T fuel g2 track = .ok () st →
      Ext.le g2.getMaxSegmentLength st.1.getMaxSegmentLength = true ∧
      Ext.le st.1.getMinSegmentLength g2.getMinSegmentLength = true) :=
  segment_statistics_lemma T fuel tracks tracks1 g g1 hmax hmin hrun

/-- Witness for C33: three calls on `tileGeometry` create segments of the lengths
1 + 10^-8, 3/2 + 10^-8 and 1/2 + 10^-8; afterwards the maximum is 3/2 + 10^-8 and
the minimum 1/2 + 10^-8. -/
theorem segment_statistics_running_witness :
    (tileGeometry.getMaxSegmentLength = .fin 0 ∧
      tileGeometry.getMinSegmentLength = .posInf ∧
      segmentizeAll tileTracer 3 statsTracks tileGeometry =
        .ok () (statsGeometry, statsTracksDone) ∧
      (createdSegments statsTracks statsTracksDone).map (fun s => s.length) =
        [1 + 1 / 100000000, 3 / 2 + 1 / 100000000, 1 / 2 + 1 / 100000000] ∧
      statsGeometry.getMaxSegmentLength = .fin (3 / 2 + 1 / 100000000) ∧
      statsGeometry.getMinSegmentLength = .fin (1 / 2 + 1 / 100000000)) ∧
    (List.Forall₂ (fun t t1 => ∃ segs, t1 = { t with segments := t.segments ++ segs })
      statsTracks statsTracksDone ∧
    (∃ m, statsGeometry.getMaxSegmentLength = .fin m ∧ 0 ≤ m ∧
      (∀ s ∈ createdSegments statsTracks statsTracksDone, s.length ≤ m) ∧
      (m = 0 ∨ ∃ s ∈ createdSegments statsTracks statsTracksDone, s.length = m)) ∧
    (∀ s ∈ createdSegments statsTracks statsTracksDone,
      Ext.le statsGeometry.getMinSegmentLength (.fin s.length) = true) ∧
    (statsGeometry.getMinSegmentLength = .posInf ∨
      ∃ s ∈ createdSegments statsTracks statsTracksDone,
        statsGeometry.getMinSegmentLength = .fin s.length) ∧
    (∀ (g2 : Geometry ℚ) (track : Track ℚ) (st : Geometry ℚ × Track ℚ),
      segmentize tileTracer 3 g2 track = .ok () st →
      Ext.le g2.getMaxSegmentLength st.1.getMaxSegmentLength = true ∧
      Ext.le st.1.getMinSegmentLength g2.getMinSegmentLength = true)) :=
  ⟨⟨rfl, rfl, stats_run, rfl, rfl, rfl⟩,
    segment_statistics_running tileTracer 3 statsTracks statsTracksDone tileGeometry
      statsGeometry rfl rfl stats_run⟩

/-- C32: for every material cell with num_sectors = 4 and no rings that meets the
conditions under which addCell refines it (material, surfaces and universe in
order, id unused and below the positive static id counter, nothing registered
at or above the counter), addCell returns normally with the planes p1: x + y = 0
and p2: x - y = 0 registered under the counter and the counter + 1; a point
lies in the wedge with the sign pair (x, y) of these planes exactly when its
rotation by pi/2 about the origin lies in the wedge with the sign pair (y, -x);
the original cell c0 and the three new cells c1, c2, c3 hold the points that
meet the original constraints and lie in the wedges (+,-), (+,+), (-,-), (-,+);
and if the original constraints are invariant under the rotation, the rotation
maps c1 onto c0, c0 onto c2, c2 onto c3 and c3 onto c1.  The point sets are read
by surface id; for a cell whose surface pointers agree with the registry they
are the results of Cell::contains. -/
theorem sectors_permuted_by_rotation (sqrt : F → F) (fuel : Nat) (g : Geometry F) (a : Addr)
    (cell : Cell) (m : Int) (hf : FreshIds g)
    (hc : g.cellObjs[a]? = some cell) (hd : cell.data = .basic m 0 4)
    (hnew : IntMap.find g.cells cell.id = none) (hid : cell.id < g.statics.id)
    (hmat : (IntMap.find g.materials m).isSome = true)
    (hs : ∀ e ∈ cell.surfaces, ∃ sa, IntMap.find g.surfaces (iabs e.1) = some sa ∧
      sa < g.surfaceObjs.length)
    (hu : ∀ ua, IntMap.find g.universes cell.universe_id = some ua →
      ua < g.universeObjs.length)
    (hpos : 0 < g.statics.id)
    (hinv : ∀ p, cellRegion g cell (rotate p) = cellRegion g cell p) :
    ∃ g1 p1 p2 c0 c1 c2 c3, addCell sqrt (fuel + 2) g a = .ok () g1 ∧
      surfaceAt g1 g.statics.id = some p1 ∧ surfaceAt g1 (g.statics.id + 1) = some p2 ∧
      (∀ p, p1.evaluate p = p.1 + p.2 ∧ p2.evaluate p = p.1 - p.2) ∧
      (∀ (x y : F) (p : F × F), (0 ≤ x * p1.evaluate p ∧ 0 ≤ y * p2.evaluate p) ↔
        (0 ≤ y * p1.evaluate (rotate p) ∧ 0 ≤ -x * p2.evaluate (rotate p))) ∧
      (IntMap.find g1.cells cell.id).bind (fun b => g1.cellObjs[b]?) = some c0 ∧
      (IntMap.find g1.cells (g.statics.id + 2)).bind (fun b => g1.cellObjs[b]?) = some c1 ∧
      (IntMap.find g1.cells (g.statics.id + 3)).bind (fun b => g1.cellObjs[b]?) = some c2 ∧
      (IntMap.find g1.cells (g.statics.id + 4)).bind (fun b => g1.cellObjs[b]?) = some c3 ∧
      (∀ p, cellRegion g1 c0 p = (cellRegion g cell p &&
        decide (0 ≤ 1 * p1.evaluate p) && decide (0 ≤ -1 * p2.evaluate p))) ∧
      (∀ p, cellRegion g1 c1 p = (cellRegion g cell p &&
        decide (0 ≤ 1 * p1.evaluate p) && decide (0 ≤ 1 * p2.evaluate p))) ∧
      (∀ p, cellRegion g1 c2 p = (cellRegion g cell p &&
        decide (0 ≤ -1 * p1.evaluate p) && decide (0 ≤ -1 * p2.evaluate p))) ∧
      (∀ p, cellRegion g1 c3 p = (cellRegion g cell p &&
        decide (0 ≤ -1 * p1.evaluate p) && decide (0 ≤ 1 * p2.evaluate p))) ∧
      (∀ p, cellRegion g1 c1 p = cellRegion g1 c0 (rotate p)) ∧
      (∀ p, cellRegion g1 c0 p = cellRegion g1 c2 (rotate p)) ∧
      (∀ p, cellRegion g1 c2 p = cellRegion g1 c3 (rotate p)) ∧
      (∀ p, cellRegion g1 c3 p = cellRegion g1 c1 (rotate p)) ∧
      (∀ c p, pointersResolved g1 c = true →
        cellContains g1 c p = some (cellRegion g1 c p)) :=
  sectors_rotate_lemma sqrt fuel g a cell m hf hc hd hnew hid hmat hs hu hpos hinv

/-- Witness for C32: the unit disk of `sectorsGeometry` with four sectors meets the
hypotheses; in the state that addCell leaves, the surface pointers of all cells
agree with the registry, so that Cell::contains itself maps the four sectors
onto each other under the rotation. -/
theorem sectors_permuted_by_rotation_witness :
    FreshIds (sectorsGeometry ℚ 4) ∧ 0 < (sectorsGeometry ℚ 4).statics.id ∧
    (∀ p, cellRegion (sectorsGeometry ℚ 4) (CellBasic 1 0 1 [-1] 1 0 4) (rotate p) =
      cellRegion (sectorsGeometry ℚ 4) (CellBasic 1 0 1 [-1] 1 0 4) p) ∧
    ∃ g1 p1 p2 c0 c1 c2 c3, addCell (fun x => x) 2 (sectorsGeometry ℚ 4) 0 = .ok () g1 ∧
      surfaceAt g1 10000 = some p1 ∧ surfaceAt g1 10001 = some p2 ∧
      (∀ p, p1.evaluate p = p.1 + p.2 ∧ p2.evaluate p = p.1 - p.2) ∧
      (IntMap.find g1.cells 1).bind (fun b => g1.cellObjs[b]?) = some c0 ∧
      (IntMap.find g1.cells 10002).bind (fun b => g1.cellObjs[b]?) = some c1 ∧
      (IntMap.find g1.cells 10003).bind (fun b => g1.cellObjs[b]?) = some c2 ∧
      (IntMap.find g1.cells 10004).bind (fun b => g1.cellObjs[b]?) = some c3 ∧
      (∀ p, cellRegion g1 c1 p = cellRegion g1 c0 (rotate p)) ∧
      (∀ p, cellRegion g1 c0 p = cellRegion g1 c2 (rotate p)) ∧
      (∀ p, cellRegion g1 c2 p = cellRegion g1 c3 (rotate p)) ∧
      (∀ p, cellRegion g1 c3 p = cellRegion g1 c1 (rotate p)) ∧
      (∀ p, cellContains g1 c1 p = cellContains g1 c0 (rotate p)) ∧
      (∀ p, cellContains g1 c0 p = cellContains g1 c2 (rotate p)) ∧
      (∀ p, cellContains g1 c2 p = cellContains g1 c3 (rotate p)) ∧
      (∀ p, cellContains g1 c3 p = cellContains g1 c1 (rotate p)) := by
  refine ⟨sectorsGeometry_fresh 4, by decide, disk_region_rotate 4, ?_⟩
  obtain ⟨g1, p1, p2, c0, c1, c2, c3, hrun, h1, h2, h3, _, k0, k1, k2, k3, _, _, _, _,
      r1, r0, r2, r3, hb⟩ :=
    sectors_permuted_by_rotation (fun x => x) 0 (sectorsGeometry ℚ 4) 0
      (CellBasic 1 0 1 [-1] 1 0 4) 1 (sectorsGeometry_fresh 4) rfl rfl rfl (by decide) rfl
      (by
        intro e he
        have : e = (-1, none) := by simpa [CellBasic, IntMap.insert] using he
        subst this
        exact ⟨0, rfl, by decide⟩)
      (fun ua h => Option.noConfusion h) (by decide) (disk_region_rotate 4)
  have hg : g1 = sectorsDone := by
    have := sectorsDone_run
    rw [hrun] at this
    injection this
  have hres : ∀ c ∈ g1.cellObjs, pointersResolved g1 c = true := by
    rw [hg]
    exact List.all_eq_true.mp sectorsDone_resolved
  have e0 := fun p => hb c0 p (hres c0 (mem_of_find_bind g1 _ c0 k0))
  have e1 := fun p => hb c1 p (hres c1 (mem_of_find_bind g1 _ c1 k1))
  have e2 := fun p => hb c2 p (hres c2 (mem_of_find_bind g1 _ c2 k2))
  have e3 := fun p => hb c3 p (hres c3 (mem_of_find_bind g1 _ c3 k3))
  exact ⟨g1, p1, p2, c0, c1, c2, c3, hrun, h1, h2, h3, k0, k1, k2, k3, r1, r0, r2, r3,
    fun p => by rw [e1, e0, r1], fun p => by rw [e0, e2, r0], fun p => by rw [e2, e3, r2],
    fun p => by rw [e3, e1, r3]⟩

/-- C31 (amended): for every material cell bounded by one circle with
num_rings = R > 0 and num_sectors = 0, whose surface and material are
registered, whose id is unused and below the positive static id counter, with no
surface or cell registered at or above the counter, addCell returns normally
and has allocated exactly R new cell objects; for j = 0, ..., R - 1 the cell
registered under the id counter + j is a material cell of the same universe and
material without rings and sectors, the id counter + j names a generated circle
about the origin, the innermost cell (j = 0) carries exactly one constraint, the
negative halfspace of the circle counter + 0, and every further cell exactly
two, the negative halfspace of its own circle counter + j and the positive
halfspace of the circle counter + j - 1 generated before; the original cell
keeps its id, universe, material and ring count and carries its original
constraint and exactly one more, the positive halfspace of the last generated
circle counter + R - 1. -/
theorem disk_ring_constraints (sqrt : F → F) (fuel : Nat) (g : Geometry F) (a : Addr)
    (cell : Cell) (material : Int) (R : Nat) (k0 : Int) (p : Option Addr) (r0 : F)
    (hcell : g.cellObjs[a]? = some cell) (hdata : cell.data = .basic material R 0)
    (hR : 0 < R) (hsurf : cell.surfaces = [(k0, p)])
    (hr : circleRadius g (iabs k0) = .ok r0 g)
    (hmat : (IntMap.find g.materials material).isSome = true)
    (hnew : IntMap.find g.cells cell.id = none)
    (hpos : 0 < g.statics.id) (hid : cell.id < g.statics.id)
    (hfresh : ∀ k, g.statics.id ≤ k →
      IntMap.find g.surfaces k = none ∧ IntMap.find g.cells k = none)
    (huniv : ∀ ua, IntMap.find g.universes cell.universe_id = some ua →
      ua < g.universeObjs.length) :
    ∃ g1, addCell sqrt (fuel + 2) g a = .ok () g1 ∧
      g1.cellObjs.length = g.cellObjs.length + R ∧
      (∀ j : Nat, j < R → ∃ c s r,
        (IntMap.find g1.cells (g.statics.id + j)).bind (fun b => g1.cellObjs[b]?) = some c ∧
        c.id = g.statics.id + j ∧ c.universe_id = cell.universe_id ∧
        c.data = .basic material 0 0 ∧
        IntMap.keys c.surfaces =
          (if j = 0 then [-g.statics.id] else [-(g.statics.id + j), g.statics.id + j - 1]) ∧
        surfaceAt g1 (g.statics.id + j) = some s ∧ s.shape = .circle 0 0 r) ∧
      ∃ c, (IntMap.find g1.cells cell.id).bind (fun b => g1.cellObjs[b]?) = some c ∧
        c.id = cell.id ∧ c.universe_id = cell.universe_id ∧ c.data = .basic material R 0 ∧
        IntMap.keys c.surfaces = [k0, g.statics.id + R - 1] :=
  addCell_disk_shape sqrt fuel g a cell material R k0 p r0 hcell hdata hR hsurf hr hmat hnew
    hpos hid hfresh huniv

/-- Witness for C31 (amended): the unit disk of `diskGeometry` with num_rings = 2
meets the hypotheses. -/
theorem disk_ring_constraints_witness :
    ∃ g1, addCell (fun x => x) 2 (diskGeometry ℚ) 0 = .ok () g1 ∧
      g1.cellObjs.length = (diskGeometry ℚ).cellObjs.length + 2 ∧
      (∀ j : Nat, j < 2 → ∃ c s r,
        (IntMap.find g1.cells ((diskGeometry ℚ).statics.id + j)).bind
          (fun b => g1.cellObjs[b]?) = some c ∧
        c.id = (diskGeometry ℚ).statics.id + j ∧ c.universe_id = diskCell.universe_id ∧
        c.data = .basic 1 0 0 ∧
        IntMap.keys c.surfaces =
          (if j = 0 then [-(diskGeometry ℚ).statics.id]
           else [-((diskGeometry ℚ).statics.id + j), (diskGeometry ℚ).statics.id + j - 1]) ∧
        surfaceAt g1 ((diskGeometry ℚ).statics.id + j) = some s ∧ s.shape = .circle 0 0 r) ∧
      ∃ c, (IntMap.find g1.cells diskCell.id).bind (fun b => g1.cellObjs[b]?) = some c ∧
        c.id = diskCell.id ∧ c.universe_id = diskCell.universe_id ∧
        c.data = .basic 1 (2 : Nat) 0 ∧
        IntMap.keys c.surfaces = [-1, (diskGeometry ℚ).statics.id + (2 : Nat) - 1] :=
  disk_ring_constraints (fun x => x) 0 (diskGeometry ℚ) 0 diskCell 1 2 (-1) none 1 rfl rfl
    (by decide) rfl rfl rfl rfl (by decide) (by decide) diskGeometry_fresh
    (fun ua h => Option.noConfusion h)

end Claims

end OpenMOC
